import Mathlib

/-!
# GML reader (`ogr/ogrsf_frmts/gml/gmlreader.cpp`): a shallow embedding

The reader orchestration layer of the GML driver is embedded as pure functions
over an explicit `GMLReader` record.  C strings are lists of characters (the
bytes before the terminating NUL); pointers to heap objects are modelled by
`Option` (NULL is `none`), the `m_papoClass` array with its `m_nClassCount` by
a list, and the parent-linked chain of read states by a list whose head is the
current state.
-/

namespace GML

/-! ## C strings -/

/-- A C string: the characters before the terminating NUL. -/
abbrev CStr := List Char

/-- The C constant `INT_MAX` for a 32 bit `int`. -/
def INT_MAX : Int := 2147483647

/-- CPL `EQUAL(a,b)`: comparison that ignores the case of ASCII letters. -/
def EQUAL (a b : CStr) : Bool :=
  a.map Char.toUpper == b.map Char.toUpper

/-- C `strcmp(a,b) == 0`. -/
def strcmp0 (a b : CStr) : Bool := a == b

/-- C `memcmp(a,b,n) == 0` on NUL terminated buffers. -/
def memcmp0 (a b : CStr) (n : Nat) : Bool := a.take n == b.take n

/-- C `strchr(s,c)`: offset of the first occurrence of `c`, `none` for NULL. -/
def strchr : CStr → Char → Option Nat
  | [], _ => none
  | x :: xs, c => if x = c then some 0 else (strchr xs c).map (· + 1)

/-- C `strrchr(s,c)`: offset of the last occurrence of `c`, `none` for NULL. -/
def strrchr : CStr → Char → Option Nat
  | [], _ => none
  | x :: xs, c =>
    match strrchr xs c with
    | some i => some (i + 1)
    | none => if x = c then some 0 else none

/-- C `strstr(s,pat)` / `std::string::find(pat)`: offset of the first
occurrence of the string `pat`, `none` when there is none. -/
def strstr : CStr → CStr → Option Nat
  | [], pat => if pat.isEmpty then some 0 else none
  | x :: xs, pat =>
    if (x :: xs).take pat.length == pat then some 0 else (strstr xs pat).map (· + 1)

/-- CPL `STARTS_WITH(a,b)`: `strncmp(a, b, strlen(b)) == 0`. -/
def STARTS_WITH (a b : CStr) : Bool := a.take b.length == b

/-- The loop `for (i = 0; i < n; i++) if (p(a[i])) return i; return -1;`,
started at index `i` on the remaining elements. -/
def firstIndexFrom {α : Type} (p : α → Bool) : List α → Nat → Int
  | [], _ => -1
  | x :: xs, i => if p x then (i : Int) else firstIndexFrom p xs (i + 1)

/-! ## Data model -/

/-- Modelled from the spec: the declared type of a property (`GMLPropertyType`,
declared in gmlreader.h): untyped, string, integer, real, date, lists, and
the feature-typed properties (cross-references to other features). -/
inductive GMLPropertyType
  | GMLPT_Untyped
  | GMLPT_String
  | GMLPT_Integer
  | GMLPT_Real
  | GMLPT_Date
  | GMLPT_StringList
  | GMLPT_IntegerList
  | GMLPT_RealList
  | GMLPT_FeatureProperty
  | GMLPT_FeaturePropertyList
  deriving DecidableEq, Repr

/-- Modelled from the spec: a property definition (`GMLPropertyDefn`, declared
in gmlreader.h): output field name, source element path, declared type and
width hint. -/
structure GMLPropertyDefn where
  m_pszName : CStr
  m_pszSrcElement : CStr
  m_eType : GMLPropertyType := GMLPropertyType.GMLPT_Untyped
  m_nWidth : Int := 0
  deriving DecidableEq, Repr

/-- A coordinate value (C `double`); only order and equality are used, so the
finite values are represented by integers. -/
abbrev Coord := Int

/-- The OGR geometry type code `wkbUnknown`. -/
def wkbUnknown : Int := 0

/-- The OGR geometry type code `wkbNone`. -/
def wkbNone : Int := 100

/-- The OGR geometry type code `wkbPoint`. -/
def wkbPoint : Int := 1

/-- The OGR geometry type code `wkbLineString`. -/
def wkbLineString : Int := 2

/-- Modelled from the spec: a geometry property descriptor
(`GMLGeometryPropertyDefn`, declared in gmlreader.h): name, source element,
geometry type code, attribute index and the nullable flag. -/
structure GMLGeometryPropertyDefn where
  m_pszName : CStr := []
  m_pszSrcElement : CStr := []
  m_nGeometryType : Int := 0
  m_nAttributeIndex : Int := -1
  m_bNullable : Bool := true
  deriving DecidableEq, Repr

/-- Modelled from the spec: a feature class (`GMLFeatureClass`, declared in
gmlreader.h): name, element name (the name when none was set), ordered list of
properties, schema-locked flag, feature count (-1 = unknown), list of geometry
property descriptors, optional spatial extent (min/max X/Y) and nullable
spatial-reference name. -/
structure GMLFeatureClass where
  m_pszName : CStr
  m_pszElementName : Option CStr := none
  m_papoProperty : List GMLPropertyDefn := []
  m_bSchemaLocked : Bool := false
  m_nFeatureCount : Int := -1
  m_papoGeometryProperty : List GMLGeometryPropertyDefn := []
  m_bHaveExtents : Bool := false
  m_dfXMin : Coord := 0
  m_dfXMax : Coord := 0
  m_dfYMin : Coord := 0
  m_dfYMax : Coord := 0
  m_pszSRSName : Option CStr := none
  deriving DecidableEq, Repr

/-- Modelled from the spec: a feature (`GMLFeature`, declared in gmlreader.h):
its class (a pointer into the registry, here the index of the class), optional
feature id, one nullable value slot per property index and the list of raw
geometry fragments (`none` for a NULL list). -/
structure GMLFeature where
  m_poClass : Nat
  m_pszFID : Option CStr := none
  m_papsProperty : List (Option CStr) := []
  m_papsGeometry : Option (List CStr) := some []
  deriving DecidableEq, Repr

/-- The class `GMLReadState` of gmlreaderp.h; `m_poParentState` is the tail of
the list that holds the state. -/
structure GMLReadState where
  m_poFeature : Option GMLFeature := none
  aosPathComponents : List CStr := []
  osPath : CStr := []
  m_nPathLength : Nat := 0
  deriving DecidableEq, Repr

/-- The enumeration `GMLAppSchemaType` of gmlreaderp.h. -/
inductive GMLAppSchemaType
  | APPSCHEMA_GENERIC
  | APPSCHEMA_CITYGML
  | APPSCHEMA_AIXM
  | APPSCHEMA_MTKGML
  deriving DecidableEq, Repr

namespace GMLFeatureClass

/-- Accessor `GetName()`. -/
def GetName (c : GMLFeatureClass) : CStr := c.m_pszName

/-- Accessor `GetElementName()`: the element name, the class name when none
was set. -/
def GetElementName (c : GMLFeatureClass) : CStr :=
  c.m_pszElementName.getD c.m_pszName

/-- Accessor `GetElementNameLen()`. -/
def GetElementNameLen (c : GMLFeatureClass) : Nat := c.GetElementName.length

/-- Accessor `IsSchemaLocked()`. -/
def IsSchemaLocked (c : GMLFeatureClass) : Bool := c.m_bSchemaLocked

/-- Accessor `GetPropertyCount()`. -/
def GetPropertyCount (c : GMLFeatureClass) : Nat := c.m_papoProperty.length

/-- Modelled from the spec: `GetPropertyIndexBySrcElement(pszElement, nLen)`
(gmlfeatureclass.cpp): the index of the first property whose source path is
exactly the `nLen` characters at `pszElement`, -1 when there is none. -/
def GetPropertyIndexBySrcElement (c : GMLFeatureClass) (pszElement : CStr) (nLen : Nat) : Int :=
  firstIndexFrom (fun p : GMLPropertyDefn => p.m_pszSrcElement == pszElement.take nLen)
    c.m_papoProperty 0

/-- Modelled from the spec: `GetPropertyIndex(pszName)` (gmlfeatureclass.cpp):
the index of the first property with that output field name, -1 when there is
none. -/
def GetPropertyIndex (c : GMLFeatureClass) (pszName : CStr) : Int :=
  firstIndexFrom (fun p : GMLPropertyDefn => p.m_pszName == pszName) c.m_papoProperty 0

/-- Modelled from the spec: `GetProperty(int iIndex)` (gmlfeatureclass.cpp):
the property at that index, NULL outside the range. -/
def GetProperty (c : GMLFeatureClass) (iIndex : Int) : Option GMLPropertyDefn :=
  if iIndex < 0 then none else c.m_papoProperty[iIndex.toNat]?

/-- Modelled from the spec: `GetProperty(const char *pszName)`
(gmlfeatureclass.cpp): the property with that output field name, NULL when
there is none. -/
def GetPropertyByName (c : GMLFeatureClass) (pszName : CStr) : Option GMLPropertyDefn :=
  c.GetProperty (c.GetPropertyIndex pszName)

/-- Modelled from the spec: `AddProperty` (gmlfeatureclass.cpp): property
creation with uniqueness enforcement; a definition whose name is already used
is refused with -1, otherwise it is appended and its index returned. -/
def AddProperty (c : GMLFeatureClass) (poDefn : GMLPropertyDefn) : Int × GMLFeatureClass :=
  if (c.GetPropertyByName poDefn.m_pszName).isSome then (-1, c)
  else (c.GetPropertyCount, { c with m_papoProperty := c.m_papoProperty ++ [poDefn] })

/-- Modelled from the spec: the constructor `GMLFeatureClass(pszName)`
(gmlfeatureclass.cpp): a class identified by the element name, with no
property, unknown feature count, no extent, no SRS, not schema-locked. -/
def new (pszName : CStr) : GMLFeatureClass := { m_pszName := pszName }

/-- Modelled from the spec: `HasFeatureProperties()` (gmlfeatureclass.cpp):
whether the class declares feature properties (cross-references to other
features). -/
def HasFeatureProperties (c : GMLFeatureClass) : Bool :=
  c.m_papoProperty.any fun p =>
    p.m_eType == GMLPropertyType.GMLPT_FeatureProperty ||
    p.m_eType == GMLPropertyType.GMLPT_FeaturePropertyList

end GMLFeatureClass

namespace GMLFeature

/-- Modelled from the spec: `SetPropertyDirectly(i, pszValue)` (gmlfeature.cpp):
the value takes slot `i` of the feature; missing slots before it are created
empty. -/
def SetPropertyDirectly (f : GMLFeature) (i : Nat) (pszValue : CStr) : GMLFeature :=
  { f with m_papsProperty :=
      if i < f.m_papsProperty.length then f.m_papsProperty.set i (some pszValue)
      else f.m_papsProperty ++ List.replicate (i - f.m_papsProperty.length) none ++
        [some pszValue] }

/-- Modelled from the spec: `GetProperty(i)` (gmlfeature.cpp): the value in
slot `i`, NULL when empty or absent. -/
def GetProperty (f : GMLFeature) (i : Nat) : Option CStr :=
  (f.m_papsProperty[i]?).join

end GMLFeature

namespace GMLReadState

/-- The inline `GetLastComponent()` of gmlreaderp.h. -/
def GetLastComponent (s : GMLReadState) : CStr :=
  if s.m_nPathLength = 0 then [] else s.aosPathComponents.getD (s.m_nPathLength - 1) []

/-- The inline `GetLastComponentLen()` of gmlreaderp.h. -/
def GetLastComponentLen (s : GMLReadState) : Nat :=
  if s.m_nPathLength = 0 then 0 else (s.aosPathComponents.getD (s.m_nPathLength - 1) []).length

/-- Modelled from the spec: `GMLReadState::Reset()` (gmlreadstate.cpp), which
resets a node to the empty path with no feature before it is reused; also the
state built by the constructor `GMLReadState()`. -/
def Reset (_s : GMLReadState) : GMLReadState := {}

end GMLReadState

/-! ## Parser input

The tokenizers (Expat, Xerces) and the event handler (gmlhandler.cpp) are
outside the embedded code.  A document is described by what the handler does to
the reader while each piece of input is parsed. -/

/-- A call of the event handler on the public state-stack interface of the
reader: `PushState(s)`, `PopState()`, or an update through the pointer returned
by `GetState()` (path changes, edits of the feature in progress). -/
inductive HandlerCall
  | PushState (s : GMLReadState)
  | PopState
  | GetState (s : GMLReadState)
  deriving DecidableEq, Repr

/-- One buffer delivered by `VSIFReadL` to `XML_Parse` (Expat backend): the
handler calls made while the buffer is parsed, whether `XML_Parse` answers
`XML_STATUS_ERROR`, and the value of the handler's `HasStoppedParsing()` after
the buffer. -/
structure ExpatChunk where
  calls : List HandlerCall := []
  bStatusError : Bool := false
  bHasStoppedParsing : Bool := false
  deriving DecidableEq, Repr

/-- Outcome of one `parseFirst`/`parseNext` of the Xerces progressive parse. -/
inductive XercesResult
  | more
  | finished
  | throwsXMLException
  | throwsSAXException
  deriving DecidableEq, Repr

/-- One progressive step of the Xerces parser: the handler calls made during
the step and how the step ends. -/
structure XercesToken where
  calls : List HandlerCall := []
  result : XercesResult := XercesResult.more
  deriving DecidableEq, Repr

/-- The content of a GML file as the two parsers see it. -/
structure Document where
  chunks : List ExpatChunk := []
  parseFirst : XercesResult := XercesResult.more
  tokens : List XercesToken := []
  deriving DecidableEq, Repr

/-- An open file (`VSILFILE*`): its document and the buffers not yet read.
The end-of-file indicator is raised by the read that delivers the last
buffer. -/
structure VSILFILE where
  doc : Document
  rest : List ExpatChunk
  deriving DecidableEq, Repr

/-- `VSIFSeekL(fp, 0, SEEK_SET)`. -/
def VSIFSeekL0 (fp : VSILFILE) : VSILFILE := { fp with rest := fp.doc.chunks }

/-- `VSIFEofL(fp)`. -/
def VSIFEofL (fp : VSILFILE) : Bool := fp.rest.isEmpty

/-- The enumeration `OGRGMLXercesState` of gmlreaderp.h. -/
inductive OGRGMLXercesState
  | OGRGML_XERCES_UNINITIALIZED
  | OGRGML_XERCES_INIT_FAILED
  | OGRGML_XERCES_INIT_SUCCESSFUL
  deriving DecidableEq, Repr

/-- The enumeration `CPLXMLNodeType` of cpl_minixml.h. -/
inductive CPLXMLNodeType
  | CXT_Element
  | CXT_Text
  | CXT_Attribute
  | CXT_Comment
  | CXT_Literal
  deriving DecidableEq, Repr

/-- Modelled from the spec: a class record of the saved-schema document: name,
property list (name, source path, type, width), geometry property list,
feature count, extent (min/max X, min/max Y; absent when the class has none)
and SRS name. -/
structure GMLClassRecord where
  pszName : CStr
  properties : List GMLPropertyDefn := []
  geometryProperties : List GMLGeometryPropertyDefn := []
  nFeatureCount : Int := -1
  extent : Option (Coord × Coord × Coord × Coord) := none
  pszSRSName : Option CStr := none
  deriving DecidableEq, Repr

/-- A child of the root of a schema tree (`CPLXMLNode`): type, name
(`pszValue`), the text under it and the class record that its subtree
encodes, if it encodes one. -/
structure CPLXMLNode where
  eType : CPLXMLNodeType
  pszValue : CStr
  pszText : Option CStr := none
  record : Option GMLClassRecord := none
  deriving DecidableEq, Repr

/-- The root of a schema tree (`CPLXMLNode`) with its children in order. -/
structure CPLXMLTree where
  eType : CPLXMLNodeType
  pszValue : CStr
  psChild : List CPLXMLNode := []
  deriving DecidableEq, Repr

/-- The text of a schema file, as far as `LoadClasses` looks at it: whether
`strstr( pszWholeText, "<GMLFeatureClassList" )` finds the tag, and the tree
that `CPLParseXMLString` makes of the text (`none` for NULL). -/
structure SchemaText where
  bHasListTag : Bool := false
  psRoot : Option CPLXMLTree := none
  deriving DecidableEq, Repr

/-- Modelled from the spec: `CPLSerializeXMLTree` (cpl_minixml.cpp), the
generic serializer whose text the generic parser reads back as the same tree;
the text of an element root starts with `<` and the name of the root. -/
def CPLSerializeXMLTree (psRoot : CPLXMLTree) : SchemaText :=
  { bHasListTag :=
      psRoot.eType == CPLXMLNodeType.CXT_Element
        && STARTS_WITH psRoot.pszValue "GMLFeatureClassList".toList,
    psRoot := some psRoot }

/-- A schema file on disk: whether reading it whole fails (`VSIMalloc` or
`VSIFReadL`), and its text. -/
structure SchemaFile where
  bReadFails : Bool := false
  text : SchemaText := {}
  deriving DecidableEq, Repr

/-- The schema files: what `VSIFOpenL(path, "rb")` opens (`none` for NULL),
and for which paths `VSIFOpenL(path, "wb")` or `VSIFWriteL` fail. -/
structure SchemaFS where
  VSIFOpenRb : CStr → Option SchemaFile := fun _ => none
  bOpenWbFails : CStr → Bool := fun _ => false
  bWriteFails : CStr → Bool := fun _ => false

/-- The schema files after the text was written to the path. -/
def SchemaFS.write (fs : SchemaFS) (path : CStr) (text : SchemaText) : SchemaFS :=
  { fs with VSIFOpenRb := fun p => if p = path then some { text := text } else fs.VSIFOpenRb p }

/-- The schema files after a write to the path failed: the file was opened for
writing, so it exists, and nothing of its content can be read back. -/
def SchemaFS.truncate (fs : SchemaFS) (path : CStr) : SchemaFS :=
  { fs with
    VSIFOpenRb := fun p => if p = path then some { bReadFails := true } else fs.VSIFOpenRb p }

namespace GMLFeatureClass

/-- Modelled from the spec: `SetSchemaLocked` (gmlreader.h): sets the
"schema locked" flag of the class. -/
def SetSchemaLocked (c : GMLFeatureClass) (bLock : Bool) : GMLFeatureClass :=
  { c with m_bSchemaLocked := bLock }

/-- Modelled from the spec: `GMLFeatureClass::SerializeToXML`
(gmlfeatureclass.cpp): the class record of the saved-schema document, an
element `GMLFeatureClass` with the name, property list, geometry property
list, feature count, extent and SRS name of the class. -/
def SerializeToXML (c : GMLFeatureClass) : CPLXMLNode :=
  { eType := CPLXMLNodeType.CXT_Element,
    pszValue := "GMLFeatureClass".toList,
    record := some
      { pszName := c.m_pszName,
        properties := c.m_papoProperty,
        geometryProperties := c.m_papoGeometryProperty,
        nFeatureCount := c.m_nFeatureCount,
        extent :=
          (if c.m_bHaveExtents then some (c.m_dfXMin, c.m_dfXMax, c.m_dfYMin, c.m_dfYMax)
           else none),
        pszSRSName := c.m_pszSRSName } }

/-- Modelled from the spec: `GMLFeatureClass::InitializeFromXML`
(gmlfeatureclass.cpp) on a class made by the default constructor: the class
takes over the content of a class record; a node that is no `GMLFeatureClass`
element or holds no class record is refused. -/
def InitializeFromXML (psRoot : CPLXMLNode) : Option GMLFeatureClass :=
  if psRoot.eType ≠ CPLXMLNodeType.CXT_Element
      ∨ !EQUAL psRoot.pszValue "GMLFeatureClass".toList then none
  else
    match psRoot.record with
    | none => none
    | some rec =>
      some
        { m_pszName := rec.pszName,
          m_papoProperty := rec.properties,
          m_papoGeometryProperty := rec.geometryProperties,
          m_nFeatureCount := rec.nFeatureCount,
          m_bHaveExtents := rec.extent.isSome,
          m_dfXMin := (rec.extent.getD (0, 0, 0, 0)).1,
          m_dfXMax := (rec.extent.getD (0, 0, 0, 0)).2.1,
          m_dfYMin := (rec.extent.getD (0, 0, 0, 0)).2.2.1,
          m_dfYMax := (rec.extent.getD (0, 0, 0, 0)).2.2.2,
          m_pszSRSName := rec.pszSRSName }

end GMLFeatureClass

/-- What the reader obtains from its surroundings: the file system
(`VSIFOpenL`), whether the Xerces platform initialisation and the creation of
the SAX reader succeed, the configuration option `GML_FIELDTYPES`, whether the
macro `CPLAssert` of cpl_error.h is compiled in (debug build; a failing
assertion then aborts) or expands to nothing, `CPLTestBool` of cpl_conv.h,
the value-driven type inference of gmlpropertydefn.cpp, the geometry-type
merge `OGRMergeGeometryTypesEx` of ogr_geometry.h, the SRS-name merge behind
`GMLFeatureClass::MergeSRSName`, and the spatial-reference collaborators
(`GML_IsSRSLatLongOrder`, whether `OGRSpatialReference::SetFromUserInput`
succeeds on a name, and the WKT that `exportToWkt` gives for it, after the
AXIS nodes were stripped when the flag is set; `none` when the export
fails). -/
structure Env where
  VSIFOpenL : Option CStr → Option Document := fun _ => none
  bXercesInitializeThrows : Bool := false
  bCreateXMLReaderThrows : Bool := false
  GML_FIELDTYPES : CStr := []
  bCPLAssert : Bool := false
  CPLTestBool : CStr → Bool := fun s =>
    !(EQUAL s "NO".toList || EQUAL s "FALSE".toList || EQUAL s "OFF".toList
      || EQUAL s "0".toList)
  infer : GMLPropertyType → Int → Option CStr → Bool → GMLPropertyType × Int :=
    fun t w _ _ => (t, w)
  OGRMergeGeometryTypesEx : Int → Int → Bool → Int := fun a b _ =>
    if a = wkbNone then b else if b = wkbNone then a else if a = b then a else wkbUnknown
  MergeSRSName : Option CStr → Option CStr → Option CStr := fun old new => old.orElse fun _ => new
  GML_IsSRSLatLongOrder : Option CStr → Bool := fun _ => false
  SetFromUserInput : Option CStr → Bool := fun _ => false
  exportToWkt : Option CStr → Bool → Option CStr := fun _ _ => none

/-- Where the cascade of naming rules of `GetFeatureElementIndex`
(gmlreader.cpp 753-836) leaves the control flow: at a `return -1`
(`notFeature`), at the class lookup of lines 838-851 that every matching rule
falls through to (`accepted`), or in the final `else` of lines 819-835
(`noRule`). -/
inductive FeatureRule
  | notFeature
  | accepted
  | noRule
  deriving DecidableEq, Repr

/-- The cascade of naming rules of `GetFeatureElementIndex` (gmlreader.cpp
750-836), in source order, on the current state `st`. -/
def featureRule (st : GMLReadState) (pszElement : CStr) (nElementLength : Nat)
    (eAppSchemaType : GMLAppSchemaType) : FeatureRule :=
  let pszLast := st.GetLastComponent
  let nLenLast := st.GetLastComponentLen
  if eAppSchemaType = GMLAppSchemaType.APPSCHEMA_MTKGML then
    if st.m_nPathLength ≠ 1 then FeatureRule.notFeature else FeatureRule.accepted
  else if (decide (nLenLast ≥ 6) && EQUAL (pszLast.drop (nLenLast - 6)) "member".toList) ||
      (decide (nLenLast ≥ 7) && EQUAL (pszLast.drop (nLenLast - 7)) "members".toList) then
    FeatureRule.accepted
  else if nLenLast == 4 && strcmp0 pszLast "dane".toList then
    FeatureRule.accepted
  else if nLenLast == 19 && nElementLength == 15 &&
      strcmp0 pszLast "GeocodeResponseList".toList &&
      strcmp0 pszElement "GeocodedAddress".toList then
    FeatureRule.accepted
  else if nLenLast == 22 && strcmp0 pszLast "DetermineRouteResponse".toList then
    if strcmp0 pszElement "RouteInstructionsList".toList then FeatureRule.notFeature
    else FeatureRule.accepted
  else if nElementLength == 16 && nLenLast == 21 &&
      strcmp0 pszElement "RouteInstruction".toList &&
      strcmp0 pszLast "RouteInstructionsList".toList then
    FeatureRule.accepted
  else if decide (nLenLast > 6) && strcmp0 (pszLast.drop (nLenLast - 6)) "_layer".toList &&
      decide (nElementLength > 8) &&
      strcmp0 (pszElement.drop (nElementLength - 8)) "_feature".toList then
    FeatureRule.accepted
  else if nElementLength == "BriefRecord".length && nLenLast == "SearchResults".length &&
      strcmp0 pszElement "BriefRecord".toList && strcmp0 pszLast "SearchResults".toList then
    FeatureRule.accepted
  else if nElementLength == "SummaryRecord".length && nLenLast == "SearchResults".length &&
      strcmp0 pszElement "SummaryRecord".toList && strcmp0 pszLast "SearchResults".toList then
    FeatureRule.accepted
  else if nElementLength == "Record".length && nLenLast == "SearchResults".length &&
      strcmp0 pszElement "Record".toList && strcmp0 pszLast "SearchResults".toList then
    FeatureRule.accepted
  else
    FeatureRule.noRule

/-- Modelled from the spec: `GMLPropertyDefn::AnalysePropertyValue`
(gmlpropertydefn.cpp): the value is folded into the running type and width
estimate of the property; name and source path are not touched. -/
def GMLPropertyDefn.AnalysePropertyValue (p : GMLPropertyDefn) (env : Env)
    (value : Option CStr) (bSetWidth : Bool) : GMLPropertyDefn :=
  { p with
    m_eType := (env.infer p.m_eType p.m_nWidth value bSetWidth).1,
    m_nWidth := (env.infer p.m_eType p.m_nWidth value bSetWidth).2 }

/-- The computed geometry that the geometry-build collaborator
(`GML_BuildOGRGeometryFromList`) returns, as far as the prescan looks at it:
`getGeometryType()`, `IsEmpty()` and `getEnvelope()`. -/
structure OGRGeometry where
  eGeometryType : Int := 0
  bIsEmpty : Bool := false
  MinX : Coord := 0
  MaxX : Coord := 0
  MinY : Coord := 0
  MaxY : Coord := 0
  deriving DecidableEq, Repr

namespace GMLFeatureClass

/-- Accessor `GetFeatureCount()`. -/
def GetFeatureCount (c : GMLFeatureClass) : Int := c.m_nFeatureCount

/-- Accessor `SetFeatureCount()`. -/
def SetFeatureCount (c : GMLFeatureClass) (nNewCount : Int) : GMLFeatureClass :=
  { c with m_nFeatureCount := nNewCount }

/-- Accessor `GetGeometryPropertyCount()`. -/
def GetGeometryPropertyCount (c : GMLFeatureClass) : Nat := c.m_papoGeometryProperty.length

/-- Modelled from the spec: `AddGeometryProperty` (gmlfeatureclass.cpp) on a
class without geometry property: the descriptor becomes the geometry property
of index 0. -/
def AddGeometryProperty (c : GMLFeatureClass) (poDefn : GMLGeometryPropertyDefn) :
    GMLFeatureClass :=
  { c with m_papoGeometryProperty := c.m_papoGeometryProperty ++ [poDefn] }

/-- Modelled from the spec: `SetExtents` (gmlfeatureclass.cpp): the class has
an extent from now on, with these bounds. -/
def SetExtents (c : GMLFeatureClass) (dfXMin dfXMax dfYMin dfYMax : Coord) : GMLFeatureClass :=
  { c with
    m_bHaveExtents := true,
    m_dfXMin := dfXMin, m_dfXMax := dfXMax, m_dfYMin := dfYMin, m_dfYMax := dfYMax }

/-- Modelled from the spec: `GetExtents` (gmlfeatureclass.cpp): the bounds of
the class (min X, max X, min Y, max Y), `none` while it has no extent. -/
def GetExtents (c : GMLFeatureClass) : Option (Coord × Coord × Coord × Coord) :=
  if c.m_bHaveExtents then some (c.m_dfXMin, c.m_dfXMax, c.m_dfYMin, c.m_dfYMax) else none

/-- Accessor `SetSRSName()`. -/
def SetSRSName (c : GMLFeatureClass) (pszSRSName : Option CStr) : GMLFeatureClass :=
  { c with m_pszSRSName := pszSRSName }

/-- Modelled from the spec: `MergeSRSName` (gmlfeatureclass.cpp): the SRS name
that a feature reports (NULL when it reports none) is merged into the SRS name
of the class. -/
def MergeSRSName (c : GMLFeatureClass) (env : Env) (pszSRSName : Option CStr) :
    GMLFeatureClass :=
  { c with m_pszSRSName := env.MergeSRSName c.m_pszSRSName pszSRSName }

end GMLFeatureClass

/-! ## The reader -/

/-- The class `GMLReader` of gmlreaderp.h.  `m_papoClass` carries
`m_nClassCount` as its length, `m_poState` is the chain of read states (head =
current state, empty = NULL), `m_poSAXReader` holds the steps the Xerces
parser has not delivered yet, `oParser`, `m_poGMLHandler` tell whether the
object exists. -/
structure GMLReader where
  m_eXercesInitState : OGRGMLXercesState := OGRGMLXercesState.OGRGML_XERCES_UNINITIALIZED
  m_nInstanceCount : Int := 0
  m_bClassListLocked : Bool := false
  m_papoClass : List GMLFeatureClass := []
  m_bLookForClassAtAnyLevel : Bool := false
  m_pszFilename : Option CStr := none
  bUseExpatReader : Bool := true
  m_poGMLHandler : Bool := false
  m_poSAXReader : Option (List XercesToken) := none
  m_poCompleteFeature : Option GMLFeature := none
  m_GMLInputSource : Option VSILFILE := none
  m_bEOF : Bool := false
  oParser : Bool := false
  ppoFeatureTab : List GMLFeature := []
  nFeatureTabLength : Nat := 0
  nFeatureTabIndex : Nat := 0
  fpGML : Option VSILFILE := none
  m_bReadStarted : Bool := false
  m_poState : List GMLReadState := []
  m_poRecycledState : Option GMLReadState := none
  m_bStopParsing : Bool := false
  m_pszFilteredClassName : Option CStr := none
  m_nFilteredClassIndex : Int := -1
  m_nHasSequentialLayers : Int := -1
  m_bSetWidthFlag : Bool := true
  m_bIsWFSJointLayer : Bool := false
  m_bInvertAxisOrderIfLatLong : Bool := true
  m_bConsiderEPSGAsURN : Bool := false
  m_pszGlobalSRSName : Option CStr := none
  m_bCanUseGlobalSRSName : Bool := false
  deriving DecidableEq, Repr

/-- The constructor `GMLReader::GMLReader` (the backend choice is its first
argument when both parsers are compiled in). -/
def GMLReader.new (bUseExpatParserPreferably : Bool) : GMLReader :=
  { bUseExpatReader := bUseExpatParserPreferably }

namespace GMLReader

/-- Accessor `GetClassCount()`: `m_nClassCount`. -/
def GetClassCount (r : GMLReader) : Nat := r.m_papoClass.length

/-- The loop of gmlreader.cpp 844-849: the first class whose element name
has length `nElementLength` and agrees with `pszElement` on that length. -/
def findClassByElement (r : GMLReader) (pszElement : CStr) (nElementLength : Nat) : Int :=
  firstIndexFrom (fun c : GMLFeatureClass =>
    nElementLength == c.GetElementNameLen &&
    memcmp0 pszElement c.GetElementName nElementLength) r.m_papoClass 0

/-- The loop of gmlreader.cpp 823-832: the first class whose element name is
the path of the state `st`, a `|`, and the element. -/
def findClassByPath (r : GMLReader) (st : GMLReadState) (pszElement : CStr)
    (nElementLength : Nat) : Int :=
  firstIndexFrom (fun c : GMLFeatureClass =>
    st.osPath.length + 1 + nElementLength == c.GetElementNameLen &&
    c.GetElementName[st.osPath.length]? == some '|' &&
    memcmp0 st.osPath c.GetElementName st.osPath.length &&
    memcmp0 pszElement (c.GetElementName.drop (1 + st.osPath.length)) nElementLength)
    r.m_papoClass 0

/-- `GMLReader::GetFeatureElementIndex` (gmlreader.cpp 746-852).  The result is
`none` when `m_poState` is NULL (the code dereferences it). -/
def GetFeatureElementIndex (r : GMLReader) (pszElement : CStr) (nElementLength : Nat)
    (eAppSchemaType : GMLAppSchemaType) : Option Int :=
  match r.m_poState with
  | [] => none
  | st :: _ =>
    match featureRule st pszElement nElementLength eAppSchemaType with
    | FeatureRule.notFeature => some (-1)
    | FeatureRule.noRule =>
      if r.m_bClassListLocked then
        some (r.findClassByPath st pszElement nElementLength)
      else some (-1)
    | FeatureRule.accepted =>
      -- If the class list isn't locked, any element that is a featureMember will do.
      if !r.m_bClassListLocked then some INT_MAX
      -- otherwise, find a class with the desired element name.
      else some (r.findClassByElement pszElement nElementLength)

/-! ### The state stack -/

/-- `GMLReader::PushState` (gmlreader.cpp 992-997). -/
def PushState (r : GMLReader) (poState : GMLReadState) : GMLReader :=
  { r with m_poState := poState :: r.m_poState }

/-- `GMLReader::PopState` (gmlreader.cpp 946-986).  The slots of
`ppoFeatureTab` at and after `nFeatureTabLength` are dead storage, so the write
`ppoFeatureTab[nFeatureTabLength] = f` keeps the first `nFeatureTabLength`
entries and puts `f` behind them (the reallocation only changes the
capacity). -/
def PopState (r : GMLReader) : GMLReader :=
  match r.m_poState with
  | [] => r
  | st :: poParent =>
    -- HAVE_XERCES
    let rs : GMLReader × GMLReadState :=
      if !r.bUseExpatReader && st.m_poFeature.isSome && r.m_poCompleteFeature.isNone then
        ({ r with m_poCompleteFeature := st.m_poFeature }, { st with m_poFeature := none })
      else (r, st)
    -- HAVE_EXPAT
    let rs : GMLReader × GMLReadState :=
      match rs.2.m_poFeature with
      | some f =>
        if rs.1.bUseExpatReader then
          ({ rs.1 with
              ppoFeatureTab := rs.1.ppoFeatureTab.take rs.1.nFeatureTabLength ++ [f],
              nFeatureTabLength := rs.1.nFeatureTabLength + 1 },
           { rs.2 with m_poFeature := none })
        else rs
      | none => rs
    { rs.1 with m_poRecycledState := some rs.2.Reset, m_poState := poParent }

/-- The effect of one handler call on the reader. -/
def applyCall (r : GMLReader) : HandlerCall → GMLReader
  | HandlerCall.PushState s => r.PushState s
  | HandlerCall.PopState => r.PopState
  | HandlerCall.GetState s =>
    match r.m_poState with
    | [] => r
    | _ :: poParent => { r with m_poState := s :: poParent }

/-- The handler calls made during one `XML_Parse` / `parseNext`, in order. -/
def runCalls (r : GMLReader) (calls : List HandlerCall) : GMLReader :=
  calls.foldl applyCall r

/-! ### Parser set-up and tear-down -/

/-- The loop `while( m_poState ) PopState();` of `CleanupParser`: one
`PopState` for each state of the chain. -/
def popStates : List GMLReadState → GMLReader → GMLReader
  | [], r => r
  | _ :: poParent, r => popStates poParent r.PopState

/-- `GMLReader::CleanupParser` (gmlreader.cpp 432-477), both parsers compiled
in. -/
def CleanupParser (r : GMLReader) : GMLReader :=
  if !r.bUseExpatReader && r.m_poSAXReader.isNone then r
  else if r.bUseExpatReader && !r.oParser then r
  else
    let r := popStates r.m_poState r
    { r with
      m_poSAXReader := none, m_GMLInputSource := none, m_poCompleteFeature := none,
      m_bEOF := false,
      oParser := false, ppoFeatureTab := [], nFeatureTabIndex := 0, nFeatureTabLength := 0,
      m_poGMLHandler := false,
      m_bReadStarted := false }

/-- `GMLReader::SetupParserExpat` (gmlreader.cpp 406-425); the allocation of
`pabyBuf` is taken to succeed. -/
def SetupParserExpat (r : GMLReader) : Bool × GMLReader :=
  let r := if r.oParser then r.CleanupParser else r
  (true, { r with oParser := true, m_poGMLHandler := true })

/-- `GMLReader::SetupParserXerces` (gmlreader.cpp 313-398). -/
def SetupParserXerces (env : Env) (r : GMLReader) : Bool × GMLReader :=
  let r := { r with m_nInstanceCount := r.m_nInstanceCount + 1 }
  if r.m_eXercesInitState = OGRGMLXercesState.OGRGML_XERCES_UNINITIALIZED ∧
      env.bXercesInitializeThrows then
    (false, { r with m_eXercesInitState := OGRGMLXercesState.OGRGML_XERCES_INIT_FAILED })
  else
    let r := if r.m_eXercesInitState = OGRGMLXercesState.OGRGML_XERCES_UNINITIALIZED then
        { r with m_eXercesInitState := OGRGMLXercesState.OGRGML_XERCES_INIT_SUCCESSFUL }
      else r
    if r.m_eXercesInitState ≠ OGRGMLXercesState.OGRGML_XERCES_INIT_SUCCESSFUL then (false, r)
    else
      -- Cleanup any old parser.
      let r := if r.m_poSAXReader.isSome then r.CleanupParser else r
      -- Create and initialize parser.
      if env.bCreateXMLReaderThrows then (false, r)
      else
        let r := { r with m_poSAXReader := some [], m_poGMLHandler := true }
        let r := match r.m_GMLInputSource, r.fpGML with
          | none, some fp => { r with m_GMLInputSource := some fp }
          | _, _ => r
        (true, r)

/-- Lines 274-277 of `SetupParser`: the file is opened when no handle is held,
and the handle is rewound. -/
def openSource (env : Env) (r : GMLReader) : GMLReader :=
  let r := if r.fpGML.isNone then
      { r with fpGML := (env.VSIFOpenL r.m_pszFilename).map fun d => { doc := d, rest := d.chunks } }
    else r
  { r with fpGML := r.fpGML.map VSIFSeekL0 }

/-- `GMLReader::SetupParser` (gmlreader.cpp 271-306). -/
def SetupParser (env : Env) (r : GMLReader) : Bool × GMLReader :=
  let r := r.openSource env
  let br := if r.bUseExpatReader then r.SetupParserExpat else r.SetupParserXerces env
  if !br.1 then (false, br.2)
  else
    let r := { br.2 with m_bReadStarted := false }
    -- Push an empty state.
    let r := r.PushState (r.m_poRecycledState.getD {})
    (true, { r with m_poRecycledState := none })

/-! ### Reading features -/

/-- The body of the `do ... while` loop of `NextFeatureExpat` (gmlreader.cpp
624-648): `VSIFReadL` delivers the buffer `c` and leaves `rest` unread,
`XML_Parse` runs the handler on it, and the stop flag is updated. -/
def expatParseStep (fp : VSILFILE) (c : ExpatChunk) (rest : List ExpatChunk)
    (r : GMLReader) : GMLReader :=
  -- VSIFReadL
  let r := { r with fpGML := some { fp with rest := rest } }
  -- XML_Parse
  let r := r.runCalls c.calls
  let r := if c.bStatusError then { r with m_bStopParsing := true } else r
  if !r.m_bStopParsing then { r with m_bStopParsing := c.bHasStoppedParsing } else r

/-- The `do ... while` loop of `NextFeatureExpat` (gmlreader.cpp 622-650): `c`
is the buffer the next `VSIFReadL` delivers and `rest` the buffers behind it
(`nDone` holds exactly when `rest` is empty).  The result is `none` when the
handler or the parser object is missing (NULL dereference). -/
def expatParseLoop (fp : VSILFILE) : ExpatChunk → List ExpatChunk → GMLReader → Option GMLReader
  | c, rest, r =>
    if !r.m_poGMLHandler || !r.oParser then none
    else
      let r := r.expatParseStep fp c rest
      match rest with
      | [] => some r
      | c2 :: rest2 =>
        if !r.m_bStopParsing && r.nFeatureTabLength == 0 then expatParseLoop fp c2 rest2 r
        else some r

/-- Lines 599-605 of `NextFeatureExpat`: the parser is set up on the first
call. -/
def expatStart (env : Env) (r : GMLReader) : GMLReader :=
  if !r.m_bReadStarted then
    let r := if !r.oParser then (r.SetupParser env).2 else r
    { r with m_bReadStarted := true }
  else r

/-- `GMLReader::NextFeatureExpat` (gmlreader.cpp 596-653).  The outer `Option`
is `none` for undefined behaviour (NULL dereference, read outside the feature
table); the inner one is the returned `GMLFeature*`. -/
def NextFeatureExpat (env : Env) (r : GMLReader) : Option (Option GMLFeature × GMLReader) :=
  let r := r.expatStart env
  match r.fpGML with
  | none => some (none, r)
  | some fp =>
    if r.m_bStopParsing then some (none, r)
    else if r.nFeatureTabIndex < r.nFeatureTabLength then
      match r.ppoFeatureTab[r.nFeatureTabIndex]? with
      | some f => some (some f, { r with nFeatureTabIndex := r.nFeatureTabIndex + 1 })
      | none => none
    else
      match fp.rest with
      | [] => some (none, r)
      | c :: rest =>
        let r := { r with nFeatureTabLength := 0, nFeatureTabIndex := 0 }
        match expatParseLoop fp c rest r with
        | none => none
        | some r =>
          if r.nFeatureTabLength ≠ 0 then
            match r.ppoFeatureTab[r.nFeatureTabIndex]? with
            | some f => some (some f, { r with nFeatureTabIndex := r.nFeatureTabIndex + 1 })
            | none => none
          else some (none, r)

/-- How the guarded part of `NextFeatureXerces` ends. -/
inductive TryResult
  | completed
  | returnedNull
  | caught
  deriving DecidableEq, Repr

/-- The loop `while( m_poCompleteFeature == NULL && !m_bStopParsing &&
m_poSAXReader->parseNext( m_oToFill ) ) {}` of `NextFeatureXerces`, on the
steps the parser has not delivered yet; the flag tells whether an exception
left the loop. -/
def xercesParseLoop : List XercesToken → GMLReader → GMLReader × Bool
  | [], r => (r, false)
  | t :: ts, r =>
    if r.m_poCompleteFeature.isNone && !r.m_bStopParsing then
      let r := ({ r with m_poSAXReader := some ts }).runCalls t.calls
      match t.result with
      | XercesResult.more => xercesParseLoop ts r
      | XercesResult.finished => (r, false)
      | XercesResult.throwsXMLException => (r, true)
      | XercesResult.throwsSAXException => (r, true)
    else (r, false)

/-- Lines 549-561 of `NextFeatureXerces`: on the first call the parser is set
up and `parseFirst` is run; the result tells whether the guarded block goes
on, has returned NULL, or was left by an exception. -/
def xercesStart (env : Env) (r : GMLReader) : TryResult × GMLReader :=
  if !r.m_bReadStarted then
    let r := if r.m_poSAXReader.isNone then (r.SetupParser env).2 else r
    let r := { r with m_bReadStarted := true }
    match r.m_poSAXReader, r.m_GMLInputSource with
    | some _, some src =>
      match src.doc.parseFirst with
      | XercesResult.more =>
        (TryResult.completed, { r with m_poSAXReader := some src.doc.tokens })
      | XercesResult.finished => (TryResult.returnedNull, r)
      | XercesResult.throwsXMLException => (TryResult.caught, r)
      | XercesResult.throwsSAXException => (TryResult.caught, r)
    | _, _ => (TryResult.returnedNull, r)
  else (TryResult.completed, r)

/-- Lines 567-571 of `NextFeatureXerces`: the end of the input is recorded
when no feature is complete, and the complete feature is handed out. -/
def xercesReturn (r : GMLReader) : Option GMLFeature × GMLReader :=
  let r := if r.m_poCompleteFeature.isNone then { r with m_bEOF := true } else r
  (r.m_poCompleteFeature, { r with m_poCompleteFeature := none })

/-- `GMLReader::NextFeatureXerces` (gmlreader.cpp 539-592).  The outer `Option`
is `none` for undefined behaviour (`parseNext` on a NULL `m_poSAXReader`). -/
def NextFeatureXerces (env : Env) (r : GMLReader) : Option (Option GMLFeature × GMLReader) :=
  if r.m_bEOF then some (none, r)
  else
    match r.xercesStart env with
    | (TryResult.returnedNull, r) => some (none, r)
    | (TryResult.caught, r) => some (none, { r with m_bStopParsing := true })
    | (TryResult.completed, r) =>
      if r.m_poCompleteFeature.isNone && !r.m_bStopParsing then
        match r.m_poSAXReader with
        | none => none
        | some toks =>
          let lr := xercesParseLoop toks r
          if lr.2 then some (none, { lr.1 with m_bStopParsing := true })
          else some lr.1.xercesReturn
      else some r.xercesReturn

/-- `GMLReader::NextFeature` (gmlreader.cpp 656-670). -/
def NextFeature (env : Env) (r : GMLReader) : Option (Option GMLFeature × GMLReader) :=
  if r.bUseExpatReader then r.NextFeatureExpat env else r.NextFeatureXerces env

/-- `GMLReader::SetFilteredClassName` (gmlreader.cpp 1584-1603). -/
def SetFilteredClassName (r : GMLReader) (pszClassName : Option CStr) : Bool × GMLReader :=
  let r := { r with m_pszFilteredClassName := pszClassName, m_nFilteredClassIndex := -1 }
  match pszClassName with
  | none => (true, r)
  | some n =>
    (true, { r with m_nFilteredClassIndex :=
      firstIndexFrom (fun c : GMLFeatureClass => strcmp0 c.GetElementName n) r.m_papoClass 0 })

/-- `GMLReader::ResetReading` (gmlreader.cpp 1544-1549). -/
def ResetReading (r : GMLReader) : GMLReader :=
  (r.CleanupParser.SetFilteredClassName none).2

/-- Repeated `NextFeature` up to the first NULL result: the features returned,
in order, and the reader left behind.  `none` when a call is undefined or the
first NULL is not reached within `fuel` calls. -/
def drainFeatures (env : Env) : Nat → GMLReader → Option (List GMLFeature × GMLReader)
  | 0, _ => none
  | fuel + 1, r =>
    match r.NextFeature env with
    | none => none
    | some (none, r2) => some ([], r2)
    | some (some f, r2) => (drainFeatures env fuel r2).map fun p => (f :: p.1, p.2)

/-! ### The handler's completions, as the specification words them -/

/-- The state chain after one handler call: push on top, pop the top, or
replace the top. -/
def stackStep (S : List GMLReadState) : HandlerCall → List GMLReadState
  | HandlerCall.PushState s => s :: S
  | HandlerCall.PopState => S.tail
  | HandlerCall.GetState s =>
    match S with
    | [] => []
    | _ :: poParent => s :: poParent

/-- The feature a handler call completes: the one owned by the current state
when that state is popped. -/
def completedStep (S : List GMLReadState) : HandlerCall → List GMLFeature
  | HandlerCall.PopState =>
    match S with
    | [] => []
    | st :: _ => st.m_poFeature.toList
  | _ => []

/-- The state chain after a sequence of handler calls. -/
def stackAfter : List GMLReadState → List HandlerCall → List GMLReadState
  | S, [] => S
  | S, c :: cs => stackAfter (stackStep S c) cs

/-- The features completed by a sequence of handler calls, in completion
order. -/
def completedFeatures : List GMLReadState → List HandlerCall → List GMLFeature
  | _, [] => []
  | S, c :: cs => completedStep S c ++ completedFeatures (stackStep S c) cs

/-- All handler calls of a sequence of buffers, in document order. -/
def allCalls (chunks : List ExpatChunk) : List HandlerCall :=
  (chunks.map fun c => c.calls).flatten

/-- The entries of the feature table that are in use. -/
def visibleTab (r : GMLReader) : List GMLFeature :=
  r.ppoFeatureTab.take r.nFeatureTabLength

/-- The fields that handler calls leave alone. -/
def sameControl (r r2 : GMLReader) : Prop :=
  r2.bUseExpatReader = r.bUseExpatReader ∧ r2.m_bReadStarted = r.m_bReadStarted ∧
  r2.oParser = r.oParser ∧ r2.m_poGMLHandler = r.m_poGMLHandler ∧
  r2.m_bStopParsing = r.m_bStopParsing ∧ r2.fpGML = r.fpGML ∧
  r2.nFeatureTabIndex = r.nFeatureTabIndex

/-- A buffer whose parsing raises no fatal error: `XML_Parse` does not answer
`XML_STATUS_ERROR` and the handler has not stopped the parsing. -/
def cleanChunk (c : ExpatChunk) : Prop :=
  c.bStatusError = false ∧ c.bHasStoppedParsing = false

/-- A reader of the Expat backend between two `NextFeature` calls of a parse
that meets no fatal error, reading the open file `fp`. -/
structure Reading (r : GMLReader) (fp : VSILFILE) : Prop where
  expat : r.bUseExpatReader = true
  started : r.m_bReadStarted = true
  parser : r.oParser = true
  handler : r.m_poGMLHandler = true
  running : r.m_bStopParsing = false
  file : r.fpGML = some fp
  tab : r.nFeatureTabLength ≤ r.ppoFeatureTab.length
  idx : r.nFeatureTabIndex ≤ r.nFeatureTabLength
  clean : ∀ c ∈ fp.rest, cleanChunk c

/-! ### Properties (`GetAttributeElementIndex`, `SetFeaturePropertyDirectly`) -/

/-- `GMLReader::GetAttributeElementIndex` (gmlreader.cpp 897-940).  The result
is `none` when there is no current state, no feature in it, or the class
pointer of the feature dangles. -/
def GetAttributeElementIndex (r : GMLReader) (pszElement : CStr) (nLen : Nat)
    (pszAttrKey : Option CStr) : Option Int :=
  match r.m_poState with
  | [] => none
  | st :: _ =>
    match st.m_poFeature with
    | none => none
    | some poFeature =>
      match r.m_papoClass[poFeature.m_poClass]? with
      | none => none
      | some poClass =>
        -- If the schema is not yet locked, then any simple element
        -- is potentially an attribute.
        if !poClass.IsSchemaLocked then some INT_MAX
        -- Otherwise build the path to this element into a single string
        -- and compare against known attributes.
        else if st.m_nPathLength = 0 then
          match pszAttrKey with
          | none => some (poClass.GetPropertyIndexBySrcElement pszElement nLen)
          | some key =>
            let nFullLen := nLen + 1 + key.length
            let osElemPath := pszElement.take nLen ++ ['@'] ++ key
            some (poClass.GetPropertyIndexBySrcElement osElemPath nFullLen)
        else
          let nFullLen := nLen + st.osPath.length + 1
          let nFullLen := match pszAttrKey with
            | some key => nFullLen + (1 + key.length)
            | none => nFullLen
          let osElemPath := st.osPath ++ ['|'] ++ pszElement.take nLen
          let osElemPath := match pszAttrKey with
            | some key => osElemPath ++ ['@'] ++ key
            | none => osElemPath
          some (poClass.GetPropertyIndexBySrcElement osElemPath nFullLen)

/-- The output field name before sanitising, lines 1113-1143 of
`SetFeaturePropertyDirectly`. -/
def deriveFieldName (bIsWFSJointLayer : Bool) (poClass : GMLFeatureClass)
    (pszElement : CStr) : CStr :=
  if bIsWFSJointLayer then
    -- Strip member| prefix. Should always be true normally
    let osFieldName : CStr :=
      if STARTS_WITH pszElement "member|".toList then pszElement.drop "member|".length else []
    -- Replace layer|property by layer_property
    let osFieldName := match strchr osFieldName '|' with
      | some iPos => osFieldName.set iPos '.'
      | none => osFieldName
    -- Special case for gml:id on layer
    match strstr osFieldName "@id".toList with
    | some iPos => osFieldName.take iPos ++ ".gml_id".toList
    | none => osFieldName
  else if (strchr pszElement '|').isNone then pszElement
  else
    match strrchr pszElement '|' with
    | none => pszElement -- not reached: `strrchr` finds a character that `strchr` finds
    | some iLast =>
      let osFieldName := pszElement.drop (iLast + 1)
      if poClass.GetPropertyIndex osFieldName ≠ -1 then pszElement else osFieldName

/-- Lines 1145-1147 of `SetFeaturePropertyDirectly`: the character at the
position `osFieldName.find("@")` is overwritten with `_`. -/
def replaceAt (osFieldName : CStr) : CStr :=
  match strchr osFieldName '@' with
  | some nPos => osFieldName.set nPos '_'
  | none => osFieldName

/-- Lines 1150-1153 of `SetFeaturePropertyDirectly`, the loop
`while( poClass->GetProperty(osFieldName) != NULL ) osFieldName += "_";`
run for at most `fuel` tests of the condition; `none` when the loop has not
ended by then. -/
def dedupFieldName (poClass : GMLFeatureClass) : Nat → CStr → Option CStr
  | 0, _ => none
  | fuel + 1, osFieldName =>
    if (poClass.GetPropertyByName osFieldName).isSome then
      dedupFieldName poClass fuel (osFieldName ++ ['_'])
    else some osFieldName

/-- Lines 1171-1183 of `SetFeaturePropertyDirectly`: the value is stored in
slot `iProperty` of the feature and, for a class that is not schema-locked,
folded into the type of the property; the class and the feature are written
back to the registry and the current state. -/
def storeProperty (env : Env) (r : GMLReader) (st : GMLReadState)
    (poParent : List GMLReadState) (poFeature : GMLFeature) (poClass : GMLFeatureClass)
    (iProperty : Nat) (pszValue : CStr) : Option GMLReader :=
  let poFeature := poFeature.SetPropertyDirectly iProperty pszValue
  match poClass.m_papoProperty[iProperty]? with
  | none => none
  | some poPDefn =>
    let poClass :=
      if !poClass.IsSchemaLocked then
        { poClass with m_papoProperty := (poClass.m_papoProperty.set iProperty
            (poPDefn.AnalysePropertyValue env (poFeature.GetProperty iProperty)
              r.m_bSetWidthFlag)) }
      else poClass
    some { r with
      m_papoClass := r.m_papoClass.set poFeature.m_poClass poClass,
      m_poState := { st with m_poFeature := some poFeature } :: poParent }

/-- `GMLReader::SetFeaturePropertyDirectly` (gmlreader.cpp 1072-1184).  The
result is `none` when the code is undefined (no current state, no feature in
it, dangling class pointer) or when the de-duplication loop has not ended
within `fuel` tests.  The search loop of lines 1096-1101 leaves
`iProperty == nPropertyCount` when no source path matches; here that outcome
is the -1 of `firstIndexFrom`. -/
def SetFeaturePropertyDirectly (env : Env) (fuel : Nat) (r : GMLReader) (pszElement : CStr)
    (pszValue : CStr) (iPropertyIn : Int)
    (eType : GMLPropertyType) : Option GMLReader :=
  match r.m_poState with
  | [] => none
  | st :: poParent =>
    match st.m_poFeature with
    | none => none
    | some poFeature =>
      match r.m_papoClass[poFeature.m_poClass]? with
      | none => none
      | some poClass =>
        let nPropertyCount := poClass.GetPropertyCount
        if 0 ≤ iPropertyIn ∧ iPropertyIn < nPropertyCount then
          storeProperty env r st poParent poFeature poClass iPropertyIn.toNat pszValue
        else
          let iProperty := firstIndexFrom
            (fun p : GMLPropertyDefn => strcmp0 p.m_pszSrcElement pszElement)
            poClass.m_papoProperty 0
          if iProperty ≠ -1 then
            storeProperty env r st poParent poFeature poClass iProperty.toNat pszValue
          else if poClass.IsSchemaLocked then
            -- Encountered property missing from class schema
            some r
          else
            let osFieldName := deriveFieldName r.m_bIsWFSJointLayer poClass pszElement
            let osFieldName := replaceAt osFieldName
            -- Does this conflict with an existing property name?
            match dedupFieldName poClass fuel osFieldName with
            | none => none
            | some osFieldName =>
              let poPDefn : GMLPropertyDefn :=
                { m_pszName := osFieldName, m_pszSrcElement := pszElement }
              let poPDefn :=
                if EQUAL env.GML_FIELDTYPES "ALWAYS_STRING".toList then
                  { poPDefn with m_eType := GMLPropertyType.GMLPT_String }
                else if eType ≠ GMLPropertyType.GMLPT_Untyped then
                  { poPDefn with m_eType := eType }
                else poPDefn
              let added := poClass.AddProperty poPDefn
              if added.1 < 0 then some r
              else storeProperty env r st poParent poFeature added.2 nPropertyCount pszValue

/-! ### The attribute key, as the specification words it -/

/-- The key under which `GetAttributeElementIndex` looks a property up: the
element when the state path is empty, otherwise state path, `|` and element;
followed by `@` and the attribute key when one is given. -/
def specAttributeKey (statePath element : CStr) (attrKey : Option CStr) : CStr :=
  (if statePath = [] then element else statePath ++ "|".toList ++ element) ++
    (match attrKey with
     | some key => "@".toList ++ key
     | none => [])

/-! ### Sequences of reader operations -/

/-- A public operation of the reader that a caller may run between two
`NextFeature` calls. -/
inductive ReaderOp
  | NextFeature
  | ResetReading
  | SetFilteredClassName (pszClassName : Option CStr)
  | PopState
  | PushState (poState : GMLReadState)
  deriving DecidableEq, Repr

/-- The reader after one operation; `none` when the operation is undefined. -/
def applyOp (env : Env) (r : GMLReader) : ReaderOp → Option GMLReader
  | ReaderOp.NextFeature => (r.NextFeature env).map fun p => p.2
  | ReaderOp.ResetReading => some r.ResetReading
  | ReaderOp.SetFilteredClassName n => some (r.SetFilteredClassName n).2
  | ReaderOp.PopState => some r.PopState
  | ReaderOp.PushState s => some (r.PushState s)

/-- The reader after a sequence of operations. -/
def applyOps (env : Env) : GMLReader → List ReaderOp → Option GMLReader
  | r, [] => some r
  | r, op :: ops => (applyOp env r op).bind fun r2 => applyOps env r2 ops

/-! ### The class registry (`GetClass`, `AddClass`, `ClearClasses`, `PushFeature`) -/

/-- `GMLReader::GetClass( int iClass )` (gmlreader.cpp 1003-1010). -/
def GetClass (r : GMLReader) (iClass : Int) : Option GMLFeatureClass :=
  if iClass < 0 ∨ iClass ≥ r.GetClassCount then none else r.m_papoClass[iClass.toNat]?

/-- `GMLReader::GetClass( const char *pszName )` (gmlreader.cpp 1016-1026). -/
def GetClassByName (r : GMLReader) (pszName : CStr) : Option GMLFeatureClass :=
  r.GetClass (firstIndexFrom (fun c : GMLFeatureClass => EQUAL c.GetName pszName)
    r.m_papoClass 0)

/-- `GMLReader::AddClass` (gmlreader.cpp 1032-1046).  The result is `none` when
`CPLAssert` is compiled in and the assertion of line 1035 fails (the process
aborts); with `CPLAssert` compiled out the assertion is no code at all. -/
def AddClass (env : Env) (r : GMLReader) (poNewClass : GMLFeatureClass) :
    Option (Int × GMLReader) :=
  if env.bCPLAssert && (r.GetClassByName poNewClass.GetName).isSome then none
  else
    some ((r.GetClassCount : Int),
      { r with
        m_papoClass := r.m_papoClass ++ [poNewClass],
        m_bLookForClassAtAnyLevel :=
          if poNewClass.HasFeatureProperties then true else r.m_bLookForClassAtAnyLevel })

/-- `GMLReader::ClearClasses` (gmlreader.cpp 1052-1062). -/
def ClearClasses (r : GMLReader) : GMLReader :=
  { r with m_papoClass := [], m_bLookForClassAtAnyLevel := false }

/-- Lines 687-716 of `PushFeature`: the class index of the new feature and the
reader after a class was created for it when needed.  `none` when a
compiled-in assertion fails or the given index is negative. -/
def findOrCreateClass (env : Env) (r : GMLReader) (pszElement : CStr) (nClassIndex : Int) :
    Option (Nat × GMLReader) :=
  if nClassIndex ≠ INT_MAX then
    if nClassIndex < 0 then none else some (nClassIndex.toNat, r)
  else
    -- Find the class of this element.
    let iClass := firstIndexFrom
      (fun c : GMLFeatureClass => EQUAL pszElement c.GetElementName) r.m_papoClass 0
    -- Create a new feature class for this element, if there is no
    -- existing class for it.
    if iClass = -1 then
      if env.bCPLAssert && r.m_bClassListLocked then none
      else (r.AddClass env (GMLFeatureClass.new pszElement)).map fun p => (r.GetClassCount, p.2)
    else some (iClass.toNat, r)

/-- `GMLReader::PushFeature` (gmlreader.cpp 682-737).  The search loop of lines
698-702 leaves `iClass == m_nClassCount` when no class matches; here that
outcome is the -1 of `firstIndexFrom`.  The result is `none` when a
compiled-in assertion fails or `m_papoClass[iClass]` is outside the array. -/
def PushFeature (env : Env) (r : GMLReader) (pszElement : CStr) (pszFID : Option CStr)
    (nClassIndex : Int) : Option GMLReader :=
  match r.findOrCreateClass env pszElement nClassIndex with
  | none => none
  | some (iClass, r) =>
    match r.m_papoClass[iClass]? with
    | none => none
    | some _ =>
      -- Create a feature of this feature class.  Try to set the fid if available.
      let poFeature : GMLFeature := { m_poClass := iClass, m_pszFID := pszFID }
      -- Create and push a new read state.
      let poState : GMLReadState := r.m_poRecycledState.getD {}
      let r := { r with m_poRecycledState := none }
      some (r.PushState { poState with m_poFeature := some poFeature })

/-- A call that the event handler makes on the reader while it builds features
and grows the schema. -/
inductive SchemaCall
  | PushFeature (pszElement : CStr) (pszFID : Option CStr) (nClassIndex : Int)
  | SetFeaturePropertyDirectly (pszElement pszValue : CStr) (iPropertyIn : Int)
      (eType : GMLPropertyType)
  | PushState (poState : GMLReadState)
  | PopState
  deriving DecidableEq, Repr

/-- The reader after one schema call; `none` when the call is undefined. -/
def applySchemaCall (env : Env) (fuel : Nat) (r : GMLReader) : SchemaCall → Option GMLReader
  | SchemaCall.PushFeature pszElement pszFID nClassIndex =>
    r.PushFeature env pszElement pszFID nClassIndex
  | SchemaCall.SetFeaturePropertyDirectly pszElement pszValue iPropertyIn eType =>
    r.SetFeaturePropertyDirectly env fuel pszElement pszValue iPropertyIn eType
  | SchemaCall.PushState poState => some (r.PushState poState)
  | SchemaCall.PopState => some r.PopState

/-- The reader after a sequence of schema calls. -/
def runSchemaCalls (env : Env) (fuel : Nat) : GMLReader → List SchemaCall → Option GMLReader
  | r, [] => some r
  | r, c :: cs => (applySchemaCall env fuel r c).bind fun r2 => runSchemaCalls env fuel r2 cs

/-- The sequence of `n` `PopState` calls. -/
def popN : Nat → GMLReader → GMLReader
  | 0, r => r
  | n + 1, r => popN n r.PopState

/-- The sequence of `PushState` calls for the states of a list, in order. -/
def pushAll : GMLReader → List GMLReadState → GMLReader
  | r, [] => r
  | r, s :: ss => pushAll (r.PushState s) ss

/-! ### The WFS joint-layer field name, as the specification words it -/

/-- The text with its first path separator `|` replaced by `.`. -/
def replaceFirstSeparator : CStr → CStr
  | [] => []
  | x :: xs => if x = '|' then '.' :: xs else x :: replaceFirstSeparator xs

/-- The text with every path separator `|` replaced by `.`. -/
def replaceAllSeparators (s : CStr) : CStr :=
  s.map fun c => if c = '|' then '.' else c

/-! ### Schema persistence (`LoadClasses`, `SaveClasses`) -/

/-- `GMLReader::SetClassListLocked` (gmlreaderp.h). -/
def SetClassListLocked (r : GMLReader) (bFlag : Bool) : GMLReader :=
  { r with m_bClassListLocked := bFlag }

/-- Modelled from the spec: `CPLGetXMLValue(psRoot, "SequentialLayers", NULL)`
(cpl_minixml.cpp): the value of the optional flag that the root lists, NULL
when the root has no such child. -/
def getSequentialLayers (psRoot : CPLXMLTree) : Option CStr :=
  match psRoot.psChild.find? (fun n =>
      (n.eType == CPLXMLNodeType.CXT_Element || n.eType == CPLXMLNodeType.CXT_Attribute)
        && EQUAL n.pszValue "SequentialLayers".toList) with
  | some n => n.pszText
  | none => none

/-- The loop of lines 1282-1301 of `LoadClasses` over the children of the
root: `some false` is the `return false` of a refused class record, `none` an
assertion of `AddClass` that fails. -/
def loadClassNodes (env : Env) : GMLReader → List CPLXMLNode → Option (Bool × GMLReader)
  | r, [] => some (true, r)
  | r, psThis :: rest =>
    if psThis.eType = CPLXMLNodeType.CXT_Element
        ∧ EQUAL psThis.pszValue "GMLFeatureClass".toList = true then
      match GMLFeatureClass.InitializeFromXML psThis with
      | none => some (false, r)
      | some poClass =>
        match r.AddClass env (poClass.SetSchemaLocked true) with
        | none => none
        | some (_, r) => loadClassNodes env r rest
    else loadClassNodes env r rest

/-- `GMLReader::LoadClasses` (gmlreader.cpp 1190-1307) on the schema files
`fs`.  The result is `none` when an assertion of `AddClass` fails. -/
def LoadClasses (env : Env) (fs : SchemaFS) (r : GMLReader) (pszFile : Option CStr) :
    Option (Bool × GMLReader) :=
  match pszFile with
  -- Add logic later to determine reasonable default schema file.
  | none => some (false, r)
  | some path =>
    -- Load the raw XML file.
    match fs.VSIFOpenRb path with
    | none => some (false, r)
    | some fp =>
      if fp.bReadFails then some (false, r)
      else if !fp.text.bHasListTag then some (false, r)
      else
        -- Convert to XML parse tree.
        match fp.text.psRoot with
        | none => some (false, r)
        | some psRoot =>
          if psRoot.eType ≠ CPLXMLNodeType.CXT_Element
              ∨ !EQUAL psRoot.pszValue "GMLFeatureClassList".toList then some (false, r)
          else
            let r : GMLReader :=
              match getSequentialLayers psRoot with
              | some pszSequentialLayers =>
                { r with m_nHasSequentialLayers :=
                    (if env.CPLTestBool pszSequentialLayers then 1 else 0) }
              | none => r
            -- Extract feature classes for all definitions found.
            match loadClassNodes env r psRoot.psChild with
            | none => none
            | some (false, r) => some (false, r)
            | some (true, r) => some (true, r.SetClassListLocked true)

/-- The schema tree that `SaveClasses` builds (gmlreader.cpp 1320-1336). -/
def buildSchemaTree (r : GMLReader) : CPLXMLTree :=
  { eType := CPLXMLNodeType.CXT_Element,
    pszValue := "GMLFeatureClassList".toList,
    psChild :=
      (if r.m_nHasSequentialLayers ≠ -1 ∧ r.GetClassCount > 1 then
        [{ eType := CPLXMLNodeType.CXT_Element,
           pszValue := "SequentialLayers".toList,
           pszText := some
             (if r.m_nHasSequentialLayers ≠ 0 then "true".toList else "false".toList) }]
       else [])
      ++ r.m_papoClass.map GMLFeatureClass.SerializeToXML }

/-- `GMLReader::SaveClasses` (gmlreader.cpp 1313-1359): the result of the call
and the schema files after it. -/
def SaveClasses (fs : SchemaFS) (r : GMLReader) (pszFile : Option CStr) : Bool × SchemaFS :=
  match pszFile with
  -- Add logic later to determine reasonable default schema file.
  | none => (false, fs)
  | some path =>
    -- Create in memory schema tree.
    let psRoot := buildSchemaTree r
    -- Serialize to disk.
    let pszWholeText := CPLSerializeXMLTree psRoot
    if fs.bOpenWbFails path then (false, fs)
    else if fs.bWriteFails path then (false, fs.truncate path)
    else (true, fs.write path pszWholeText)

/-- What the specification lists of a class in the saved-schema round trip:
name, source path and type of each property in order, geometry types, extent
(when there is one) and SRS name. -/
def savedView (c : GMLFeatureClass) :
    CStr × List (CStr × GMLPropertyType) × List Int
      × Option (Coord × Coord × Coord × Coord) × Option CStr :=
  (c.m_pszName,
   c.m_papoProperty.map (fun p => (p.m_pszSrcElement, p.m_eType)),
   c.m_papoGeometryProperty.map (fun g => g.m_nGeometryType),
   (if c.m_bHaveExtents then some (c.m_dfXMin, c.m_dfXMax, c.m_dfYMin, c.m_dfYMax) else none),
   c.m_pszSRSName)

/-! ### The prescan (`PrescanForSchema`) -/

/-- One call of `NextFeature()` in the loop of `PrescanForSchema` that parses
input and returns a feature: the calls that the event handler makes on the
reader while the call runs, the feature returned, what the geometry
collaborators make of its geometry list (`GML_BuildOGRGeometryFromList`, NULL
when no geometry can be built, and `GML_ExtractSrsNameFromGeometry`), and
whether the call sets `m_bStopParsing` because the parser or the handler
reports an error (lines 581, 588, 645, 648). -/
structure PrescanStep where
  calls : List SchemaCall := []
  poFeature : GMLFeature
  poGeometry : Option OGRGeometry := none
  pszSRSName : Option CStr := none
  bStopParsing : Bool := false
  deriving DecidableEq, Repr

/-- What the source makes the calls of `NextFeature()` do during one scan, as
long as parsing is not stopped: the calls that return a feature, in order, and
the handler calls of the call behind them, which returns NULL, with the flag
that tells whether that call sets `m_bStopParsing`. -/
structure PrescanStream where
  steps : List PrescanStep := []
  last : List SchemaCall := []
  bStopParsing : Bool := false
  deriving DecidableEq, Repr

/-- `GMLReader::IsSequentialLayers` (gmlreaderp.h 545); `TRUE` is 1. -/
def IsSequentialLayers (r : GMLReader) : Bool := r.m_nHasSequentialLayers == 1

/-- Lines 1421-1479 of `PrescanForSchema`, entered with a geometry list that
is not NULL: the SRS name, the geometry type and the envelope of the built
geometry are merged into the class. -/
def mergeGeometry (env : Env) (bAnalyzeSRSPerFeature : Bool) (r : GMLReader)
    (poClass : GMLFeatureClass) (step : PrescanStep) : GMLReader × GMLFeatureClass :=
  match step.poGeometry, poClass.m_papoGeometryProperty with
  | some poGeometry, poGeomProp :: others =>
    let eGType := poGeomProp.m_nGeometryType
    let rc : GMLReader × GMLFeatureClass :=
      if bAnalyzeSRSPerFeature then
        (if step.pszSRSName.isSome then { r with m_bCanUseGlobalSRSName := false } else r,
         poClass.MergeSRSName env step.pszSRSName)
      else (r, poClass)
    -- Merge geometry type into layer.
    let eGType := if rc.2.GetFeatureCount = 1 ∧ eGType = wkbUnknown then wkbNone else eGType
    let poClass : GMLFeatureClass :=
      { rc.2 with m_papoGeometryProperty :=
          ({ poGeomProp with m_nGeometryType :=
              (env.OGRMergeGeometryTypesEx eGType poGeometry.eGeometryType true) } :: others) }
    -- merge extents.
    let poClass :=
      if !poGeometry.bIsEmpty then
        if poClass.m_bHaveExtents then
          poClass.SetExtents (min poClass.m_dfXMin poGeometry.MinX)
            (max poClass.m_dfXMax poGeometry.MaxX)
            (min poClass.m_dfYMin poGeometry.MinY)
            (max poClass.m_dfYMax poGeometry.MaxY)
        else
          poClass.SetExtents poGeometry.MinX poGeometry.MaxX poGeometry.MinY poGeometry.MaxY
      else poClass
    (rc.1, poClass)
  | _, _ => (r, poClass)

/-- Lines 1399-1483 of `PrescanForSchema`, the body of the loop for one
feature of the class at index `iClass` (`poLastClass` is the index of the
class of the feature before, `none` for NULL).  The result is `none` when the
count would overflow `int`. -/
def prescanFeature (env : Env) (bGetExtents bAnalyzeSRSPerFeature bOnlyDetectSRS : Bool)
    (r : GMLReader) (poLastClass : Option Nat) (step : PrescanStep) (iClass : Nat)
    (poClass : GMLFeatureClass) : Option GMLReader :=
  let r : GMLReader :=
    if poLastClass.isSome ∧ some iClass ≠ poLastClass ∧ poClass.GetFeatureCount ≠ -1 then
      { r with m_nHasSequentialLayers := 0 }
    else r
  if poClass.GetFeatureCount = INT_MAX then none
  else
    let poClass :=
      if poClass.GetFeatureCount = -1 then poClass.SetFeatureCount 1
      else poClass.SetFeatureCount (poClass.GetFeatureCount + 1)
    let papsGeometry := step.poFeature.m_papsGeometry
    let poClass :=
      if !bOnlyDetectSRS ∧ papsGeometry.isSome ∧ papsGeometry ≠ some [] then
        if poClass.GetGeometryPropertyCount = 0 then
          poClass.AddGeometryProperty
            { m_pszName := [], m_pszSrcElement := [], m_nGeometryType := wkbUnknown,
              m_nAttributeIndex := -1, m_bNullable := true }
        else poClass
      else poClass
    let rc : GMLReader × GMLFeatureClass :=
      if bGetExtents ∧ papsGeometry.isSome then
        mergeGeometry env bAnalyzeSRSPerFeature r poClass step
      else (r, poClass)
    some { rc.1 with m_papoClass := rc.1.m_papoClass.set iClass rc.2 }

/-- One round of the loop of lines 1399-1483 of `PrescanForSchema`, entered
while parsing is not stopped: the handler calls of the `NextFeature()` call
run, the stop flag is set when the call meets an error, and the body of the
loop runs on the feature returned.  The result is `none` when a handler call
is undefined, the class pointer of the feature dangles or a count overflows. -/
def prescanRound (env : Env) (fuel : Nat)
    (bGetExtents bAnalyzeSRSPerFeature bOnlyDetectSRS : Bool) (r : GMLReader)
    (poLastClass : Option Nat) (step : PrescanStep) : Option GMLReader :=
  match runSchemaCalls env fuel r step.calls with
  | none => none
  | some r =>
    let r := if step.bStopParsing then { r with m_bStopParsing := true } else r
    match r.m_papoClass[step.poFeature.m_poClass]? with
    | none => none
    | some poClass =>
      prescanFeature env bGetExtents bAnalyzeSRSPerFeature bOnlyDetectSRS r poLastClass
        step step.poFeature.m_poClass poClass

/-- The loop of lines 1399-1483 of `PrescanForSchema`.  A call of
`NextFeature()` made while `m_bStopParsing` is set parses nothing and returns
NULL (lines 564 and 607), which ends the loop; otherwise the next round
runs. -/
def prescanLoop (env : Env) (fuel : Nat)
    (bGetExtents bAnalyzeSRSPerFeature bOnlyDetectSRS : Bool) :
    GMLReader → Option Nat → List PrescanStep → Option GMLReader
  | r, _, [] => some r
  | r, poLastClass, step :: rest =>
    if r.m_bStopParsing then some r
    else
      match prescanRound env fuel bGetExtents bAnalyzeSRSPerFeature bOnlyDetectSRS r
          poLastClass step with
      | none => none
      | some r =>
        prescanLoop env fuel bGetExtents bAnalyzeSRSPerFeature bOnlyDetectSRS r
          (some step.poFeature.m_poClass) rest

/-- The call of `NextFeature()` that ends the loop of `PrescanForSchema` by
returning NULL: while `m_bStopParsing` is set nothing is parsed (lines 564 and
607); otherwise the handler calls of the rest of the source run and the stop
flag is set when an error is met. -/
def prescanLastCall (env : Env) (fuel : Nat) (stream : PrescanStream) (r : GMLReader) :
    Option GMLReader :=
  if r.m_bStopParsing then some r
  else
    (runSchemaCalls env fuel r stream.last).map fun r =>
      if stream.bStopParsing then { r with m_bStopParsing := true } else r

/-- Lines 1489-1533 of `PrescanForSchema`, the body of the loop over the
classes after the scan: the SRS name of the class is normalised and, for a
global SRS in latitude/longitude order, the extent is swapped. -/
def normalizeSRS (env : Env) (bAnalyzeSRSPerFeature : Bool) (r : GMLReader)
    (poClass : GMLFeatureClass) : GMLFeatureClass :=
  let pszSRSName : Option CStr :=
    if r.m_bCanUseGlobalSRSName then r.m_pszGlobalSRSName else poClass.m_pszSRSName
  if r.m_bInvertAxisOrderIfLatLong && env.GML_IsSRSLatLongOrder pszSRSName
      && env.SetFromUserInput pszSRSName then
    let poClass :=
      match env.exportToWkt pszSRSName true with
      | some pszWKT => poClass.SetSRSName (some pszWKT)
      | none => poClass
    -- So when we have computed the extent, we didn't know yet the SRS to use.
    -- Now we know it, we have to fix the extent order
    if r.m_bCanUseGlobalSRSName then
      if poClass.m_bHaveExtents then
        poClass.SetExtents poClass.m_dfYMin poClass.m_dfYMax poClass.m_dfXMin poClass.m_dfXMax
      else poClass
    else poClass
  else if !bAnalyzeSRSPerFeature && pszSRSName.isSome && poClass.m_pszSRSName.isNone
      && env.SetFromUserInput pszSRSName then
    match env.exportToWkt pszSRSName false with
    | some pszWKT => poClass.SetSRSName (some pszWKT)
    | none => poClass
  else poClass

/-- Lines 1378-1393 of `PrescanForSchema`: for a scan that is not SRS-only
the class list is unlocked and cleared; the parser is set up (the result is
`false` when that fails) and the two flags are set. -/
def prescanStart (env : Env) (r : GMLReader) (bOnlyDetectSRS : Bool) : Bool × GMLReader :=
  let r := if !bOnlyDetectSRS then (r.SetClassListLocked false).ClearClasses else r
  let setup := r.SetupParser env
  if !setup.1 then (false, setup.2)
  else (true, { setup.2 with m_bCanUseGlobalSRSName := true, m_nHasSequentialLayers := 1 })

/-- `GMLReader::PrescanForSchema` (gmlreader.cpp 1370-1538) over the stream of
`NextFeature()` calls that the source gives rise to.  The result is `none`
when the scan is undefined (see `prescanRound`). -/
def PrescanForSchema (env : Env) (fuel : Nat) (stream : PrescanStream) (r : GMLReader)
    (bGetExtents bAnalyzeSRSPerFeature bOnlyDetectSRS : Bool) : Option (Bool × GMLReader) :=
  if r.m_pszFilename.isNone then some (false, r)
  else
    let start := prescanStart env r bOnlyDetectSRS
    if !start.1 then some (false, start.2)
    else
      match prescanLoop env fuel bGetExtents bAnalyzeSRSPerFeature bOnlyDetectSRS start.2 none
          stream.steps with
      | none => none
      | some r =>
        -- the call of NextFeature() that returns NULL
        match prescanLastCall env fuel stream r with
        | none => none
        | some r =>
          let r : GMLReader :=
            { r with m_papoClass := r.m_papoClass.map (normalizeSRS env bAnalyzeSRSPerFeature r) }
          some (true, r.CleanupParser)

/-- The classes of a sequence of features appear in contiguous runs, in the
words of the specification: there are no positions i < j < k with the same
class at i and at k and another class at j. -/
def contiguousRuns (cs : List Nat) : Prop :=
  ∀ (i j k a b : Nat), i < j → j < k →
    cs[i]? = some a → cs[j]? = some b → cs[k]? = some a → b = a

/-- The calls of a stream that get to run and return their feature:
`bStopParsing` is the stop flag before the first call, and no call parses
after a call that set the flag. -/
def yieldedSteps : Bool → List PrescanStep → List PrescanStep
  | true, _ => []
  | false, [] => []
  | false, step :: rest => step :: yieldedSteps step.bStopParsing rest

/-- The features that a scan of the stream yields to the loop of
`PrescanForSchema` on the reader `r`, each with its handler calls and its
geometry. -/
def yielded (r : GMLReader) (stream : PrescanStream) : List PrescanStep :=
  yieldedSteps r.m_bStopParsing stream.steps

/-- The classes (registry indices) of a list of features. -/
def classesOf (steps : List PrescanStep) : List Nat :=
  steps.map fun s => s.poFeature.m_poClass

/-- The classes that the loop of lines 1282-1301 of `LoadClasses` makes of a
list of nodes all of whose class records can be initialised: one schema-locked
class for each `GMLFeatureClass` element, in order. -/
def loadedClasses (nodes : List CPLXMLNode) : List GMLFeatureClass :=
  nodes.filterMap fun psThis =>
    if psThis.eType = CPLXMLNodeType.CXT_Element
        ∧ EQUAL psThis.pszValue "GMLFeatureClass".toList = true then
      (GMLFeatureClass.InitializeFromXML psThis).map fun c => c.SetSchemaLocked true
    else none

/-! ### The class filter in the event handler -/

/-- The built geometries of the features of the class at index `iClass` among
the features `steps`, in order. -/
def builtGeometries (iClass : Nat) (steps : List PrescanStep) : List OGRGeometry :=
  steps.filterMap fun s => if s.poFeature.m_poClass = iClass then s.poGeometry else none

/-- The left fold of the geometry-type merge over the types of the geometries,
starting from "no geometry". -/
def mergedGeometryType (env : Env) (geoms : List OGRGeometry) : Int :=
  geoms.foldl (fun acc g => env.OGRMergeGeometryTypesEx acc g.eGeometryType true) wkbNone

/-- The union of an extent (min X, max X, min Y, max Y; `none` for no extent)
with the envelope of a geometry: with no extent the envelope, otherwise the
minimum of the minima and the maximum of the maxima. -/
def unionExtent : Option (Coord × Coord × Coord × Coord) → OGRGeometry →
    Option (Coord × Coord × Coord × Coord)
  | none, g => some (g.MinX, g.MaxX, g.MinY, g.MaxY)
  | some (x0, x1, y0, y1), g =>
    some (min x0 g.MinX, max x1 g.MaxX, min y0 g.MinY, max y1 g.MaxY)

/-- The extent merged from the envelopes of those of the geometries that are
not empty, in order. -/
def mergedExtent (geoms : List OGRGeometry) : Option (Coord × Coord × Coord × Coord) :=
  (geoms.filter fun g => !g.bIsEmpty).foldl unionExtent none

/-- An extent with its X bounds and its Y bounds exchanged. -/
def swapXY (e : Coord × Coord × Coord × Coord) : Coord × Coord × Coord × Coord :=
  (e.2.2.1, e.2.2.2, e.1, e.2.1)

/-- Whether the axis-order normalization after the scan exchanges the X and Y
bounds of the extents, in the words of the specification: the caller asked for
the normalization, the registry-wide SRS applies, it declares latitude /
longitude order, and it can be imported. -/
def swapsExtent (env : Env) (r : GMLReader) : Bool :=
  r.m_bCanUseGlobalSRSName && r.m_bInvertAxisOrderIfLatLong &&
    env.GML_IsSRSLatLongOrder r.m_pszGlobalSRSName &&
    env.SetFromUserInput r.m_pszGlobalSRSName

/-! ### Views of the reader used to compare two scans -/

/-- The reader with the fields reset that the event handler writes through
`PushState`, `PopState`, `PushFeature` and `SetFeaturePropertyDirectly`: the
registry, the chain of states, the recycled state and the completed features.
Two readers with the same frame differ in these fields only. -/
def handlerFrame (r : GMLReader) : GMLReader :=
  { r with
    m_papoClass := [], m_bLookForClassAtAnyLevel := false, m_poState := [],
    m_poRecycledState := none, m_poCompleteFeature := none, ppoFeatureTab := [],
    nFeatureTabLength := 0 }

/-- The part of the reader that `PrescanForSchema`, its loop and the handler
calls read in order to build the registry; every other field is reset. -/
def scanView (r : GMLReader) : GMLReader :=
  { m_papoClass := r.m_papoClass,
    m_bLookForClassAtAnyLevel := r.m_bLookForClassAtAnyLevel,
    m_bClassListLocked := r.m_bClassListLocked,
    m_poState := r.m_poState,
    m_poRecycledState := r.m_poRecycledState,
    m_bStopParsing := r.m_bStopParsing,
    m_nHasSequentialLayers := r.m_nHasSequentialLayers,
    m_bSetWidthFlag := r.m_bSetWidthFlag,
    m_bIsWFSJointLayer := r.m_bIsWFSJointLayer,
    m_bInvertAxisOrderIfLatLong := r.m_bInvertAxisOrderIfLatLong,
    m_pszGlobalSRSName := r.m_pszGlobalSRSName,
    m_bCanUseGlobalSRSName := r.m_bCanUseGlobalSRSName,
    m_pszFilename := r.m_pszFilename,
    bUseExpatReader := r.bUseExpatReader }

/-- The part of the scan view that setting up and cleaning up the parser leave
alone: the scan view without the chain of states and the recycled state. -/
def scanConfig (r : GMLReader) : GMLReader :=
  { scanView r with m_poState := [], m_poRecycledState := none }

end GMLReader

/-! ## The calls of the handler while a buffer is parsed -/

/-- The C library function `atoi` on a string: white space is skipped, an
optional sign is read, and the digits that follow give the value (0 when
there is none).  The result is `none` when the value is not representable as
an `int` (the behaviour is then undefined). -/
def atoi (s : CStr) : Option Int :=
  let s := s.dropWhile fun c => c == ' ' || c == '\t' || c == '\n' || c == '\x0b' ||
    c == '\x0c' || c == '\r'
  let neg := s.head? == some '-'
  let s := if s.head? == some '-' || s.head? == some '+' then s.tail else s
  let digits := s.takeWhile Char.isDigit
  let v : Int := (digits.foldl (fun acc c => 10 * acc + (c.toNat - '0'.toNat)) 0 : Nat)
  let v := if neg then -v else v
  if v < -2147483648 ∨ v > INT_MAX then none else some v

/-- The text that the conversion `%d` of `CPLSPrintf` prints for an `int`. -/
def printInt (v : Int) : CStr :=
  if v < 0 then '-' :: (Nat.repr v.natAbs).toList else (Nat.repr v.toNat).toList

namespace GMLReader

/-- Lines 1559-1576 of `SetGlobalSRSName`: the name that is stored for the
name given.  The result is `none` when `atoi` is undefined. -/
def storedGlobalSRSName (bConsiderEPSGAsURN : Bool) (pszGlobalSRSName : CStr) : Option CStr :=
  if STARTS_WITH pszGlobalSRSName "EPSG:".toList ∧
      (strstr pszGlobalSRSName ", EPSG:".toList).isSome then
    match strstr pszGlobalSRSName ", EPSG:".toList with
    | none => none -- not reached
    | some iPos =>
      match atoi (pszGlobalSRSName.drop 5), atoi (pszGlobalSRSName.drop (iPos + 7)) with
      | some a, some b => some ("EPSG:".toList ++ printInt a ++ "+".toList ++ printInt b)
      | _, _ => none
  else if STARTS_WITH pszGlobalSRSName "EPSG:".toList ∧ bConsiderEPSGAsURN then
    some ("urn:ogc:def:crs:EPSG::".toList ++ pszGlobalSRSName.drop 5)
  else
    some pszGlobalSRSName

/-- `GMLReader::SetGlobalSRSName` (gmlreader.cpp 1555-1577).  The result is
`none` when `atoi` is undefined. -/
def SetGlobalSRSName (r : GMLReader) (pszGlobalSRSName : Option CStr) : Option GMLReader :=
  match r.m_pszGlobalSRSName, pszGlobalSRSName with
  | none, some name =>
    (storedGlobalSRSName r.m_bConsiderEPSGAsURN name).map fun v =>
      { r with m_pszGlobalSRSName := some v }
  | _, _ => some r

/-- A call that the event handler makes on the reader while input is parsed,
on the part of the interface of gmlreaderp.h that is there for the handler
(lines 510-540): a call that builds features and grows the schema, an update
through the pointer returned by `GetState()` (path changes, edits of the
feature in progress), or `SetGlobalSRSName`. -/
inductive ParseCall
  | schema (c : SchemaCall)
  | GetState (poState : GMLReadState)
  | SetGlobalSRSName (pszGlobalSRSName : Option CStr)
  deriving DecidableEq, Repr

/-- The reader after one call of the handler; `none` when the call is
undefined. -/
def applyParseCall (env : Env) (fuel : Nat) (r : GMLReader) : ParseCall → Option GMLReader
  | ParseCall.schema c => applySchemaCall env fuel r c
  | ParseCall.GetState poState => some (r.applyCall (HandlerCall.GetState poState))
  | ParseCall.SetGlobalSRSName pszGlobalSRSName => r.SetGlobalSRSName pszGlobalSRSName

/-- The reader after a sequence of calls of the handler. -/
def runParseCalls (env : Env) (fuel : Nat) : GMLReader → List ParseCall → Option GMLReader
  | r, [] => some r
  | r, c :: cs => (applyParseCall env fuel r c).bind fun r2 => runParseCalls env fuel r2 cs

end GMLReader

/-- The collaborators of a prescan that are outside the embedded code.  The
event handler (gmlhandler.cpp) is an object with a state of its own, of type
`σ`: `newHandler` is the handler that `SetupParserExpat` (line 418) and
`SetupParserXerces` (line 349) construct, and `expatCalls`, `xercesCalls` give
the handler after a buffer (Expat) or a progressive step (Xerces) is parsed and
the calls that it makes on the reader meanwhile, as a function of the handler,
of the reader when the parse of the buffer or step begins, and of the input.
`GML_BuildOGRGeometryFromList` (NULL when no geometry can be built) is given
the geometry list, `m_bInvertAxisOrderIfLatLong` and `m_bConsiderEPSGAsURN`
(its other arguments are constants, a cache made for the one scan, and
settings that only the constructor writes), `GML_ExtractSrsNameFromGeometry`
the geometry list and `m_bConsiderEPSGAsURN`. -/
structure Collaborators (σ : Type) where
  newHandler : σ
  expatCalls : σ → GMLReader → ExpatChunk → σ × List GMLReader.ParseCall
  xercesCalls : σ → GMLReader → XercesToken → σ × List GMLReader.ParseCall
  GML_BuildOGRGeometryFromList : List CStr → Bool → Bool → Option OGRGeometry
  GML_ExtractSrsNameFromGeometry : List CStr → Bool → Option CStr

/-! ### The prescan on a document

`PrescanForSchema` with the calls of `NextFeature` that it makes, the parsers
running the handler on the buffers of the document.  The handler object is
carried next to the reader. -/

namespace Scan
open GMLReader

/-- `GMLReader::SetupParser` (gmlreader.cpp 271-306) with the handler object: a
set-up that succeeds has constructed a new handler (lines 349 and 418); after
one that fails, a handler that is left is the one from before. -/
def SetupParser {σ : Type} (env : Env) (co : Collaborators σ) (h : σ) (r : GMLReader) :
    Bool × σ × GMLReader :=
  let br := r.SetupParser env
  (br.1, if br.1 then co.newHandler else h, br.2)

/-- The body of the `do ... while` loop of `NextFeatureExpat` (gmlreader.cpp
624-648), with the calls that the handler makes on the reader while
`XML_Parse` runs on the buffer `c`.  The result is `none` when one of these
calls is undefined. -/
def expatParseStep {σ : Type} (env : Env) (fuel : Nat) (co : Collaborators σ) (fp : VSILFILE)
    (c : ExpatChunk) (rest : List ExpatChunk) (h : σ) (r : GMLReader) :
    Option (σ × GMLReader) :=
  -- VSIFReadL
  let r := { r with fpGML := some { fp with rest := rest } }
  -- XML_Parse
  let hc := co.expatCalls h r c
  match runParseCalls env fuel r hc.2 with
  | none => none
  | some r =>
    let r := if c.bStatusError then { r with m_bStopParsing := true } else r
    some (hc.1, if !r.m_bStopParsing then { r with m_bStopParsing := c.bHasStoppedParsing }
      else r)

/-- The `do ... while` loop of `NextFeatureExpat` (gmlreader.cpp 622-650) on
the buffer `c` that the next `VSIFReadL` delivers and the buffers `rest`
behind it.  The result is `none` when the handler or the parser object is
missing or a call of the handler is undefined. -/
def expatParseLoop {σ : Type} (env : Env) (fuel : Nat) (co : Collaborators σ) (fp : VSILFILE) :
    ExpatChunk → List ExpatChunk → σ → GMLReader → Option (σ × GMLReader)
  | c, rest, h, r =>
    if !r.m_poGMLHandler || !r.oParser then none
    else
      match expatParseStep env fuel co fp c rest h r with
      | none => none
      | some hr =>
        match rest with
        | [] => some hr
        | c2 :: rest2 =>
          if !hr.2.m_bStopParsing && hr.2.nFeatureTabLength == 0 then
            expatParseLoop env fuel co fp c2 rest2 hr.1 hr.2
          else some hr

/-- Lines 599-605 of `NextFeatureExpat` with the handler object: the parser is
set up on the first call. -/
def expatStart {σ : Type} (env : Env) (co : Collaborators σ) (h : σ) (r : GMLReader) : σ × GMLReader :=
  if !r.m_bReadStarted then
    let hr := if !r.oParser then (SetupParser env co h r).2 else (h, r)
    (hr.1, { hr.2 with m_bReadStarted := true })
  else (h, r)

/-- The statement `return ppoFeatureTab[nFeatureTabIndex++];` of
`NextFeatureExpat` (lines 612 and 652); `none` for a read outside the
table. -/
def deliver {σ : Type} (h : σ) (r : GMLReader) : Option (Option GMLFeature × σ × GMLReader) :=
  match r.ppoFeatureTab[r.nFeatureTabIndex]? with
  | some f => some (some f, h, { r with nFeatureTabIndex := r.nFeatureTabIndex + 1 })
  | none => none

/-- Lines 618-619 of `NextFeatureExpat`: the table of features is emptied. -/
def clearFeatureTab (r : GMLReader) : GMLReader :=
  { r with nFeatureTabLength := 0, nFeatureTabIndex := 0 }

/-- Lines 607-652 of `NextFeatureExpat`, what follows the set-up of the first
call, with the calls of the handler on the reader. -/
def expatRead {σ : Type} (env : Env) (fuel : Nat) (co : Collaborators σ) (h : σ)
    (r : GMLReader) : Option (Option GMLFeature × σ × GMLReader) :=
  match r.fpGML with
  | none => some (none, h, r)
  | some fp =>
    if r.m_bStopParsing then some (none, h, r)
    else if r.nFeatureTabIndex < r.nFeatureTabLength then deliver h r
    else
      match fp.rest with
      | [] => some (none, h, r)
      | c :: rest =>
        match expatParseLoop env fuel co fp c rest h (clearFeatureTab r) with
        | none => none
        | some hr => if hr.2.nFeatureTabLength ≠ 0 then deliver hr.1 hr.2 else some (none, hr)

/-- `GMLReader::NextFeatureExpat` (gmlreader.cpp 596-653) with the calls of
the handler on the reader.  The outer `Option` is `none` for undefined
behaviour; the first component of the result is the returned
`GMLFeature*`. -/
def NextFeatureExpat {σ : Type} (env : Env) (fuel : Nat) (co : Collaborators σ) (h : σ)
    (r : GMLReader) : Option (Option GMLFeature × σ × GMLReader) :=
  let hr := expatStart env co h r
  expatRead env fuel co hr.1 hr.2

/-- The loop `while( m_poCompleteFeature == NULL && !m_bStopParsing &&
m_poSAXReader->parseNext( m_oToFill ) ) {}` of `NextFeatureXerces` with the
calls of the handler on the reader; the flag tells whether an exception left
the loop, and the result is `none` when a call of the handler is undefined. -/
def xercesParseLoop {σ : Type} (env : Env) (fuel : Nat) (co : Collaborators σ) :
    List XercesToken → σ → GMLReader → Option (σ × GMLReader × Bool)
  | [], h, r => some (h, r, false)
  | t :: ts, h, r =>
    if r.m_poCompleteFeature.isNone && !r.m_bStopParsing then
      let r := { r with m_poSAXReader := some ts }
      let hc := co.xercesCalls h r t
      match runParseCalls env fuel r hc.2 with
      | none => none
      | some r =>
        match t.result with
        | XercesResult.more => xercesParseLoop env fuel co ts hc.1 r
        | XercesResult.finished => some (hc.1, r, false)
        | XercesResult.throwsXMLException => some (hc.1, r, true)
        | XercesResult.throwsSAXException => some (hc.1, r, true)
    else some (h, r, false)

/-- Lines 549-561 of `NextFeatureXerces` with the handler object (see
`GMLReader.xercesStart`). -/
def xercesStart {σ : Type} (env : Env) (co : Collaborators σ) (h : σ) (r : GMLReader) :
    TryResult × σ × GMLReader :=
  let h := if !r.m_bReadStarted && r.m_poSAXReader.isNone then (SetupParser env co h r).2.1
    else h
  ((r.xercesStart env).1, h, (r.xercesStart env).2)

/-- The statement `m_bStopParsing = true;` of the handlers of exceptions of
`NextFeatureXerces` (lines 581 and 588). -/
def stopParsing (r : GMLReader) : GMLReader :=
  { r with m_bStopParsing := true }

/-- Lines 563-571 of `NextFeatureXerces`, what follows the set-up of the first
call, with the calls of the handler on the reader and the handlers of
exceptions. -/
def xercesRead {σ : Type} (env : Env) (fuel : Nat) (co : Collaborators σ) (h : σ)
    (r : GMLReader) : Option (Option GMLFeature × σ × GMLReader) :=
  if r.m_poCompleteFeature.isNone && !r.m_bStopParsing then
    match r.m_poSAXReader with
    | none => none
    | some toks =>
      match xercesParseLoop env fuel co toks h r with
      | none => none
      | some lr =>
        if lr.2.2 then some (none, lr.1, stopParsing lr.2.1)
        else some (lr.2.1.xercesReturn.1, lr.1, lr.2.1.xercesReturn.2)
  else some (r.xercesReturn.1, h, r.xercesReturn.2)

/-- `GMLReader::NextFeatureXerces` (gmlreader.cpp 539-592) with the calls of
the handler on the reader. -/
def NextFeatureXerces {σ : Type} (env : Env) (fuel : Nat) (co : Collaborators σ) (h : σ)
    (r : GMLReader) : Option (Option GMLFeature × σ × GMLReader) :=
  if r.m_bEOF then some (none, h, r)
  else
    match xercesStart env co h r with
    | (TryResult.returnedNull, h, r) => some (none, h, r)
    | (TryResult.caught, h, r) => some (none, h, stopParsing r)
    | (TryResult.completed, h, r) => xercesRead env fuel co h r

/-- `GMLReader::NextFeature` (gmlreader.cpp 656-670) with the calls of the
handler on the reader. -/
def NextFeature {σ : Type} (env : Env) (fuel : Nat) (co : Collaborators σ) (h : σ) (r : GMLReader) :
    Option (Option GMLFeature × σ × GMLReader) :=
  if r.bUseExpatReader then NextFeatureExpat env fuel co h r
  else NextFeatureXerces env fuel co h r

/-- What the body of the loop of `PrescanForSchema` looks at for a feature
that `NextFeature` returned: the feature and what the geometry collaborators
make of its geometry list (lines 1423-1428 and 1440-1442). -/
def stepOf {σ : Type} (co : Collaborators σ) (r : GMLReader) (poFeature : GMLFeature) : PrescanStep :=
  { poFeature := poFeature,
    poGeometry := poFeature.m_papsGeometry.bind fun papsGeometry =>
      co.GML_BuildOGRGeometryFromList papsGeometry r.m_bInvertAxisOrderIfLatLong
        r.m_bConsiderEPSGAsURN,
    pszSRSName := poFeature.m_papsGeometry.bind fun papsGeometry =>
      co.GML_ExtractSrsNameFromGeometry papsGeometry r.m_bConsiderEPSGAsURN }

/-- The loop `while( (poFeature = NextFeature()) != NULL )` of
`PrescanForSchema` (gmlreader.cpp 1399-1483), for at most `n` calls of
`NextFeature`; `poLastClass` is the index of the class of the feature before
(`none` for NULL).  The result is `none` when the loop is undefined (see
`prescanFeature`; the class pointer of a feature dangles) or has not ended
after `n` calls. -/
def prescanLoop {σ : Type} (env : Env) (fuel : Nat) (co : Collaborators σ)
    (bGetExtents bAnalyzeSRSPerFeature bOnlyDetectSRS : Bool) :
    Nat → σ → GMLReader → Option Nat → Option GMLReader
  | 0, _, _, _ => none
  | n + 1, h, r, poLastClass =>
    match NextFeature env fuel co h r with
    | none => none
    | some (none, _, r) => some r
    | some (some poFeature, h, r) =>
      match r.m_papoClass[poFeature.m_poClass]? with
      | none => none
      | some poClass =>
        match prescanFeature env bGetExtents bAnalyzeSRSPerFeature bOnlyDetectSRS r poLastClass
            (stepOf co r poFeature) poFeature.m_poClass poClass with
        | none => none
        | some r =>
          prescanLoop env fuel co bGetExtents bAnalyzeSRSPerFeature bOnlyDetectSRS n h r
            (some poFeature.m_poClass)

/-- `GMLReader::PrescanForSchema` (gmlreader.cpp 1370-1538) on the document of
the reader, for at most `n` calls of `NextFeature`.  The handler that the
reader may have is deleted by `SetupParser` or never used, and the handler of
the scan is deleted by `CleanupParser`, so the scan neither takes nor leaves a
handler. -/
def PrescanForSchema {σ : Type} (env : Env) (fuel : Nat) (co : Collaborators σ) (n : Nat) (r : GMLReader)
    (bGetExtents bAnalyzeSRSPerFeature bOnlyDetectSRS : Bool) : Option (Bool × GMLReader) :=
  if r.m_pszFilename.isNone then some (false, r)
  else
    let start := prescanStart env r bOnlyDetectSRS
    if !start.1 then some (false, start.2)
    else
      match prescanLoop env fuel co bGetExtents bAnalyzeSRSPerFeature bOnlyDetectSRS n
          co.newHandler start.2 none with
      | none => none
      | some r =>
        let r : GMLReader :=
          { r with m_papoClass := r.m_papoClass.map (normalizeSRS env bAnalyzeSRSPerFeature r) }
        some (true, r.CleanupParser)

end Scan

namespace GMLReader

/-- The reader with another registry-wide SRS name and another count of
Xerces instances. -/
def rebase (G : Option CStr) (k : Int) (r : GMLReader) : GMLReader :=
  { r with m_pszGlobalSRSName := G, m_nInstanceCount := k }

/-- The parse fields of a reader as the constructor and `CleanupParser` leave
them: no parser object, no handler, no input source, no feature buffered or
complete, no read state, reading not started. -/
def parserAtRest (r : GMLReader) : Prop :=
  r.m_poSAXReader = none ∧ r.m_GMLInputSource = none ∧ r.m_poCompleteFeature = none ∧
  r.m_bEOF = false ∧ r.oParser = false ∧ r.ppoFeatureTab = [] ∧ r.nFeatureTabIndex = 0 ∧
  r.nFeatureTabLength = 0 ∧ r.m_poGMLHandler = false ∧ r.m_bReadStarted = false ∧
  r.m_poState = []

/-- The parser object of the parser that the reader uses exists. -/
def hasParser (r : GMLReader) : Bool :=
  if r.bUseExpatReader then r.oParser else r.m_poSAXReader.isSome

/-- The read states and the buffered features of the reader belong to a
parser: either the parser object exists (`SetupParser` then cleans up), or the
parse fields are at rest; and a recycled read state is reset. -/
def parseStateOwned (r : GMLReader) : Prop :=
  (r.hasParser = true ∨ r.parserAtRest) ∧
  (r.m_poRecycledState = none ∨ r.m_poRecycledState = some {})

/-- The reader with the fields reset that a scan writes once the parser is set
up: the fields that the handler writes (see `handlerFrame`), the position in
the input, the flags of the reading, the stop flag, and the flags and the SRS
name that the scan collects.  Two readers with the same frame differ in these
fields only. -/
def scanFrame (r : GMLReader) : GMLReader :=
  { handlerFrame r with
    m_poSAXReader := r.m_poSAXReader.map fun _ => [],
    m_bEOF := false, nFeatureTabIndex := 0,
    fpGML := r.fpGML.map VSIFSeekL0,
    m_bReadStarted := false, m_bStopParsing := false,
    m_nHasSequentialLayers := 0, m_pszGlobalSRSName := none, m_bCanUseGlobalSRSName := false }

/-- The registry-wide SRS name `G` is the one that the reader has or can
still be given: the name of the reader is NULL or `G`. -/
def admitsGlobalSRSName (r : GMLReader) (G : Option CStr) : Prop :=
  r.m_pszGlobalSRSName = none ∨ r.m_pszGlobalSRSName = G

/-- The settings of the reader that a scan reads and that neither the scan
nor the handler writes once the parser is set up. -/
def scanInputs (r : GMLReader) :
    OGRGMLXercesState × Int × Option CStr × Bool × Option CStr × Int × Bool × Bool × Bool ×
      Bool :=
  (r.m_eXercesInitState, r.m_nInstanceCount, r.m_pszFilename, r.bUseExpatReader,
    r.m_pszFilteredClassName, r.m_nFilteredClassIndex, r.m_bSetWidthFlag,
    r.m_bIsWFSJointLayer, r.m_bInvertAxisOrderIfLatLong, r.m_bConsiderEPSGAsURN)

/-- From `r` to `r2` a registry-wide SRS name that is set is kept, and a
recycled read state stays reset when it is reset or absent. -/
def advances (r r2 : GMLReader) : Prop :=
  (∀ x, r.m_pszGlobalSRSName = some x → r2.m_pszGlobalSRSName = some x) ∧
  ((r.m_poRecycledState = none ∨ r.m_poRecycledState = some {}) →
    (r2.m_poRecycledState = none ∨ r2.m_poRecycledState = some {}))

/-- The handler does not read the registry-wide SRS name and the count of
Xerces instances of the reader: its calls are the same on a reader that
differs in them. -/
def handlerBlind {σ : Type} (co : Collaborators σ) : Prop :=
  ∀ (G : Option CStr) (k : Int) (h : σ) (r : GMLReader),
    (∀ c, co.expatCalls h (rebase G k r) c = co.expatCalls h r c) ∧
    (∀ t, co.xercesCalls h (rebase G k r) t = co.xercesCalls h r t)

end GMLReader

/-! ## Sample data -/

/-- A feature of class 0 with feature id `a`. -/
def sampleFeatureA : GMLFeature := { m_poClass := 0, m_pszFID := some "a".toList }

/-- A feature of class 0 with feature id `b`. -/
def sampleFeatureB : GMLFeature := { m_poClass := 0, m_pszFID := some "b".toList }

/-- A document read in three buffers: the first completes feature `a` and
opens feature `b`, the second completes nothing, the third completes `b` and
closes the outermost state. -/
def sampleDocument : Document :=
  { chunks := [
      { calls := [HandlerCall.PushState { m_poFeature := some sampleFeatureA },
                  HandlerCall.PopState,
                  HandlerCall.PushState { m_poFeature := some sampleFeatureB }] },
      { calls := [] },
      { calls := [HandlerCall.PopState, HandlerCall.PopState] }] }

/-- A document read in one buffer in which the features `a` and `b` are
completed before `XML_Parse` reports a syntax error. -/
def brokenDocument : Document :=
  { chunks := [
      { calls := [HandlerCall.PushState { m_poFeature := some sampleFeatureA },
                  HandlerCall.PopState,
                  HandlerCall.PushState { m_poFeature := some sampleFeatureB },
                  HandlerCall.PopState],
        bStatusError := true }] }

/-- A document whose first Xerces parse step opens feature `a` and then raises
a `SAXException`. -/
def throwingDocument : Document :=
  { tokens := [
      { calls := [HandlerCall.PushState { m_poFeature := some sampleFeatureA }],
        result := XercesResult.throwsSAXException }] }

/-- Surroundings in which every file name opens the document `doc`. -/
def envOf (doc : Document) : Env := { VSIFOpenL := fun _ => some doc }

/-- A schema-locked class `City` with the properties `name` (source path
`name`) and `pop` (source path `stats|pop@year`). -/
def lockedCity : GMLFeatureClass :=
  { m_pszName := "City".toList,
    m_papoProperty := [
      { m_pszName := "name".toList, m_pszSrcElement := "name".toList },
      { m_pszName := "pop".toList, m_pszSrcElement := "stats|pop@year".toList }],
    m_bSchemaLocked := true }

/-- A read state inside a `City` feature, below the element `stats`. -/
def statsState : GMLReadState :=
  { m_poFeature := some { m_poClass := 0 },
    aosPathComponents := ["stats".toList], osPath := "stats".toList, m_nPathLength := 1 }

/-- A reader whose registry holds `lockedCity` and whose current state is
`statsState`. -/
def lockedCityReader : GMLReader :=
  { m_papoClass := [lockedCity], m_poState := [statsState] }

/-- A class `City` that is not schema-locked, with the one property `name`
(source path `name`). -/
def openCity : GMLFeatureClass :=
  { m_pszName := "City".toList,
    m_papoProperty := [{ m_pszName := "name".toList, m_pszSrcElement := "name".toList }] }

/-- A reader whose registry holds `openCity` and whose current state owns a
feature of that class. -/
def openCityReader : GMLReader :=
  { m_papoClass := [openCity], m_poState := [{ m_poFeature := some { m_poClass := 0 } }] }

/-- A class that is not schema-locked and already has the properties `id`
and `id_`. -/
def crowdedClass : GMLFeatureClass :=
  { m_pszName := "Parcel".toList,
    m_papoProperty := [{ m_pszName := "id".toList, m_pszSrcElement := "id".toList },
                       { m_pszName := "id_".toList, m_pszSrcElement := "owner|id".toList }] }

/-- A reader whose registry holds `crowdedClass` and whose current state owns
a feature of that class. -/
def crowdedReader : GMLReader :=
  { m_papoClass := [crowdedClass], m_poState := [{ m_poFeature := some { m_poClass := 0 } }] }

/-- A reader in the WFS joint-layer profile whose registry holds one class
without properties and whose current state owns a feature of that class. -/
def jointLayerReader : GMLReader :=
  { m_bIsWFSJointLayer := true,
    m_papoClass := [{ m_pszName := "join".toList }],
    m_poState := [{ m_poFeature := some { m_poClass := 0 } }] }

/-- The handler calls for one `City` feature whose element `name` occurs
twice, around an element `pop`. -/
def cityCalls : List GMLReader.SchemaCall :=
  [GMLReader.SchemaCall.PushFeature "City".toList none INT_MAX,
   GMLReader.SchemaCall.SetFeaturePropertyDirectly "name".toList "Ys".toList (-1)
     GMLPropertyType.GMLPT_Untyped,
   GMLReader.SchemaCall.SetFeaturePropertyDirectly "pop".toList "7".toList (-1)
     GMLPropertyType.GMLPT_Untyped,
   GMLReader.SchemaCall.SetFeaturePropertyDirectly "name".toList "Ys".toList (-1)
     GMLPropertyType.GMLPT_Untyped]

/-- Schema files with one file `city.gfs`, which lists the class `City` with
its property `name`. -/
def sampleSchemaFS : SchemaFS :=
  { VSIFOpenRb := fun p =>
      if p = "city.gfs".toList then
        some { text :=
          { bHasListTag := true,
            psRoot := some
              { eType := CPLXMLNodeType.CXT_Element,
                pszValue := "GMLFeatureClassList".toList,
                psChild :=
                  [{ eType := CPLXMLNodeType.CXT_Element,
                     pszValue := "GMLFeatureClass".toList,
                     record := some
                       { pszName := "City".toList,
                         properties :=
                           [{ m_pszName := "name".toList, m_pszSrcElement := "name".toList,
                              m_eType := GMLPropertyType.GMLPT_String }] } }] } } }
      else none }

/-- A registry of two classes found by a prescan: `City` with a string
property, a point geometry, two features, an extent and an SRS name, and
`Road` without properties. -/
def surveyedReader : GMLReader :=
  { m_nHasSequentialLayers := 1,
    m_papoClass :=
      [{ m_pszName := "City".toList,
         m_papoProperty :=
           [{ m_pszName := "name".toList, m_pszSrcElement := "name".toList,
              m_eType := GMLPropertyType.GMLPT_String }],
         m_nFeatureCount := 2,
         m_papoGeometryProperty := [{ m_nGeometryType := 1 }],
         m_bHaveExtents := true,
         m_dfXMin := 1, m_dfXMax := 5, m_dfYMin := 2, m_dfYMax := 7,
         m_pszSRSName := some "EPSG:4326".toList },
       { m_pszName := "Road".toList }] }

/-- The handler calls and the outcome of one `NextFeature()` call for a
feature with one `name` child and a point geometry at (x, y). -/
def pointStep (pszElement pszName : CStr) (iClass : Nat) (x y : Coord) :
    GMLReader.PrescanStep :=
  { calls :=
      [GMLReader.SchemaCall.PushFeature pszElement none INT_MAX,
       GMLReader.SchemaCall.SetFeaturePropertyDirectly "name".toList pszName (-1)
         GMLPropertyType.GMLPT_Untyped,
       GMLReader.SchemaCall.PopState],
    poFeature :=
      { m_poClass := iClass, m_papsProperty := [some pszName],
        m_papsGeometry := some ["<Point/>".toList] },
    poGeometry :=
      some { eGeometryType := wkbPoint, MinX := x, MaxX := x, MinY := y, MaxY := y } }

/-- A source with two `City` features. -/
def twoCities : GMLReader.PrescanStream :=
  { steps := [pointStep "City".toList "Ys".toList 0 1 2,
              pointStep "City".toList "Ur".toList 0 5 7] }

/-- A source in which a `Road` feature stands between two `City` features. -/
def interleaved : GMLReader.PrescanStream :=
  { steps := [pointStep "City".toList "Ys".toList 0 1 2,
              pointStep "Road".toList "A1".toList 1 3 3,
              pointStep "City".toList "Ur".toList 0 5 7] }

/-- A reader on the sample document. -/
def sampleReader : GMLReader := { m_pszFilename := some "sample.gml".toList }

/-- The reader after a full prescan with extents of the two `City` features
(`{}` stands in when the prescan is undefined). -/
def scannedCities : GMLReader :=
  ((GMLReader.PrescanForSchema (envOf sampleDocument) 3 twoCities sampleReader
    true false false).getD (false, {})).2

/-- The reader after a full prescan with extents of the interleaved source. -/
def scannedInterleaved : GMLReader :=
  ((GMLReader.PrescanForSchema (envOf sampleDocument) 3 interleaved sampleReader
    true false false).getD (false, {})).2

/-- A reader with a locked class list that holds the class `City`, reading
below a `featureMember` element. -/
def memberCityReader : GMLReader :=
  { m_bClassListLocked := true, m_papoClass := [{ m_pszName := "City".toList }],
    m_poState := [{ aosPathComponents := ["featureMember".toList],
                    osPath := "featureMember".toList, m_nPathLength := 1 }] }

/-- Schema files with one file `broken.gfs`: the record of the class `City`,
then a `GMLFeatureClass` element without a usable record, then the record of
the class `Road`. -/
def brokenSchemaFS : SchemaFS :=
  { VSIFOpenRb := fun p =>
      if p = "broken.gfs".toList then
        some { text :=
          { bHasListTag := true,
            psRoot := some
              { eType := CPLXMLNodeType.CXT_Element,
                pszValue := "GMLFeatureClassList".toList,
                psChild :=
                  [{ eType := CPLXMLNodeType.CXT_Element,
                     pszValue := "GMLFeatureClass".toList,
                     record := some { pszName := "City".toList } },
                   { eType := CPLXMLNodeType.CXT_Element,
                     pszValue := "GMLFeatureClass".toList },
                   { eType := CPLXMLNodeType.CXT_Element,
                     pszValue := "GMLFeatureClass".toList,
                     record := some { pszName := "Road".toList } }] } } }
      else none }

/-- The handler calls and the outcome of one `NextFeature()` call for a
feature with one `name` child and a line geometry with the given envelope. -/
def lineStep (pszElement pszName : CStr) (iClass : Nat) (x0 x1 y0 y1 : Coord) :
    GMLReader.PrescanStep :=
  { calls :=
      [GMLReader.SchemaCall.PushFeature pszElement none INT_MAX,
       GMLReader.SchemaCall.SetFeaturePropertyDirectly "name".toList pszName (-1)
         GMLPropertyType.GMLPT_Untyped,
       GMLReader.SchemaCall.PopState],
    poFeature :=
      { m_poClass := iClass, m_papsProperty := [some pszName],
        m_papsGeometry := some ["<LineString/>".toList] },
    poGeometry :=
      some { eGeometryType := wkbLineString, MinX := x0, MaxX := x1, MinY := y0, MaxY := y1 } }

/-- A source with two `City` features, the first with a point geometry and
the second with a line geometry. -/
def pointThenLine : GMLReader.PrescanStream :=
  { steps := [pointStep "City".toList "Ys".toList 0 1 2,
              lineStep "City".toList "Wall".toList 0 0 4 1 3] }

/-- The reader after a full prescan with extents of the source with a point
and a line (`{}` stands in when the prescan is undefined). -/
def scannedPointThenLine : GMLReader :=
  ((GMLReader.PrescanForSchema (envOf sampleDocument) 3 pointThenLine sampleReader
    true false false).getD (false, {})).2

/-- A source with one `City` feature behind which the parser meets an error:
the `NextFeature()` call after the feature sets `m_bStopParsing` and returns
NULL. -/
def stoppedCities : GMLReader.PrescanStream :=
  { steps := [pointStep "City".toList "Ys".toList 0 1 2], bStopParsing := true }

/-- The reader after a full prescan with extents of the source that ends in
an error. -/
def scannedStopped : GMLReader :=
  ((GMLReader.PrescanForSchema (envOf sampleDocument) 3 stoppedCities sampleReader
    true false false).getD (false, {})).2

/-- The calls of a handler for a feature `City` with the child `name` and a
point geometry: the feature is pushed with the class index that
`GetFeatureElementIndex` gives for a registry that holds the class already
(the index 0) or not yet (`INT_MAX`), the property is set, the geometry is
attached to the feature through the state, and the state is popped. -/
def cityCallsOn (r : GMLReader) (pszName pszGeometry : CStr) : List GMLReader.ParseCall :=
  [GMLReader.ParseCall.schema (GMLReader.SchemaCall.PushFeature "City".toList none
     (if r.m_papoClass.isEmpty then INT_MAX else 0)),
   GMLReader.ParseCall.schema (GMLReader.SchemaCall.SetFeaturePropertyDirectly "name".toList
     pszName (-1) GMLPropertyType.GMLPT_Untyped),
   GMLReader.ParseCall.GetState
     { m_poFeature := some { m_poClass := 0, m_papsProperty := [some pszName],
                             m_papsGeometry := some [pszGeometry] } },
   GMLReader.ParseCall.schema GMLReader.SchemaCall.PopState]

/-- A handler that counts the buffers and steps it has seen: on the first it
reports the SRS name of the envelope of the collection and a first `City`
feature, on the second a second `City` feature, and nothing afterwards.  The
geometry collaborator builds the points (1, 2) and (5, 7). -/
def cityHandler : Collaborators Nat :=
  { newHandler := 0,
    expatCalls := fun h r _ =>
      (h + 1,
        match h with
        | 0 => GMLReader.ParseCall.SetGlobalSRSName (some "EPSG:4326".toList) ::
            cityCallsOn r "Ys".toList "1 2".toList
        | 1 => cityCallsOn r "Ur".toList "5 7".toList
        | _ => []),
    xercesCalls := fun h r _ =>
      (h + 1,
        match h with
        | 0 => GMLReader.ParseCall.SetGlobalSRSName (some "EPSG:4326".toList) ::
            cityCallsOn r "Ys".toList "1 2".toList
        | 1 => cityCallsOn r "Ur".toList "5 7".toList
        | _ => []),
    GML_BuildOGRGeometryFromList := fun papsGeometry _ _ =>
      if papsGeometry = ["1 2".toList] then
        some { eGeometryType := wkbPoint, MinX := 1, MaxX := 1, MinY := 2, MaxY := 2 }
      else if papsGeometry = ["5 7".toList] then
        some { eGeometryType := wkbPoint, MinX := 5, MaxX := 5, MinY := 7, MaxY := 7 }
      else none,
    GML_ExtractSrsNameFromGeometry := fun _ _ => none }

/-- A document that the Expat parser reads in three buffers and the Xerces
parser in three steps. -/
def threeBuffers : Document :=
  { chunks := [{}, {}, {}], tokens := [{}, {}, { result := XercesResult.finished }] }

/-- A document of two buffers in the second of which `XML_Parse` reports an
error. -/
def brokenBuffers : Document :=
  { chunks := [{}, { bStatusError := true }] }

/-- The reader after a full prescan with extents of `threeBuffers` by the
Expat parser (`{}` stands in when the prescan is undefined). -/
def scannedBuffers : GMLReader :=
  ((Scan.PrescanForSchema (envOf threeBuffers) 3 cityHandler 5 sampleReader
    true false false).getD (false, {})).2

/-- A reader on the sample document that uses the Xerces parser. -/
def xercesSampleReader : GMLReader :=
  { m_pszFilename := some "sample.gml".toList, bUseExpatReader := false }

/-- The reader after a full prescan with extents of `threeBuffers` by the
Xerces parser. -/
def scannedByXerces : GMLReader :=
  ((Scan.PrescanForSchema (envOf threeBuffers) 3 cityHandler 5 xercesSampleReader
    true false false).getD (false, {})).2

/-- The reader after a full prescan with extents of `brokenBuffers`. -/
def scannedBroken : GMLReader :=
  ((Scan.PrescanForSchema (envOf brokenBuffers) 3 cityHandler 5 sampleReader
    true false false).getD (false, {})).2

end GML

/-!
# Interlis 1 layer (`ogr/ogrsf_frmts/ili/ogrili1layer.cpp`): the TID of a written feature

`OGRILI1Layer::ICreateFeature` numbers the objects it writes with the
function-local `static long tid`.  The counter is passed in and out
explicitly; the transfer file is represented by the TIDs written to it.
-/

namespace ILI1

/-- The constant `OGRNullFID`. -/
def OGRNullFID : Int := -1

/-- The C conversion `(int)` of a 64-bit `GIntBig`: the value modulo 2^32 in
the range of `int`. -/
def toInt (x : Int) : Int := (x + 2147483648) % 4294967296 - 2147483648

/-- The feature handed to `ICreateFeature`, as far as the TID depends on it:
its FID (`GetFID()`, `OGRNullFID` when it has none). -/
structure OGRFeature where
  nFID : Int := -1
  deriving DecidableEq, Repr

namespace OGRILI1Layer

/-- Lines 345-361 of `OGRILI1Layer::ICreateFeature` for a layer whose fields
have the names `fieldNames`: the counter `tid` after the call and the TID
written behind `OBJE` (`none` when the first field is named `TID` or there is
no field, and no TID is written).  `long` is taken at 64 bits, which the
counter does not exceed. -/
def ICreateFeature (fieldNames : List GML.CStr) (tid : Int) (poFeature : OGRFeature) :
    Int × Option Int :=
  match fieldNames with
  | [] => (tid, none)
  | pszName0 :: _ =>
    if !GML.EQUAL pszName0 "TID".toList then
      -- Input is not generated from an Interlis 1 source
      let tid := if poFeature.nFID ≠ OGRNullFID then toInt poFeature.nFID else tid + 1
      (tid, some tid)
    else (tid, none)

/-- The TIDs written by successive `ICreateFeature` calls on one layer,
starting with the counter at `tid`. -/
def writtenTIDs (fieldNames : List GML.CStr) : Int → List OGRFeature → List (Option Int)
  | _, [] => []
  | tid, poFeature :: rest =>
    (ICreateFeature fieldNames tid poFeature).2 ::
      writtenTIDs fieldNames (ICreateFeature fieldNames tid poFeature).1 rest

end OGRILI1Layer

end ILI1

/-! ## Lemmas on the string and loop primitives -/

namespace GML

theorem EQUAL_length {a b : CStr} (h : EQUAL a b = true) : a.length = b.length := by
  unfold EQUAL at h
  have h2 : a.map Char.toUpper = b.map Char.toUpper := by simpa using h
  have h3 := congrArg List.length h2
  simpa using h3

theorem firstIndexFrom_cases {α : Type} (p : α → Bool) (l : List α) (k : Nat) :
    (firstIndexFrom p l k = -1 ∧ ∀ x ∈ l, p x = false) ∨
    ∃ j c, l[j]? = some c ∧ p c = true ∧ firstIndexFrom p l k = ((k + j : Nat) : Int) ∧
      ∀ j2 c2, j2 < j → l[j2]? = some c2 → p c2 = false := by
  induction l generalizing k with
  | nil => left; simp [firstIndexFrom]
  | cons x xs ih =>
    by_cases hx : p x = true
    · right
      refine ⟨0, x, by simp, hx, by simp [firstIndexFrom, hx], ?_⟩
      intro j2 c2 h; omega
    · have hx2 : p x = false := by simpa using hx
      rcases ih (k + 1) with ⟨h1, h2⟩ | ⟨j, c, h1, h2, h3, h4⟩
      · left
        refine ⟨by simp [firstIndexFrom, hx2, h1], ?_⟩
        intro y hy
        rcases List.mem_cons.mp hy with rfl | hy
        · exact hx2
        · exact h2 y hy
      · right
        refine ⟨j + 1, c, by simpa using h1, h2, ?_, ?_⟩
        · simp only [firstIndexFrom, hx2, Bool.false_eq_true, if_false, h3]
          congr 1; omega
        · intro j2 c2 hlt hget
          cases j2 with
          | zero => simp at hget; subst hget; exact hx2
          | succ j3 => exact h4 j3 c2 (by omega) (by simpa using hget)

theorem GMLReadState.GetLastComponentLen_eq (s : GMLReadState) :
    s.GetLastComponentLen = s.GetLastComponent.length := by
  unfold GMLReadState.GetLastComponentLen GMLReadState.GetLastComponent
  split <;> simp

end GML

/-! ## Feature-introduction decision (`GetFeatureElementIndex`) -/

namespace GML
open GMLReader

theorem drop_suffix_of_EQUAL (pre : CStr) {suf lit : CStr} (h : EQUAL suf lit = true) :
    (pre ++ suf).drop ((pre ++ suf).length - lit.length) = suf := by
  have hl := EQUAL_length h
  have : (pre ++ suf).length - lit.length = pre.length := by simp [hl]
  rw [this]; simp

/-- C4: with the class list unlocked and a profile other than MTKGML, when the
last path component of the current state ends, ignoring case, with "member" or
"members", `GetFeatureElementIndex` answers the new-feature marker `INT_MAX`
for every element name (and every length argument). -/
theorem GetFeatureElementIndex_member_unlocked (r : GMLReader) (st : GMLReadState)
    (rest : List GMLReadState) (pszElement : CStr) (nElementLength : Nat)
    (eAppSchemaType : GMLAppSchemaType) (pre suf : CStr)
    (hstate : r.m_poState = st :: rest)
    (hunlocked : r.m_bClassListLocked = false)
    (hprofile : eAppSchemaType ≠ GMLAppSchemaType.APPSCHEMA_MTKGML)
    (hlast : st.GetLastComponent = pre ++ suf)
    (hsuf : EQUAL suf "member".toList = true ∨ EQUAL suf "members".toList = true) :
    r.GetFeatureElementIndex pszElement nElementLength eAppSchemaType = some INT_MAX := by
  have hlen := st.GetLastComponentLen_eq
  have hcond : ((decide (st.GetLastComponentLen ≥ 6) &&
        EQUAL (st.GetLastComponent.drop (st.GetLastComponentLen - 6)) "member".toList) ||
      (decide (st.GetLastComponentLen ≥ 7) &&
        EQUAL (st.GetLastComponent.drop (st.GetLastComponentLen - 7)) "members".toList)) = true := by
    rcases hsuf with h | h
    · have hd := drop_suffix_of_EQUAL pre h
      have hl := EQUAL_length h
      rw [← hlast] at hd
      have h6 : st.GetLastComponentLen ≥ 6 := by
        rw [hlen, hlast]; simp [hl]
      have hd2 : EQUAL (st.GetLastComponent.drop (st.GetLastComponentLen - 6))
          "member".toList = true := by
        rw [hlen]; rw [show (6 : Nat) = "member".toList.length from rfl, hd]; exact h
      rw [hd2, decide_eq_true h6]; rfl
    · have hd := drop_suffix_of_EQUAL pre h
      have hl := EQUAL_length h
      rw [← hlast] at hd
      have h7 : st.GetLastComponentLen ≥ 7 := by
        rw [hlen, hlast]; simp [hl]
      have hd2 : EQUAL (st.GetLastComponent.drop (st.GetLastComponentLen - 7))
          "members".toList = true := by
        rw [hlen]; rw [show (7 : Nat) = "members".toList.length from rfl, hd]; exact h
      rw [hd2, decide_eq_true h7]; simp
  have hrule : featureRule st pszElement nElementLength eAppSchemaType =
      FeatureRule.accepted := by
    unfold featureRule
    dsimp only
    rw [if_neg hprofile, if_pos hcond]
  unfold GetFeatureElementIndex
  rw [hstate]
  dsimp only
  rw [hrule, hunlocked]
  rfl

/-- Witness for C4: parent element `gml:featureMember`, element `City`. -/
theorem GetFeatureElementIndex_member_unlocked_witness :
    GetFeatureElementIndex
      { m_poState := [{ aosPathComponents := ["gml:featureMember".toList],
                        osPath := "gml:featureMember".toList, m_nPathLength := 1 }] }
      "City".toList 4 GMLAppSchemaType.APPSCHEMA_GENERIC = some INT_MAX :=
  GetFeatureElementIndex_member_unlocked _ _ [] _ _ _ "gml:feature".toList "Member".toList
    rfl rfl (by decide) (by decide) (Or.inl (by decide))

end GML

namespace GML
open GMLReader

theorem GetFeatureElementIndex_cases (r : GMLReader) (st : GMLReadState)
    (rest : List GMLReadState) (pszElement : CStr) (nElementLength : Nat)
    (eAppSchemaType : GMLAppSchemaType) (v : Int) (hstate : r.m_poState = st :: rest)
    (h : r.GetFeatureElementIndex pszElement nElementLength eAppSchemaType = some v) :
    v = -1 ∨
    (r.m_bClassListLocked = false ∧ v = INT_MAX) ∨
    (r.m_bClassListLocked = true ∧ v = r.findClassByElement pszElement nElementLength) ∨
    (r.m_bClassListLocked = true ∧ v = r.findClassByPath st pszElement nElementLength) := by
  unfold GetFeatureElementIndex at h
  rw [hstate] at h
  dsimp only at h
  cases hl : r.m_bClassListLocked <;>
    cases hr : featureRule st pszElement nElementLength eAppSchemaType <;>
    rw [hl, hr] at h <;> simp at h <;> simp [h]

theorem name_of_path_match (path elem name : CStr)
    (h1 : path.length + 1 + elem.length = name.length)
    (h2 : name[path.length]? = some '|')
    (h3 : memcmp0 path name path.length = true)
    (h4 : memcmp0 elem (name.drop (1 + path.length)) elem.length = true) :
    name = path ++ '|' :: elem := by
  unfold memcmp0 at h3 h4
  have h3b : path.take path.length = name.take path.length := by simpa using h3
  have h4b : elem.take elem.length = (name.drop (1 + path.length)).take elem.length := by
    simpa using h4
  rw [List.take_length] at h3b h4b
  have hdl : (name.drop (1 + path.length)).length = elem.length := by
    rw [List.length_drop]; omega
  rw [← hdl, List.take_length] at h4b
  have hlt : path.length < name.length := by omega
  have hget : name[path.length] = '|' := by
    have := List.getElem?_eq_getElem hlt
    rw [this] at h2; exact Option.some.inj h2
  calc name = name.take path.length ++ name.drop path.length := (List.take_append_drop _ _).symm
    _ = path ++ name.drop path.length := by rw [← h3b]
    _ = path ++ (name[path.length] :: name.drop (path.length + 1)) := by
        rw [List.drop_eq_getElem_cons hlt]
    _ = path ++ '|' :: elem := by rw [hget, h4b, Nat.add_comm 1]

end GML

namespace GML
open GMLReader

end GML

/-! ## Feature delivery (`NextFeatureExpat`, `PopState`) -/

namespace GML
open GMLReader

theorem applyCall_expat (r : GMLReader) (c : HandlerCall)
    (hx : r.bUseExpatReader = true) (hlen : r.nFeatureTabLength ≤ r.ppoFeatureTab.length) :
    (r.applyCall c).m_poState = stackStep r.m_poState c ∧
    visibleTab (r.applyCall c) = visibleTab r ++ completedStep r.m_poState c ∧
    (r.applyCall c).nFeatureTabLength =
      r.nFeatureTabLength + (completedStep r.m_poState c).length ∧
    (r.applyCall c).nFeatureTabLength ≤ (r.applyCall c).ppoFeatureTab.length ∧
    r.sameControl (r.applyCall c) := by
  cases c with
  | PushState s => simp [applyCall, GMLReader.PushState, stackStep, completedStep, visibleTab,
      sameControl, hlen]
  | GetState s =>
    cases hS : r.m_poState <;>
      simp [applyCall, stackStep, completedStep, visibleTab, sameControl, hlen, hS]
  | PopState =>
    cases hS : r.m_poState with
    | nil => simp [applyCall, GMLReader.PopState, stackStep, completedStep, visibleTab,
        sameControl, hlen, hS]
    | cons st rest =>
      cases hf : st.m_poFeature with
      | none =>
        simp [applyCall, GMLReader.PopState, stackStep, completedStep, visibleTab,
          sameControl, hlen, hS, hf, hx]
      | some f =>
        simp [applyCall, GMLReader.PopState, stackStep, completedStep, visibleTab,
          sameControl, hS, hf, hx, List.take_append_eq_append_take, hlen]

end GML

namespace GML
open GMLReader

theorem runCalls_expat (calls : List HandlerCall) (r : GMLReader)
    (hx : r.bUseExpatReader = true) (hlen : r.nFeatureTabLength ≤ r.ppoFeatureTab.length) :
    (r.runCalls calls).m_poState = stackAfter r.m_poState calls ∧
    visibleTab (r.runCalls calls) = visibleTab r ++ completedFeatures r.m_poState calls ∧
    (r.runCalls calls).nFeatureTabLength =
      r.nFeatureTabLength + (completedFeatures r.m_poState calls).length ∧
    (r.runCalls calls).nFeatureTabLength ≤ (r.runCalls calls).ppoFeatureTab.length ∧
    r.sameControl (r.runCalls calls) := by
  induction calls generalizing r with
  | nil => simp [runCalls, stackAfter, completedFeatures, sameControl, hlen]
  | cons c cs ih =>
    obtain ⟨h1, h2, h3, h4, h5⟩ := applyCall_expat r c hx hlen
    have hx2 : (r.applyCall c).bUseExpatReader = true := by rw [h5.1, hx]
    obtain ⟨k1, k2, k3, k4, k5⟩ := ih (r.applyCall c) hx2 h4
    have hrun : r.runCalls (c :: cs) = (r.applyCall c).runCalls cs := by
      simp [runCalls]
    rw [hrun]
    refine ⟨?_, ?_, ?_, k4, ?_⟩
    · rw [k1, h1]; rfl
    · rw [k2, h2, h1]; simp [completedFeatures]
    · rw [k3, h3, h1]; simp [completedFeatures]; omega
    · unfold sameControl at *
      obtain ⟨a1, a2, a3, a4, a5, a6, a7⟩ := h5
      obtain ⟨b1, b2, b3, b4, b5, b6, b7⟩ := k5
      exact ⟨b1.trans a1, b2.trans a2, b3.trans a3, b4.trans a4, b5.trans a5, b6.trans a6,
        b7.trans a7⟩

theorem stackAfter_append (S : List GMLReadState) (a b : List HandlerCall) :
    stackAfter S (a ++ b) = stackAfter (stackAfter S a) b := by
  induction a generalizing S with
  | nil => rfl
  | cons c cs ih => simp [stackAfter, ih]

theorem completedFeatures_append (S : List GMLReadState) (a b : List HandlerCall) :
    completedFeatures S (a ++ b) =
      completedFeatures S a ++ completedFeatures (stackAfter S a) b := by
  induction a generalizing S with
  | nil => rfl
  | cons c cs ih => simp [stackAfter, completedFeatures, ih]

end GML

namespace GML
open GMLReader

theorem expatParseStep_clean (fp : VSILFILE) (c : ExpatChunk) (rest : List ExpatChunk)
    (r : GMLReader) (hx : r.bUseExpatReader = true)
    (hlen : r.nFeatureTabLength ≤ r.ppoFeatureTab.length)
    (hstop : r.m_bStopParsing = false) (hc : cleanChunk c) :
    (r.expatParseStep fp c rest).m_poState = stackAfter r.m_poState c.calls ∧
    visibleTab (r.expatParseStep fp c rest) =
      visibleTab r ++ completedFeatures r.m_poState c.calls ∧
    (r.expatParseStep fp c rest).nFeatureTabLength =
      r.nFeatureTabLength + (completedFeatures r.m_poState c.calls).length ∧
    (r.expatParseStep fp c rest).nFeatureTabLength ≤
      (r.expatParseStep fp c rest).ppoFeatureTab.length ∧
    (r.expatParseStep fp c rest).bUseExpatReader = true ∧
    (r.expatParseStep fp c rest).m_bReadStarted = r.m_bReadStarted ∧
    (r.expatParseStep fp c rest).oParser = r.oParser ∧
    (r.expatParseStep fp c rest).m_poGMLHandler = r.m_poGMLHandler ∧
    (r.expatParseStep fp c rest).m_bStopParsing = false ∧
    (r.expatParseStep fp c rest).fpGML = some { fp with rest := rest } ∧
    (r.expatParseStep fp c rest).nFeatureTabIndex = r.nFeatureTabIndex := by
  obtain ⟨h1, h2, h3, h4, h5⟩ :=
    runCalls_expat c.calls { r with fpGML := some { fp with rest := rest } } hx hlen
  obtain ⟨a1, a2, a3, a4, a5, a6, a7⟩ := h5
  have hstop2 : (GMLReader.runCalls { r with fpGML := some { fp with rest := rest } }
      c.calls).m_bStopParsing = false := by rw [a5]; exact hstop
  unfold expatParseStep
  simp only [hc.1, hc.2, hstop2, Bool.false_eq_true, if_false, Bool.not_false, if_true]
  refine ⟨h1, h2, h3, h4, ?_, a2, a3, a4, trivial, a6, a7⟩
  rw [a1]; exact hx

end GML

namespace GML
open GMLReader

theorem allCalls_cons (c : ExpatChunk) (cs : List ExpatChunk) :
    allCalls (c :: cs) = c.calls ++ allCalls cs := by
  simp [allCalls]

theorem expatParseLoop_clean (fp : VSILFILE) (rest : List ExpatChunk) :
    ∀ (c : ExpatChunk) (r : GMLReader), r.bUseExpatReader = true →
    r.m_poGMLHandler = true → r.oParser = true → r.m_bStopParsing = false →
    r.nFeatureTabLength = 0 → cleanChunk c → (∀ c2 ∈ rest, cleanChunk c2) →
    ∃ (r2 : GMLReader) (rest2 : List ExpatChunk),
      expatParseLoop fp c rest r = some r2 ∧
      r2.fpGML = some { fp with rest := rest2 } ∧
      r2.bUseExpatReader = true ∧ r2.m_bReadStarted = r.m_bReadStarted ∧
      r2.oParser = true ∧ r2.m_poGMLHandler = true ∧ r2.m_bStopParsing = false ∧
      r2.nFeatureTabIndex = r.nFeatureTabIndex ∧
      r2.nFeatureTabLength ≤ r2.ppoFeatureTab.length ∧
      (∀ c2 ∈ rest2, cleanChunk c2) ∧
      visibleTab r2 ++ completedFeatures r2.m_poState (allCalls rest2) =
        completedFeatures r.m_poState (allCalls (c :: rest)) ∧
      (r2.nFeatureTabLength = 0 → rest2 = []) := by
  induction rest with
  | nil =>
    intro c r hx hh hp hs hl hc _
    obtain ⟨h1, h2, h3, h4, h5, h6, h7, h8, h9, h10, h11⟩ :=
      expatParseStep_clean fp c [] r hx (by omega) hs hc
    refine ⟨r.expatParseStep fp c [], [], ?_, h10, h5, h6, h7.trans hp, h8.trans hh, h9, h11,
      h4, by simp, ?_, fun _ => rfl⟩
    · rw [expatParseLoop]; simp [hh, hp]
    · rw [h2]; simp [visibleTab, hl, allCalls, completedFeatures]
  | cons c2 rest2 ih =>
    intro c r hx hh hp hs hl hc hrest
    obtain ⟨h1, h2, h3, h4, h5, h6, h7, h8, h9, h10, h11⟩ :=
      expatParseStep_clean fp c (c2 :: rest2) r hx (by omega) hs hc
    have hv : visibleTab r = [] := by simp [visibleTab, hl]
    by_cases hz : (r.expatParseStep fp c (c2 :: rest2)).nFeatureTabLength = 0
    · -- no feature yet: the loop goes on with the next buffer
      obtain ⟨r3, rest3, k1, k2, k3, k4, k5, k6, k7, k8, k9, k10, k11, k12⟩ :=
        ih c2 (r.expatParseStep fp c (c2 :: rest2)) h5 (h8.trans hh) (h7.trans hp) h9 hz
          (hrest c2 (List.mem_cons_self _ _))
          (fun c3 hc3 => hrest c3 (List.mem_cons_of_mem _ hc3))
      refine ⟨r3, rest3, ?_, k2, k3, k4.trans h6, k5, k6, k7, k8.trans h11, k9, k10, ?_, k12⟩
      · rw [expatParseLoop]; simp [hh, hp, h9, hz, k1]
      · rw [k11, h1, allCalls_cons c, completedFeatures_append]
        have hnil : completedFeatures r.m_poState c.calls = [] := by
          have := h3; rw [hz, hl] at this
          exact List.eq_nil_of_length_eq_zero (by omega)
        rw [hnil]; rfl
    · refine ⟨r.expatParseStep fp c (c2 :: rest2), c2 :: rest2, ?_, h10, h5, h6, h7.trans hp,
        h8.trans hh, h9, h11, h4, hrest, ?_, fun h => absurd h hz⟩
      · rw [expatParseLoop]; simp [hh, hp, h9, hz]
      · rw [h2, h1, hv, allCalls_cons c, completedFeatures_append]; rfl

end GML

namespace GML
open GMLReader

theorem drainFeatures_reading (env : Env) (fuel : Nat) :
    ∀ (r : GMLReader) (fp : VSILFILE), r.Reading fp →
    fuel > ((visibleTab r).drop r.nFeatureTabIndex ++
      completedFeatures r.m_poState (allCalls fp.rest)).length →
    ∃ r2, drainFeatures env fuel r =
      some ((visibleTab r).drop r.nFeatureTabIndex ++
        completedFeatures r.m_poState (allCalls fp.rest), r2) := by
  induction fuel with
  | zero => intro r fp _ h; omega
  | succ fuel ih =>
    intro r fp hR hfuel
    by_cases hidx : r.nFeatureTabIndex < r.nFeatureTabLength
    · -- a buffered feature is handed out
      have hlt : r.nFeatureTabIndex < r.ppoFeatureTab.length := lt_of_lt_of_le hidx hR.tab
      have hvis : r.nFeatureTabIndex < (visibleTab r).length := by
        simp [visibleTab]; omega
      have hget : (visibleTab r)[r.nFeatureTabIndex] = r.ppoFeatureTab[r.nFeatureTabIndex] := by
        simp [visibleTab]
      have hnf : r.NextFeature env = some (some r.ppoFeatureTab[r.nFeatureTabIndex],
          { r with nFeatureTabIndex := r.nFeatureTabIndex + 1 }) := by
        unfold NextFeature NextFeatureExpat expatStart
        simp [hR.expat, hR.started, hR.file, hR.running, hidx, List.getElem?_eq_getElem hlt]
      have hR2 : Reading { r with nFeatureTabIndex := r.nFeatureTabIndex + 1 } fp :=
        ⟨hR.expat, hR.started, hR.parser, hR.handler, hR.running, hR.file, hR.tab,
          Nat.succ_le_of_lt hidx, hR.clean⟩
      have hdrop : (visibleTab r).drop r.nFeatureTabIndex =
          r.ppoFeatureTab[r.nFeatureTabIndex] :: (visibleTab r).drop (r.nFeatureTabIndex + 1) := by
        rw [List.drop_eq_getElem_cons hvis, hget]
      have hfuel2 : fuel > ((visibleTab { r with nFeatureTabIndex := r.nFeatureTabIndex + 1 }).drop
          (r.nFeatureTabIndex + 1) ++ completedFeatures r.m_poState (allCalls fp.rest)).length := by
        rw [hdrop] at hfuel
        simp only [List.cons_append, List.length_cons] at hfuel
        have : visibleTab { r with nFeatureTabIndex := r.nFeatureTabIndex + 1 } = visibleTab r := rfl
        rw [this]; omega
      obtain ⟨r3, h3⟩ := ih _ fp hR2 hfuel2
      refine ⟨r3, ?_⟩
      rw [drainFeatures, hnf]
      simp only
      rw [h3, hdrop]
      rfl
    · have hpend : (visibleTab r).drop r.nFeatureTabIndex = [] := by
        apply List.drop_eq_nil_of_le
        simp [visibleTab]; omega
      cases hrest : fp.rest with
      | nil =>
        have hnf : r.NextFeature env = some (none, r) := by
          unfold NextFeature NextFeatureExpat expatStart
          simp [hR.expat, hR.started, hR.file, hR.running, hidx, hrest]
        refine ⟨r, ?_⟩
        rw [drainFeatures, hnf, hpend]
        simp [allCalls, completedFeatures]
      | cons c rest =>
        have hclean := hR.clean
        rw [hrest] at hclean hfuel
        obtain ⟨r2, rest2, k1, k2, k3, k4, k5, k6, k7, k8, k9, k10, k11, k12⟩ :=
          expatParseLoop_clean fp rest c { r with nFeatureTabLength := 0, nFeatureTabIndex := 0 }
            hR.expat hR.handler hR.parser hR.running rfl
            (hclean c (List.mem_cons_self _ _))
            (fun c3 hc3 => hclean c3 (List.mem_cons_of_mem _ hc3))
        have k8b : r2.nFeatureTabIndex = 0 := k8
        simp only [hR.expat, hR.started, hR.file, hR.running] at k1
        have k4b : r2.m_bReadStarted = true := k4.trans hR.started
        have k11b : visibleTab r2 ++ completedFeatures r2.m_poState (allCalls rest2) =
            completedFeatures r.m_poState (allCalls (c :: rest)) := k11
        by_cases hz : r2.nFeatureTabLength = 0
        · have hnf : r.NextFeature env = some (none, r2) := by
            unfold NextFeature NextFeatureExpat expatStart
            simp [hR.expat, hR.started, hR.file, hR.running, hidx, hrest, k1, hz]
          have hr2 := k12 hz
          have hv2 : visibleTab r2 = [] := by simp [visibleTab, hz]
          refine ⟨r2, ?_⟩
          rw [drainFeatures, hnf, hpend, ← k11b, hv2, hr2]
          simp [allCalls, completedFeatures]
        · have hpos : 0 < r2.ppoFeatureTab.length := by omega
          have hnf : r.NextFeature env = some (some r2.ppoFeatureTab[0],
              { r2 with nFeatureTabIndex := 1 }) := by
            unfold NextFeature NextFeatureExpat expatStart
            simp [hR.expat, hR.started, hR.file, hR.running, hidx, hrest, k1, hz, k8b,
              List.getElem?_eq_getElem hpos]
          have hR3 : Reading { r2 with nFeatureTabIndex := 1 } { fp with rest := rest2 } :=
            ⟨k3, k4b, k5, k6, k7, k2, k9, by show 1 ≤ r2.nFeatureTabLength; omega, k10⟩
          have hvis : 0 < (visibleTab r2).length := by simp [visibleTab]; omega
          have hv2 : visibleTab r2 = r2.ppoFeatureTab[0] :: (visibleTab r2).drop 1 := by
            have := List.drop_eq_getElem_cons hvis
            simp only [List.drop_zero] at this
            rw [this]; simp [visibleTab]
          have hsame : visibleTab { r2 with nFeatureTabIndex := 1 } = visibleTab r2 := rfl
          have htotal : (visibleTab r).drop r.nFeatureTabIndex ++
              completedFeatures r.m_poState (allCalls (c :: rest)) =
              r2.ppoFeatureTab[0] :: ((visibleTab r2).drop 1 ++
                completedFeatures r2.m_poState (allCalls rest2)) := by
            rw [hpend, ← k11b]
            conv_lhs => rw [hv2]
            rfl
          rw [htotal] at hfuel ⊢
          simp only [List.length_cons] at hfuel
          have hfuel2 : fuel > ((visibleTab r2).drop 1 ++
              completedFeatures r2.m_poState (allCalls rest2)).length := by omega
          obtain ⟨r4, h4⟩ := ih { r2 with nFeatureTabIndex := 1 } { fp with rest := rest2 } hR3
            hfuel2
          refine ⟨r4, ?_⟩
          rw [drainFeatures, hnf]
          simp only
          rw [h4, hsame]
          rfl

end GML

namespace GML
open GMLReader

theorem NextFeatureExpat_first (env : Env) (r : GMLReader)
    (hstart : r.m_bReadStarted = false) (hparser : r.oParser = false) :
    r.NextFeatureExpat env =
      GMLReader.NextFeatureExpat env { (r.SetupParser env).2 with m_bReadStarted := true } := by
  have h : r.expatStart env = GMLReader.expatStart env
      { (r.SetupParser env).2 with m_bReadStarted := true } := by
    unfold expatStart
    simp only [hstart, hparser, Bool.not_false, if_true, Bool.not_true, Bool.false_eq_true,
      if_false]
  unfold NextFeatureExpat
  rw [h]

theorem SetupParser_expat (env : Env) (r : GMLReader) (doc : Document)
    (hx : r.bUseExpatReader = true) (hparser : r.oParser = false) (hfp : r.fpGML = none)
    (hopen : env.VSIFOpenL r.m_pszFilename = some doc) :
    (r.SetupParser env).2 =
      { r with
        fpGML := some { doc := doc, rest := doc.chunks },
        oParser := true, m_poGMLHandler := true, m_bReadStarted := false,
        m_poState := r.m_poRecycledState.getD {} :: r.m_poState,
        m_poRecycledState := none } := by
  simp [SetupParser, openSource, SetupParserExpat, hx, hparser, hfp, hopen, GMLReader.PushState,
    VSIFSeekL0]

/-- C1: for a reader of the Expat backend that has not started reading and a
document none of whose buffers raises a fatal error, the features returned by
repeated `NextFeature` calls up to the first NULL are exactly the features the
handler completes (those owned by the current state at each `PopState`), in
completion order, each once, however the completions are spread over the
buffers; the first NULL is reached within one call more than there are
completed features. -/
theorem NextFeature_returns_completed (env : Env) (r : GMLReader) (doc : Document)
    (fuel : Nat)
    (hx : r.bUseExpatReader = true) (hstart : r.m_bReadStarted = false)
    (hparser : r.oParser = false) (hstop : r.m_bStopParsing = false)
    (hfp : r.fpGML = none) (hlen : r.nFeatureTabLength = 0) (hidx : r.nFeatureTabIndex = 0)
    (hopen : env.VSIFOpenL r.m_pszFilename = some doc)
    (hclean : ∀ c ∈ doc.chunks, cleanChunk c)
    (hfuel : fuel > (completedFeatures (r.m_poRecycledState.getD {} :: r.m_poState)
      (allCalls doc.chunks)).length) :
    ∃ r2, drainFeatures env fuel r =
      some (completedFeatures (r.m_poRecycledState.getD {} :: r.m_poState)
        (allCalls doc.chunks), r2) := by
  have hsetup := SetupParser_expat env r doc hx hparser hfp hopen
  have hR : Reading { (r.SetupParser env).2 with m_bReadStarted := true }
      { doc := doc, rest := doc.chunks } := by
    rw [hsetup]
    exact ⟨hx, rfl, rfl, rfl, hstop, rfl, by simp [hlen], by simp [hlen, hidx], hclean⟩
  have hpend : (visibleTab { (r.SetupParser env).2 with m_bReadStarted := true }).drop
      (GMLReader.nFeatureTabIndex { (r.SetupParser env).2 with m_bReadStarted := true }) = [] := by
    rw [hsetup]; simp [visibleTab, hlen]
  have hstack : GMLReader.m_poState { (r.SetupParser env).2 with m_bReadStarted := true } =
      r.m_poRecycledState.getD {} :: r.m_poState := by
    rw [hsetup]
  have hdrain : drainFeatures env fuel r =
      drainFeatures env fuel { (r.SetupParser env).2 with m_bReadStarted := true } := by
    cases fuel with
    | zero => rfl
    | succ n =>
      have hnf : r.NextFeature env =
          GMLReader.NextFeature env { (r.SetupParser env).2 with m_bReadStarted := true } := by
        have hx2 : GMLReader.bUseExpatReader
            { (r.SetupParser env).2 with m_bReadStarted := true } = true := hR.expat
        unfold NextFeature
        rw [hx, hx2]
        exact NextFeatureExpat_first env r hstart hparser
      rw [drainFeatures, drainFeatures, hnf]
  have hmain := drainFeatures_reading env fuel _ _ hR
  rw [hpend, hstack] at hmain
  rw [hdrain]
  exact hmain hfuel

end GML

namespace GML
open GMLReader

/-- Witness for C1: the three-buffer sample document read by a new Expat
reader; three calls deliver `a`, `b` and then NULL. -/
theorem NextFeature_returns_completed_witness :
    ∃ r2, drainFeatures (envOf sampleDocument) 3 (GMLReader.new true) =
      some ([sampleFeatureA, sampleFeatureB], r2) :=
  NextFeature_returns_completed (envOf sampleDocument) (GMLReader.new true) sampleDocument 3
    rfl rfl rfl rfl rfl rfl rfl rfl
    (by intro c hc; simp [sampleDocument] at hc; rcases hc with rfl | rfl | rfl <;>
          exact ⟨rfl, rfl⟩)
    (by decide)

end GML

/-! ## The stop flag (`NextFeatureXerces`, `NextFeatureExpat`) -/

namespace GML
open GMLReader

/-- C3, evaluation of the code at the failing input: a new Expat reader on a
document whose single buffer completes the features `a` and `b` before
`XML_Parse` reports an error.  The `NextFeature` call that detects the error
sets the stop flag and returns feature `a`, not NULL. -/
theorem NextFeature_error_returns_feature :
    ((GMLReader.new true).NextFeature (envOf brokenDocument)).map
        (fun p => (p.1, p.2.m_bStopParsing)) =
      some (some sampleFeatureA, true) := by
  decide

/-- C2, evaluation of the code at the failing input: a new Xerces reader on a
document whose first parse step opens feature `a` and raises a `SAXException`.
The first `NextFeature` returns NULL and sets the stop flag; after a
`PopState` the next `NextFeature` returns feature `a` although the stop flag
is (and stays) set. -/
theorem NextFeature_xerces_stopped_returns_feature :
    (((GMLReader.new false).NextFeature (envOf throwingDocument)).bind fun p =>
      (p.2.PopState.NextFeature (envOf throwingDocument)).map fun q =>
        (p.1, p.2.m_bStopParsing, q.1, q.2.m_bStopParsing)) =
      some (none, true, some sampleFeatureA, true) := by
  decide

end GML

/-! ## Property identification (`GetAttributeElementIndex`) -/

namespace GML
open GMLReader

theorem GetPropertyIndexBySrcElement_cases (c : GMLFeatureClass) (key : CStr) :
    (c.GetPropertyIndexBySrcElement key key.length = -1 ∧
      ∀ p ∈ c.m_papoProperty, p.m_pszSrcElement ≠ key) ∨
    ∃ (i : Nat) (p : GMLPropertyDefn),
      c.GetPropertyIndexBySrcElement key key.length = (i : Int) ∧
      c.m_papoProperty[i]? = some p ∧ p.m_pszSrcElement = key := by
  unfold GMLFeatureClass.GetPropertyIndexBySrcElement
  rw [List.take_length]
  rcases firstIndexFrom_cases (fun p : GMLPropertyDefn => p.m_pszSrcElement == key)
      c.m_papoProperty 0 with ⟨h1, h2⟩ | ⟨j, p, h1, h2, h3, _⟩
  · left
    refine ⟨h1, ?_⟩
    intro p hp heq
    have := h2 p hp
    simp [heq] at this
  · right
    refine ⟨j, p, ?_, h1, ?_⟩
    · rw [h3]; simp
    · simpa using h2

theorem GetAttributeElementIndex_locked (r : GMLReader) (st : GMLReadState)
    (rest : List GMLReadState) (f : GMLFeature) (poClass : GMLFeatureClass)
    (pszElement : CStr) (pszAttrKey : Option CStr)
    (hstate : r.m_poState = st :: rest) (hfeat : st.m_poFeature = some f)
    (hclass : r.m_papoClass[f.m_poClass]? = some poClass)
    (hpath : st.m_nPathLength = 0 ↔ st.osPath = [])
    (hlocked : poClass.IsSchemaLocked = true) :
    r.GetAttributeElementIndex pszElement pszElement.length pszAttrKey =
      some (poClass.GetPropertyIndexBySrcElement
        (specAttributeKey st.osPath pszElement pszAttrKey)
        (specAttributeKey st.osPath pszElement pszAttrKey).length) := by
  unfold GetAttributeElementIndex
  rw [hstate]
  simp only [hfeat, hclass, hlocked, Bool.not_true, Bool.false_eq_true, if_false]
  by_cases h0 : st.m_nPathLength = 0
  · have hp := hpath.mp h0
    cases pszAttrKey with
    | none => simp [h0, hp, specAttributeKey]
    | some key =>
      simp only [h0, if_true, hp, specAttributeKey, List.take_length]
      congr 2
      · simp
      · simp; omega
  · have hp : st.osPath ≠ [] := fun h => h0 (hpath.mpr h)
    cases pszAttrKey with
    | none =>
      simp only [h0, if_false, hp, specAttributeKey, List.take_length]
      congr 2
      · simp
      · simp; omega
    | some key =>
      simp only [h0, if_false, hp, specAttributeKey, List.take_length]
      congr 2
      · simp
      · simp; omega

end GML

namespace GML
open GMLReader

/-- C6: for a feature whose class is schema-locked, `GetAttributeElementIndex`
returns the index of a class property whose source path is exactly the key
(the element when the state path is empty, otherwise state path, `|`, element;
then `@` and the attribute key when one is given) when such a property exists,
and a negative index when no property has exactly that source path; for a
class that is not schema-locked it returns `INT_MAX` for every element.  The
state is consistent (`m_nPathLength` is 0 exactly when `osPath` is empty) and
the length argument is the length of the element name. -/
theorem GetAttributeElementIndex_spec (r : GMLReader) (st : GMLReadState)
    (rest : List GMLReadState) (f : GMLFeature) (poClass : GMLFeatureClass)
    (pszElement : CStr) (pszAttrKey : Option CStr)
    (hstate : r.m_poState = st :: rest) (hfeat : st.m_poFeature = some f)
    (hclass : r.m_papoClass[f.m_poClass]? = some poClass)
    (hpath : st.m_nPathLength = 0 ↔ st.osPath = []) :
    (poClass.IsSchemaLocked = false →
      r.GetAttributeElementIndex pszElement pszElement.length pszAttrKey = some INT_MAX) ∧
    (poClass.IsSchemaLocked = true →
      ∃ v : Int, r.GetAttributeElementIndex pszElement pszElement.length pszAttrKey = some v ∧
        ((∃ p ∈ poClass.m_papoProperty,
            p.m_pszSrcElement = specAttributeKey st.osPath pszElement pszAttrKey) →
          ∃ (i : Nat) (p : GMLPropertyDefn), v = (i : Int) ∧
            poClass.m_papoProperty[i]? = some p ∧
            p.m_pszSrcElement = specAttributeKey st.osPath pszElement pszAttrKey) ∧
        ((∀ p ∈ poClass.m_papoProperty,
            p.m_pszSrcElement ≠ specAttributeKey st.osPath pszElement pszAttrKey) →
          v < 0)) := by
  constructor
  · intro hun
    unfold GetAttributeElementIndex
    rw [hstate]
    simp [hfeat, hclass, hun]
  · intro hlocked
    refine ⟨_, GetAttributeElementIndex_locked r st rest f poClass pszElement pszAttrKey
      hstate hfeat hclass hpath hlocked, ?_, ?_⟩
    · rintro ⟨p, hp, hsrc⟩
      rcases GetPropertyIndexBySrcElement_cases poClass
          (specAttributeKey st.osPath pszElement pszAttrKey) with ⟨_, h2⟩ | ⟨i, q, h1, h2, h3⟩
      · exact absurd hsrc (h2 p hp)
      · exact ⟨i, q, h1, h2, h3⟩
    · intro hnone
      rcases GetPropertyIndexBySrcElement_cases poClass
          (specAttributeKey st.osPath pszElement pszAttrKey) with ⟨h1, _⟩ | ⟨i, q, _, h2, h3⟩
      · rw [h1]; decide
      · exact absurd h3 (hnone q (List.getElem?_mem h2))

/-- Witness for C6: the locked class `City`, current state below the element
`stats`, element `pop` with attribute key `year` (key `stats|pop@year`,
property 1). -/
theorem GetAttributeElementIndex_spec_witness :
    (lockedCity.IsSchemaLocked = false →
      lockedCityReader.GetAttributeElementIndex "pop".toList "pop".toList.length
        (some "year".toList) = some INT_MAX) ∧
    (lockedCity.IsSchemaLocked = true →
      ∃ v : Int, lockedCityReader.GetAttributeElementIndex "pop".toList "pop".toList.length
          (some "year".toList) = some v ∧
        ((∃ p ∈ lockedCity.m_papoProperty,
            p.m_pszSrcElement = "stats|pop@year".toList) →
          ∃ (i : Nat) (p : GMLPropertyDefn), v = (i : Int) ∧
            lockedCity.m_papoProperty[i]? = some p ∧
            p.m_pszSrcElement = "stats|pop@year".toList) ∧
        ((∀ p ∈ lockedCity.m_papoProperty,
            p.m_pszSrcElement ≠ "stats|pop@year".toList) →
          v < 0)) :=
  GetAttributeElementIndex_spec lockedCityReader statsState [] { m_poClass := 0 }
    lockedCity "pop".toList (some "year".toList) rfl rfl rfl (by decide)

end GML

/-! ## Property commit (`SetFeaturePropertyDirectly`) -/

namespace GML
open GMLReader

theorem firstIndexFrom_none {α : Type} (p : α → Bool) (l : List α) (k : Nat)
    (h : ∀ x ∈ l, p x = false) : firstIndexFrom p l k = -1 := by
  rcases firstIndexFrom_cases p l k with ⟨h1, _⟩ | ⟨j, c, h1, h2, _, _⟩
  · exact h1
  · have := h c (List.getElem?_mem h1)
    rw [this] at h2; exact absurd h2 (by decide)

/-- C7: for a schema-locked class, `SetFeaturePropertyDirectly` with a source
path that matches no property of the class and a property index outside the
range of the class returns normally and leaves the whole reader as it was: no
property is added, the property values of the current feature are unchanged,
and neither the stop flag nor any other state is touched. -/
theorem SetFeaturePropertyDirectly_locked_drops (env : Env) (fuel : Nat) (r : GMLReader)
    (st : GMLReadState) (rest : List GMLReadState) (f : GMLFeature)
    (poClass : GMLFeatureClass) (pszElement pszValue : CStr) (iPropertyIn : Int)
    (eType : GMLPropertyType)
    (hstate : r.m_poState = st :: rest) (hfeat : st.m_poFeature = some f)
    (hclass : r.m_papoClass[f.m_poClass]? = some poClass)
    (hlocked : poClass.IsSchemaLocked = true)
    (hnomatch : ∀ p ∈ poClass.m_papoProperty, p.m_pszSrcElement ≠ pszElement)
    (hrange : ¬ (0 ≤ iPropertyIn ∧ iPropertyIn < poClass.GetPropertyCount)) :
    r.SetFeaturePropertyDirectly env fuel pszElement pszValue iPropertyIn eType = some r := by
  have hidx : firstIndexFrom (fun p : GMLPropertyDefn => strcmp0 p.m_pszSrcElement pszElement)
      poClass.m_papoProperty 0 = -1 := by
    apply firstIndexFrom_none
    intro p hp
    have := hnomatch p hp
    simp [strcmp0, this]
  unfold SetFeaturePropertyDirectly
  rw [hstate]
  simp only [hfeat, hclass, hidx, hlocked, if_neg hrange, ne_eq, not_true_eq_false, if_false,
    if_true]

/-- Witness for C7: the locked class `City` receives a value for the unknown
source path `stats|area`. -/
theorem SetFeaturePropertyDirectly_locked_drops_witness :
    lockedCityReader.SetFeaturePropertyDirectly {} 0 "stats|area".toList "12".toList (-1)
        GMLPropertyType.GMLPT_Untyped =
      some lockedCityReader :=
  SetFeaturePropertyDirectly_locked_drops {} 0 lockedCityReader statsState []
    { m_poClass := 0 } lockedCity "stats|area".toList "12".toList (-1)
    GMLPropertyType.GMLPT_Untyped rfl rfl rfl rfl (by decide) (by decide)

end GML

namespace GML
open GMLReader

theorem GetPropertyIndex_cases (c : GMLFeatureClass) (name : CStr) :
    (c.GetPropertyIndex name = -1 ∧ ∀ p ∈ c.m_papoProperty, p.m_pszName ≠ name) ∨
    ∃ (i : Nat) (p : GMLPropertyDefn), c.GetPropertyIndex name = (i : Int) ∧
      c.m_papoProperty[i]? = some p ∧ p.m_pszName = name := by
  unfold GMLFeatureClass.GetPropertyIndex
  rcases firstIndexFrom_cases (fun p : GMLPropertyDefn => p.m_pszName == name)
      c.m_papoProperty 0 with ⟨h1, h2⟩ | ⟨j, p, h1, h2, h3, _⟩
  · left
    refine ⟨h1, ?_⟩
    intro p hp heq
    have := h2 p hp
    simp [heq] at this
  · right
    refine ⟨j, p, ?_, h1, ?_⟩
    · rw [h3]; simp
    · simpa using h2

theorem GetPropertyIndex_ne_iff (c : GMLFeatureClass) (name : CStr) :
    c.GetPropertyIndex name ≠ -1 ↔ ∃ p ∈ c.m_papoProperty, p.m_pszName = name := by
  rcases GetPropertyIndex_cases c name with ⟨h1, h2⟩ | ⟨i, p, h1, h2, h3⟩
  · constructor
    · intro h; exact absurd h1 h
    · rintro ⟨p, hp, hn⟩; exact absurd hn (h2 p hp)
  · constructor
    · intro _; exact ⟨p, List.getElem?_mem h2, h3⟩
    · intro _; rw [h1]; omega

theorem GetPropertyByName_isSome_iff (c : GMLFeatureClass) (name : CStr) :
    (c.GetPropertyByName name).isSome = true ↔ ∃ p ∈ c.m_papoProperty, p.m_pszName = name := by
  unfold GMLFeatureClass.GetPropertyByName GMLFeatureClass.GetProperty
  rcases GetPropertyIndex_cases c name with ⟨h1, h2⟩ | ⟨i, p, h1, h2, h3⟩
  · rw [h1]
    constructor
    · intro h; simp at h
    · rintro ⟨p, hp, hn⟩; exact absurd hn (h2 p hp)
  · rw [h1]
    constructor
    · intro _; exact ⟨p, List.getElem?_mem h2, h3⟩
    · intro _; simp [h2]

theorem filter_length_lt {α : Type} (q q2 : α → Bool) (l : List α) (x : α) (hx : x ∈ l)
    (hsub : ∀ y, q y = true → q2 y = true) (h1 : q2 x = true) (h2 : q x = false) :
    (l.filter q).length < (l.filter q2).length := by
  induction l with
  | nil => simp at hx
  | cons y ys ih =>
    have hle : (ys.filter q).length ≤ (ys.filter q2).length := by
      clear ih hx
      induction ys with
      | nil => simp
      | cons z zs ihz =>
        by_cases hz : q z = true
        · simp [List.filter, hz, hsub z hz]; exact ihz
        · have hz2 : q z = false := by simpa using hz
          by_cases hz3 : q2 z = true
          · simp [List.filter, hz2, hz3]; omega
          · have hz4 : q2 z = false := by simpa using hz3
            simp [List.filter, hz2, hz4]; exact ihz
    rcases List.mem_cons.mp hx with rfl | hin
    · simp [List.filter, h1, h2]; omega
    · have := ih hin
      by_cases hy : q y = true
      · simp [List.filter, hy, hsub y hy]; exact this
      · have hy2 : q y = false := by simpa using hy
        by_cases hy3 : q2 y = true
        · simp [List.filter, hy2, hy3]; omega
        · have hy4 : q2 y = false := by simpa using hy3
          simp [List.filter, hy2, hy4]; exact this

theorem dedupFieldName_spec (c : GMLFeatureClass) (fuel : Nat) :
    ∀ name : CStr,
    fuel > (c.m_papoProperty.filter
      (fun p => decide (name.length ≤ p.m_pszName.length))).length →
    ∃ k : Nat, dedupFieldName c fuel name = some (name ++ List.replicate k '_') ∧
      (∀ p ∈ c.m_papoProperty, p.m_pszName ≠ name ++ List.replicate k '_') ∧
      (∀ j < k, ∃ p ∈ c.m_papoProperty, p.m_pszName = name ++ List.replicate j '_') := by
  induction fuel with
  | zero => intro name h; omega
  | succ fuel ih =>
    intro name hfuel
    by_cases hused : (c.GetPropertyByName name).isSome = true
    · obtain ⟨p0, hp0, hn0⟩ := (GetPropertyByName_isSome_iff c name).mp hused
      have hlt := filter_length_lt
        (fun p : GMLPropertyDefn => decide ((name ++ ['_']).length ≤ p.m_pszName.length))
        (fun p : GMLPropertyDefn => decide (name.length ≤ p.m_pszName.length))
        c.m_papoProperty p0 hp0
        (by intro y hy; simp at hy ⊢; omega)
        (by simp [hn0]) (by simp [hn0])
      obtain ⟨k, h1, h2, h3⟩ := ih (name ++ ['_']) (by omega)
      have happ : ∀ j : Nat, name ++ ['_'] ++ List.replicate j '_' =
          name ++ List.replicate (j + 1) '_' := by
        intro j; simp [List.replicate_succ]
      refine ⟨k + 1, ?_, ?_, ?_⟩
      · rw [dedupFieldName, if_pos hused, h1, happ]
      · rw [← happ]; exact h2
      · intro j hj
        cases j with
        | zero => exact ⟨p0, hp0, by simpa using hn0⟩
        | succ j2 =>
          rw [← happ]
          exact h3 j2 (by omega)
    · refine ⟨0, ?_, ?_, ?_⟩
      · rw [dedupFieldName, if_neg hused]; simp
      · intro p hp heq
        apply hused
        exact (GetPropertyByName_isSome_iff c name).mpr ⟨p, hp, by simpa using heq⟩
      · intro j hj; omega

theorem dedupFieldName_total (c : GMLFeatureClass) (fuel : Nat) (name : CStr)
    (hfuel : fuel > c.GetPropertyCount) :
    ∃ k : Nat, dedupFieldName c fuel name = some (name ++ List.replicate k '_') ∧
      (∀ p ∈ c.m_papoProperty, p.m_pszName ≠ name ++ List.replicate k '_') ∧
      (∀ j < k, ∃ p ∈ c.m_papoProperty, p.m_pszName = name ++ List.replicate j '_') := by
  apply dedupFieldName_spec
  have := List.length_filter_le
    (fun p : GMLPropertyDefn => decide (name.length ≤ p.m_pszName.length)) c.m_papoProperty
  unfold GMLFeatureClass.GetPropertyCount at hfuel
  omega

end GML

namespace GML
open GMLReader

theorem AddProperty_free (c : GMLFeatureClass) (d : GMLPropertyDefn)
    (hfree : ∀ p ∈ c.m_papoProperty, p.m_pszName ≠ d.m_pszName) :
    c.AddProperty d =
      ((c.GetPropertyCount : Int), { c with m_papoProperty := c.m_papoProperty ++ [d] }) := by
  have hnone : (c.GetPropertyByName d.m_pszName).isSome = false := by
    cases h : (c.GetPropertyByName d.m_pszName).isSome with
    | false => rfl
    | true =>
      obtain ⟨p, hp, hn⟩ := (GetPropertyByName_isSome_iff c d.m_pszName).mp h
      exact absurd hn (hfree p hp)
  unfold GMLFeatureClass.AddProperty
  rw [hnone]
  rfl

theorem storeProperty_new (env : Env) (r : GMLReader) (st : GMLReadState)
    (rest : List GMLReadState) (f : GMLFeature) (c : GMLFeatureClass) (d : GMLPropertyDefn)
    (pszValue : CStr) (hunlocked : c.IsSchemaLocked = false) :
    ∃ d2 : GMLPropertyDefn, d2.m_pszName = d.m_pszName ∧
      d2.m_pszSrcElement = d.m_pszSrcElement ∧
      storeProperty env r st rest f { c with m_papoProperty := c.m_papoProperty ++ [d] }
        c.GetPropertyCount pszValue =
      some { r with
        m_papoClass := (r.m_papoClass.set f.m_poClass
          { c with m_papoProperty := (c.m_papoProperty ++ [d2]) }),
        m_poState := ({ st with m_poFeature :=
          (some (f.SetPropertyDirectly c.GetPropertyCount pszValue)) } :: rest) } := by
  refine ⟨d.AnalysePropertyValue env
    ((f.SetPropertyDirectly c.GetPropertyCount pszValue).GetProperty c.GetPropertyCount)
    r.m_bSetWidthFlag, rfl, rfl, ?_⟩
  have hun : GMLFeatureClass.IsSchemaLocked
      { c with m_papoProperty := c.m_papoProperty ++ [d] } = false := hunlocked
  unfold storeProperty
  simp only [GMLFeatureClass.GetPropertyCount, List.getElem?_concat_length, hun, Bool.not_false,
    if_true]
  have hset : (c.m_papoProperty ++ [d]).set c.m_papoProperty.length
      (d.AnalysePropertyValue env
        ((f.SetPropertyDirectly c.m_papoProperty.length pszValue).GetProperty
          c.m_papoProperty.length) r.m_bSetWidthFlag) =
      c.m_papoProperty ++ [d.AnalysePropertyValue env
        ((f.SetPropertyDirectly c.m_papoProperty.length pszValue).GetProperty
          c.m_papoProperty.length) r.m_bSetWidthFlag] := by
    simp
  rw [hset]
  rfl

theorem SetFeaturePropertyDirectly_creates (env : Env) (fuel : Nat) (r : GMLReader)
    (st : GMLReadState) (rest : List GMLReadState) (f : GMLFeature)
    (poClass : GMLFeatureClass) (pszElement pszValue : CStr) (iPropertyIn : Int)
    (eType : GMLPropertyType) (name : CStr)
    (hstate : r.m_poState = st :: rest) (hfeat : st.m_poFeature = some f)
    (hclass : r.m_papoClass[f.m_poClass]? = some poClass)
    (hunlocked : poClass.IsSchemaLocked = false)
    (hnomatch : ∀ p ∈ poClass.m_papoProperty, p.m_pszSrcElement ≠ pszElement)
    (hrange : ¬ (0 ≤ iPropertyIn ∧ iPropertyIn < poClass.GetPropertyCount))
    (hdedup : dedupFieldName poClass fuel
      (replaceAt (deriveFieldName r.m_bIsWFSJointLayer poClass pszElement)) = some name)
    (hfree : ∀ p ∈ poClass.m_papoProperty, p.m_pszName ≠ name) :
    ∃ (r2 : GMLReader) (newp : GMLPropertyDefn),
      r.SetFeaturePropertyDirectly env fuel pszElement pszValue iPropertyIn eType = some r2 ∧
      r2.m_papoClass[f.m_poClass]? =
        some { poClass with m_papoProperty := poClass.m_papoProperty ++ [newp] } ∧
      newp.m_pszName = name ∧ newp.m_pszSrcElement = pszElement := by
  have hidx : firstIndexFrom (fun p : GMLPropertyDefn => strcmp0 p.m_pszSrcElement pszElement)
      poClass.m_papoProperty 0 = -1 := by
    apply firstIndexFrom_none
    intro p hp
    have := hnomatch p hp
    simp [strcmp0, this]
  have hlt : f.m_poClass < r.m_papoClass.length := by
    by_contra hge
    have : r.m_papoClass[f.m_poClass]? = none := List.getElem?_eq_none (by omega)
    rw [this] at hclass; exact absurd hclass (by simp)
  -- the definition handed to AddProperty, whatever type it is given
  have hgen : ∀ d : GMLPropertyDefn, d.m_pszName = name → d.m_pszSrcElement = pszElement →
      ∃ (r2 : GMLReader) (newp : GMLPropertyDefn),
        (if (poClass.AddProperty d).1 < 0 then some r
         else storeProperty env r st rest f (poClass.AddProperty d).2
           poClass.GetPropertyCount pszValue) = some r2 ∧
        r2.m_papoClass[f.m_poClass]? =
          some { poClass with m_papoProperty := poClass.m_papoProperty ++ [newp] } ∧
        newp.m_pszName = name ∧ newp.m_pszSrcElement = pszElement := by
    intro d hd1 hd2
    have hadd := AddProperty_free poClass d (by rw [hd1]; exact hfree)
    obtain ⟨d2, e1, e2, e3⟩ := storeProperty_new env r st rest f poClass d pszValue hunlocked
    refine ⟨{ r with
        m_papoClass := (r.m_papoClass.set f.m_poClass
          { poClass with m_papoProperty := (poClass.m_papoProperty ++ [d2]) }),
        m_poState := ({ st with m_poFeature :=
          (some (f.SetPropertyDirectly poClass.GetPropertyCount pszValue)) } :: rest) },
      d2, ?_, ?_, e1.trans hd1, e2.trans hd2⟩
    · rw [hadd]
      have hnn : ¬ ((poClass.GetPropertyCount : Int) < 0) := by omega
      simp only [hnn, if_false]
      exact e3
    · simp [List.getElem?_set, hlt]
  unfold SetFeaturePropertyDirectly
  rw [hstate]
  simp only [hfeat, hclass, hidx, hunlocked, if_neg hrange, ne_eq, not_true_eq_false, if_false,
    hdedup, Bool.false_eq_true]
  apply hgen
  · split_ifs <;> rfl
  · split_ifs <;> rfl

end GML

namespace GML
open GMLReader

theorem strchr_none_iff (s : CStr) (c : Char) : strchr s c = none ↔ c ∉ s := by
  induction s with
  | nil => simp [strchr]
  | cons x xs ih =>
    by_cases hx : x = c
    · simp [strchr, hx]
    · have hne : ¬ c = x := fun h => hx h.symm
      simp [strchr, hx, hne, ih]

theorem strrchr_none_of_not_mem (s : CStr) (c : Char) (h : c ∉ s) : strrchr s c = none := by
  induction s with
  | nil => rfl
  | cons x xs ih =>
    have hx : ¬ x = c := fun e => h (by simp [e])
    have hxs : c ∉ xs := fun e => h (List.mem_cons_of_mem _ e)
    simp [strrchr, ih hxs, hx]

theorem strrchr_split (pre last : CStr) (c : Char) (h : c ∉ last) :
    strrchr (pre ++ c :: last) c = some pre.length := by
  induction pre with
  | nil => simp [strrchr, strrchr_none_of_not_mem last c h]
  | cons x xs ih =>
    have : (x :: xs) ++ c :: last = x :: (xs ++ c :: last) := rfl
    rw [this, strrchr, ih]
    rfl

theorem deriveFieldName_plain (poClass : GMLFeatureClass) (pszElement : CStr)
    (h : '|' ∉ pszElement) : deriveFieldName false poClass pszElement = pszElement := by
  have := (strchr_none_iff pszElement '|').mpr h
  simp [deriveFieldName, this]

theorem deriveFieldName_nested (poClass : GMLFeatureClass) (pre last : CStr)
    (h : '|' ∉ last) :
    deriveFieldName false poClass (pre ++ '|' :: last) =
      if ∃ p ∈ poClass.m_papoProperty, p.m_pszName = last then pre ++ '|' :: last
      else last := by
  have h1 : (strchr (pre ++ '|' :: last) '|').isNone = false := by
    cases hs : strchr (pre ++ '|' :: last) '|' with
    | some i => rfl
    | none =>
      have := (strchr_none_iff _ _).mp hs
      exact absurd (by simp) this
  have h2 := strrchr_split pre last '|' h
  have h3 : (pre ++ '|' :: last).drop (pre.length + 1) = last := by
    rw [← List.drop_drop]; simp
  unfold deriveFieldName
  simp only [Bool.false_eq_true, if_false, h1, h2, h3]
  by_cases hex : ∃ p ∈ poClass.m_papoProperty, p.m_pszName = last
  · rw [if_pos ((GetPropertyIndex_ne_iff poClass last).mpr hex), if_pos hex]
  · rw [if_neg (fun hne => hex ((GetPropertyIndex_ne_iff poClass last).mp hne)), if_neg hex]

/-- C8: when `SetFeaturePropertyDirectly` creates a new property outside the
WFS joint-layer profile (class not schema-locked, source path new, index
outside the range), the property appended to the class has the given source
path and the name obtained by `@` replacement and `_` de-duplication from the
derived name, and the derived name is the source path itself if it contains no
`|`; otherwise it is the text after the last `|`, unless the class already has
a property with that name, in which case it is the full source path. -/
theorem SetFeaturePropertyDirectly_field_name (env : Env) (fuel : Nat) (r : GMLReader)
    (st : GMLReadState) (rest : List GMLReadState) (f : GMLFeature)
    (poClass : GMLFeatureClass) (pszElement pszValue : CStr) (iPropertyIn : Int)
    (eType : GMLPropertyType)
    (hstate : r.m_poState = st :: rest) (hfeat : st.m_poFeature = some f)
    (hclass : r.m_papoClass[f.m_poClass]? = some poClass)
    (hunlocked : poClass.IsSchemaLocked = false)
    (hnomatch : ∀ p ∈ poClass.m_papoProperty, p.m_pszSrcElement ≠ pszElement)
    (hrange : ¬ (0 ≤ iPropertyIn ∧ iPropertyIn < poClass.GetPropertyCount))
    (hwfs : r.m_bIsWFSJointLayer = false)
    (hfuel : fuel > poClass.GetPropertyCount) :
    (∃ (r2 : GMLReader) (newp : GMLPropertyDefn),
      r.SetFeaturePropertyDirectly env fuel pszElement pszValue iPropertyIn eType = some r2 ∧
      r2.m_papoClass[f.m_poClass]? =
        some { poClass with m_papoProperty := poClass.m_papoProperty ++ [newp] } ∧
      newp.m_pszSrcElement = pszElement ∧
      dedupFieldName poClass fuel (replaceAt (deriveFieldName false poClass pszElement)) =
        some newp.m_pszName) ∧
    ('|' ∉ pszElement → deriveFieldName false poClass pszElement = pszElement) ∧
    (∀ pre last : CStr, pszElement = pre ++ '|' :: last → '|' ∉ last →
      deriveFieldName false poClass pszElement =
        if ∃ p ∈ poClass.m_papoProperty, p.m_pszName = last then pszElement else last) := by
  refine ⟨?_, deriveFieldName_plain poClass pszElement, ?_⟩
  · obtain ⟨k, h1, h2, _⟩ := dedupFieldName_total poClass fuel
      (replaceAt (deriveFieldName false poClass pszElement)) hfuel
    obtain ⟨r2, newp, e1, e2, e3, e4⟩ := SetFeaturePropertyDirectly_creates env fuel r st rest f
      poClass pszElement pszValue iPropertyIn eType _ hstate hfeat hclass hunlocked hnomatch
      hrange (by rw [hwfs]; exact h1) h2
    exact ⟨r2, newp, e1, e2, e4, by rw [e3]; exact h1⟩
  · intro pre last hsplit hlast
    rw [hsplit]
    exact deriveFieldName_nested poClass pre last hlast

/-- Witness for C8: the class `City` (property `name`) receives the new source
path `address|name`; the last segment `name` is taken, so the full path is the
derived name. -/
theorem SetFeaturePropertyDirectly_field_name_witness :
    deriveFieldName false openCity "address|name".toList = "address|name".toList :=
  ((SetFeaturePropertyDirectly_field_name {} 2 openCityReader
      { m_poFeature := some { m_poClass := 0 } } [] { m_poClass := 0 } openCity
      "address|name".toList "Main St".toList (-1) GMLPropertyType.GMLPT_Untyped
      rfl rfl rfl rfl (by decide) (by decide) rfl (by decide)).2.2
    "address".toList "name".toList rfl (by decide)).trans (by decide)

end GML

namespace GML
open GMLReader

/-- C10: for a class that is not schema-locked and a new source path (index
outside the range), with more loop tests allowed than the class has
properties, the de-duplication loop of `SetFeaturePropertyDirectly` ends, the
call returns, and the property appended to the class has a name that differs
from the name of every property already in the class: the derived name (after
`@` replacement) followed by `k` characters `_`, where every smaller number of
`_` gives a name that is in use. -/
theorem SetFeaturePropertyDirectly_dedup (env : Env) (fuel : Nat) (r : GMLReader)
    (st : GMLReadState) (rest : List GMLReadState) (f : GMLFeature)
    (poClass : GMLFeatureClass) (pszElement pszValue : CStr) (iPropertyIn : Int)
    (eType : GMLPropertyType)
    (hstate : r.m_poState = st :: rest) (hfeat : st.m_poFeature = some f)
    (hclass : r.m_papoClass[f.m_poClass]? = some poClass)
    (hunlocked : poClass.IsSchemaLocked = false)
    (hnomatch : ∀ p ∈ poClass.m_papoProperty, p.m_pszSrcElement ≠ pszElement)
    (hrange : ¬ (0 ≤ iPropertyIn ∧ iPropertyIn < poClass.GetPropertyCount))
    (hfuel : fuel > poClass.GetPropertyCount) :
    ∃ (k : Nat) (r2 : GMLReader) (newp : GMLPropertyDefn),
      dedupFieldName poClass fuel
        (replaceAt (deriveFieldName r.m_bIsWFSJointLayer poClass pszElement)) =
          some newp.m_pszName ∧
      r.SetFeaturePropertyDirectly env fuel pszElement pszValue iPropertyIn eType = some r2 ∧
      r2.m_papoClass[f.m_poClass]? =
        some { poClass with m_papoProperty := poClass.m_papoProperty ++ [newp] } ∧
      newp.m_pszSrcElement = pszElement ∧
      newp.m_pszName =
        replaceAt (deriveFieldName r.m_bIsWFSJointLayer poClass pszElement) ++
          List.replicate k '_' ∧
      (∀ p ∈ poClass.m_papoProperty, p.m_pszName ≠ newp.m_pszName) ∧
      (∀ j < k, ∃ p ∈ poClass.m_papoProperty, p.m_pszName =
        replaceAt (deriveFieldName r.m_bIsWFSJointLayer poClass pszElement) ++
          List.replicate j '_') := by
  obtain ⟨k, h1, h2, h3⟩ := dedupFieldName_total poClass fuel
    (replaceAt (deriveFieldName r.m_bIsWFSJointLayer poClass pszElement)) hfuel
  obtain ⟨r2, newp, e1, e2, e3, e4⟩ := SetFeaturePropertyDirectly_creates env fuel r st rest f
    poClass pszElement pszValue iPropertyIn eType _ hstate hfeat hclass hunlocked hnomatch
    hrange h1 h2
  refine ⟨k, r2, newp, by rw [e3]; exact h1, e1, e2, e4, e3, by rw [e3]; exact h2, h3⟩

/-- Witness for C10: a class with the properties `id` and `id_` receives the
new source path `id_`, which is the source path of neither.  The derived name
`id_` is in use, so the loop appends one `_`: the new property is named
`id__` (k = 1), and three loop tests are allowed. -/
theorem SetFeaturePropertyDirectly_dedup_witness :
    replaceAt (deriveFieldName false crowdedClass "id_".toList) = "id_".toList ∧
    (crowdedClass.GetPropertyByName "id_".toList).isSome = true ∧
    dedupFieldName crowdedClass 3 "id_".toList = some "id__".toList ∧
    (crowdedReader.SetFeaturePropertyDirectly {} 3 "id_".toList "7".toList (-1)
        GMLPropertyType.GMLPT_Untyped).map
        (fun r2 => r2.m_papoClass.map fun c => c.m_papoProperty.map fun p => p.m_pszName) =
      some [["id".toList, "id_".toList, "id__".toList]] ∧
    ∃ (k : Nat) (r2 : GMLReader) (newp : GMLPropertyDefn),
      dedupFieldName crowdedClass 3
        (replaceAt (deriveFieldName false crowdedClass "id_".toList)) =
          some newp.m_pszName ∧
      crowdedReader.SetFeaturePropertyDirectly {} 3 "id_".toList "7".toList (-1)
        GMLPropertyType.GMLPT_Untyped = some r2 ∧
      r2.m_papoClass[0]? =
        some { crowdedClass with m_papoProperty := crowdedClass.m_papoProperty ++ [newp] } ∧
      newp.m_pszSrcElement = "id_".toList ∧
      newp.m_pszName =
        replaceAt (deriveFieldName false crowdedClass "id_".toList) ++
          List.replicate k '_' ∧
      (∀ p ∈ crowdedClass.m_papoProperty, p.m_pszName ≠ newp.m_pszName) ∧
      (∀ j < k, ∃ p ∈ crowdedClass.m_papoProperty, p.m_pszName =
        replaceAt (deriveFieldName false crowdedClass "id_".toList) ++
          List.replicate j '_') :=
  ⟨by decide, by decide, by decide, by decide,
    SetFeaturePropertyDirectly_dedup {} 3 crowdedReader
      { m_poFeature := some { m_poClass := 0 } } [] { m_poClass := 0 } crowdedClass
      "id_".toList "7".toList (-1) GMLPropertyType.GMLPT_Untyped
      rfl rfl rfl rfl (by decide) (by decide) (by decide)⟩

/-- C9, evaluation of the code at the failing input: the class `City`
(property `name`) receives the new source path `a@b@c`.  Only the first `@`
is replaced: the new property is named `a_b@c`. -/
theorem SetFeaturePropertyDirectly_second_at_kept :
    (openCityReader.SetFeaturePropertyDirectly {} 2 "a@b@c".toList "v".toList (-1)
        GMLPropertyType.GMLPT_Untyped).map
        (fun r2 => r2.m_papoClass.map fun c => c.m_papoProperty.map fun p => p.m_pszName) =
      some [["name".toList, "a_b@c".toList]] ∧
    "a_b@c".toList.contains '@' = true := by
  decide

theorem replaceAt_no_at (s : CStr) (h : s.count '@' ≤ 1) : '@' ∉ replaceAt s := by
  unfold replaceAt
  induction s with
  | nil => simp [strchr]
  | cons x xs ih =>
    by_cases hx : x = '@'
    · subst hx
      have hxs : xs.count '@' = 0 := by simp at h; omega
      have hnot : '@' ∉ xs := List.count_eq_zero.mp hxs
      simp [strchr, hnot]
    · have hc : xs.count '@' ≤ 1 := by
        rw [List.count_cons_of_ne (fun e => hx e.symm)] at h; exact h
      have ih2 := ih hc
      cases hs : strchr xs '@' with
      | none =>
        rw [hs] at ih2
        have hne : ¬ '@' = x := fun e => hx e.symm
        simp [strchr, hx, hs, hne]
        simpa using ih2
      | some i =>
        rw [hs] at ih2
        have hne : ¬ '@' = x := fun e => hx e.symm
        simp [strchr, hx, hs, hne]
        simpa using ih2

end GML

/-! ## The stop flag is never cleared; the Expat backend honours it -/

namespace GML
open GMLReader

theorem PopState_flags (r : GMLReader) :
    r.PopState.m_bStopParsing = r.m_bStopParsing ∧
    r.PopState.bUseExpatReader = r.bUseExpatReader := by
  unfold PopState
  cases hS : r.m_poState with
  | nil => simp
  | cons st rest =>
    cases hf : st.m_poFeature <;> cases hx : r.bUseExpatReader <;>
      cases hc : r.m_poCompleteFeature <;> simp [hf, hx, hc]

theorem popStates_flags (S : List GMLReadState) (r : GMLReader) :
    (popStates S r).m_bStopParsing = r.m_bStopParsing ∧
    (popStates S r).bUseExpatReader = r.bUseExpatReader := by
  induction S generalizing r with
  | nil => exact ⟨rfl, rfl⟩
  | cons s rest ih =>
    obtain ⟨h1, h2⟩ := ih r.PopState
    obtain ⟨k1, k2⟩ := PopState_flags r
    exact ⟨by rw [popStates, h1, k1], by rw [popStates, h2, k2]⟩

theorem CleanupParser_flags (r : GMLReader) :
    r.CleanupParser.m_bStopParsing = r.m_bStopParsing ∧
    r.CleanupParser.bUseExpatReader = r.bUseExpatReader := by
  obtain ⟨h1, h2⟩ := popStates_flags r.m_poState r
  unfold CleanupParser
  split_ifs
  · exact ⟨rfl, rfl⟩
  · exact ⟨rfl, rfl⟩
  · exact ⟨h1, h2⟩

theorem SetupParserExpat_flags (r : GMLReader) :
    r.SetupParserExpat.2.m_bStopParsing = r.m_bStopParsing ∧
    r.SetupParserExpat.2.bUseExpatReader = r.bUseExpatReader := by
  obtain ⟨h1, h2⟩ := CleanupParser_flags r
  unfold SetupParserExpat
  cases r.oParser
  · exact ⟨rfl, rfl⟩
  · exact ⟨h1, h2⟩

theorem SetupParserXerces_flags (env : Env) (r : GMLReader) :
    (r.SetupParserXerces env).2.m_bStopParsing = r.m_bStopParsing ∧
    (r.SetupParserXerces env).2.bUseExpatReader = r.bUseExpatReader := by
  unfold SetupParserXerces
  dsimp only
  repeat' split
  all_goals first
    | exact ⟨rfl, rfl⟩
    | exact CleanupParser_flags _

theorem openSource_flags (env : Env) (r : GMLReader) :
    (r.openSource env).m_bStopParsing = r.m_bStopParsing ∧
    (r.openSource env).bUseExpatReader = r.bUseExpatReader := by
  unfold openSource
  dsimp only
  split <;> exact ⟨rfl, rfl⟩

theorem SetupParser_flags (env : Env) (r : GMLReader) :
    (r.SetupParser env).2.m_bStopParsing = r.m_bStopParsing ∧
    (r.SetupParser env).2.bUseExpatReader = r.bUseExpatReader := by
  have h1 := openSource_flags env r
  have h2 := SetupParserExpat_flags (r.openSource env)
  have h3 := SetupParserXerces_flags env (r.openSource env)
  unfold SetupParser
  dsimp only
  split
  · split
    · exact ⟨h2.1.trans h1.1, h2.2.trans h1.2⟩
    · exact ⟨h2.1.trans h1.1, h2.2.trans h1.2⟩
  · split
    · exact ⟨h3.1.trans h1.1, h3.2.trans h1.2⟩
    · exact ⟨h3.1.trans h1.1, h3.2.trans h1.2⟩

end GML

namespace GML
open GMLReader

theorem expatStart_flags (env : Env) (r : GMLReader) :
    (r.expatStart env).m_bStopParsing = r.m_bStopParsing ∧
    (r.expatStart env).bUseExpatReader = r.bUseExpatReader := by
  have h := SetupParser_flags env r
  unfold expatStart
  dsimp only
  split
  · split
    · exact h
    · exact ⟨rfl, rfl⟩
  · exact ⟨rfl, rfl⟩

theorem NextFeatureExpat_stopped (env : Env) (r : GMLReader)
    (hstop : r.m_bStopParsing = true) :
    r.NextFeatureExpat env = some (none, r.expatStart env) := by
  have h := (expatStart_flags env r).1
  rw [hstop] at h
  unfold NextFeatureExpat
  dsimp only
  cases hfp : (r.expatStart env).fpGML with
  | none => rfl
  | some fp => simp [h]

theorem xercesStart_flags (env : Env) (r : GMLReader) :
    (r.xercesStart env).2.m_bStopParsing = r.m_bStopParsing ∧
    (r.xercesStart env).2.bUseExpatReader = r.bUseExpatReader := by
  have h := SetupParser_flags env r
  unfold xercesStart
  dsimp only
  repeat' split
  all_goals first
    | exact ⟨rfl, rfl⟩
    | exact h

theorem xercesReturn_flags (r : GMLReader) :
    r.xercesReturn.2.m_bStopParsing = r.m_bStopParsing ∧
    r.xercesReturn.2.bUseExpatReader = r.bUseExpatReader := by
  unfold xercesReturn
  dsimp only
  split <;> exact ⟨rfl, rfl⟩

theorem applyCall_flags (r : GMLReader) (c : HandlerCall) :
    (r.applyCall c).m_bStopParsing = r.m_bStopParsing ∧
    (r.applyCall c).bUseExpatReader = r.bUseExpatReader := by
  cases c with
  | PushState s => exact ⟨rfl, rfl⟩
  | PopState => exact PopState_flags r
  | GetState s =>
    simp only [applyCall]
    split <;> exact ⟨rfl, rfl⟩

theorem runCalls_flags (calls : List HandlerCall) (r : GMLReader) :
    (r.runCalls calls).m_bStopParsing = r.m_bStopParsing ∧
    (r.runCalls calls).bUseExpatReader = r.bUseExpatReader := by
  induction calls generalizing r with
  | nil => exact ⟨rfl, rfl⟩
  | cons c cs ih =>
    have h1 := applyCall_flags r c
    have h2 := ih (r.applyCall c)
    have hrun : r.runCalls (c :: cs) = (r.applyCall c).runCalls cs := by simp [runCalls]
    rw [hrun]
    exact ⟨h2.1.trans h1.1, h2.2.trans h1.2⟩

theorem xercesParseLoop_flags (toks : List XercesToken) (r : GMLReader) :
    (xercesParseLoop toks r).1.m_bStopParsing = r.m_bStopParsing ∧
    (xercesParseLoop toks r).1.bUseExpatReader = r.bUseExpatReader := by
  induction toks generalizing r with
  | nil => exact ⟨rfl, rfl⟩
  | cons t ts ih =>
    have h1 := runCalls_flags t.calls { r with m_poSAXReader := some ts }
    have h2 := ih (GMLReader.runCalls { r with m_poSAXReader := some ts } t.calls)
    unfold xercesParseLoop
    dsimp only
    split
    · split
      · exact ⟨h2.1.trans h1.1, h2.2.trans h1.2⟩
      · exact h1
      · exact h1
      · exact h1
    · exact ⟨rfl, rfl⟩

/-- The stop flag survives `NextFeature` on either backend: a defined call on a
reader whose flag is set leaves the flag set (and the backend unchanged). -/
theorem NextFeature_keeps_stop (env : Env) (r : GMLReader)
    (res : Option GMLFeature × GMLReader) (hstop : r.m_bStopParsing = true)
    (h : r.NextFeature env = some res) :
    res.2.m_bStopParsing = true ∧ res.2.bUseExpatReader = r.bUseExpatReader := by
  unfold NextFeature at h
  by_cases hx : r.bUseExpatReader = true
  · rw [if_pos hx, NextFeatureExpat_stopped env r hstop] at h
    injection h with h
    subst h
    have := expatStart_flags env r
    exact ⟨this.1.trans hstop, this.2⟩
  · rw [if_neg hx] at h
    have hs := xercesStart_flags env r
    unfold NextFeatureXerces at h
    by_cases he : r.m_bEOF = true
    · rw [if_pos he] at h
      injection h with h; subst h
      exact ⟨hstop, rfl⟩
    · rw [if_neg he] at h
      rcases hst : r.xercesStart env with ⟨t, q⟩
      rw [hst] at h hs
      have hq : q.m_bStopParsing = true := hs.1.trans hstop
      cases t with
      | returnedNull =>
        injection h with h; subst h
        exact ⟨hq, hs.2⟩
      | caught =>
        injection h with h; subst h
        exact ⟨rfl, hs.2⟩
      | completed =>
        simp only [hq, Bool.not_true, Bool.and_false, Bool.false_eq_true, if_false] at h
        injection h with h; subst h
        have hr := xercesReturn_flags q
        exact ⟨hr.1.trans hq, hr.2.trans hs.2⟩

theorem SetFilteredClassName_flags (r : GMLReader) (n : Option CStr) :
    (r.SetFilteredClassName n).2.m_bStopParsing = r.m_bStopParsing ∧
    (r.SetFilteredClassName n).2.bUseExpatReader = r.bUseExpatReader := by
  unfold SetFilteredClassName
  cases n <;> exact ⟨rfl, rfl⟩

theorem ResetReading_flags (r : GMLReader) :
    r.ResetReading.m_bStopParsing = r.m_bStopParsing ∧
    r.ResetReading.bUseExpatReader = r.bUseExpatReader := by
  have h1 := CleanupParser_flags r
  have h2 := SetFilteredClassName_flags r.CleanupParser none
  unfold ResetReading
  exact ⟨h2.1.trans h1.1, h2.2.trans h1.2⟩

theorem applyOp_keeps_stop (env : Env) (r r2 : GMLReader) (op : ReaderOp)
    (hstop : r.m_bStopParsing = true) (h : applyOp env r op = some r2) :
    r2.m_bStopParsing = true ∧ r2.bUseExpatReader = r.bUseExpatReader := by
  cases op with
  | NextFeature =>
    unfold applyOp at h
    cases hn : r.NextFeature env with
    | none => rw [hn] at h; simp at h
    | some res =>
      rw [hn] at h
      simp at h
      subst h
      exact NextFeature_keeps_stop env r res hstop hn
  | ResetReading =>
    unfold applyOp at h
    injection h with h; subst h
    have := ResetReading_flags r
    exact ⟨this.1.trans hstop, this.2⟩
  | SetFilteredClassName n =>
    unfold applyOp at h
    injection h with h; subst h
    have := SetFilteredClassName_flags r n
    exact ⟨this.1.trans hstop, this.2⟩
  | PopState =>
    unfold applyOp at h
    injection h with h; subst h
    have := PopState_flags r
    exact ⟨this.1.trans hstop, this.2⟩
  | PushState s =>
    unfold applyOp at h
    injection h with h; subst h
    exact ⟨hstop, rfl⟩

/-- No operation clears the stop flag: after every sequence of `NextFeature`,
`ResetReading`, `SetFilteredClassName`, `PopState` and `PushState` calls on a
reader whose flag is set, on either backend, the flag is still set. -/
theorem applyOps_keeps_stop (env : Env) (ops : List ReaderOp) :
    ∀ (r r2 : GMLReader), r.m_bStopParsing = true → applyOps env r ops = some r2 →
    r2.m_bStopParsing = true ∧ r2.bUseExpatReader = r.bUseExpatReader := by
  induction ops with
  | nil =>
    intro r r2 hstop h
    unfold applyOps at h
    injection h with h; subst h
    exact ⟨hstop, rfl⟩
  | cons op ops ih =>
    intro r r2 hstop h
    unfold applyOps at h
    cases hop : applyOp env r op with
    | none => rw [hop] at h; simp at h
    | some r1 =>
      rw [hop] at h
      simp only [Option.some_bind] at h
      have h1 := applyOp_keeps_stop env r r1 op hstop hop
      have h2 := ih r1 r2 h1.1 h
      exact ⟨h2.1, h2.2.trans h1.2⟩

/-- The Expat backend honours the stop flag: once it is set, after every
sequence of reader operations `NextFeature` returns NULL, whatever the feature
table holds. -/
theorem NextFeature_expat_after_stop (env : Env) (ops : List ReaderOp) (r r2 : GMLReader)
    (hx : r.bUseExpatReader = true) (hstop : r.m_bStopParsing = true)
    (h : applyOps env r ops = some r2) :
    ∃ r3, r2.NextFeature env = some (none, r3) := by
  obtain ⟨h1, h2⟩ := applyOps_keeps_stop env ops r r2 hstop h
  refine ⟨r2.expatStart env, ?_⟩
  unfold NextFeature
  rw [h2, hx, if_pos rfl]
  exact NextFeatureExpat_stopped env r2 h1

end GML

/-! ## Field names in the WFS joint-layer profile -/

namespace GML
open GMLReader

theorem strchr_set_eq_replaceFirstSeparator (s : CStr) :
    (match strchr s '|' with
      | some iPos => s.set iPos '.'
      | none => s) = replaceFirstSeparator s := by
  induction s with
  | nil => rfl
  | cons x xs ih =>
    by_cases hx : x = '|'
    · simp [strchr, replaceFirstSeparator, hx]
    · cases hs : strchr xs '|' with
      | none =>
        rw [hs] at ih
        simp [strchr, replaceFirstSeparator, hx, hs]
        exact ih
      | some i =>
        rw [hs] at ih
        simp [strchr, replaceFirstSeparator, hx, hs]
        exact ih

theorem strstr_atid_none (t : CStr) (h : '@' ∉ t) : strstr t "@id".toList = none := by
  induction t with
  | nil => rfl
  | cons x xs ih =>
    have hx : ¬ x = '@' := fun e => h (by simp [e])
    have hxs : '@' ∉ xs := fun e => h (List.mem_cons_of_mem _ e)
    have hne : ((x :: xs).take "@id".toList.length == "@id".toList) = false := by
      simp [hx]
    rw [strstr, hne, ih hxs]
    rfl

theorem strstr_atid_suffix (P : CStr) (h : '@' ∉ P) :
    strstr (P ++ "@id".toList) "@id".toList = some P.length := by
  induction P with
  | nil => rfl
  | cons x xs ih =>
    have hx : ¬ x = '@' := fun e => h (by simp [e])
    have hxs : '@' ∉ xs := fun e => h (List.mem_cons_of_mem _ e)
    have hne : (((x :: xs) ++ "@id".toList).take "@id".toList.length == "@id".toList)
        = false := by
      simp [hx]
    have hcons : (x :: xs) ++ "@id".toList = x :: (xs ++ "@id".toList) := rfl
    rw [hcons] at hne ⊢
    rw [strstr, hne, ih hxs]
    rfl

theorem replaceFirstSeparator_no_at (s : CStr) (h : '@' ∉ s) :
    '@' ∉ replaceFirstSeparator s := by
  induction s with
  | nil => simp [replaceFirstSeparator]
  | cons x xs ih =>
    have hx : ¬ '@' = x := fun e => h (by rw [e]; exact List.mem_cons_self _ _)
    have hxs : '@' ∉ xs := fun e => h (List.mem_cons_of_mem _ e)
    by_cases hb : x = '|'
    · simp [replaceFirstSeparator, hb, hxs]
    · simp [replaceFirstSeparator, hb, hx, ih hxs]

theorem replaceFirstSeparator_append_atid (P : CStr) :
    replaceFirstSeparator (P ++ "@id".toList) = replaceFirstSeparator P ++ "@id".toList := by
  induction P with
  | nil => rfl
  | cons x xs ih =>
    by_cases hb : x = '|'
    · simp [replaceFirstSeparator, hb]
    · show replaceFirstSeparator (x :: (xs ++ "@id".toList)) = _
      simp only [replaceFirstSeparator, hb, if_false, ih]
      rfl

theorem replaceAt_of_no_at (s : CStr) (h : '@' ∉ s) : replaceAt s = s := by
  unfold replaceAt
  rw [(strchr_none_iff s '@').mpr h]

theorem deriveFieldName_wfs_plain (poClass : GMLFeatureClass) (REST : CStr)
    (h : '@' ∉ REST) :
    deriveFieldName true poClass ("member|".toList ++ REST) = replaceFirstSeparator REST := by
  have hstart : STARTS_WITH ("member|".toList ++ REST) "member|".toList = true := by
    simp [STARTS_WITH]
  have hdrop : ("member|".toList ++ REST).drop "member|".length = REST := rfl
  unfold deriveFieldName
  simp only [if_true, hstart, hdrop, strchr_set_eq_replaceFirstSeparator,
    strstr_atid_none _ (replaceFirstSeparator_no_at REST h)]

theorem deriveFieldName_wfs_id (poClass : GMLFeatureClass) (P : CStr) (h : '@' ∉ P) :
    deriveFieldName true poClass ("member|".toList ++ (P ++ "@id".toList)) =
      replaceFirstSeparator P ++ ".gml_id".toList := by
  have hstart : STARTS_WITH ("member|".toList ++ (P ++ "@id".toList)) "member|".toList
      = true := by
    simp [STARTS_WITH]
  have hdrop : ("member|".toList ++ (P ++ "@id".toList)).drop "member|".length
      = P ++ "@id".toList := rfl
  unfold deriveFieldName
  simp only [if_true, hstart, hdrop, strchr_set_eq_replaceFirstSeparator,
    replaceFirstSeparator_append_atid,
    strstr_atid_suffix _ (replaceFirstSeparator_no_at P h)]
  simp

end GML

namespace GML
open GMLReader

theorem replaceFirstSeparator_single (s : CStr) (h : s.count '|' ≤ 1) :
    replaceFirstSeparator s = replaceAllSeparators s := by
  induction s with
  | nil => rfl
  | cons x xs ih =>
    by_cases hb : x = '|'
    · subst hb
      have h0 : xs.count '|' = 0 := by
        simp only [List.count_cons_self] at h
        omega
      have hnot : '|' ∉ xs := List.count_eq_zero.mp h0
      have hid : xs.map (fun c => if c = '|' then '.' else c) = xs := by
        conv_rhs => rw [← List.map_id xs]
        apply List.map_congr_left
        intro c hc
        have : c ≠ '|' := fun e => hnot (e ▸ hc)
        simp [this]
      simp [replaceFirstSeparator, replaceAllSeparators, hid]
    · have hc : xs.count '|' ≤ 1 := by
        rw [List.count_cons_of_ne (fun e => hb e.symm)] at h
        exact h
      have := ih hc
      simp only [replaceAllSeparators] at this
      simp [replaceFirstSeparator, replaceAllSeparators, hb, this]

/-- C11, counterexample: in the WFS joint-layer profile the new source path
`member|layer|a|b` yields the property name `layer.a|b`: only the first `|`
after the `member|` prefix is replaced, whereas replacing every `|` would
give `layer.a.b`. -/
theorem SetFeaturePropertyDirectly_wfs_nested_counterexample :
    (jointLayerReader.SetFeaturePropertyDirectly {} 2 "member|layer|a|b".toList "v".toList (-1)
        GMLPropertyType.GMLPT_Untyped).map
      (fun r2 => r2.m_papoClass.map fun c => c.m_papoProperty.map fun p => p.m_pszName) =
      some [["layer.a|b".toList]] ∧
    replaceAllSeparators "layer|a|b".toList = "layer.a.b".toList ∧
    "layer.a|b".toList ≠ "layer.a.b".toList := by
  decide

/-- C11, amended: in the WFS joint-layer profile, when
`SetFeaturePropertyDirectly` creates a new property (class not schema-locked,
index outside the range) for the new source path `member|` followed by REST,
the property appended to the class gets that source path and the name obtained
by `_` de-duplication from a derived name which is: REST with its first `|`
replaced by `.` when REST contains no `@`; and, when REST is P followed by
`@id` with no `@` in P, P with its first `|` replaced by `.` followed by
`.gml_id`. With at most one `|` in the text, replacing the first `|` is
replacing every `|`. -/
theorem SetFeaturePropertyDirectly_wfs_field_name (env : Env) (fuel : Nat) (r : GMLReader)
    (st : GMLReadState) (rest : List GMLReadState) (f : GMLFeature)
    (poClass : GMLFeatureClass) (REST pszValue : CStr) (iPropertyIn : Int)
    (eType : GMLPropertyType)
    (hstate : r.m_poState = st :: rest) (hfeat : st.m_poFeature = some f)
    (hclass : r.m_papoClass[f.m_poClass]? = some poClass)
    (hunlocked : poClass.IsSchemaLocked = false)
    (hnomatch : ∀ p ∈ poClass.m_papoProperty, p.m_pszSrcElement ≠ "member|".toList ++ REST)
    (hrange : ¬ (0 ≤ iPropertyIn ∧ iPropertyIn < poClass.GetPropertyCount))
    (hwfs : r.m_bIsWFSJointLayer = true)
    (hfuel : fuel > poClass.GetPropertyCount) :
    (∃ (r2 : GMLReader) (newp : GMLPropertyDefn),
      r.SetFeaturePropertyDirectly env fuel ("member|".toList ++ REST) pszValue iPropertyIn
        eType = some r2 ∧
      r2.m_papoClass[f.m_poClass]? =
        some { poClass with m_papoProperty := poClass.m_papoProperty ++ [newp] } ∧
      newp.m_pszSrcElement = "member|".toList ++ REST ∧
      dedupFieldName poClass fuel
        (replaceAt (deriveFieldName true poClass ("member|".toList ++ REST))) =
        some newp.m_pszName) ∧
    ('@' ∉ REST →
      replaceAt (deriveFieldName true poClass ("member|".toList ++ REST)) =
        replaceFirstSeparator REST) ∧
    (∀ P : CStr, REST = P ++ "@id".toList → '@' ∉ P →
      replaceAt (deriveFieldName true poClass ("member|".toList ++ REST)) =
        replaceFirstSeparator P ++ ".gml_id".toList) ∧
    (∀ s : CStr, s.count '|' ≤ 1 → replaceFirstSeparator s = replaceAllSeparators s) := by
  refine ⟨?_, ?_, ?_, replaceFirstSeparator_single⟩
  · obtain ⟨k, h1, h2, _⟩ := dedupFieldName_total poClass fuel
      (replaceAt (deriveFieldName true poClass ("member|".toList ++ REST))) hfuel
    obtain ⟨r2, newp, e1, e2, e3, e4⟩ := SetFeaturePropertyDirectly_creates env fuel r st rest f
      poClass ("member|".toList ++ REST) pszValue iPropertyIn eType _ hstate hfeat hclass
      hunlocked hnomatch hrange (by rw [hwfs]; exact h1) h2
    exact ⟨r2, newp, e1, e2, e4, by rw [e3]; exact h1⟩
  · intro hat
    rw [deriveFieldName_wfs_plain poClass REST hat]
    exact replaceAt_of_no_at _ (replaceFirstSeparator_no_at REST hat)
  · intro P hP hat
    rw [hP, deriveFieldName_wfs_id poClass P hat]
    apply replaceAt_of_no_at
    intro hmem
    rcases List.mem_append.mp hmem with h | h
    · exact replaceFirstSeparator_no_at P hat h
    · revert h; decide

/-- Witness for C11: the joint-layer class receives the new source path
`member|layer|name`; the derived name is `layer.name`. -/
theorem SetFeaturePropertyDirectly_wfs_field_name_witness :
    replaceAt (deriveFieldName true { m_pszName := "join".toList } "member|layer|name".toList) =
      "layer.name".toList :=
  ((SetFeaturePropertyDirectly_wfs_field_name {} 2 jointLayerReader
      { m_poFeature := some { m_poClass := 0 } } [] { m_poClass := 0 }
      { m_pszName := "join".toList }
      "layer|name".toList "v".toList (-1) GMLPropertyType.GMLPT_Untyped
      rfl rfl rfl rfl (by decide) (by decide) rfl (by decide)).2.1 (by decide)).trans
    (by decide)

end GML

/-! ## The state stack (`PushState`, `PopState`) -/

namespace GML
open GMLReader

theorem PopState_stack (r : GMLReader) : r.PopState.m_poState = r.m_poState.tail := by
  unfold PopState
  cases hS : r.m_poState with
  | nil => simp [hS]
  | cons st rest => rfl

theorem popN_stack (n : Nat) (r : GMLReader) : (popN n r).m_poState = r.m_poState.drop n := by
  induction n generalizing r with
  | zero => rfl
  | succ n ih =>
    rw [popN, ih, PopState_stack]
    cases r.m_poState <;> simp

theorem pushAll_stack (ss : List GMLReadState) (r : GMLReader) :
    (pushAll r ss).m_poState = ss.reverse ++ r.m_poState := by
  induction ss generalizing r with
  | nil => rfl
  | cons s ss ih =>
    rw [pushAll, ih]
    simp [PushState]

/-- C12: `PushState(s)` makes `s` the current state on top of the previous
chain (its parent is the previously current state), `PopState` makes the
parent of the current state current, a push followed by a pop restores the
chain, and any n pushes followed by n pops restore the chain of states that
was current before them. -/
theorem PushState_PopState_stack (r : GMLReader) (s : GMLReadState)
    (ss : List GMLReadState) :
    (r.PushState s).m_poState = s :: r.m_poState ∧
    r.PopState.m_poState = r.m_poState.tail ∧
    (r.PushState s).PopState.m_poState = r.m_poState ∧
    (popN ss.length (pushAll r ss)).m_poState = r.m_poState := by
  refine ⟨rfl, PopState_stack r, ?_, ?_⟩
  · rw [PopState_stack]; rfl
  · rw [popN_stack, pushAll_stack]
    have : ss.length = ss.reverse.length := by simp
    rw [this, List.drop_left]

end GML

/-! ## The feature buffer under `PopState` -/

namespace GML
open GMLReader

/-- C13, counterexample: on the Xerces backend, with a completed feature
already waiting in `m_poCompleteFeature`, `PopState` on a state that owns
another feature leaves the buffer as it was: the popped feature is not
transferred (it stays on the recycled state, which `Reset` clears). -/
theorem PopState_xerces_occupied_counterexample :
    (GMLReader.PopState
      { bUseExpatReader := false, m_poCompleteFeature := some sampleFeatureA,
        m_poState := [{ m_poFeature := some sampleFeatureB }, {}] }).m_poCompleteFeature =
      some sampleFeatureA ∧
    visibleTab (GMLReader.PopState
      { bUseExpatReader := false, m_poCompleteFeature := some sampleFeatureA,
        m_poState := [{ m_poFeature := some sampleFeatureB }, {}] }) = [] ∧
    sampleFeatureB ≠ sampleFeatureA := by
  decide

/-- C13, amended: when `PopState` is called with a current state `st`, then on
the Expat backend the feature owned by `st`, if any, is appended after the
features already buffered in `ppoFeatureTab` (the buffer is unchanged when
`st` owns none) and the single-feature slot is untouched; on the Xerces
backend the feature owned by `st` is moved into `m_poCompleteFeature` only
when that slot is empty, an occupied slot keeps its feature and the popped
feature is not buffered, and `ppoFeatureTab` is untouched.  On either backend
the parent state becomes current and the popped state, now the recycled one,
owns no feature. -/
theorem PopState_buffers_feature (r : GMLReader) (st : GMLReadState)
    (rest : List GMLReadState) (hstate : r.m_poState = st :: rest) :
    (r.bUseExpatReader = true →
      visibleTab r.PopState = visibleTab r ++ st.m_poFeature.toList ∧
      r.PopState.m_poCompleteFeature = r.m_poCompleteFeature) ∧
    (r.bUseExpatReader = false →
      r.PopState.m_poCompleteFeature =
        (if r.m_poCompleteFeature.isNone then st.m_poFeature else r.m_poCompleteFeature) ∧
      r.PopState.ppoFeatureTab = r.ppoFeatureTab ∧
      r.PopState.nFeatureTabLength = r.nFeatureTabLength) ∧
    r.PopState.m_poState = rest ∧
    (∃ s : GMLReadState, r.PopState.m_poRecycledState = some s ∧ s.m_poFeature = none) := by
  unfold PopState
  rw [hstate]
  refine ⟨?_, ?_, rfl, ⟨{}, rfl, rfl⟩⟩
  · intro hx
    cases hf : st.m_poFeature <;> simp [hf, hx, visibleTab]
  · intro hx
    cases hf : st.m_poFeature <;> cases hc : r.m_poCompleteFeature <;> simp [hf, hx, hc]

/-- Witness for C13: an Expat reader with one buffered feature pops a state
that owns a second feature. -/
theorem PopState_buffers_feature_witness :
    visibleTab (GMLReader.PopState
      { bUseExpatReader := true, ppoFeatureTab := [sampleFeatureA], nFeatureTabLength := 1,
        m_poState := [{ m_poFeature := some sampleFeatureB }] }) =
      [sampleFeatureA, sampleFeatureB] :=
  (((PopState_buffers_feature
      { bUseExpatReader := true, ppoFeatureTab := [sampleFeatureA], nFeatureTabLength := 1,
        m_poState := [{ m_poFeature := some sampleFeatureB }] }
      { m_poFeature := some sampleFeatureB } [] rfl).1 rfl).1).trans (by decide)

end GML

/-! ## What the schema calls do to the class registry -/

namespace GML
open GMLReader

theorem EQUAL_symm (a b : CStr) : EQUAL a b = EQUAL b a := by
  unfold EQUAL
  exact Bool.eq_iff_iff.mpr ⟨fun h => by simpa using (by simpa using h : _ = _).symm,
    fun h => by simpa using (by simpa using h : _ = _).symm⟩

theorem set_getElem?_self {α : Type} (l : List α) (i : Nat) (x : α) (h : l[i]? = some x) :
    l.set i x = l := by
  induction l generalizing i with
  | nil => rfl
  | cons y ys ih =>
    cases i with
    | zero => simp at h; simp [h]
    | succ j => simp at h; simp [ih j h]

theorem map_set_same {α β : Type} (g : α → β) (l : List α) (i : Nat) (x y : α)
    (h : l[i]? = some x) (hg : g y = g x) : (l.set i y).map g = l.map g := by
  rw [List.map_set]
  apply set_getElem?_self
  rw [List.getElem?_map, h, hg]
  rfl

theorem PopState_classes (r : GMLReader) :
    r.PopState.m_papoClass = r.m_papoClass ∧
    r.PopState.m_bClassListLocked = r.m_bClassListLocked := by
  unfold PopState
  cases hS : r.m_poState with
  | nil => simp
  | cons st rest =>
    cases hf : st.m_poFeature <;> cases hx : r.bUseExpatReader <;>
      cases hc : r.m_poCompleteFeature <;> simp [hf, hx, hc]

theorem GetClassByName_none_iff (r : GMLReader) (name : CStr) :
    r.GetClassByName name = none ↔ ∀ c ∈ r.m_papoClass, EQUAL c.GetName name = false := by
  unfold GetClassByName GetClass GetClassCount
  rcases firstIndexFrom_cases (fun c : GMLFeatureClass => EQUAL c.GetName name)
      r.m_papoClass 0 with ⟨h1, h2⟩ | ⟨j, c, h1, h2, h3, _⟩
  · rw [h1]
    simp only [Left.neg_neg_iff, zero_lt_one, true_or, if_true, true_iff]
    exact h2
  · rw [h3]
    have hlt : j < r.m_papoClass.length := by
      by_contra hge
      rw [List.getElem?_eq_none (by omega)] at h1
      exact absurd h1 (by simp)
    constructor
    · intro h
      have hn : ¬ (((0 + j : Nat) : Int) < 0 ∨ ((0 + j : Nat) : Int) ≥ (r.m_papoClass.length : Int)) := by
        omega
      rw [if_neg hn] at h
      simp at h
      omega
    · intro h
      have := h c (List.getElem?_mem h1)
      rw [this] at h2
      exact absurd h2 (by decide)

theorem storeProperty_classes (env : Env) (r : GMLReader) (st : GMLReadState)
    (rest : List GMLReadState) (f : GMLFeature) (cls : GMLFeatureClass) (i : Nat)
    (v : CStr) (r2 : GMLReader) (h : storeProperty env r st rest f cls i v = some r2) :
    ∃ ps : List GMLPropertyDefn,
      r2.m_papoClass = r.m_papoClass.set f.m_poClass { cls with m_papoProperty := ps } ∧
      ps.map (fun p => p.m_pszSrcElement) = cls.m_papoProperty.map (fun p => p.m_pszSrcElement) ∧
      r2.m_bClassListLocked = r.m_bClassListLocked := by
  unfold storeProperty at h
  cases hp : cls.m_papoProperty[i]? with
  | none => simp [hp] at h
  | some pd =>
    simp only [hp] at h
    cases hl : cls.IsSchemaLocked
    · simp only [hl, Bool.not_false, if_true, Option.some.injEq] at h
      subst h
      refine ⟨_, rfl, ?_, rfl⟩
      exact map_set_same _ _ _ pd _ hp rfl
    · simp only [hl, Bool.not_true, Bool.false_eq_true, if_false, Option.some.injEq] at h
      subst h
      exact ⟨cls.m_papoProperty, rfl, rfl, rfl⟩

theorem AddProperty_cases (c : GMLFeatureClass) (d : GMLPropertyDefn) :
    c.AddProperty d = (-1, c) ∨
    c.AddProperty d =
      ((c.GetPropertyCount : Int), { c with m_papoProperty := c.m_papoProperty ++ [d] }) := by
  unfold GMLFeatureClass.AddProperty
  split
  · left; rfl
  · right; rfl

theorem SetFeaturePropertyDirectly_classes (env : Env) (fuel : Nat) (r : GMLReader)
    (e v : CStr) (k : Int) (t : GMLPropertyType) (r2 : GMLReader)
    (h : r.SetFeaturePropertyDirectly env fuel e v k t = some r2) :
    r2.m_bClassListLocked = r.m_bClassListLocked ∧
    ∃ (i : Nat) (cls : GMLFeatureClass) (ps : List GMLPropertyDefn),
      r.m_papoClass[i]? = some cls ∧
      r2.m_papoClass = r.m_papoClass.set i { cls with m_papoProperty := ps } ∧
      (ps.map (fun p => p.m_pszSrcElement) =
          cls.m_papoProperty.map (fun p => p.m_pszSrcElement) ∨
        (ps.map (fun p => p.m_pszSrcElement) =
          cls.m_papoProperty.map (fun p => p.m_pszSrcElement) ++ [e] ∧
         e ∉ cls.m_papoProperty.map (fun p => p.m_pszSrcElement))) := by
  unfold SetFeaturePropertyDirectly at h
  cases hS : r.m_poState with
  | nil => rw [hS] at h; simp at h
  | cons st rest =>
    rw [hS] at h
    cases hf : st.m_poFeature with
    | none => simp [hf] at h
    | some f =>
      cases hc : r.m_papoClass[f.m_poClass]? with
      | none => simp [hf, hc] at h
      | some cls =>
        simp only [hf, hc] at h
        have hsame : r.m_papoClass =
            r.m_papoClass.set f.m_poClass { cls with m_papoProperty := cls.m_papoProperty } :=
          (set_getElem?_self _ _ _ hc).symm
        by_cases hr : 0 ≤ k ∧ k < cls.GetPropertyCount
        · rw [if_pos hr] at h
          obtain ⟨ps, e1, e2, e3⟩ := storeProperty_classes _ _ _ _ _ _ _ _ _ h
          exact ⟨e3, f.m_poClass, cls, ps, hc, e1, Or.inl e2⟩
        · rw [if_neg hr] at h
          by_cases hi : firstIndexFrom
              (fun p : GMLPropertyDefn => strcmp0 p.m_pszSrcElement e) cls.m_papoProperty 0 ≠ -1
          · rw [if_pos hi] at h
            obtain ⟨ps, e1, e2, e3⟩ := storeProperty_classes _ _ _ _ _ _ _ _ _ h
            exact ⟨e3, f.m_poClass, cls, ps, hc, e1, Or.inl e2⟩
          · rw [if_neg hi] at h
            cases hl : cls.IsSchemaLocked
            · simp only [hl, Bool.false_eq_true, if_false] at h
              have hfresh : e ∉ cls.m_papoProperty.map (fun p => p.m_pszSrcElement) := by
                intro hmem
                obtain ⟨p, hp, hpe⟩ := List.mem_map.mp hmem
                rcases firstIndexFrom_cases
                    (fun p : GMLPropertyDefn => strcmp0 p.m_pszSrcElement e)
                    cls.m_papoProperty 0 with ⟨_, h2⟩ | ⟨j, c, h1, h2, h3, _⟩
                · have := h2 p hp
                  simp [strcmp0, hpe] at this
                · exact hi (by rw [h3]; omega)
              cases hd : dedupFieldName cls fuel
                  (replaceAt (deriveFieldName r.m_bIsWFSJointLayer cls e)) with
              | none => simp [hd] at h
              | some name =>
                simp only [hd] at h
                have key : ∀ d : GMLPropertyDefn, d.m_pszSrcElement = e →
                    (if (cls.AddProperty d).1 < 0 then some r
                     else storeProperty env r st rest f (cls.AddProperty d).2
                       cls.GetPropertyCount v) = some r2 →
                    r2.m_bClassListLocked = r.m_bClassListLocked ∧
                    ∃ (i : Nat) (cls2 : GMLFeatureClass) (ps : List GMLPropertyDefn),
                      r.m_papoClass[i]? = some cls2 ∧
                      r2.m_papoClass = r.m_papoClass.set i { cls2 with m_papoProperty := ps } ∧
                      (ps.map (fun p => p.m_pszSrcElement) =
                          cls2.m_papoProperty.map (fun p => p.m_pszSrcElement) ∨
                        (ps.map (fun p => p.m_pszSrcElement) =
                          cls2.m_papoProperty.map (fun p => p.m_pszSrcElement) ++ [e] ∧
                         e ∉ cls2.m_papoProperty.map (fun p => p.m_pszSrcElement))) := by
                  intro d hd1 hd2
                  rcases AddProperty_cases cls d with ha | ha
                  · rw [ha] at hd2
                    simp only [Left.neg_neg_iff, zero_lt_one, if_true, Option.some.injEq] at hd2
                    subst hd2
                    exact ⟨rfl, f.m_poClass, cls, cls.m_papoProperty, hc, hsame, Or.inl rfl⟩
                  · rw [ha] at hd2
                    have hnn : ¬ ((cls.GetPropertyCount : Int) < 0) := by omega
                    simp only [hnn, if_false] at hd2
                    obtain ⟨ps, e1, e2, e3⟩ := storeProperty_classes _ _ _ _ _ _ _ _ _ hd2
                    refine ⟨e3, f.m_poClass, cls, ps, hc, e1, Or.inr ⟨?_, hfresh⟩⟩
                    rw [e2]
                    simp [hd1]
                exact key _ (by split_ifs <;> rfl) h
            · simp only [hl, if_true, Option.some.injEq] at h
              subst h
              exact ⟨rfl, f.m_poClass, cls, cls.m_papoProperty, hc, hsame, Or.inl rfl⟩

end GML

namespace GML
open GMLReader

theorem findOrCreateClass_cases (env : Env) (r : GMLReader) (e : CStr) (k : Int) :
    r.findOrCreateClass env e k = none ∨
    (∃ i : Nat, r.findOrCreateClass env e k = some (i, r)) ∨
    (k = INT_MAX ∧ (∀ c ∈ r.m_papoClass, EQUAL e c.GetElementName = false) ∧
      r.findOrCreateClass env e k = some (r.GetClassCount,
        { r with
          m_papoClass := r.m_papoClass ++ [GMLFeatureClass.new e],
          m_bLookForClassAtAnyLevel :=
            if (GMLFeatureClass.new e).HasFeatureProperties then true
            else r.m_bLookForClassAtAnyLevel })) := by
  unfold findOrCreateClass
  by_cases hk : k ≠ INT_MAX
  · rw [if_pos hk]
    by_cases hneg : k < 0
    · left; rw [if_pos hneg]
    · right; left; rw [if_neg hneg]; exact ⟨_, rfl⟩
  · rw [if_neg hk]
    dsimp only
    rcases firstIndexFrom_cases (fun c : GMLFeatureClass => EQUAL e c.GetElementName)
        r.m_papoClass 0 with ⟨h1, h2⟩ | ⟨j, c, _, _, h3, _⟩
    · rw [h1]
      simp only [if_true]
      cases ha : (env.bCPLAssert && r.m_bClassListLocked)
      · simp only [Bool.false_eq_true, if_false]
        unfold AddClass
        cases hb : (env.bCPLAssert &&
            (r.GetClassByName (GMLFeatureClass.new e).GetName).isSome)
        · right; right
          refine ⟨by simpa using hk, h2, ?_⟩
          simp
        · left; simp
      · left; simp
    · right; left
      rw [h3]
      have hne : ¬ (((0 + j : Nat) : Int) = -1) := by omega
      rw [if_neg hne]
      exact ⟨_, rfl⟩

theorem PushFeature_classes (env : Env) (r : GMLReader) (e : CStr) (fid : Option CStr)
    (k : Int) (r2 : GMLReader) (h : r.PushFeature env e fid k = some r2) :
    r2.m_bClassListLocked = r.m_bClassListLocked ∧
    (r2.m_papoClass = r.m_papoClass ∨
      (k = INT_MAX ∧ r2.m_papoClass = r.m_papoClass ++ [GMLFeatureClass.new e] ∧
        ∀ c ∈ r.m_papoClass, EQUAL e c.GetElementName = false)) := by
  unfold PushFeature at h
  rcases findOrCreateClass_cases env r e k with h0 | ⟨i, h0⟩ | ⟨hk, hall, h0⟩
  · rw [h0] at h; simp at h
  · rw [h0] at h
    dsimp only at h
    cases hc : r.m_papoClass[i]? with
    | none => rw [hc] at h; simp at h
    | some c =>
      rw [hc] at h
      simp only [Option.some.injEq] at h
      subst h
      exact ⟨rfl, Or.inl rfl⟩
  · rw [h0] at h
    dsimp only at h
    split at h
    · simp at h
    · simp only [Option.some.injEq] at h
      subst h
      exact ⟨rfl, Or.inr ⟨hk, rfl, hall⟩⟩

theorem applySchemaCall_classes (env : Env) (fuel : Nat) (r r2 : GMLReader) (call : SchemaCall)
    (h : applySchemaCall env fuel r call = some r2) :
    r2.m_bClassListLocked = r.m_bClassListLocked ∧
    (r2.m_papoClass = r.m_papoClass ∨
      (∃ e : CStr, r2.m_papoClass = r.m_papoClass ++ [GMLFeatureClass.new e] ∧
        ∀ c ∈ r.m_papoClass, EQUAL e c.GetElementName = false) ∨
      (∃ (e : CStr) (i : Nat) (cls : GMLFeatureClass) (ps : List GMLPropertyDefn),
        r.m_papoClass[i]? = some cls ∧
        r2.m_papoClass = r.m_papoClass.set i { cls with m_papoProperty := ps } ∧
        (ps.map (fun p => p.m_pszSrcElement) =
            cls.m_papoProperty.map (fun p => p.m_pszSrcElement) ∨
          (ps.map (fun p => p.m_pszSrcElement) =
            cls.m_papoProperty.map (fun p => p.m_pszSrcElement) ++ [e] ∧
           e ∉ cls.m_papoProperty.map (fun p => p.m_pszSrcElement))))) := by
  cases call with
  | PushFeature e fid k =>
    simp only [applySchemaCall] at h
    obtain ⟨h1, h2⟩ := PushFeature_classes env r e fid k r2 h
    refine ⟨h1, ?_⟩
    rcases h2 with h2 | ⟨_, h2, h3⟩
    · exact Or.inl h2
    · exact Or.inr (Or.inl ⟨e, h2, h3⟩)
  | SetFeaturePropertyDirectly e v k t =>
    simp only [applySchemaCall] at h
    obtain ⟨h1, i, cls, ps, h2, h3, h4⟩ := SetFeaturePropertyDirectly_classes env fuel r e v k t r2 h
    exact ⟨h1, Or.inr (Or.inr ⟨e, i, cls, ps, h2, h3, h4⟩)⟩
  | PushState s =>
    simp only [applySchemaCall, Option.some.injEq] at h
    subst h
    exact ⟨rfl, Or.inl rfl⟩
  | PopState =>
    simp only [applySchemaCall, Option.some.injEq] at h
    subst h
    exact ⟨(PopState_classes r).2, Or.inl (PopState_classes r).1⟩

end GML

/-! ## The class registry (`AddClass`, `PushFeature`) -/

namespace GML
open GMLReader

/-- C14, counterexample: with `CPLAssert` compiled out, `AddClass` on a
registry that holds `City` accepts a class named `city`: it returns the index
1 and the registry then holds two classes whose names are equal when case is
ignored, although `GetClass("city")` finds one before the call. -/
theorem AddClass_duplicate_counterexample :
    (GMLReader.GetClassByName { m_papoClass := [{ m_pszName := "City".toList }] }
      "city".toList).isSome = true ∧
    (GMLReader.AddClass {} { m_papoClass := [{ m_pszName := "City".toList }] }
        { m_pszName := "city".toList }).map
      (fun p => (p.1, p.2.m_papoClass.map fun c => c.m_pszName)) =
      some (1, ["City".toList, "city".toList]) := by
  decide

/-- C14, amended: `AddClass` registers the class at the end of the registry
and returns its index, the old class count, whenever no registered class has
the same name ignoring case (`GetClass(name)` is then NULL).  When a class
with the same name ignoring case is registered, the call aborts on its
assertion if `CPLAssert` is compiled in, and with `CPLAssert` compiled out it
appends the class all the same. -/
theorem AddClass_registers (env : Env) (r : GMLReader) (c : GMLFeatureClass) :
    (r.GetClassByName c.GetName = none ↔
      ∀ x ∈ r.m_papoClass, EQUAL x.GetName c.GetName = false) ∧
    ((∀ x ∈ r.m_papoClass, EQUAL x.GetName c.GetName = false) →
      ∃ r2 : GMLReader, r.AddClass env c = some ((r.GetClassCount : Int), r2) ∧
        r2.m_papoClass = r.m_papoClass ++ [c] ∧
        r2.GetClass r.GetClassCount = some c) ∧
    ((∃ x ∈ r.m_papoClass, EQUAL x.GetName c.GetName = true) →
      (env.bCPLAssert = true → r.AddClass env c = none) ∧
      (env.bCPLAssert = false →
        ∃ r2 : GMLReader, r.AddClass env c = some ((r.GetClassCount : Int), r2) ∧
          r2.m_papoClass = r.m_papoClass ++ [c])) := by
  refine ⟨GetClassByName_none_iff r c.GetName, ?_, ?_⟩
  · intro hnew
    have hnone := (GetClassByName_none_iff r c.GetName).mpr hnew
    refine ⟨{ r with
        m_papoClass := r.m_papoClass ++ [c],
        m_bLookForClassAtAnyLevel :=
          if c.HasFeatureProperties then true else r.m_bLookForClassAtAnyLevel }, ?_, rfl, ?_⟩
    · unfold AddClass
      rw [hnone]
      simp
    · unfold GetClass GetClassCount
      simp
  · rintro ⟨x, hx, hEq⟩
    have hsome : (r.GetClassByName c.GetName).isSome = true := by
      cases hg : r.GetClassByName c.GetName with
      | none =>
        have := (GetClassByName_none_iff r c.GetName).mp hg x hx
        rw [this] at hEq
        exact absurd hEq (by decide)
      | some y => rfl
    constructor
    · intro ha
      unfold AddClass
      rw [ha, hsome]
      rfl
    · intro ha
      refine ⟨{ r with
        m_papoClass := r.m_papoClass ++ [c],
        m_bLookForClassAtAnyLevel :=
          if c.HasFeatureProperties then true else r.m_bLookForClassAtAnyLevel }, ?_, rfl⟩
      unfold AddClass
      rw [ha]
      rfl

/-- Witness for C14: the class `Road` is added to a registry that holds
`City`. -/
theorem AddClass_registers_witness :
    ∃ r2 : GMLReader,
      GMLReader.AddClass {} { m_papoClass := [{ m_pszName := "City".toList }] }
          { m_pszName := "Road".toList } =
        some (((GMLReader.GetClassCount
          { m_papoClass := [{ m_pszName := "City".toList }] } : Nat) : Int), r2) ∧
      r2.m_papoClass =
        [{ m_pszName := "City".toList }] ++ [{ m_pszName := "Road".toList }] ∧
      r2.GetClass (GMLReader.GetClassCount
        { m_papoClass := [{ m_pszName := "City".toList }] }) =
        some { m_pszName := "Road".toList } :=
  (AddClass_registers {} { m_papoClass := [{ m_pszName := "City".toList }] }
    { m_pszName := "Road".toList }).2.1 (by decide)

end GML

namespace GML
open GMLReader

theorem PushFeature_INT_MAX_defined (env : Env) (r : GMLReader) (e : CStr)
    (fid : Option CStr)
    (hel : ∀ c ∈ r.m_papoClass, c.m_pszElementName = none)
    (hlock : env.bCPLAssert = true → r.m_bClassListLocked = false) :
    ∃ r2 : GMLReader, r.PushFeature env e fid INT_MAX = some r2 := by
  unfold PushFeature findOrCreateClass
  have hk : ¬ (INT_MAX ≠ INT_MAX) := by simp
  rw [if_neg hk]
  dsimp only
  rcases firstIndexFrom_cases (fun c : GMLFeatureClass => EQUAL e c.GetElementName)
      r.m_papoClass 0 with ⟨h1, h2⟩ | ⟨j, c, hj, _, h3, _⟩
  · rw [h1]
    simp only [if_true]
    have ha : (env.bCPLAssert && r.m_bClassListLocked) = false := by
      cases hb : env.bCPLAssert
      · rfl
      · rw [hlock hb]; rfl
    have hnone : r.GetClassByName (GMLFeatureClass.new e).GetName = none := by
      apply (GetClassByName_none_iff r _).mpr
      intro c hc
      have := h2 c hc
      simp only [GMLFeatureClass.GetElementName, hel c hc, Option.getD_none] at this
      rw [EQUAL_symm]
      exact this
    simp only [ha, Bool.false_eq_true, if_false, AddClass, hnone, Option.isSome_none,
      Bool.and_false, Option.map_some, GetClassCount]
    simp
  · rw [h3]
    have hne : ¬ (((0 + j : Nat) : Int) = -1) := by omega
    rw [if_neg hne]
    have hj2 : r.m_papoClass[((0 + j : Nat) : Int).toNat]? = some c := by
      simpa using hj
    simp only [hj2]
    exact ⟨_, rfl⟩

theorem PushFeature_INT_MAX_cases (env : Env) (r : GMLReader) (e : CStr)
    (fid : Option CStr) (r2 : GMLReader)
    (h : r.PushFeature env e fid INT_MAX = some r2) :
    ((∃ c ∈ r.m_papoClass, EQUAL e c.GetElementName = true) ∧
      r2.m_papoClass = r.m_papoClass) ∨
    ((∀ c ∈ r.m_papoClass, EQUAL e c.GetElementName = false) ∧
      r2.m_papoClass = r.m_papoClass ++ [GMLFeatureClass.new e]) := by
  rcases firstIndexFrom_cases (fun c : GMLFeatureClass => EQUAL e c.GetElementName)
      r.m_papoClass 0 with ⟨h1, h2⟩ | ⟨j, c, hj, hc, h3, _⟩
  · right
    refine ⟨h2, ?_⟩
    have hk : ¬ (INT_MAX ≠ INT_MAX) := by simp
    have hfc : r.findOrCreateClass env e INT_MAX = none ∨
        r.findOrCreateClass env e INT_MAX = some (r.GetClassCount,
          { r with
            m_papoClass := r.m_papoClass ++ [GMLFeatureClass.new e],
            m_bLookForClassAtAnyLevel :=
              if (GMLFeatureClass.new e).HasFeatureProperties then true
              else r.m_bLookForClassAtAnyLevel }) := by
      unfold findOrCreateClass
      rw [if_neg hk]
      dsimp only
      rw [h1]
      simp only [if_true]
      cases ha : (env.bCPLAssert && r.m_bClassListLocked)
      · simp only [Bool.false_eq_true, if_false]
        unfold AddClass
        cases hb : (env.bCPLAssert &&
            (r.GetClassByName (GMLFeatureClass.new e).GetName).isSome)
        · right; simp
        · left; simp
      · left; simp
    unfold PushFeature at h
    rcases hfc with h0 | h0
    · rw [h0] at h; simp at h
    · rw [h0] at h
      dsimp only at h
      split at h
      · simp at h
      · simp only [Option.some.injEq] at h
        subst h
        rfl
  · left
    refine ⟨⟨c, List.getElem?_mem hj, hc⟩, ?_⟩
    rcases (PushFeature_classes env r e fid INT_MAX r2 h).2 with hs | ⟨_, _, hall⟩
    · exact hs
    · have := hall c (List.getElem?_mem hj)
      rw [this] at hc
      exact absurd hc (by decide)

theorem pairwise_index {α : Type} (R : α → α → Prop) (hsymm : ∀ a b, R a b → R b a)
    (l : List α) (h : l.Pairwise R) (i j : Nat) (a b : α) (hij : i ≠ j)
    (hi : l[i]? = some a) (hj : l[j]? = some b) : R a b := by
  rw [List.pairwise_iff_getElem] at h
  obtain ⟨hi1, hi2⟩ := List.getElem?_eq_some.mp hi
  obtain ⟨hj1, hj2⟩ := List.getElem?_eq_some.mp hj
  rcases Nat.lt_or_gt_of_ne hij with hlt | hgt
  · have := h i j hi1 hj1 hlt
    rw [hi2, hj2] at this
    exact this
  · have := h j i hj1 hi1 hgt
    rw [hi2, hj2] at this
    exact hsymm _ _ this

/-- C15: starting from an empty registry, every sequence of `PushFeature`
calls made with the class index `INT_MAX` runs to its end (the class list not
being locked when `CPLAssert` is compiled in), and afterwards no two
registered classes have the same name, not even when case is ignored; each
such call leaves the registry as it was when a registered class has the
element name of the call, ignoring case, and appends one new class of that
name when none has. -/
theorem PushFeature_names_unique (env : Env) (fuel : Nat) (r : GMLReader)
    (pushes : List (CStr × Option CStr))
    (h0 : r.m_papoClass = [])
    (hlock : env.bCPLAssert = true → r.m_bClassListLocked = false) :
    (∃ r2 : GMLReader,
      runSchemaCalls env fuel r
        (pushes.map fun p => SchemaCall.PushFeature p.1 p.2 INT_MAX) = some r2 ∧
      ∀ (i j : Nat) (a b : GMLFeatureClass), i ≠ j →
        r2.m_papoClass[i]? = some a → r2.m_papoClass[j]? = some b →
        EQUAL a.GetName b.GetName = false) ∧
    (∀ (ra rb : GMLReader) (e : CStr) (fid : Option CStr),
      ra.PushFeature env e fid INT_MAX = some rb →
      ((∃ c ∈ ra.m_papoClass, EQUAL e c.GetElementName = true) ∧
        rb.m_papoClass = ra.m_papoClass) ∨
      ((∀ c ∈ ra.m_papoClass, EQUAL e c.GetElementName = false) ∧
        rb.m_papoClass = ra.m_papoClass ++ [GMLFeatureClass.new e])) := by
  refine ⟨?_, fun ra rb e fid h => PushFeature_INT_MAX_cases env ra e fid rb h⟩
  have main : ∀ (pushes : List (CStr × Option CStr)) (r : GMLReader),
      (∀ c ∈ r.m_papoClass, c.m_pszElementName = none) →
      r.m_papoClass.Pairwise (fun a b => EQUAL a.GetName b.GetName = false) →
      (env.bCPLAssert = true → r.m_bClassListLocked = false) →
      ∃ r2 : GMLReader,
        runSchemaCalls env fuel r
          (pushes.map fun p => SchemaCall.PushFeature p.1 p.2 INT_MAX) = some r2 ∧
        r2.m_papoClass.Pairwise (fun a b => EQUAL a.GetName b.GetName = false) := by
    intro pushes
    induction pushes with
    | nil => intro r _ hp _; exact ⟨r, rfl, hp⟩
    | cons p ps ih =>
      intro r hel hp hl
      obtain ⟨r1, h1⟩ := PushFeature_INT_MAX_defined env r p.1 p.2 hel hl
      obtain ⟨k1, k2⟩ := PushFeature_classes env r p.1 p.2 INT_MAX r1 h1
      have hel1 : ∀ c ∈ r1.m_papoClass, c.m_pszElementName = none := by
        rcases k2 with k2 | ⟨_, k2, _⟩
        · rw [k2]; exact hel
        · rw [k2]
          intro c hc
          rcases List.mem_append.mp hc with hc | hc
          · exact hel c hc
          · rw [List.mem_singleton.mp hc]; rfl
      have hp1 : r1.m_papoClass.Pairwise (fun a b => EQUAL a.GetName b.GetName = false) := by
        rcases k2 with k2 | ⟨_, k2, k3⟩
        · rw [k2]; exact hp
        · rw [k2]
          apply List.pairwise_append.mpr
          refine ⟨hp, List.pairwise_singleton _ _, ?_⟩
          intro a ha b hb
          rw [List.mem_singleton.mp hb]
          have := k3 a ha
          simp only [GMLFeatureClass.GetElementName, hel a ha, Option.getD_none] at this
          rw [EQUAL_symm]
          exact this
      obtain ⟨r2, h2, h3⟩ := ih r1 hel1 hp1 (by rw [k1]; exact hl)
      refine ⟨r2, ?_, h3⟩
      simp only [List.map_cons, runSchemaCalls, applySchemaCall, h1, Option.some_bind]
      exact h2
  obtain ⟨r2, h1, h2⟩ := main pushes r (by rw [h0]; simp) (by rw [h0]; simp) hlock
  refine ⟨r2, h1, ?_⟩
  intro i j a b hij hi hj
  exact pairwise_index (fun a b : GMLFeatureClass => EQUAL a.GetName b.GetName = false)
    (fun a b h => (EQUAL_symm _ _).trans h) _ h2 i j a b hij hi hj

/-- Witness for C15: the elements `City`, `CITY` and `Road` are pushed on a
fresh reader. -/
theorem PushFeature_names_unique_witness :
    ∃ r2 : GMLReader,
      runSchemaCalls {} 0 {}
        ([("City".toList, none), ("CITY".toList, some "f1".toList),
          ("Road".toList, none)].map
            fun p => SchemaCall.PushFeature p.1 p.2 INT_MAX) = some r2 ∧
      ∀ (i j : Nat) (a b : GMLFeatureClass), i ≠ j →
        r2.m_papoClass[i]? = some a → r2.m_papoClass[j]? = some b →
        EQUAL a.GetName b.GetName = false :=
  (PushFeature_names_unique {} 0 {}
    [("City".toList, none), ("CITY".toList, some "f1".toList), ("Road".toList, none)]
    rfl (by decide)).1

end GML

/-! ## Source paths stay unique within a class -/

namespace GML
open GMLReader

/-- C16: within every feature class the source paths of the properties stay
pairwise distinct over any sequence of handler calls (`PushFeature`,
`SetFeaturePropertyDirectly`, `PushState`, `PopState`) that starts from
classes with distinct paths; a `SetFeaturePropertyDirectly` call changes the
property list of one class only, and when its source path is already that of
a property of the class the list of source paths of the class stays as it
was: no second property with that path is added. -/
theorem SetFeaturePropertyDirectly_paths_unique (env : Env) (fuel : Nat)
    (calls : List SchemaCall) (r r2 : GMLReader)
    (h0 : ∀ c ∈ r.m_papoClass, (c.m_papoProperty.map fun p => p.m_pszSrcElement).Nodup)
    (hrun : runSchemaCalls env fuel r calls = some r2) :
    (∀ c ∈ r2.m_papoClass, (c.m_papoProperty.map fun p => p.m_pszSrcElement).Nodup) ∧
    (∀ (e v : CStr) (k : Int) (t : GMLPropertyType) (r3 : GMLReader),
      r2.SetFeaturePropertyDirectly env fuel e v k t = some r3 →
      ∃ (i : Nat) (cls : GMLFeatureClass) (ps : List GMLPropertyDefn),
        r2.m_papoClass[i]? = some cls ∧
        r3.m_papoClass = r2.m_papoClass.set i { cls with m_papoProperty := ps } ∧
        (ps.map fun p => p.m_pszSrcElement).Nodup ∧
        (e ∈ (cls.m_papoProperty.map fun p => p.m_pszSrcElement) →
          (ps.map fun p => p.m_pszSrcElement) =
            cls.m_papoProperty.map fun p => p.m_pszSrcElement)) := by
  have step : ∀ (ra rb : GMLReader) (call : SchemaCall),
      (∀ c ∈ ra.m_papoClass, (c.m_papoProperty.map fun p => p.m_pszSrcElement).Nodup) →
      applySchemaCall env fuel ra call = some rb →
      ∀ c ∈ rb.m_papoClass, (c.m_papoProperty.map fun p => p.m_pszSrcElement).Nodup := by
    intro ra rb call hinv hcall
    rcases (applySchemaCall_classes env fuel ra rb call hcall).2 with
      h | ⟨e, h, _⟩ | ⟨e, i, cls, ps, h1, h2, h3⟩
    · rw [h]; exact hinv
    · rw [h]
      intro c hc
      rcases List.mem_append.mp hc with hc | hc
      · exact hinv c hc
      · rw [List.mem_singleton.mp hc]
        exact List.nodup_nil
    · rw [h2]
      intro c hc
      rcases List.mem_or_eq_of_mem_set hc with hc | hc
      · exact hinv c hc
      · rw [hc]
        have hcls := hinv cls (List.getElem?_mem h1)
        rcases h3 with h3 | ⟨h3, h4⟩
        · show (ps.map fun p => p.m_pszSrcElement).Nodup
          rw [h3]; exact hcls
        · show (ps.map fun p => p.m_pszSrcElement).Nodup
          rw [h3]
          apply List.Nodup.append hcls (List.nodup_singleton e)
          intro x hx1 hx2
          rw [List.mem_singleton.mp hx2] at hx1
          exact h4 hx1
  have main : ∀ (calls : List SchemaCall) (ra rb : GMLReader),
      (∀ c ∈ ra.m_papoClass, (c.m_papoProperty.map fun p => p.m_pszSrcElement).Nodup) →
      runSchemaCalls env fuel ra calls = some rb →
      ∀ c ∈ rb.m_papoClass, (c.m_papoProperty.map fun p => p.m_pszSrcElement).Nodup := by
    intro calls
    induction calls with
    | nil =>
      intro ra rb hinv hr
      simp only [runSchemaCalls, Option.some.injEq] at hr
      rw [← hr]; exact hinv
    | cons call cs ih =>
      intro ra rb hinv hr
      simp only [runSchemaCalls] at hr
      cases hc : applySchemaCall env fuel ra call with
      | none => rw [hc] at hr; simp at hr
      | some rc =>
        rw [hc] at hr
        exact ih rc rb (step ra rc call hinv hc) hr
  have hinv2 := main calls r r2 h0 hrun
  refine ⟨hinv2, ?_⟩
  intro e v k t r3 hcall
  obtain ⟨_, i, cls, ps, h1, h2, h3⟩ :=
    SetFeaturePropertyDirectly_classes env fuel r2 e v k t r3 hcall
  have hcls := hinv2 cls (List.getElem?_mem h1)
  refine ⟨i, cls, ps, h1, h2, ?_, ?_⟩
  · rcases h3 with h3 | ⟨h3, h4⟩
    · rw [h3]; exact hcls
    · rw [h3]
      apply List.Nodup.append hcls (List.nodup_singleton e)
      intro x hx1 hx2
      rw [List.mem_singleton.mp hx2] at hx1
      exact h4 hx1
  · intro hmem
    rcases h3 with h3 | ⟨_, h4⟩
    · exact h3
    · exact absurd hmem h4

/-- Witness for C16: on a fresh reader a `City` feature receives the source
path `name`, then `pop`, then `name` again. -/
theorem SetFeaturePropertyDirectly_paths_unique_witness :
    ((((runSchemaCalls {} 3 {} cityCalls).getD {}).m_papoClass.getD 0
      (GMLFeatureClass.new [])).m_papoProperty.map fun p => p.m_pszSrcElement).Nodup :=
  (SetFeaturePropertyDirectly_paths_unique {} 3 cityCalls {}
    ((runSchemaCalls {} 3 {} cityCalls).getD {}) (by decide) (by decide)).1
    (((runSchemaCalls {} 3 {} cityCalls).getD {}).m_papoClass.getD 0 (GMLFeatureClass.new []))
    (by decide)

end GML

/-! ## Schema persistence (`LoadClasses`, `SaveClasses`) -/

namespace GML
open GMLReader

theorem loadClassNodes_true (env : Env) (nodes : List CPLXMLNode) :
    ∀ (r r2 : GMLReader), loadClassNodes env r nodes = some (true, r2) →
      r2.m_bClassListLocked = r.m_bClassListLocked ∧
      ∃ added : List GMLFeatureClass, r2.m_papoClass = r.m_papoClass ++ added ∧
        ∀ c ∈ added, c.IsSchemaLocked = true := by
  induction nodes with
  | nil =>
    intro r r2 h
    simp only [loadClassNodes, Option.some.injEq, Prod.mk.injEq, true_and] at h
    subst h
    exact ⟨rfl, [], by simp, by simp⟩
  | cons n rest ih =>
    intro r r2 h
    unfold loadClassNodes at h
    split at h
    · cases hi : GMLFeatureClass.InitializeFromXML n with
      | none => rw [hi] at h; simp at h
      | some c =>
        rw [hi] at h
        dsimp only at h
        cases ha : r.AddClass env (c.SetSchemaLocked true) with
        | none => rw [ha] at h; simp at h
        | some p =>
          rw [ha] at h
          dsimp only at h
          obtain ⟨k1, added, k2, k3⟩ := ih p.2 r2 h
          have hp : p.2.m_papoClass = r.m_papoClass ++ [c.SetSchemaLocked true] ∧
              p.2.m_bClassListLocked = r.m_bClassListLocked := by
            unfold AddClass at ha
            split at ha
            · simp at ha
            · simp only [Option.some.injEq] at ha
              rw [← ha]
              exact ⟨rfl, rfl⟩
          refine ⟨k1.trans hp.2, (c.SetSchemaLocked true) :: added, ?_, ?_⟩
          · rw [k2, hp.1]; simp
          · intro x hx
            rcases List.mem_cons.mp hx with hx | hx
            · rw [hx]; rfl
            · exact k3 x hx
    · exact ih r r2 h

/-- C17: whenever `LoadClasses` returns true, the class list of the reader is
locked, the classes that were registered before the call are still there in
front, and every class that the call added is schema-locked. -/
theorem LoadClasses_locks (env : Env) (fs : SchemaFS) (r r2 : GMLReader)
    (pszFile : Option CStr)
    (h : LoadClasses env fs r pszFile = some (true, r2)) :
    r2.m_bClassListLocked = true ∧
    ∃ added : List GMLFeatureClass, r2.m_papoClass = r.m_papoClass ++ added ∧
      ∀ c ∈ added, c.IsSchemaLocked = true := by
  unfold LoadClasses at h
  split at h
  · simp at h
  · split at h
    · simp at h
    · split at h
      · simp at h
      · split at h
        · simp at h
        · split at h
          · simp at h
          · split at h
            · simp at h
            · dsimp only at h
              split at h
              · simp at h
              · simp at h
              · rename_i rl hl
                simp only [Option.some.injEq, Prod.mk.injEq, true_and] at h
                subst h
                obtain ⟨_, added, k2, k3⟩ := loadClassNodes_true env _ _ _ hl
                refine ⟨rfl, added, ?_, k3⟩
                rw [show (rl.SetClassListLocked true).m_papoClass = rl.m_papoClass from rfl, k2]
                split <;> rfl

/-- Witness for C17: the schema file `city.gfs` is loaded into a fresh
reader. -/
theorem LoadClasses_locks_witness :
    ((LoadClasses {} sampleSchemaFS {} (some "city.gfs".toList)).getD (false, {})).2.m_bClassListLocked
        = true ∧
    ∃ added : List GMLFeatureClass,
      ((LoadClasses {} sampleSchemaFS {} (some "city.gfs".toList)).getD (false, {})).2.m_papoClass
          = ({} : GMLReader).m_papoClass ++ added ∧
        ∀ c ∈ added, c.IsSchemaLocked = true :=
  LoadClasses_locks {} sampleSchemaFS {}
    ((LoadClasses {} sampleSchemaFS {} (some "city.gfs".toList)).getD (false, {})).2
    (some "city.gfs".toList) (by decide)

end GML

namespace GML
open GMLReader

theorem InitializeFromXML_SerializeToXML (c : GMLFeatureClass) :
    ∃ c2 : GMLFeatureClass,
      GMLFeatureClass.InitializeFromXML c.SerializeToXML = some c2 ∧
      c2.GetName = c.GetName ∧ savedView c2 = savedView c := by
  unfold GMLFeatureClass.InitializeFromXML GMLFeatureClass.SerializeToXML
  have hE : EQUAL "GMLFeatureClass".toList "GMLFeatureClass".toList = true := by decide
  simp only [ne_eq, not_true_eq_false, hE, Bool.not_true, Bool.false_eq_true, or_self,
    if_false]
  refine ⟨_, rfl, rfl, ?_⟩
  unfold savedView
  cases hx : c.m_bHaveExtents <;> simp

theorem savedView_SetSchemaLocked (c : GMLFeatureClass) (b : Bool) :
    savedView (c.SetSchemaLocked b) = savedView c := rfl

theorem loadClassNodes_serialized (env : Env) (cs : List GMLFeatureClass) :
    ∀ ra : GMLReader,
      (env.bCPLAssert = true →
        (ra.m_papoClass.map (fun c => c.GetName) ++ cs.map (fun c => c.GetName)).Pairwise
          (fun a b => EQUAL a b = false)) →
      ∃ rb : GMLReader,
        loadClassNodes env ra (cs.map GMLFeatureClass.SerializeToXML) = some (true, rb) ∧
        rb.m_papoClass.map savedView = ra.m_papoClass.map savedView ++ cs.map savedView := by
  induction cs with
  | nil =>
    intro ra _
    exact ⟨ra, rfl, by simp⟩
  | cons c cs ih =>
    intro ra hnames
    obtain ⟨c2, h1, h2, h3⟩ := InitializeFromXML_SerializeToXML c
    have hnode : c.SerializeToXML.eType = CPLXMLNodeType.CXT_Element ∧
        EQUAL c.SerializeToXML.pszValue "GMLFeatureClass".toList = true :=
      ⟨rfl, by
        show EQUAL "GMLFeatureClass".toList "GMLFeatureClass".toList = true
        decide⟩
    have hnew : env.bCPLAssert = true →
        ra.GetClassByName (c2.SetSchemaLocked true).GetName = none := by
      intro ha
      apply (GetClassByName_none_iff ra _).mpr
      intro x hx
      have hp := hnames ha
      rw [List.pairwise_append] at hp
      have := hp.2.2 x.GetName (List.mem_map.mpr ⟨x, hx, rfl⟩) c.GetName (by simp)
      rw [show (c2.SetSchemaLocked true).GetName = c2.GetName from rfl, h2]
      exact this
    have hadd : ra.AddClass env (c2.SetSchemaLocked true) =
        some ((ra.GetClassCount : Int),
          { ra with
            m_papoClass := ra.m_papoClass ++ [c2.SetSchemaLocked true],
            m_bLookForClassAtAnyLevel :=
              if (c2.SetSchemaLocked true).HasFeatureProperties then true
              else ra.m_bLookForClassAtAnyLevel }) := by
      unfold AddClass
      cases ha : env.bCPLAssert
      · rfl
      · rw [hnew ha]; rfl
    obtain ⟨rb, k1, k2⟩ := ih
      { ra with
        m_papoClass := ra.m_papoClass ++ [c2.SetSchemaLocked true],
        m_bLookForClassAtAnyLevel :=
          if (c2.SetSchemaLocked true).HasFeatureProperties then true
          else ra.m_bLookForClassAtAnyLevel }
      (by
        intro ha
        have hp := hnames ha
        simp only [List.map_append, List.map_cons, List.map_nil, List.append_assoc,
          List.singleton_append]
        rw [show (c2.SetSchemaLocked true).GetName = c2.GetName from rfl, h2]
        simpa using hp)
    refine ⟨rb, ?_, ?_⟩
    · simp only [List.map_cons, loadClassNodes, hnode, and_self, if_true, h1, hadd]
      exact k1
    · rw [k2]
      simp only [List.map_append, List.map_cons, List.map_nil, List.append_assoc,
        List.singleton_append, savedView_SetSchemaLocked, h3]

/-- C18: when the schema file can be written, `SaveClasses` returns true and
`LoadClasses` of that file into a reader with an empty registry returns true
and yields as many classes, in the same order, with the same class names,
property source paths and types (in the same order within each class),
geometry types, extents and SRS names (the class names being distinct,
ignoring case, when `CPLAssert` is compiled in). -/
theorem SaveClasses_LoadClasses_round_trip (env : Env) (fs : SchemaFS) (r r0 : GMLReader)
    (path : CStr)
    (hopen : fs.bOpenWbFails path = false) (hwrite : fs.bWriteFails path = false)
    (hfresh : r0.m_papoClass = [])
    (hnames : env.bCPLAssert = true →
      r.m_papoClass.Pairwise (fun a b => EQUAL a.GetName b.GetName = false)) :
    (SaveClasses fs r (some path)).1 = true ∧
    ∃ r2 : GMLReader,
      LoadClasses env (SaveClasses fs r (some path)).2 r0 (some path) = some (true, r2) ∧
      r2.m_papoClass.length = r.m_papoClass.length ∧
      r2.m_papoClass.map savedView = r.m_papoClass.map savedView := by
  have hsave : SaveClasses fs r (some path) =
      (true, fs.write path (CPLSerializeXMLTree (buildSchemaTree r))) := by
    unfold SaveClasses
    simp [hopen, hwrite]
  rw [hsave]
  refine ⟨rfl, ?_⟩
  have hfile : (fs.write path (CPLSerializeXMLTree (buildSchemaTree r))).VSIFOpenRb path =
      some { text := CPLSerializeXMLTree (buildSchemaTree r) } := by
    simp [SchemaFS.write]
  have htag : (CPLSerializeXMLTree (buildSchemaTree r)).bHasListTag = true := by
    show (CPLXMLNodeType.CXT_Element == CPLXMLNodeType.CXT_Element
      && STARTS_WITH "GMLFeatureClassList".toList "GMLFeatureClassList".toList) = true
    decide
  have hroot : (CPLSerializeXMLTree (buildSchemaTree r)).psRoot = some (buildSchemaTree r) :=
    rfl
  have hE : EQUAL (buildSchemaTree r).pszValue "GMLFeatureClassList".toList = true := by
    show EQUAL "GMLFeatureClassList".toList "GMLFeatureClassList".toList = true
    decide
  have hT : (buildSchemaTree r).eType = CPLXMLNodeType.CXT_Element := rfl
  -- the loop over the children of the root, from any reader with an empty registry
  have hloop : ∀ ra : GMLReader, ra.m_papoClass = [] →
      ∃ rb : GMLReader,
        loadClassNodes env ra (buildSchemaTree r).psChild = some (true, rb) ∧
        rb.m_papoClass.map savedView = r.m_papoClass.map savedView := by
    intro ra hra
    have hcls := loadClassNodes_serialized env r.m_papoClass ra (by
      intro ha
      rw [hra]
      simp only [List.map_nil, List.nil_append]
      exact List.Pairwise.map _ (fun a b h => h) (hnames ha))
    obtain ⟨rb, k1, k2⟩ := hcls
    refine ⟨rb, ?_, by rw [k2, hra]; simp⟩
    unfold buildSchemaTree
    dsimp only
    split
    · have hskip : ¬ (CPLXMLNodeType.CXT_Element = CPLXMLNodeType.CXT_Element ∧
          EQUAL "SequentialLayers".toList "GMLFeatureClass".toList = true) := by decide
      simp only [List.singleton_append, loadClassNodes, hskip, if_false]
      exact k1
    · simpa using k1
  unfold LoadClasses
  simp only [hfile, htag, hroot, hE, hT, ne_eq, not_true_eq_false, Bool.not_true,
    Bool.false_eq_true, or_self, if_false]
  cases hs : getSequentialLayers (buildSchemaTree r) with
  | none =>
    obtain ⟨rb, k1, k2⟩ := hloop r0 hfresh
    simp only [k1]
    refine ⟨_, rfl, ?_, k2⟩
    have := congrArg List.length k2
    simpa using this
  | some v =>
    obtain ⟨rb, k1, k2⟩ := hloop
      { r0 with m_nHasSequentialLayers := (if env.CPLTestBool v then 1 else 0) } hfresh
    simp only [k1]
    refine ⟨_, rfl, ?_, k2⟩
    have := congrArg List.length k2
    simpa using this

/-- Witness for C18: the surveyed registry (`City`, `Road`) is saved to
`out.gfs` and loaded into a fresh reader. -/
theorem SaveClasses_LoadClasses_round_trip_witness :
    (SaveClasses {} surveyedReader (some "out.gfs".toList)).1 = true ∧
    ∃ r2 : GMLReader,
      LoadClasses {} (SaveClasses {} surveyedReader (some "out.gfs".toList)).2 {}
        (some "out.gfs".toList) = some (true, r2) ∧
      r2.m_papoClass.length = surveyedReader.m_papoClass.length ∧
      r2.m_papoClass.map savedView = surveyedReader.m_papoClass.map savedView :=
  SaveClasses_LoadClasses_round_trip {} {} surveyedReader {} "out.gfs".toList rfl rfl rfl
    (by decide)

end GML

/-! ## The prescan (`PrescanForSchema`): what it leaves alone -/

namespace GML
open GMLReader

theorem PopState_registry (r : GMLReader) :
    r.PopState.m_papoClass = r.m_papoClass ∧
    r.PopState.m_nHasSequentialLayers = r.m_nHasSequentialLayers ∧
    r.PopState.m_bClassListLocked = r.m_bClassListLocked := by
  unfold PopState
  cases hS : r.m_poState with
  | nil => simp
  | cons st rest =>
    cases hf : st.m_poFeature <;> cases hx : r.bUseExpatReader <;>
      cases hc : r.m_poCompleteFeature <;> simp [hf, hx, hc]

theorem popStates_registry (S : List GMLReadState) (r : GMLReader) :
    (popStates S r).m_papoClass = r.m_papoClass ∧
    (popStates S r).m_nHasSequentialLayers = r.m_nHasSequentialLayers ∧
    (popStates S r).m_bClassListLocked = r.m_bClassListLocked := by
  induction S generalizing r with
  | nil => exact ⟨rfl, rfl, rfl⟩
  | cons s rest ih =>
    obtain ⟨h1, h2, h3⟩ := ih r.PopState
    obtain ⟨k1, k2, k3⟩ := PopState_registry r
    exact ⟨by rw [popStates, h1, k1], by rw [popStates, h2, k2], by rw [popStates, h3, k3]⟩

theorem CleanupParser_registry (r : GMLReader) :
    r.CleanupParser.m_papoClass = r.m_papoClass ∧
    r.CleanupParser.m_nHasSequentialLayers = r.m_nHasSequentialLayers ∧
    r.CleanupParser.m_bClassListLocked = r.m_bClassListLocked := by
  have h := popStates_registry r.m_poState r
  unfold CleanupParser
  split_ifs
  · exact ⟨rfl, rfl, rfl⟩
  · exact ⟨rfl, rfl, rfl⟩
  · exact h

theorem SetupParserExpat_registry (r : GMLReader) :
    r.SetupParserExpat.2.m_papoClass = r.m_papoClass ∧
    r.SetupParserExpat.2.m_nHasSequentialLayers = r.m_nHasSequentialLayers ∧
    r.SetupParserExpat.2.m_bClassListLocked = r.m_bClassListLocked := by
  have h := CleanupParser_registry r
  unfold SetupParserExpat
  cases r.oParser
  · exact ⟨rfl, rfl, rfl⟩
  · exact h

theorem SetupParserXerces_registry (env : Env) (r : GMLReader) :
    (r.SetupParserXerces env).2.m_papoClass = r.m_papoClass ∧
    (r.SetupParserXerces env).2.m_nHasSequentialLayers = r.m_nHasSequentialLayers ∧
    (r.SetupParserXerces env).2.m_bClassListLocked = r.m_bClassListLocked := by
  unfold SetupParserXerces
  dsimp only
  repeat' split
  all_goals first
    | exact ⟨rfl, rfl, rfl⟩
    | exact CleanupParser_registry _

theorem openSource_registry (env : Env) (r : GMLReader) :
    (r.openSource env).m_papoClass = r.m_papoClass ∧
    (r.openSource env).m_nHasSequentialLayers = r.m_nHasSequentialLayers ∧
    (r.openSource env).m_bClassListLocked = r.m_bClassListLocked := by
  unfold openSource
  dsimp only
  split <;> exact ⟨rfl, rfl, rfl⟩

theorem SetupParser_registry (env : Env) (r : GMLReader) :
    (r.SetupParser env).2.m_papoClass = r.m_papoClass ∧
    (r.SetupParser env).2.m_nHasSequentialLayers = r.m_nHasSequentialLayers ∧
    (r.SetupParser env).2.m_bClassListLocked = r.m_bClassListLocked := by
  have h1 := openSource_registry env r
  have h2 := SetupParserExpat_registry (r.openSource env)
  have h3 := SetupParserXerces_registry env (r.openSource env)
  unfold SetupParser
  dsimp only
  split
  · split
    · exact ⟨h2.1.trans h1.1, h2.2.1.trans h1.2.1, h2.2.2.trans h1.2.2⟩
    · exact ⟨h2.1.trans h1.1, h2.2.1.trans h1.2.1, h2.2.2.trans h1.2.2⟩
  · split
    · exact ⟨h3.1.trans h1.1, h3.2.1.trans h1.2.1, h3.2.2.trans h1.2.2⟩
    · exact ⟨h3.1.trans h1.1, h3.2.1.trans h1.2.1, h3.2.2.trans h1.2.2⟩

theorem storeProperty_seq (env : Env) (r : GMLReader) (st : GMLReadState)
    (rest : List GMLReadState) (f : GMLFeature) (cls : GMLFeatureClass) (i : Nat)
    (v : CStr) (r2 : GMLReader) (h : storeProperty env r st rest f cls i v = some r2) :
    r2.m_nHasSequentialLayers = r.m_nHasSequentialLayers := by
  unfold storeProperty at h
  cases hp : cls.m_papoProperty[i]? with
  | none => simp [hp] at h
  | some pd =>
    simp only [hp, Option.some.injEq] at h
    subst h
    rfl

theorem SetFeaturePropertyDirectly_seq (env : Env) (fuel : Nat) (r : GMLReader)
    (e v : CStr) (k : Int) (t : GMLPropertyType) (r2 : GMLReader)
    (h : r.SetFeaturePropertyDirectly env fuel e v k t = some r2) :
    r2.m_nHasSequentialLayers = r.m_nHasSequentialLayers := by
  unfold SetFeaturePropertyDirectly at h
  cases hS : r.m_poState with
  | nil => rw [hS] at h; simp at h
  | cons st rest =>
    rw [hS] at h
    cases hf : st.m_poFeature with
    | none => simp [hf] at h
    | some f =>
      cases hc : r.m_papoClass[f.m_poClass]? with
      | none => simp [hf, hc] at h
      | some cls =>
        simp only [hf, hc] at h
        by_cases hr : 0 ≤ k ∧ k < cls.GetPropertyCount
        · rw [if_pos hr] at h
          exact storeProperty_seq _ _ _ _ _ _ _ _ _ h
        · rw [if_neg hr] at h
          by_cases hi : firstIndexFrom
              (fun p : GMLPropertyDefn => strcmp0 p.m_pszSrcElement e) cls.m_papoProperty 0 ≠ -1
          · rw [if_pos hi] at h
            exact storeProperty_seq _ _ _ _ _ _ _ _ _ h
          · rw [if_neg hi] at h
            cases hl : cls.IsSchemaLocked
            · simp only [hl, Bool.false_eq_true, if_false] at h
              cases hd : dedupFieldName cls fuel
                  (replaceAt (deriveFieldName r.m_bIsWFSJointLayer cls e)) with
              | none => simp [hd] at h
              | some name =>
                simp only [hd] at h
                have key : ∀ d : GMLPropertyDefn,
                    (if (cls.AddProperty d).1 < 0 then some r
                     else storeProperty env r st rest f (cls.AddProperty d).2
                       cls.GetPropertyCount v) = some r2 →
                    r2.m_nHasSequentialLayers = r.m_nHasSequentialLayers := by
                  intro d hd2
                  split at hd2
                  · simp only [Option.some.injEq] at hd2
                    subst hd2; rfl
                  · exact storeProperty_seq _ _ _ _ _ _ _ _ _ hd2
                exact key _ h
            · simp only [hl, if_true, Option.some.injEq] at h
              subst h; rfl

theorem PushFeature_seq (env : Env) (r : GMLReader) (e : CStr) (fid : Option CStr)
    (k : Int) (r2 : GMLReader) (h : r.PushFeature env e fid k = some r2) :
    r2.m_nHasSequentialLayers = r.m_nHasSequentialLayers := by
  unfold PushFeature at h
  rcases findOrCreateClass_cases env r e k with h0 | ⟨i, h0⟩ | ⟨hk, hall, h0⟩
  · rw [h0] at h; simp at h
  · rw [h0] at h
    dsimp only at h
    split at h
    · simp at h
    · simp only [Option.some.injEq] at h
      subst h; rfl
  · rw [h0] at h
    dsimp only at h
    split at h
    · simp at h
    · simp only [Option.some.injEq] at h
      subst h; rfl

theorem applySchemaCall_seq (env : Env) (fuel : Nat) (r r2 : GMLReader) (call : SchemaCall)
    (h : applySchemaCall env fuel r call = some r2) :
    r2.m_nHasSequentialLayers = r.m_nHasSequentialLayers := by
  cases call with
  | PushFeature e fid k =>
    simp only [applySchemaCall] at h
    exact PushFeature_seq env r e fid k r2 h
  | SetFeaturePropertyDirectly e v k t =>
    simp only [applySchemaCall] at h
    exact SetFeaturePropertyDirectly_seq env fuel r e v k t r2 h
  | PushState s =>
    simp only [applySchemaCall, Option.some.injEq] at h
    subst h; rfl
  | PopState =>
    simp only [applySchemaCall, Option.some.injEq] at h
    subst h
    exact (PopState_registry r).2.1

/-- Handler calls leave the feature counts of the registered classes alone,
classes that they add have the unknown count -1, and the flag of the
sequential layers is not touched. -/
theorem runSchemaCalls_counts (env : Env) (fuel : Nat) (calls : List SchemaCall) :
    ∀ (r r2 : GMLReader), runSchemaCalls env fuel r calls = some r2 →
      r2.m_nHasSequentialLayers = r.m_nHasSequentialLayers ∧
      ∃ k : Nat, r2.m_papoClass.map (fun c => c.m_nFeatureCount) =
        r.m_papoClass.map (fun c => c.m_nFeatureCount) ++ List.replicate k (-1) := by
  induction calls with
  | nil =>
    intro r r2 h
    simp only [runSchemaCalls, Option.some.injEq] at h
    subst h
    exact ⟨rfl, 0, by simp⟩
  | cons call cs ih =>
    intro r r2 h
    simp only [runSchemaCalls] at h
    cases hc : applySchemaCall env fuel r call with
    | none => rw [hc] at h; simp at h
    | some r1 =>
      rw [hc] at h
      simp only [Option.some_bind] at h
      obtain ⟨k1, k, k2⟩ := ih r1 r2 h
      have hs := applySchemaCall_seq env fuel r r1 call hc
      refine ⟨k1.trans hs, ?_⟩
      rcases (applySchemaCall_classes env fuel r r1 call hc).2 with
        e1 | ⟨e, e1, _⟩ | ⟨e, i, cls, ps, e1, e2, _⟩
      · exact ⟨k, by rw [k2, e1]⟩
      · refine ⟨k + 1, ?_⟩
        rw [k2, e1]
        simp only [List.map_append, List.map_cons, List.map_nil, List.append_assoc,
          List.singleton_append, List.replicate_succ]
        rfl
      · refine ⟨k, ?_⟩
        rw [k2, e2, map_set_same (fun c : GMLFeatureClass => c.m_nFeatureCount) _ _ cls
          { cls with m_papoProperty := ps } e1 rfl]

end GML

/-! ## The prescan (`PrescanForSchema`): the frame of the handler calls -/

namespace GML
open GMLReader

theorem PopState_frame (r : GMLReader) : handlerFrame r.PopState = handlerFrame r := by
  unfold PopState
  cases hS : r.m_poState with
  | nil => rfl
  | cons st rest =>
    cases hf : st.m_poFeature <;> cases hx : r.bUseExpatReader <;>
      cases hc : r.m_poCompleteFeature <;> simp [hf, hx, hc, handlerFrame]

theorem storeProperty_frame (env : Env) (r : GMLReader) (st : GMLReadState)
    (rest : List GMLReadState) (f : GMLFeature) (cls : GMLFeatureClass) (i : Nat)
    (v : CStr) (r2 : GMLReader) (h : storeProperty env r st rest f cls i v = some r2) :
    handlerFrame r2 = handlerFrame r := by
  unfold storeProperty at h
  cases hp : cls.m_papoProperty[i]? with
  | none => simp [hp] at h
  | some pd =>
    simp only [hp, Option.some.injEq] at h
    subst h
    rfl

theorem SetFeaturePropertyDirectly_frame (env : Env) (fuel : Nat) (r : GMLReader)
    (e v : CStr) (k : Int) (t : GMLPropertyType) (r2 : GMLReader)
    (h : r.SetFeaturePropertyDirectly env fuel e v k t = some r2) :
    handlerFrame r2 = handlerFrame r := by
  unfold SetFeaturePropertyDirectly at h
  cases hS : r.m_poState with
  | nil => rw [hS] at h; simp at h
  | cons st rest =>
    rw [hS] at h
    cases hf : st.m_poFeature with
    | none => simp [hf] at h
    | some f =>
      cases hc : r.m_papoClass[f.m_poClass]? with
      | none => simp [hf, hc] at h
      | some cls =>
        simp only [hf, hc] at h
        by_cases hr : 0 ≤ k ∧ k < cls.GetPropertyCount
        · rw [if_pos hr] at h
          exact storeProperty_frame _ _ _ _ _ _ _ _ _ h
        · rw [if_neg hr] at h
          by_cases hi : firstIndexFrom
              (fun p : GMLPropertyDefn => strcmp0 p.m_pszSrcElement e) cls.m_papoProperty 0 ≠ -1
          · rw [if_pos hi] at h
            exact storeProperty_frame _ _ _ _ _ _ _ _ _ h
          · rw [if_neg hi] at h
            cases hl : cls.IsSchemaLocked
            · simp only [hl, Bool.false_eq_true, if_false] at h
              cases hd : dedupFieldName cls fuel
                  (replaceAt (deriveFieldName r.m_bIsWFSJointLayer cls e)) with
              | none => simp [hd] at h
              | some name =>
                simp only [hd] at h
                have key : ∀ d : GMLPropertyDefn,
                    (if (cls.AddProperty d).1 < 0 then some r
                     else storeProperty env r st rest f (cls.AddProperty d).2
                       cls.GetPropertyCount v) = some r2 →
                    handlerFrame r2 = handlerFrame r := by
                  intro d hd2
                  split at hd2
                  · simp only [Option.some.injEq] at hd2
                    subst hd2; rfl
                  · exact storeProperty_frame _ _ _ _ _ _ _ _ _ hd2
                exact key _ h
            · simp only [hl, if_true, Option.some.injEq] at h
              subst h; rfl

theorem PushFeature_frame (env : Env) (r : GMLReader) (e : CStr) (fid : Option CStr)
    (k : Int) (r2 : GMLReader) (h : r.PushFeature env e fid k = some r2) :
    handlerFrame r2 = handlerFrame r := by
  unfold PushFeature at h
  rcases findOrCreateClass_cases env r e k with h0 | ⟨i, h0⟩ | ⟨hk, hall, h0⟩
  · rw [h0] at h; simp at h
  · rw [h0] at h
    dsimp only at h
    split at h
    · simp at h
    · simp only [Option.some.injEq] at h
      subst h; rfl
  · rw [h0] at h
    dsimp only at h
    split at h
    · simp at h
    · simp only [Option.some.injEq] at h
      subst h; rfl

theorem applySchemaCall_frame (env : Env) (fuel : Nat) (r r2 : GMLReader) (call : SchemaCall)
    (h : applySchemaCall env fuel r call = some r2) :
    handlerFrame r2 = handlerFrame r := by
  cases call with
  | PushFeature e fid k =>
    simp only [applySchemaCall] at h
    exact PushFeature_frame env r e fid k r2 h
  | SetFeaturePropertyDirectly e v k t =>
    simp only [applySchemaCall] at h
    exact SetFeaturePropertyDirectly_frame env fuel r e v k t r2 h
  | PushState s =>
    simp only [applySchemaCall, Option.some.injEq] at h
    subst h; rfl
  | PopState =>
    simp only [applySchemaCall, Option.some.injEq] at h
    subst h
    exact PopState_frame r

/-- Handler calls write the registry, the chain of states, the recycled state
and the completed features, and no other field of the reader. -/
theorem runSchemaCalls_frame (env : Env) (fuel : Nat) (calls : List SchemaCall) :
    ∀ (r r2 : GMLReader), runSchemaCalls env fuel r calls = some r2 →
      handlerFrame r2 = handlerFrame r := by
  induction calls with
  | nil =>
    intro r r2 h
    simp only [runSchemaCalls, Option.some.injEq] at h
    subst h; rfl
  | cons call cs ih =>
    intro r r2 h
    simp only [runSchemaCalls] at h
    cases hc : applySchemaCall env fuel r call with
    | none => rw [hc] at h; simp at h
    | some r1 =>
      rw [hc] at h
      simp only [Option.some_bind] at h
      exact (ih r1 r2 h).trans (applySchemaCall_frame env fuel r r1 call hc)

theorem handlerFrame_stop (r r2 : GMLReader) (h : handlerFrame r2 = handlerFrame r) :
    r2.m_bStopParsing = r.m_bStopParsing := by
  have h1 := congrArg GMLReader.m_bStopParsing h
  exact h1

end GML

/-! ## The prescan (`PrescanForSchema`): feature counts and contiguous runs -/

namespace GML
open GMLReader

theorem contiguousRuns_snoc (p : List Nat) (c : Nat) :
    contiguousRuns (p ++ [c]) ↔ contiguousRuns p ∧ (c ∈ p → p.getLast? = some c) := by
  constructor
  · intro H
    constructor
    · intro i j k a b hij hjk hi hj hk
      have hk' : k < p.length := (List.getElem?_eq_some.mp hk).1
      exact H i j k a b hij hjk
        (by rw [List.getElem?_append_left (by omega)]; exact hi)
        (by rw [List.getElem?_append_left (by omega)]; exact hj)
        (by rw [List.getElem?_append_left hk']; exact hk)
    · intro hc
      obtain ⟨i, hi⟩ := List.mem_iff_getElem?.mp hc
      have hi' : i < p.length := (List.getElem?_eq_some.mp hi).1
      rw [List.getLast?_eq_getElem?]
      by_cases hlast : i = p.length - 1
      · rw [← hlast]; exact hi
      · have hn : p.length - 1 < p.length := by omega
        have hb : p[p.length - 1]? = some (p[p.length - 1]) := List.getElem?_eq_getElem hn
        have := H i (p.length - 1) p.length c (p[p.length - 1]) (by omega) (by omega)
          (by rw [List.getElem?_append_left hi']; exact hi)
          (by rw [List.getElem?_append_left hn]; exact hb)
          (by rw [List.getElem?_append_right (le_refl _)]; simp)
        rw [hb, this]
  · rintro ⟨Hp, Hlast⟩ i j k a b hij hjk hi hj hk
    have hk' : k < (p ++ [c]).length := (List.getElem?_eq_some.mp hk).1
    simp only [List.length_append, List.length_singleton] at hk'
    have hi2 : p[i]? = some a := by
      rw [List.getElem?_append_left (by omega)] at hi; exact hi
    have hj2 : p[j]? = some b := by
      rw [List.getElem?_append_left (by omega)] at hj; exact hj
    by_cases hkn : k < p.length
    · rw [List.getElem?_append_left hkn] at hk
      exact Hp i j k a b hij hjk hi2 hj2 hk
    · have hkeq : k = p.length := by omega
      subst hkeq
      rw [List.getElem?_append_right (le_refl _)] at hk
      simp at hk
      subst hk
      have hl := Hlast (List.mem_iff_getElem?.mpr ⟨i, hi2⟩)
      rw [List.getLast?_eq_getElem?] at hl
      by_cases hjl : j = p.length - 1
      · rw [hjl, hl] at hj2
        exact (Option.some.inj hj2).symm
      · exact Hp i j (p.length - 1) c b hij (by omega) hi2 hj2 hl

theorem mergeGeometry_frame (env : Env) (bAnalyzeSRSPerFeature : Bool) (r : GMLReader)
    (poClass : GMLFeatureClass) (step : PrescanStep) :
    (mergeGeometry env bAnalyzeSRSPerFeature r poClass step).2.m_nFeatureCount =
      poClass.m_nFeatureCount ∧
    (mergeGeometry env bAnalyzeSRSPerFeature r poClass step).1.m_papoClass = r.m_papoClass ∧
    (mergeGeometry env bAnalyzeSRSPerFeature r poClass step).1.m_nHasSequentialLayers =
      r.m_nHasSequentialLayers := by
  unfold mergeGeometry
  split
  · dsimp only
    refine ⟨?_, ?_, ?_⟩
    all_goals (repeat' split)
    all_goals rfl
  · exact ⟨rfl, rfl, rfl⟩

theorem prescanFeature_frame (env : Env) (g a o : Bool) (r : GMLReader)
    (poLastClass : Option Nat) (step : PrescanStep) (i : Nat) (poClass : GMLFeatureClass)
    (r2 : GMLReader)
    (h : prescanFeature env g a o r poLastClass step i poClass = some r2) :
    r2.m_papoClass.map (fun c => c.m_nFeatureCount) =
      (r.m_papoClass.map (fun c => c.m_nFeatureCount)).set i
        (if poClass.m_nFeatureCount = -1 then 1 else poClass.m_nFeatureCount + 1) ∧
    r2.m_nHasSequentialLayers =
      (if poLastClass.isSome ∧ some i ≠ poLastClass ∧ poClass.m_nFeatureCount ≠ -1 then 0
       else r.m_nHasSequentialLayers) := by
  -- the part of the body after the count was updated
  have tail : ∀ (ra : GMLReader) (ca : GMLFeatureClass),
      ((if g = true ∧ step.poFeature.m_papsGeometry.isSome = true then
          mergeGeometry env a ra ca step else (ra, ca)).2.m_nFeatureCount = ca.m_nFeatureCount) ∧
      ((if g = true ∧ step.poFeature.m_papsGeometry.isSome = true then
          mergeGeometry env a ra ca step else (ra, ca)).1.m_papoClass = ra.m_papoClass) ∧
      ((if g = true ∧ step.poFeature.m_papsGeometry.isSome = true then
          mergeGeometry env a ra ca step else (ra, ca)).1.m_nHasSequentialLayers =
        ra.m_nHasSequentialLayers) := by
    intro ra ca
    split
    · exact mergeGeometry_frame env a ra ca step
    · exact ⟨rfl, rfl, rfl⟩
  have place : ∀ ca : GMLFeatureClass,
      (if (!o) = true ∧ step.poFeature.m_papsGeometry.isSome = true ∧
          step.poFeature.m_papsGeometry ≠ some [] then
        if ca.GetGeometryPropertyCount = 0 then
          ca.AddGeometryProperty
            { m_pszName := [], m_pszSrcElement := [], m_nGeometryType := wkbUnknown,
              m_nAttributeIndex := -1, m_bNullable := true }
        else ca
      else ca).m_nFeatureCount = ca.m_nFeatureCount := by
    intro ca
    split
    · split <;> rfl
    · rfl
  unfold prescanFeature at h
  dsimp only at h
  split at h
  · simp at h
  · simp only [Option.some.injEq] at h
    subst h
    dsimp only
    constructor
    · rw [List.map_set]
      congr 1
      · rw [(tail _ _).2.1]
        split <;> rfl
      · rw [(tail _ _).1, place]
        simp only [GMLFeatureClass.GetFeatureCount]
        split <;> rfl
    · rw [(tail _ _).2.2]
      simp only [GMLFeatureClass.GetFeatureCount]
      split <;> rfl

theorem mergeGeometry_reader (env : Env) (a : Bool) (r : GMLReader)
    (poClass : GMLFeatureClass) (step : PrescanStep) :
    (mergeGeometry env a r poClass step).1 =
      { r with m_bCanUseGlobalSRSName :=
          (mergeGeometry env a r poClass step).1.m_bCanUseGlobalSRSName } := by
  unfold mergeGeometry
  split
  · dsimp only
    repeat' split
    all_goals rfl
  · rfl

/-- The body of the loop writes the registry, the flag of the sequential
layers and the flag of the global SRS name, and no other field of the
reader; in the registry it writes the class of the feature. -/
theorem prescanFeature_reader (env : Env) (g a o : Bool) (r : GMLReader)
    (poLastClass : Option Nat) (step : PrescanStep) (i : Nat) (poClass : GMLFeatureClass)
    (r2 : GMLReader)
    (h : prescanFeature env g a o r poLastClass step i poClass = some r2) :
    ∃ (c2 : GMLFeatureClass) (s : Int) (b : Bool),
      r2 = { r with
        m_papoClass := r.m_papoClass.set i c2,
        m_nHasSequentialLayers := s,
        m_bCanUseGlobalSRSName := b } := by
  have tail : ∀ (ra : GMLReader) (ca : GMLFeatureClass),
      (if g = true ∧ step.poFeature.m_papsGeometry.isSome = true then
          mergeGeometry env a ra ca step else (ra, ca)).1 =
        { ra with m_bCanUseGlobalSRSName :=
          (if g = true ∧ step.poFeature.m_papsGeometry.isSome = true then
            mergeGeometry env a ra ca step else (ra, ca)).1.m_bCanUseGlobalSRSName } := by
    intro ra ca
    split
    · exact mergeGeometry_reader env a ra ca step
    · rfl
  have head : ∃ s : Int,
      (if poLastClass.isSome = true ∧ some i ≠ poLastClass ∧ poClass.GetFeatureCount ≠ -1 then
        { r with m_nHasSequentialLayers := 0 } else r) =
        { r with m_nHasSequentialLayers := s } := by
    split
    · exact ⟨0, rfl⟩
    · exact ⟨r.m_nHasSequentialLayers, rfl⟩
  unfold prescanFeature at h
  dsimp only at h
  split at h
  · simp at h
  · simp only [Option.some.injEq] at h
    obtain ⟨s, hs⟩ := head
    rw [hs] at h
    rw [tail] at h
    subst h
    exact ⟨_, s, _, rfl⟩

theorem prescanRound_cases (env : Env) (fuel : Nat) (g a o : Bool) (r r2 : GMLReader)
    (poLastClass : Option Nat) (step : PrescanStep)
    (h : prescanRound env fuel g a o r poLastClass step = some r2) :
    ∃ (r1 : GMLReader) (poClass : GMLFeatureClass),
      runSchemaCalls env fuel r step.calls = some r1 ∧
      r1.m_papoClass[step.poFeature.m_poClass]? = some poClass ∧
      prescanFeature env g a o
        { r1 with m_bStopParsing := step.bStopParsing || r1.m_bStopParsing }
        poLastClass step step.poFeature.m_poClass poClass = some r2 := by
  unfold prescanRound at h
  cases hc : runSchemaCalls env fuel r step.calls with
  | none => rw [hc] at h; simp at h
  | some r1 =>
    rw [hc] at h
    dsimp only at h
    cases hb : step.bStopParsing
    · rw [hb] at h
      simp only [Bool.false_eq_true, if_false] at h
      cases hcls : r1.m_papoClass[step.poFeature.m_poClass]? with
      | none => rw [hcls] at h; simp at h
      | some poClass =>
        rw [hcls] at h
        exact ⟨r1, poClass, rfl, hcls, h⟩
    · rw [hb] at h
      simp only [if_true] at h
      cases hcls : r1.m_papoClass[step.poFeature.m_poClass]? with
      | none => rw [hcls] at h; simp at h
      | some poClass =>
        rw [hcls] at h
        exact ⟨r1, poClass, rfl, hcls, h⟩

/-- A round entered while parsing is not stopped leaves the stop flag as the
`NextFeature()` call of the round sets it. -/
theorem prescanRound_stop (env : Env) (fuel : Nat) (g a o : Bool) (r r2 : GMLReader)
    (poLastClass : Option Nat) (step : PrescanStep) (hstop : r.m_bStopParsing = false)
    (h : prescanRound env fuel g a o r poLastClass step = some r2) :
    r2.m_bStopParsing = step.bStopParsing := by
  obtain ⟨r1, poClass, h1, _, h3⟩ := prescanRound_cases env fuel g a o r r2 poLastClass step h
  have e1 := handlerFrame_stop r r1 (runSchemaCalls_frame env fuel step.calls r r1 h1)
  obtain ⟨c2, s, b, e3⟩ := prescanFeature_reader env g a o _ poLastClass step _ poClass r2 h3
  have e4 : r2.m_bStopParsing = (step.bStopParsing || r1.m_bStopParsing) := by
    rw [e3]
  rw [e4, e1, hstop, Bool.or_false]

theorem yieldedSteps_nil (b : Bool) : yieldedSteps b [] = [] := by
  cases b <;> rfl

theorem classesOf_snoc (seen : List PrescanStep) (step : PrescanStep) :
    classesOf (seen ++ [step]) = classesOf seen ++ [step.poFeature.m_poClass] := by
  simp [classesOf]

/-- Induction over the rounds of the prescan loop: a property of the reader
and of the features seen so far that every round entered while parsing is not
stopped carries on holds after the loop for the features that the loop got to
see. -/
theorem prescanLoop_induction (env : Env) (fuel : Nat) (g a o : Bool)
    (Inv : GMLReader → List PrescanStep → Prop)
    (hround : ∀ (r r2 : GMLReader) (seen : List PrescanStep) (step : PrescanStep),
      r.m_bStopParsing = false → Inv r seen →
      prescanRound env fuel g a o r (classesOf seen).getLast? step = some r2 →
      Inv r2 (seen ++ [step]))
    (steps : List PrescanStep) :
    ∀ (r r2 : GMLReader) (seen : List PrescanStep),
      prescanLoop env fuel g a o r (classesOf seen).getLast? steps = some r2 →
      Inv r seen → Inv r2 (seen ++ yieldedSteps r.m_bStopParsing steps) := by
  induction steps with
  | nil =>
    intro r r2 seen h hI
    simp only [prescanLoop, Option.some.injEq] at h
    subst h
    rw [yieldedSteps_nil, List.append_nil]
    exact hI
  | cons step rest ih =>
    intro r r2 seen h hI
    unfold prescanLoop at h
    cases hb : r.m_bStopParsing
    · rw [hb] at h
      simp only [Bool.false_eq_true, if_false] at h
      cases hr : prescanRound env fuel g a o r (classesOf seen).getLast? step with
      | none => rw [hr] at h; simp at h
      | some r1 =>
        rw [hr] at h
        dsimp only at h
        have hlast : some step.poFeature.m_poClass = (classesOf (seen ++ [step])).getLast? := by
          rw [classesOf_snoc, List.getLast?_append]
          rfl
        rw [hlast] at h
        have hres := ih r1 r2 (seen ++ [step]) h (hround r r1 seen step hb hI hr)
        rw [prescanRound_stop env fuel g a o r r1 _ step hb hr] at hres
        simpa [yieldedSteps, List.append_assoc] using hres
    · rw [hb] at h
      simp only [if_true, Option.some.injEq] at h
      subst h
      simpa [yieldedSteps] using hI

end GML

/-! ## The prescan (`PrescanForSchema`): what setting up the parser leaves alone -/

namespace GML
open GMLReader

theorem PopState_config (r : GMLReader) : scanConfig r.PopState = scanConfig r := by
  unfold PopState
  cases hS : r.m_poState with
  | nil => rfl
  | cons st rest =>
    cases hf : st.m_poFeature <;> cases hx : r.bUseExpatReader <;>
      cases hc : r.m_poCompleteFeature <;> simp [hf, hx, hc, scanConfig, scanView]

theorem popStates_config (S : List GMLReadState) (r : GMLReader) :
    scanConfig (popStates S r) = scanConfig r := by
  induction S generalizing r with
  | nil => rfl
  | cons s rest ih =>
    rw [popStates, ih r.PopState]
    exact PopState_config r

theorem CleanupParser_config (r : GMLReader) : scanConfig r.CleanupParser = scanConfig r := by
  have h := popStates_config r.m_poState r
  unfold CleanupParser
  split_ifs
  · rfl
  · rfl
  · exact h

theorem SetupParserExpat_config (r : GMLReader) :
    scanConfig r.SetupParserExpat.2 = scanConfig r := by
  have h := CleanupParser_config r
  unfold SetupParserExpat
  cases r.oParser
  · rfl
  · exact h

theorem SetupParserXerces_config (env : Env) (r : GMLReader) :
    scanConfig (r.SetupParserXerces env).2 = scanConfig r := by
  unfold SetupParserXerces
  dsimp only
  repeat' split
  all_goals first
    | rfl
    | exact CleanupParser_config _

theorem openSource_config (env : Env) (r : GMLReader) :
    scanConfig (r.openSource env) = scanConfig r := by
  unfold openSource
  dsimp only
  split <;> rfl

/-- Setting up the parser leaves the registry, the flags and the SRS settings
that a scan reads as they are. -/
theorem SetupParser_config (env : Env) (r : GMLReader) :
    scanConfig (r.SetupParser env).2 = scanConfig r := by
  have h1 := openSource_config env r
  have h2 := SetupParserExpat_config (r.openSource env)
  have h3 := SetupParserXerces_config env (r.openSource env)
  unfold SetupParser
  dsimp only
  split
  · split
    · exact h2.trans h1
    · exact h2.trans h1
  · split
    · exact h3.trans h1
    · exact h3.trans h1

theorem prescanStart_stop (env : Env) (r : GMLReader) (o : Bool) :
    (prescanStart env r o).2.m_bStopParsing = r.m_bStopParsing := by
  have key : ∀ x : GMLReader, x.m_bStopParsing = r.m_bStopParsing →
      (if (!(x.SetupParser env).1) = true then (false, (x.SetupParser env).2)
       else (true, { (x.SetupParser env).2 with
          m_bCanUseGlobalSRSName := true, m_nHasSequentialLayers := 1 })).2.m_bStopParsing =
        r.m_bStopParsing := by
    intro x hx
    have h1 : (x.SetupParser env).2.m_bStopParsing = x.m_bStopParsing := by
      have h0 := congrArg GMLReader.m_bStopParsing (SetupParser_config env x)
      exact h0
    split
    · exact h1.trans hx
    · exact h1.trans hx
  unfold prescanStart
  cases o
  · exact key _ rfl
  · exact key _ rfl

end GML

/-! ## The prescan (`PrescanForSchema`): the feature counts and the sequential layers -/

namespace GML
open GMLReader

/-- One round of the prescan loop carries the invariant of the loop on: the
feature count of each class is the number of features seen for it (-1 for
none), every class seen is registered, and the flag of the sequential layers
tells whether the classes seen are in contiguous runs. -/
theorem prescanRound_invariant (env : Env) (fuel : Nat) (g a o : Bool)
    (r r2 : GMLReader) (cs : List Nat) (step : PrescanStep)
    (h : prescanRound env fuel g a o r cs.getLast? step = some r2)
    (I1 : ∀ (i : Nat) (v : Int), (r.m_papoClass.map (fun c => c.m_nFeatureCount))[i]? = some v →
        v = if cs.count i = 0 then -1 else (cs.count i : Int))
    (I2 : ∀ x ∈ cs, x < r.m_papoClass.length)
    (I4 : r.m_nHasSequentialLayers = 1 ↔ contiguousRuns cs) :
    (∀ (i : Nat) (v : Int), (r2.m_papoClass.map (fun c => c.m_nFeatureCount))[i]? = some v →
      v = if (cs ++ [step.poFeature.m_poClass]).count i = 0 then -1
          else (((cs ++ [step.poFeature.m_poClass]).count i : Nat) : Int)) ∧
    (∀ x ∈ cs ++ [step.poFeature.m_poClass], x < r2.m_papoClass.length) ∧
    (r2.m_nHasSequentialLayers = 1 ↔ contiguousRuns (cs ++ [step.poFeature.m_poClass])) := by
  obtain ⟨r1, poClass, hc, hcls, hf⟩ := prescanRound_cases env fuel g a o r r2 _ step h
  obtain ⟨hseq1, k, hcnt1⟩ := runSchemaCalls_counts env fuel step.calls r r1 hc
  have hfr := prescanFeature_frame env g a o _ cs.getLast? step _ poClass r2 hf
  have hcnt3 : r2.m_papoClass.map (fun c => c.m_nFeatureCount) =
      (r1.m_papoClass.map (fun c => c.m_nFeatureCount)).set step.poFeature.m_poClass
        (if poClass.m_nFeatureCount = -1 then 1 else poClass.m_nFeatureCount + 1) := hfr.1
  have hseq3 : r2.m_nHasSequentialLayers =
      (if cs.getLast?.isSome ∧ some step.poFeature.m_poClass ≠ cs.getLast? ∧
          poClass.m_nFeatureCount ≠ -1 then 0
       else r1.m_nHasSequentialLayers) := hfr.2
  have hlen : r.m_papoClass.length ≤ r1.m_papoClass.length := by
    have := congrArg List.length hcnt1
    simp only [List.length_map, List.length_append, List.length_replicate] at this
    omega
  have hi0 : step.poFeature.m_poClass < r1.m_papoClass.length :=
    (List.getElem?_eq_some.mp hcls).1
  have hlen3 : r2.m_papoClass.length = r1.m_papoClass.length := by
    have := congrArg List.length hcnt3
    simpa using this
  -- the counts after the handler calls
  have I1a : ∀ (i : Nat) (v : Int),
      (r1.m_papoClass.map (fun c => c.m_nFeatureCount))[i]? = some v →
      v = if cs.count i = 0 then -1 else (cs.count i : Int) := by
    intro i v hv
    rw [hcnt1] at hv
    by_cases hi : i < (r.m_papoClass.map (fun c => c.m_nFeatureCount)).length
    · rw [List.getElem?_append_left hi] at hv
      exact I1 i v hv
    · rw [List.getElem?_append_right (by omega)] at hv
      have hv1 : v = -1 := List.eq_of_mem_replicate (List.getElem?_mem hv)
      have hnot : i ∉ cs := by
        intro hmem
        have := I2 i hmem
        simp only [List.length_map] at hi
        omega
      rw [List.count_eq_zero.mpr hnot, hv1]
      rfl
  have hv0 : poClass.m_nFeatureCount =
      if cs.count step.poFeature.m_poClass = 0 then -1
      else (cs.count step.poFeature.m_poClass : Int) := by
    apply I1a step.poFeature.m_poClass
    rw [List.getElem?_map, hcls]
    rfl
  have hseen : poClass.m_nFeatureCount ≠ -1 ↔ step.poFeature.m_poClass ∈ cs := by
    rw [hv0]
    by_cases hz : cs.count step.poFeature.m_poClass = 0
    · rw [if_pos hz]
      constructor
      · intro hne; exact absurd rfl hne
      · intro hmem; exact absurd hz (List.count_pos_iff.mpr hmem).ne'
    · rw [if_neg hz]
      constructor
      · intro _; exact List.count_pos_iff.mp (Nat.pos_of_ne_zero hz)
      · intro _; omega
  refine ⟨?_, ?_, ?_⟩
  · -- the counts after the feature
    intro i v hv
    rw [hcnt3, List.getElem?_set] at hv
    rw [List.count_append]
    by_cases hi : step.poFeature.m_poClass = i
    · subst hi
      rw [List.count_singleton_self]
      simp only [if_true, List.length_map, hi0, beq_self_eq_true,
        Option.some.injEq] at hv
      rw [← hv, hv0]
      by_cases hz : cs.count step.poFeature.m_poClass = 0
      · simp [hz]
      · have : ¬ ((cs.count step.poFeature.m_poClass : Int) = -1) := by omega
        simp [hz, this]
    · rw [if_neg hi] at hv
      have := I1a i v hv
      have hb : List.count i [step.poFeature.m_poClass] = 0 :=
        List.count_eq_zero.mpr (by simpa using fun e => hi e.symm)
      rw [hb, Nat.add_zero]
      exact this
  · intro x hx
    rw [hlen3]
    rcases List.mem_append.mp hx with hx | hx
    · exact lt_of_lt_of_le (I2 x hx) hlen
    · rw [List.mem_singleton.mp hx]; exact hi0
  · rw [contiguousRuns_snoc, hseq3, ← I4, ← hseq1]
    by_cases hcond : cs.getLast?.isSome = true ∧ some step.poFeature.m_poClass ≠ cs.getLast? ∧
        poClass.m_nFeatureCount ≠ -1
    · rw [if_pos hcond]
      constructor
      · intro h01; exact absurd h01 (by decide)
      · rintro ⟨_, hl⟩
        exact absurd (hl (hseen.mp hcond.2.2)).symm hcond.2.1
    · rw [if_neg hcond]
      constructor
      · intro h1
        refine ⟨h1, ?_⟩
        intro hmem
        by_contra hne
        apply hcond
        refine ⟨?_, fun e => hne e.symm, hseen.mpr hmem⟩
        cases hcs : cs with
        | nil => rw [hcs] at hmem; simp at hmem
        | cons x xs => simp [List.getLast?_cons_cons, List.getLast?_isSome]
      · intro h1; exact h1.1

theorem contiguousRuns_nil : contiguousRuns [] := by
  intro i j k a b _ _ hi
  simp at hi

/-- The invariant of the prescan loop, started on an empty registry with the
flag of the sequential layers set: afterwards the feature count of each class
is the number of features that the loop got to see for it (-1 for none), the
class of every such feature is registered, and the flag of the sequential
layers tells whether their classes are in contiguous runs. -/
theorem prescanLoop_invariant (env : Env) (fuel : Nat) (g a o : Bool)
    (steps : List PrescanStep) (r r2 : GMLReader)
    (h : prescanLoop env fuel g a o r none steps = some r2)
    (hempty : r.m_papoClass = []) (hseq : r.m_nHasSequentialLayers = 1) :
    (∀ (i : Nat) (v : Int), (r2.m_papoClass.map (fun c => c.m_nFeatureCount))[i]? = some v →
      v = if (classesOf (yieldedSteps r.m_bStopParsing steps)).count i = 0 then -1
          else (((classesOf (yieldedSteps r.m_bStopParsing steps)).count i : Nat) : Int)) ∧
    (∀ x ∈ classesOf (yieldedSteps r.m_bStopParsing steps), x < r2.m_papoClass.length) ∧
    (r2.m_nHasSequentialLayers = 1 ↔
      contiguousRuns (classesOf (yieldedSteps r.m_bStopParsing steps))) := by
  have hres := prescanLoop_induction env fuel g a o
    (fun x seen =>
      (∀ (i : Nat) (v : Int), (x.m_papoClass.map (fun c => c.m_nFeatureCount))[i]? = some v →
        v = if (classesOf seen).count i = 0 then -1 else (((classesOf seen).count i : Nat) : Int)) ∧
      (∀ y ∈ classesOf seen, y < x.m_papoClass.length) ∧
      (x.m_nHasSequentialLayers = 1 ↔ contiguousRuns (classesOf seen)))
    (by
      intro x x2 seen step _ hI hr
      rw [classesOf_snoc]
      exact prescanRound_invariant env fuel g a o x x2 (classesOf seen) step hr hI.1 hI.2.1 hI.2.2)
    steps r r2 [] h
    ⟨by intro i v hv; rw [hempty] at hv; simp at hv,
     by intro y hy; simp [classesOf] at hy,
     ⟨fun _ => contiguousRuns_nil, fun _ => hseq⟩⟩
  simpa using hres

theorem normalizeSRS_count (env : Env) (a : Bool) (r : GMLReader) (c : GMLFeatureClass) :
    (normalizeSRS env a r c).m_nFeatureCount = c.m_nFeatureCount := by
  unfold normalizeSRS
  dsimp only
  repeat' split
  all_goals rfl

theorem prescanStart_full (env : Env) (r : GMLReader) :
    (prescanStart env r false).2.m_papoClass = [] ∧
    ((prescanStart env r false).1 = true →
      (prescanStart env r false).2.m_nHasSequentialLayers = 1) := by
  have hs := (SetupParser_registry env (r.SetClassListLocked false).ClearClasses).1
  unfold prescanStart
  simp only [Bool.not_false, if_true]
  split
  · exact ⟨hs, fun hf => absurd hf (by simp)⟩
  · exact ⟨hs, fun _ => rfl⟩

/-- The call of `NextFeature()` that returns NULL runs handler calls (none
while parsing is stopped) and may set the stop flag. -/
theorem prescanLastCall_cases (env : Env) (fuel : Nat) (stream : PrescanStream)
    (r r2 : GMLReader) (h : prescanLastCall env fuel stream r = some r2) :
    ∃ (calls : List SchemaCall) (r1 : GMLReader) (b : Bool),
      runSchemaCalls env fuel r calls = some r1 ∧ r2 = { r1 with m_bStopParsing := b } := by
  unfold prescanLastCall at h
  split at h
  · simp only [Option.some.injEq] at h
    subst h
    exact ⟨[], r, r.m_bStopParsing, rfl, rfl⟩
  · cases hc : runSchemaCalls env fuel r stream.last with
    | none => rw [hc] at h; simp at h
    | some r1 =>
      rw [hc] at h
      simp only [Option.map_some', Option.some.injEq] at h
      subst h
      refine ⟨stream.last, r1, stream.bStopParsing || r1.m_bStopParsing, hc, ?_⟩
      cases stream.bStopParsing <;> rfl

/-- What a full prescan that returns true leaves in the reader: the feature
count of each registered class is the number of features that the scan
yielded for it (-1 for none), the class of every feature yielded is
registered, and the flag of the sequential layers is `TRUE` exactly when the
classes of the features yielded are in contiguous runs. -/
theorem PrescanForSchema_full (env : Env) (fuel : Nat) (stream : PrescanStream)
    (r r2 : GMLReader) (g a : Bool)
    (h : PrescanForSchema env fuel stream r g a false = some (true, r2)) :
    (∀ (i : Nat) (v : Int), (r2.m_papoClass.map (fun c => c.m_nFeatureCount))[i]? = some v →
      v = if (classesOf (yielded r stream)).count i = 0 then -1
          else ((classesOf (yielded r stream)).count i : Int)) ∧
    (∀ x ∈ classesOf (yielded r stream), x < r2.m_papoClass.length) ∧
    (r2.m_nHasSequentialLayers = 1 ↔ contiguousRuns (classesOf (yielded r stream))) := by
  unfold PrescanForSchema at h
  split at h
  · simp at h
  · dsimp only at h
    split at h
    · simp at h
    · rename_i hstart
      have hok : (prescanStart env r false).1 = true := by simpa using hstart
      cases hl : prescanLoop env fuel g a false (prescanStart env r false).2 none
          stream.steps with
      | none => rw [hl] at h; simp at h
      | some r3 =>
        rw [hl] at h
        dsimp only at h
        cases ht : prescanLastCall env fuel stream r3 with
        | none => rw [ht] at h; simp at h
        | some r4 =>
          rw [ht] at h
          simp only [Option.some.injEq, Prod.mk.injEq, true_and] at h
          obtain ⟨hempty, hone⟩ := prescanStart_full env r
          obtain ⟨J1, J2, J4⟩ := prescanLoop_invariant env fuel g a false stream.steps _ r3
            hl hempty (hone hok)
          rw [prescanStart_stop] at J1 J2 J4
          obtain ⟨calls, r5, b, ht5, hr4⟩ := prescanLastCall_cases env fuel stream r3 r4 ht
          obtain ⟨hseq5, k, hcnt5⟩ := runSchemaCalls_counts env fuel calls r3 r5 ht5
          have hcls2 : r2.m_papoClass.map (fun c => c.m_nFeatureCount) =
              r3.m_papoClass.map (fun c => c.m_nFeatureCount) ++ List.replicate k (-1) := by
            rw [← h, (CleanupParser_registry _).1, ← hcnt5, hr4]
            simp only [List.map_map]
            apply List.map_congr_left
            intro c _
            exact normalizeSRS_count env a _ c
          have hseq2 : r2.m_nHasSequentialLayers = r3.m_nHasSequentialLayers := by
            rw [← h, (CleanupParser_registry _).2.1, ← hseq5, hr4]
          refine ⟨?_, ?_, ?_⟩
          · intro i v hv
            rw [hcls2] at hv
            by_cases hi : i < (r3.m_papoClass.map (fun c => c.m_nFeatureCount)).length
            · rw [List.getElem?_append_left hi] at hv
              exact J1 i v hv
            · rw [List.getElem?_append_right (by omega)] at hv
              have hv1 : v = -1 := List.eq_of_mem_replicate (List.getElem?_mem hv)
              have hnot : i ∉ classesOf (yielded r stream) := by
                intro hmem
                have := J2 i hmem
                simp only [List.length_map] at hi
                omega
              rw [List.count_eq_zero.mpr hnot, hv1]
              rfl
          · intro x hx
            have h1 := J2 x hx
            have h2 := congrArg List.length hcls2
            simp only [List.length_map, List.length_append, List.length_replicate] at h2
            omega
          · rw [hseq2]
            exact J4

/-- C19: after a full prescan (not SRS-only) that returns true, the feature
count of every registered class is the number of features that the scan
yielded (the features that `NextFeature()` returned to the loop) which belong
to the class, and -1 (unknown) for a class without feature; the class of every
feature yielded is registered. -/
theorem PrescanForSchema_feature_count (env : Env) (fuel : Nat) (stream : PrescanStream)
    (r r2 : GMLReader) (bGetExtents bAnalyzeSRSPerFeature : Bool)
    (h : PrescanForSchema env fuel stream r bGetExtents bAnalyzeSRSPerFeature false =
      some (true, r2)) :
    (∀ (i : Nat) (c : GMLFeatureClass), r2.m_papoClass[i]? = some c →
      c.GetFeatureCount =
        if (classesOf (yielded r stream)).count i = 0 then -1
        else ((classesOf (yielded r stream)).count i : Int)) ∧
    (∀ s ∈ yielded r stream, ∃ c : GMLFeatureClass,
      r2.m_papoClass[s.poFeature.m_poClass]? = some c ∧ 1 ≤ c.GetFeatureCount) := by
  obtain ⟨J1, J2, _⟩ := PrescanForSchema_full env fuel stream r r2 bGetExtents
    bAnalyzeSRSPerFeature h
  have K1 : ∀ (i : Nat) (c : GMLFeatureClass), r2.m_papoClass[i]? = some c →
      c.GetFeatureCount =
        if (classesOf (yielded r stream)).count i = 0 then -1
        else ((classesOf (yielded r stream)).count i : Int) := by
    intro i c hc
    apply J1 i
    rw [List.getElem?_map, hc]
    rfl
  refine ⟨K1, ?_⟩
  intro s hs
  have hmem : s.poFeature.m_poClass ∈ classesOf (yielded r stream) :=
    List.mem_map.mpr ⟨s, hs, rfl⟩
  have hlt := J2 _ hmem
  refine ⟨r2.m_papoClass[s.poFeature.m_poClass], List.getElem?_eq_getElem hlt, ?_⟩
  rw [K1 _ _ (List.getElem?_eq_getElem hlt)]
  have hpos := List.count_pos_iff.mpr hmem
  rw [if_neg (by omega)]
  omega

/-- Witness for C19: two `City` features give the class `City` the feature
count 2. -/
theorem PrescanForSchema_feature_count_witness :
    (scannedCities.m_papoClass.getD 0 (GMLFeatureClass.new [])).GetFeatureCount = 2 :=
  ((PrescanForSchema_feature_count (envOf sampleDocument) 3 twoCities sampleReader
      scannedCities true false (by decide)).1 0
    (scannedCities.m_papoClass.getD 0 (GMLFeatureClass.new [])) (by decide)).trans (by decide)

/-- C20: after a full prescan (not SRS-only) that returns true,
`IsSequentialLayers()` is true if and only if the classes of the features that
the scan yielded appear in contiguous runs (no positions i < j < k with the
same class at i and k and another class at j); it is true for a stream
without features. -/
theorem PrescanForSchema_sequential_layers (env : Env) (fuel : Nat) (stream : PrescanStream)
    (r r2 : GMLReader) (bGetExtents bAnalyzeSRSPerFeature : Bool)
    (h : PrescanForSchema env fuel stream r bGetExtents bAnalyzeSRSPerFeature false =
      some (true, r2)) :
    (r2.IsSequentialLayers = true ↔ contiguousRuns (classesOf (yielded r stream))) ∧
    (stream.steps = [] → r2.IsSequentialLayers = true) := by
  obtain ⟨_, _, J4⟩ := PrescanForSchema_full env fuel stream r r2 bGetExtents
    bAnalyzeSRSPerFeature h
  have hiff : r2.IsSequentialLayers = true ↔
      contiguousRuns (classesOf (yielded r stream)) := by
    rw [← J4]
    unfold IsSequentialLayers
    simp
  refine ⟨hiff, ?_⟩
  intro hnil
  apply hiff.mpr
  unfold yielded
  rw [hnil, yieldedSteps_nil]
  exact contiguousRuns_nil

/-- Witness for C20: a `Road` feature between two `City` features; the
classes are not in contiguous runs and the prescan reports that. -/
theorem PrescanForSchema_sequential_layers_witness :
    scannedInterleaved.IsSequentialLayers = false ∧
      ¬ contiguousRuns (classesOf (yielded sampleReader interleaved)) :=
  ⟨by decide, fun hc => absurd
    ((PrescanForSchema_sequential_layers (envOf sampleDocument) 3 interleaved sampleReader
      scannedInterleaved true false (by decide)).1.mpr hc) (by decide)⟩

end GML

/-! ## The prescan (`PrescanForSchema`): geometry type and extent of a class -/

namespace GML
open GMLReader

/-- Handler calls leave every class of the registry as it is up to its
property list, and append new classes: a function of the class that does not
look at the property list and has the value `d` on new classes is mapped over
the registry to the old values followed by copies of `d`. -/
theorem runSchemaCalls_map {β : Type} (f : GMLFeatureClass → β) (d : β)
    (hset : ∀ (c : GMLFeatureClass) (ps : List GMLPropertyDefn),
      f { c with m_papoProperty := ps } = f c)
    (hnew : ∀ e : CStr, f (GMLFeatureClass.new e) = d)
    (env : Env) (fuel : Nat) (calls : List SchemaCall) :
    ∀ (r r2 : GMLReader), runSchemaCalls env fuel r calls = some r2 →
      ∃ k : Nat, r2.m_papoClass.map f = r.m_papoClass.map f ++ List.replicate k d := by
  induction calls with
  | nil =>
    intro r r2 h
    simp only [runSchemaCalls, Option.some.injEq] at h
    subst h
    exact ⟨0, by simp⟩
  | cons call cs ih =>
    intro r r2 h
    simp only [runSchemaCalls] at h
    cases hc : applySchemaCall env fuel r call with
    | none => rw [hc] at h; simp at h
    | some r1 =>
      rw [hc] at h
      simp only [Option.some_bind] at h
      obtain ⟨k, k2⟩ := ih r1 r2 h
      rcases (applySchemaCall_classes env fuel r r1 call hc).2 with
        e1 | ⟨e, e1, _⟩ | ⟨e, i, cls, ps, e1, e2, _⟩
      · exact ⟨k, by rw [k2, e1]⟩
      · refine ⟨k + 1, ?_⟩
        rw [k2, e1]
        simp only [List.map_append, List.map_cons, List.map_nil, List.append_assoc,
          List.singleton_append, List.replicate_succ, hnew]
      · refine ⟨k, ?_⟩
        rw [k2, e2, map_set_same f _ _ cls { cls with m_papoProperty := ps } e1 (hset cls ps)]

/-- The type and the envelope of a built geometry are merged into the first
geometry property and the extent of a class that has a geometry property. -/
theorem mergeGeometry_merge (env : Env) (a : Bool) (r : GMLReader) (poClass : GMLFeatureClass)
    (step : PrescanStep) (geom : OGRGeometry) (p : GMLGeometryPropertyDefn)
    (others : List GMLGeometryPropertyDefn)
    (hbuilt : step.poGeometry = some geom)
    (hp : poClass.m_papoGeometryProperty = p :: others) :
    (mergeGeometry env a r poClass step).2.m_nFeatureCount = poClass.m_nFeatureCount ∧
    (mergeGeometry env a r poClass step).2.m_papoGeometryProperty.map
        (fun q => q.m_nGeometryType) =
      env.OGRMergeGeometryTypesEx
        (if poClass.m_nFeatureCount = 1 ∧ p.m_nGeometryType = wkbUnknown then wkbNone
         else p.m_nGeometryType) geom.eGeometryType true ::
        others.map (fun q => q.m_nGeometryType) ∧
    (mergeGeometry env a r poClass step).2.GetExtents =
      (if geom.bIsEmpty then poClass.GetExtents else unionExtent poClass.GetExtents geom) := by
  unfold mergeGeometry
  rw [hbuilt, hp]
  dsimp only
  cases a <;> cases geom.bIsEmpty <;> cases hx : poClass.m_bHaveExtents <;>
    simp [hx, GMLFeatureClass.GetExtents, GMLFeatureClass.SetExtents, unionExtent,
      GMLFeatureClass.MergeSRSName, GMLFeatureClass.GetFeatureCount]

/-- The body of the prescan loop with extents, on a feature that carries a
geometry list with a first entry: the feature count of the class is stepped,
a class without geometry property gets the placeholder, and the geometry is
merged into the class, which is written back to the registry. -/
theorem prescanFeature_geometry_cases (env : Env) (a : Bool) (r r2 : GMLReader)
    (poLastClass : Option Nat) (step : PrescanStep) (i : Nat) (poClass : GMLFeatureClass)
    (x : CStr) (xs : List CStr)
    (hlist : step.poFeature.m_papsGeometry = some (x :: xs))
    (h : prescanFeature env true a false r poLastClass step i poClass = some r2) :
    ∃ (r1 : GMLReader) (ca : GMLFeatureClass),
      ca.m_nFeatureCount =
        (if poClass.m_nFeatureCount = -1 then 1 else poClass.m_nFeatureCount + 1) ∧
      ca.m_bHaveExtents = poClass.m_bHaveExtents ∧
      ca.m_dfXMin = poClass.m_dfXMin ∧ ca.m_dfXMax = poClass.m_dfXMax ∧
      ca.m_dfYMin = poClass.m_dfYMin ∧ ca.m_dfYMax = poClass.m_dfYMax ∧
      ca.m_papoGeometryProperty =
        (if poClass.m_papoGeometryProperty = [] then
          [{ m_pszName := [], m_pszSrcElement := [], m_nGeometryType := wkbUnknown,
             m_nAttributeIndex := -1, m_bNullable := true }]
         else poClass.m_papoGeometryProperty) ∧
      r2.m_papoClass = r.m_papoClass.set i (mergeGeometry env a r1 ca step).2 := by
  have hc1 : true = true ∧ step.poFeature.m_papsGeometry.isSome = true := by simp [hlist]
  have hc2 : (!false) = true ∧ step.poFeature.m_papsGeometry.isSome = true ∧
      step.poFeature.m_papsGeometry ≠ some [] := by simp [hlist]
  unfold prescanFeature at h
  dsimp only at h
  split at h
  · simp at h
  · simp only [Option.some.injEq] at h
    refine ⟨(if poLastClass.isSome = true ∧ some i ≠ poLastClass ∧
          poClass.GetFeatureCount ≠ -1 then { r with m_nHasSequentialLayers := 0 } else r),
      (if (if poClass.GetFeatureCount = -1 then poClass.SetFeatureCount 1
            else poClass.SetFeatureCount (poClass.GetFeatureCount + 1)).GetGeometryPropertyCount
            = 0 then
          (if poClass.GetFeatureCount = -1 then poClass.SetFeatureCount 1
            else poClass.SetFeatureCount (poClass.GetFeatureCount + 1)).AddGeometryProperty
            { m_pszName := [], m_pszSrcElement := [], m_nGeometryType := wkbUnknown,
              m_nAttributeIndex := -1, m_bNullable := true }
        else
          (if poClass.GetFeatureCount = -1 then poClass.SetFeatureCount 1
            else poClass.SetFeatureCount (poClass.GetFeatureCount + 1))),
      ?_, ?_, ?_, ?_, ?_, ?_, ?_, ?_⟩
    · simp only [GMLFeatureClass.GetFeatureCount]
      repeat' split
      all_goals rfl
    · repeat' split
      all_goals rfl
    · repeat' split
      all_goals rfl
    · repeat' split
      all_goals rfl
    · repeat' split
      all_goals rfl
    · repeat' split
      all_goals rfl
    · cases hg : poClass.m_papoGeometryProperty with
      | nil =>
        simp [GMLFeatureClass.GetGeometryPropertyCount, GMLFeatureClass.SetFeatureCount,
          GMLFeatureClass.AddGeometryProperty, hg, apply_ite]
      | cons q qs =>
        simp [GMLFeatureClass.GetGeometryPropertyCount, GMLFeatureClass.SetFeatureCount,
          GMLFeatureClass.AddGeometryProperty, hg, apply_ite]
    · rw [← h]
      dsimp only
      rw [(mergeGeometry_frame env a _ _ step).2.1]
      congr 1
      split <;> rfl

/-- The body of the prescan loop with extents on a feature that carries a
geometry list with a first entry and a geometry that can be built: the
feature count of the class is stepped, the type of the geometry is merged into
the type of the first geometry property (the placeholder when the class had
none), where the type unknown counts as none while the feature count is 1, and
the envelope of a geometry that is not empty is merged into the extent. -/
theorem prescanFeature_merge (env : Env) (a : Bool) (r r2 : GMLReader)
    (poLastClass : Option Nat) (step : PrescanStep) (i : Nat) (poClass : GMLFeatureClass)
    (x : CStr) (xs : List CStr) (geom : OGRGeometry)
    (hlist : step.poFeature.m_papsGeometry = some (x :: xs))
    (hbuilt : step.poGeometry = some geom)
    (h : prescanFeature env true a false r poLastClass step i poClass = some r2) :
    ∃ c2 : GMLFeatureClass, r2.m_papoClass = r.m_papoClass.set i c2 ∧
      c2.m_nFeatureCount =
        (if poClass.m_nFeatureCount = -1 then 1 else poClass.m_nFeatureCount + 1) ∧
      c2.m_papoGeometryProperty.map (fun p => p.m_nGeometryType) =
        (match poClass.m_papoGeometryProperty with
         | [] =>
           [env.OGRMergeGeometryTypesEx (if c2.m_nFeatureCount = 1 then wkbNone else wkbUnknown)
              geom.eGeometryType true]
         | p :: others =>
           env.OGRMergeGeometryTypesEx
             (if c2.m_nFeatureCount = 1 ∧ p.m_nGeometryType = wkbUnknown then wkbNone
              else p.m_nGeometryType) geom.eGeometryType true ::
             others.map (fun p => p.m_nGeometryType)) ∧
      c2.GetExtents =
        (if geom.bIsEmpty then poClass.GetExtents else unionExtent poClass.GetExtents geom) := by
  obtain ⟨r1, ca, hcnt, hx, h1, h2, h3, h4, hgp, hr2⟩ :=
    prescanFeature_geometry_cases env a r r2 poLastClass step i poClass x xs hlist h
  have hext : ca.GetExtents = poClass.GetExtents := by
    unfold GMLFeatureClass.GetExtents
    rw [hx, h1, h2, h3, h4]
  cases hg : poClass.m_papoGeometryProperty with
  | nil =>
    rw [hg, if_pos rfl] at hgp
    obtain ⟨m1, m2, m3⟩ := mergeGeometry_merge env a r1 ca step geom _ [] hbuilt hgp
    refine ⟨_, hr2, m1.trans hcnt, ?_, ?_⟩
    · rw [m2, m1]
      simp
    · rw [m3, hext]
  | cons p others =>
    rw [hg, if_neg (List.cons_ne_nil _ _)] at hgp
    obtain ⟨m1, m2, m3⟩ := mergeGeometry_merge env a r1 ca step geom p others hbuilt hgp
    refine ⟨_, hr2, m1.trans hcnt, ?_, ?_⟩
    · rw [m2, m1]
    · rw [m3, hext]

end GML

namespace GML
open GMLReader

theorem builtGeometries_snoc (i : Nat) (seen : List PrescanStep) (step : PrescanStep) :
    builtGeometries i (seen ++ [step]) =
      builtGeometries i seen ++
        (if step.poFeature.m_poClass = i then step.poGeometry.toList else []) := by
  unfold builtGeometries
  rw [List.filterMap_append]
  congr 1
  by_cases hc : step.poFeature.m_poClass = i
  · rw [if_pos hc]
    cases hg : step.poGeometry <;> simp [List.filterMap, hc, hg]
  · rw [if_neg hc]
    simp [List.filterMap, hc]

theorem builtGeometries_eq_nil (i : Nat) (seen : List PrescanStep)
    (h : ∀ s ∈ seen, s.poFeature.m_poClass ≠ i) : builtGeometries i seen = [] := by
  unfold builtGeometries
  induction seen with
  | nil => rfl
  | cons s rest ih =>
    have h1 := h s (List.mem_cons_self _ _)
    rw [List.filterMap_cons, if_neg h1]
    exact ih (fun t ht => h t (List.mem_cons_of_mem _ ht))

theorem mergedGeometryType_snoc (env : Env) (gs : List OGRGeometry) (g : OGRGeometry) :
    mergedGeometryType env (gs ++ [g]) =
      env.OGRMergeGeometryTypesEx (mergedGeometryType env gs) g.eGeometryType true := by
  unfold mergedGeometryType
  rw [List.foldl_append]
  rfl

theorem mergedExtent_snoc (gs : List OGRGeometry) (g : OGRGeometry) :
    mergedExtent (gs ++ [g]) =
      (if g.bIsEmpty then mergedExtent gs else unionExtent (mergedExtent gs) g) := by
  unfold mergedExtent
  rw [List.filter_append, List.foldl_append]
  cases hg : g.bIsEmpty <;> simp [List.filter, hg]

end GML

namespace GML
open GMLReader

/-- Handler calls leave the feature count, the geometry properties and the
extent of the class at index `i` as the features seen so far made them; a
class that they register at index `i` has seen no feature. -/
theorem runSchemaCalls_geometry (env : Env) (fuel : Nat) (i : Nat) (calls : List SchemaCall)
    (r r1 : GMLReader) (seen : List PrescanStep)
    (hc : runSchemaCalls env fuel r calls = some r1)
    (hb : ∀ s ∈ seen, s.poFeature.m_poClass < r.m_papoClass.length)
    (hI : ∀ c : GMLFeatureClass, r.m_papoClass[i]? = some c →
      c.m_nFeatureCount = (if builtGeometries i seen = [] then -1
        else ((builtGeometries i seen).length : Int)) ∧
      c.m_papoGeometryProperty.map (fun p => p.m_nGeometryType) =
        (if builtGeometries i seen = [] then []
         else [mergedGeometryType env (builtGeometries i seen)]) ∧
      c.GetExtents = mergedExtent (builtGeometries i seen)) :
    r.m_papoClass.length ≤ r1.m_papoClass.length ∧
    ∀ c : GMLFeatureClass, r1.m_papoClass[i]? = some c →
      c.m_nFeatureCount = (if builtGeometries i seen = [] then -1
        else ((builtGeometries i seen).length : Int)) ∧
      c.m_papoGeometryProperty.map (fun p => p.m_nGeometryType) =
        (if builtGeometries i seen = [] then []
         else [mergedGeometryType env (builtGeometries i seen)]) ∧
      c.GetExtents = mergedExtent (builtGeometries i seen) := by
  obtain ⟨k, hmap⟩ := runSchemaCalls_map
    (fun c : GMLFeatureClass =>
      (c.m_nFeatureCount, c.m_papoGeometryProperty.map (fun p => p.m_nGeometryType),
        c.GetExtents))
    (-1, [], none) (fun _ _ => rfl) (fun _ => rfl) env fuel calls r r1 hc
  have hlen : r.m_papoClass.length ≤ r1.m_papoClass.length := by
    have := congrArg List.length hmap
    simp only [List.length_map, List.length_append, List.length_replicate] at this
    omega
  refine ⟨hlen, ?_⟩
  intro c hc1
  have hm : ((r1.m_papoClass.map (fun c : GMLFeatureClass =>
      (c.m_nFeatureCount, c.m_papoGeometryProperty.map (fun p => p.m_nGeometryType),
        c.GetExtents)))[i]?) =
      some (c.m_nFeatureCount, c.m_papoGeometryProperty.map (fun p => p.m_nGeometryType),
        c.GetExtents) := by
    rw [List.getElem?_map, hc1]
    rfl
  rw [hmap] at hm
  by_cases hi : i < r.m_papoClass.length
  · rw [List.getElem?_append_left (by simpa using hi), List.getElem?_map] at hm
    cases hc0 : r.m_papoClass[i]? with
    | none => rw [hc0] at hm; simp at hm
    | some c0 =>
      rw [hc0] at hm
      simp only [Option.map_some', Option.some.injEq, Prod.mk.injEq] at hm
      obtain ⟨e1, e2, e3⟩ := hI c0 hc0
      exact ⟨hm.1 ▸ e1, hm.2.1 ▸ e2, hm.2.2 ▸ e3⟩
  · rw [List.getElem?_append_right (by simpa using hi)] at hm
    have hd := List.eq_of_mem_replicate (List.getElem?_mem hm)
    simp only [Prod.mk.injEq] at hd
    have hnil : builtGeometries i seen = [] := by
      apply builtGeometries_eq_nil
      intro s hs hsi
      have := hb s hs
      omega
    rw [hnil]
    simp only [if_true]
    exact ⟨hd.1, hd.2.1, hd.2.2.trans rfl⟩

/-- One round of the prescan loop with extents, seen from the class at index
`i` all of whose features carry a geometry that can be built: after the round
the feature count of the class is the number of its features seen, its
geometry property has the merged type of their geometries, and its extent is
the merged extent of their envelopes. -/
theorem prescanRound_geometry (env : Env) (fuel : Nat) (a : Bool) (i : Nat)
    (r r2 : GMLReader) (last : Option Nat) (seen : List PrescanStep) (step : PrescanStep)
    (h : prescanRound env fuel true a false r last step = some r2)
    (hgeo : step.poFeature.m_poClass = i →
      (∃ (x : CStr) (xs : List CStr), step.poFeature.m_papsGeometry = some (x :: xs)) ∧
      ∃ geom : OGRGeometry, step.poGeometry = some geom)
    (hb : ∀ s ∈ seen, s.poFeature.m_poClass < r.m_papoClass.length)
    (hI : ∀ c : GMLFeatureClass, r.m_papoClass[i]? = some c →
      c.m_nFeatureCount = (if builtGeometries i seen = [] then -1
        else ((builtGeometries i seen).length : Int)) ∧
      c.m_papoGeometryProperty.map (fun p => p.m_nGeometryType) =
        (if builtGeometries i seen = [] then []
         else [mergedGeometryType env (builtGeometries i seen)]) ∧
      c.GetExtents = mergedExtent (builtGeometries i seen)) :
    (∀ s ∈ seen ++ [step], s.poFeature.m_poClass < r2.m_papoClass.length) ∧
    (∀ c : GMLFeatureClass, r2.m_papoClass[i]? = some c →
      c.m_nFeatureCount = (if builtGeometries i (seen ++ [step]) = [] then -1
        else ((builtGeometries i (seen ++ [step])).length : Int)) ∧
      c.m_papoGeometryProperty.map (fun p => p.m_nGeometryType) =
        (if builtGeometries i (seen ++ [step]) = [] then []
         else [mergedGeometryType env (builtGeometries i (seen ++ [step]))]) ∧
      c.GetExtents = mergedExtent (builtGeometries i (seen ++ [step]))) := by
  obtain ⟨r1, poClass, hc, hcls, hf⟩ := prescanRound_cases env fuel true a false r r2 last step h
  obtain ⟨hlen, hI1⟩ := runSchemaCalls_geometry env fuel i step.calls r r1 seen hc hb hI
  have hi0 : step.poFeature.m_poClass < r1.m_papoClass.length :=
    (List.getElem?_eq_some.mp hcls).1
  obtain ⟨c2, s2, b2, hr2⟩ := prescanFeature_reader env true a false _ last step _ poClass r2 hf
  have hset : r2.m_papoClass = r1.m_papoClass.set step.poFeature.m_poClass c2 := by
    rw [hr2]
  have hlen2 : r2.m_papoClass.length = r1.m_papoClass.length := by
    rw [hset, List.length_set]
  constructor
  · intro s hs
    rw [hlen2]
    rcases List.mem_append.mp hs with hs | hs
    · exact lt_of_lt_of_le (hb s hs) hlen
    · rw [List.mem_singleton.mp hs]; exact hi0
  · intro c hc3
    rw [builtGeometries_snoc]
    by_cases hci : step.poFeature.m_poClass = i
    · obtain ⟨⟨x, xs, hlist⟩, geom, hbuilt⟩ := hgeo hci
      obtain ⟨c3, hset3, m1, m2, m3⟩ := prescanFeature_merge env a _ r2 last step _ poClass
        x xs geom hlist hbuilt hf
      have hset3b : r2.m_papoClass = r1.m_papoClass.set step.poFeature.m_poClass c3 := hset3
      have hcc : c = c3 := by
        rw [hset3b, hci, List.getElem?_set_self (by rw [← hci]; exact hi0)] at hc3
        exact (Option.some.inj hc3).symm
      obtain ⟨e1, e2, e3⟩ := hI1 poClass (by rw [← hci]; exact hcls)
      rw [if_pos hci, hbuilt]
      simp only [Option.toList_some]
      rw [hcc]
      have hne : builtGeometries i seen ++ [geom] ≠ [] := by simp
      rw [if_neg hne, if_neg hne, mergedGeometryType_snoc, mergedExtent_snoc, m3, e3]
      refine ⟨?_, ?_, rfl⟩
      · rw [m1, e1]
        by_cases hz : builtGeometries i seen = []
        · simp [hz]
        · have : ¬ (((builtGeometries i seen).length : Int) = -1) := by omega
          simp [hz, this]
      · rw [m2]
        by_cases hz : builtGeometries i seen = []
        · rw [if_pos hz] at e1 e2
          have hp : poClass.m_papoGeometryProperty = [] := by simpa using e2
          rw [hp]
          have h1 : c3.m_nFeatureCount = 1 := by rw [m1, e1]; rfl
          simp only [h1, if_true, hz]
          rfl
        · rw [if_neg hz] at e1 e2
          have hlen1 : 1 ≤ (builtGeometries i seen).length :=
            Nat.pos_of_ne_zero (fun h0 => hz (List.length_eq_zero.mp h0))
          have h1 : c3.m_nFeatureCount ≠ 1 := by
            rw [m1, e1]
            have : ¬ (((builtGeometries i seen).length : Int) = -1) := by omega
            rw [if_neg this]
            omega
          cases hp : poClass.m_papoGeometryProperty with
          | nil => rw [hp] at e2; simp at e2
          | cons p others =>
            rw [hp] at e2
            simp only [List.map_cons, List.cons.injEq, List.map_eq_nil_iff] at e2
            simp only [h1, false_and, if_false, e2.1, e2.2, List.map_nil]
    · have hcc : r1.m_papoClass[i]? = some c := by
        rw [hset, List.getElem?_set_ne hci] at hc3
        exact hc3
      rw [if_neg hci, List.append_nil]
      exact hI1 c hcc

/-- The loop of the prescan with extents, started on an empty registry, seen
from the class at index `i` all of whose features carry a geometry that can be
built. -/
theorem prescanLoop_geometry (env : Env) (fuel : Nat) (a : Bool) (i : Nat)
    (steps : List PrescanStep) (r r2 : GMLReader)
    (h : prescanLoop env fuel true a false r none steps = some r2)
    (hempty : r.m_papoClass = [])
    (hgeo : ∀ s ∈ yieldedSteps r.m_bStopParsing steps, s.poFeature.m_poClass = i →
      (∃ (x : CStr) (xs : List CStr), s.poFeature.m_papsGeometry = some (x :: xs)) ∧
      ∃ geom : OGRGeometry, s.poGeometry = some geom) :
    (∀ s ∈ yieldedSteps r.m_bStopParsing steps,
      s.poFeature.m_poClass < r2.m_papoClass.length) ∧
    (∀ c : GMLFeatureClass, r2.m_papoClass[i]? = some c →
      c.m_nFeatureCount =
        (if builtGeometries i (yieldedSteps r.m_bStopParsing steps) = [] then -1
         else ((builtGeometries i (yieldedSteps r.m_bStopParsing steps)).length : Int)) ∧
      c.m_papoGeometryProperty.map (fun p => p.m_nGeometryType) =
        (if builtGeometries i (yieldedSteps r.m_bStopParsing steps) = [] then []
         else [mergedGeometryType env
           (builtGeometries i (yieldedSteps r.m_bStopParsing steps))]) ∧
      c.GetExtents = mergedExtent (builtGeometries i (yieldedSteps r.m_bStopParsing steps))) := by
  have hres := prescanLoop_induction env fuel true a false
    (fun x seen =>
      (∀ s ∈ seen, s.poFeature.m_poClass = i →
        (∃ (x : CStr) (xs : List CStr), s.poFeature.m_papsGeometry = some (x :: xs)) ∧
        ∃ geom : OGRGeometry, s.poGeometry = some geom) →
      (∀ s ∈ seen, s.poFeature.m_poClass < x.m_papoClass.length) ∧
      (∀ c : GMLFeatureClass, x.m_papoClass[i]? = some c →
        c.m_nFeatureCount = (if builtGeometries i seen = [] then -1
          else ((builtGeometries i seen).length : Int)) ∧
        c.m_papoGeometryProperty.map (fun p => p.m_nGeometryType) =
          (if builtGeometries i seen = [] then []
           else [mergedGeometryType env (builtGeometries i seen)]) ∧
        c.GetExtents = mergedExtent (builtGeometries i seen)))
    (by
      intro x x2 seen step _ hI hr hG
      obtain ⟨hb, hf⟩ := hI (fun s hs => hG s (List.mem_append_left _ hs))
      exact prescanRound_geometry env fuel a i x x2 _ seen step hr
        (hG step (List.mem_append_right _ (List.mem_singleton_self _))) hb hf)
    steps r r2 [] h
    (by
      intro _
      refine ⟨by intro s hs; simp at hs, ?_⟩
      intro c hc
      rw [hempty] at hc
      simp at hc)
  simp only [List.nil_append] at hres
  exact hres hgeo

end GML

/-! ## The prescan (`PrescanForSchema`): what a full scan with extents leaves in a class -/

namespace GML
open GMLReader

theorem normalizeSRS_geometry (env : Env) (a : Bool) (r : GMLReader) (c : GMLFeatureClass) :
    (normalizeSRS env a r c).m_nFeatureCount = c.m_nFeatureCount ∧
    (normalizeSRS env a r c).m_papoGeometryProperty = c.m_papoGeometryProperty ∧
    (normalizeSRS env a r c).GetExtents =
      (if swapsExtent env r = true then c.GetExtents.map swapXY else c.GetExtents) := by
  unfold normalizeSRS swapsExtent
  cases hu : r.m_bCanUseGlobalSRSName <;> cases hv : r.m_bInvertAxisOrderIfLatLong <;>
    cases hl : env.GML_IsSRSLatLongOrder r.m_pszGlobalSRSName <;>
    cases hs : env.SetFromUserInput r.m_pszGlobalSRSName <;>
    cases hx : c.m_bHaveExtents <;>
    simp [hu, hv, hl, hs, hx, GMLFeatureClass.GetExtents, GMLFeatureClass.SetExtents,
      GMLFeatureClass.SetSRSName, swapXY] <;>
    (repeat' split) <;> simp_all [GMLFeatureClass.SetSRSName]

/-- Two readers with the same scan configuration agree on the registry, on the
flags and on the SRS settings. -/
theorem scanConfig_fields (r r2 : GMLReader) (h : scanConfig r2 = scanConfig r) :
    r2.m_papoClass = r.m_papoClass ∧
    r2.m_bLookForClassAtAnyLevel = r.m_bLookForClassAtAnyLevel ∧
    r2.m_bClassListLocked = r.m_bClassListLocked ∧
    r2.m_bStopParsing = r.m_bStopParsing ∧
    r2.m_nHasSequentialLayers = r.m_nHasSequentialLayers ∧
    r2.m_bSetWidthFlag = r.m_bSetWidthFlag ∧
    r2.m_bIsWFSJointLayer = r.m_bIsWFSJointLayer ∧
    r2.m_bInvertAxisOrderIfLatLong = r.m_bInvertAxisOrderIfLatLong ∧
    r2.m_pszGlobalSRSName = r.m_pszGlobalSRSName ∧
    r2.m_bCanUseGlobalSRSName = r.m_bCanUseGlobalSRSName ∧
    r2.m_pszFilename = r.m_pszFilename ∧
    r2.bUseExpatReader = r.bUseExpatReader := by
  have h1 := congrArg GMLReader.m_papoClass h
  have h2 := congrArg GMLReader.m_bLookForClassAtAnyLevel h
  have h3 := congrArg GMLReader.m_bClassListLocked h
  have h4 := congrArg GMLReader.m_bStopParsing h
  have h5 := congrArg GMLReader.m_nHasSequentialLayers h
  have h6 := congrArg GMLReader.m_bSetWidthFlag h
  have h7 := congrArg GMLReader.m_bIsWFSJointLayer h
  have h8 := congrArg GMLReader.m_bInvertAxisOrderIfLatLong h
  have h9 := congrArg GMLReader.m_pszGlobalSRSName h
  have h10 := congrArg GMLReader.m_bCanUseGlobalSRSName h
  have h11 := congrArg GMLReader.m_pszFilename h
  have h12 := congrArg GMLReader.bUseExpatReader h
  exact ⟨h1, h2, h3, h4, h5, h6, h7, h8, h9, h10, h11, h12⟩

theorem CleanupParser_swapsExtent (env : Env) (r : GMLReader) :
    swapsExtent env r.CleanupParser = swapsExtent env r := by
  obtain ⟨_, _, _, _, _, _, _, h2, h3, h1, _, _⟩ := scanConfig_fields r r.CleanupParser
    (CleanupParser_config r)
  unfold swapsExtent
  rw [h1, h2, h3]

/-- What a full prescan with extents that returns true leaves in the class at
index `i` when every feature of the class that the scan yielded carries a
geometry list with a first entry and a geometry that can be built: the
feature count is the number of these features, the geometry property holds
the merged type of their geometries, and the extent is the merged extent of
their envelopes, with X and Y exchanged when the axis-order normalization
applies. -/
theorem PrescanForSchema_geometry (env : Env) (fuel : Nat) (stream : PrescanStream)
    (r r2 : GMLReader) (a : Bool) (i : Nat) (c : GMLFeatureClass)
    (h : PrescanForSchema env fuel stream r true a false = some (true, r2))
    (hgeo : ∀ s ∈ yielded r stream, s.poFeature.m_poClass = i →
      s.poFeature.m_papsGeometry.isSome = true ∧ s.poFeature.m_papsGeometry ≠ some [] ∧
      s.poGeometry.isSome = true)
    (hc : r2.m_papoClass[i]? = some c) :
    c.m_nFeatureCount =
      (if builtGeometries i (yielded r stream) = [] then -1
       else ((builtGeometries i (yielded r stream)).length : Int)) ∧
    c.m_papoGeometryProperty.map (fun p => p.m_nGeometryType) =
      (if builtGeometries i (yielded r stream) = [] then []
       else [mergedGeometryType env (builtGeometries i (yielded r stream))]) ∧
    c.GetExtents =
      (if swapsExtent env r2 = true then
        (mergedExtent (builtGeometries i (yielded r stream))).map swapXY
       else mergedExtent (builtGeometries i (yielded r stream))) := by
  have hgeo2 : ∀ s ∈ yieldedSteps (prescanStart env r false).2.m_bStopParsing stream.steps,
      s.poFeature.m_poClass = i →
      (∃ (x : CStr) (xs : List CStr), s.poFeature.m_papsGeometry = some (x :: xs)) ∧
      ∃ geom : OGRGeometry, s.poGeometry = some geom := by
    intro s hs hi
    rw [prescanStart_stop] at hs
    obtain ⟨g1, g2, g3⟩ := hgeo s hs hi
    constructor
    · cases hl : s.poFeature.m_papsGeometry with
      | none => rw [hl] at g1; simp at g1
      | some l =>
        cases l with
        | nil => exact absurd hl g2
        | cons x xs => exact ⟨x, xs, rfl⟩
    · cases hg : s.poGeometry with
      | none => rw [hg] at g3; simp at g3
      | some geom => exact ⟨geom, rfl⟩
  unfold PrescanForSchema at h
  split at h
  · simp at h
  · dsimp only at h
    split at h
    · simp at h
    · cases hl : prescanLoop env fuel true a false (prescanStart env r false).2 none
          stream.steps with
      | none => rw [hl] at h; simp at h
      | some r3 =>
        rw [hl] at h
        dsimp only at h
        cases ht : prescanLastCall env fuel stream r3 with
        | none => rw [ht] at h; simp at h
        | some r4 =>
          rw [ht] at h
          simp only [Option.some.injEq, Prod.mk.injEq, true_and] at h
          obtain ⟨hb3, hI3⟩ := prescanLoop_geometry env fuel a i stream.steps _ r3 hl
            (prescanStart_full env r).1 hgeo2
          rw [prescanStart_stop] at hb3 hI3
          obtain ⟨calls, r5, b, ht5, hr4⟩ := prescanLastCall_cases env fuel stream r3 r4 ht
          obtain ⟨_, hI5⟩ := runSchemaCalls_geometry env fuel i calls r3 r5
            (yieldedSteps r.m_bStopParsing stream.steps) ht5 hb3 hI3
          have hcls : r2.m_papoClass = r4.m_papoClass.map (normalizeSRS env a r4) := by
            rw [← h, (CleanupParser_registry _).1]
          have hsw : swapsExtent env r2 = swapsExtent env r4 := by
            rw [← h, CleanupParser_swapsExtent]
            rfl
          rw [hcls, List.getElem?_map] at hc
          cases hc4 : r4.m_papoClass[i]? with
          | none => rw [hc4] at hc; simp at hc
          | some c4 =>
            rw [hc4] at hc
            simp only [Option.map_some', Option.some.injEq] at hc
            have hc5 : r5.m_papoClass[i]? = some c4 := by
              rw [hr4] at hc4
              exact hc4
            obtain ⟨e1, e2, e3⟩ := hI5 c4 hc5
            obtain ⟨n1, n2, n3⟩ := normalizeSRS_geometry env a r4 c4
            rw [← hc, hsw]
            refine ⟨n1.trans e1, ?_, ?_⟩
            · rw [n2]; exact e2
            · rw [n3, e3]
              rfl

end GML

namespace GML
open GMLReader

theorem mergedGeometryType_points (env : Env)
    (hsame : env.OGRMergeGeometryTypesEx wkbPoint wkbPoint true = wkbPoint)
    (gs : List OGRGeometry) (hall : ∀ g ∈ gs, g.eGeometryType = wkbPoint) :
    gs.foldl (fun acc g => env.OGRMergeGeometryTypesEx acc g.eGeometryType true) wkbPoint =
      wkbPoint := by
  induction gs with
  | nil => rfl
  | cons g rest ih =>
    rw [List.foldl_cons, hall g (List.mem_cons_self _ _), hsame]
    exact ih (fun g2 hg2 => hall g2 (List.mem_cons_of_mem _ hg2))

end GML

/-! ## The prescan (`PrescanForSchema`): the geometry type of a class -/

namespace GML
open GMLReader

/-- C21: after a full prescan with extents (not SRS-only) that returns true,
a class all of whose features carry a geometry list with a first entry and a
geometry that can be built has no geometry property when the scan yielded no
feature for it, and otherwise one geometry property whose type is the left
fold of the geometry-type merge `OGRMergeGeometryTypesEx` over the types of
the geometries of its features, in order, starting from `wkbNone`.  Hence,
when merging `wkbNone` with a type gives that type: a class that saw a Point
and then a LineString ends with `wkbUnknown` when the merge of Point and
LineString is `wkbUnknown`, and a class that saw only Points ends with
`wkbPoint` when the merge of Point and Point is Point. -/
theorem PrescanForSchema_geometry_type (env : Env) (fuel : Nat) (stream : PrescanStream)
    (r r2 : GMLReader) (bAnalyzeSRSPerFeature : Bool) (i : Nat) (c : GMLFeatureClass)
    (h : PrescanForSchema env fuel stream r true bAnalyzeSRSPerFeature false = some (true, r2))
    (hgeo : ∀ s ∈ yielded r stream, s.poFeature.m_poClass = i →
      s.poFeature.m_papsGeometry.isSome = true ∧ s.poFeature.m_papsGeometry ≠ some [] ∧
      s.poGeometry.isSome = true)
    (hc : r2.m_papoClass[i]? = some c) :
    c.m_papoGeometryProperty.map (fun p => p.m_nGeometryType) =
      (if builtGeometries i (yielded r stream) = [] then []
       else [(builtGeometries i (yielded r stream)).foldl
          (fun acc g => env.OGRMergeGeometryTypesEx acc g.eGeometryType true) wkbNone]) ∧
    ((∀ t : Int, env.OGRMergeGeometryTypesEx wkbNone t true = t) →
      env.OGRMergeGeometryTypesEx wkbPoint wkbLineString true = wkbUnknown →
      (builtGeometries i (yielded r stream)).map (fun g => g.eGeometryType) =
        [wkbPoint, wkbLineString] →
      c.m_papoGeometryProperty.map (fun p => p.m_nGeometryType) = [wkbUnknown]) ∧
    ((∀ t : Int, env.OGRMergeGeometryTypesEx wkbNone t true = t) →
      env.OGRMergeGeometryTypesEx wkbPoint wkbPoint true = wkbPoint →
      builtGeometries i (yielded r stream) ≠ [] →
      (∀ g ∈ builtGeometries i (yielded r stream), g.eGeometryType = wkbPoint) →
      c.m_papoGeometryProperty.map (fun p => p.m_nGeometryType) = [wkbPoint]) := by
  have hmain := (PrescanForSchema_geometry env fuel stream r r2 bAnalyzeSRSPerFeature i c
    h hgeo hc).2.1
  refine ⟨hmain, ?_, ?_⟩
  · intro hnone hmix htypes
    rw [hmain]
    cases hb : builtGeometries i (yielded r stream) with
    | nil => rw [hb] at htypes; simp at htypes
    | cons g1 rest =>
      cases rest with
      | nil => rw [hb] at htypes; simp at htypes
      | cons g2 rest2 =>
        cases rest2 with
        | nil =>
          rw [hb] at htypes
          simp only [List.map_cons, List.map_nil, List.cons.injEq, and_true] at htypes
          rw [if_neg (List.cons_ne_nil _ _)]
          simp only [mergedGeometryType, List.foldl_cons, List.foldl_nil]
          rw [htypes.1, htypes.2, hnone, hmix]
        | cons g3 rest3 => rw [hb] at htypes; simp at htypes
  · intro hnone hsame hne hall
    rw [hmain, if_neg hne]
    cases hb : builtGeometries i (yielded r stream) with
    | nil => exact absurd hb hne
    | cons g1 rest =>
      rw [hb] at hall
      simp only [mergedGeometryType, List.foldl_cons]
      rw [hall g1 (List.mem_cons_self _ _), hnone]
      rw [mergedGeometryType_points env hsame rest
        (fun g hg => hall g (List.mem_cons_of_mem _ hg))]

/-- Witness for C21: a `City` feature with a point and then a `City` feature
with a line leave the class `City` with the geometry type `wkbUnknown`. -/
theorem PrescanForSchema_geometry_type_witness :
    (scannedPointThenLine.m_papoClass.getD 0 (GMLFeatureClass.new [])).m_papoGeometryProperty.map
      (fun p => p.m_nGeometryType) = [wkbUnknown] :=
  (PrescanForSchema_geometry_type (envOf sampleDocument) 3 pointThenLine sampleReader
    scannedPointThenLine false 0
    (scannedPointThenLine.m_papoClass.getD 0 (GMLFeatureClass.new []))
    (by decide) (by decide) (by decide)).2.1 (fun _ => by simp [envOf]) (by decide) (by decide)

end GML

/-! ## The prescan (`PrescanForSchema`): the extent of a class -/

namespace GML
open GMLReader

end GML

/-! ## The chain of states and the recycled state under `PopState` and the handler's calls -/

namespace GML
open GMLReader

theorem PopState_recycled (r : GMLReader)
    (h : ∀ s : GMLReadState, r.m_poRecycledState = some s → s = {}) :
    ∀ s : GMLReadState, r.PopState.m_poRecycledState = some s → s = {} := by
  unfold PopState
  cases hS : r.m_poState with
  | nil => exact h
  | cons st rest =>
    intro s hs
    dsimp only at hs
    exact (Option.some.inj hs).symm

theorem PopState_state (r : GMLReader) : r.PopState.m_poState = r.m_poState.tail := by
  unfold PopState
  cases hS : r.m_poState with
  | nil => rw [hS]; rfl
  | cons st rest => rfl

theorem PopState_oParser (r : GMLReader) :
    r.PopState.bUseExpatReader = r.bUseExpatReader ∧
    r.PopState.m_eXercesInitState = r.m_eXercesInitState := by
  have h := PopState_frame r
  have h1 := congrArg GMLReader.bUseExpatReader h
  have h2 := congrArg GMLReader.m_eXercesInitState h
  exact ⟨h1, h2⟩

/-- The loop `while( m_poState ) PopState();` empties the chain of states,
leaves a recycled state reset, and leaves the choice of the parser alone. -/
theorem popStates_state (S : List GMLReadState) :
    ∀ r : GMLReader, S.length = r.m_poState.length →
      (∀ s : GMLReadState, r.m_poRecycledState = some s → s = {}) →
      (popStates S r).m_poState = [] ∧
      (∀ s : GMLReadState, (popStates S r).m_poRecycledState = some s → s = {}) ∧
      (popStates S r).bUseExpatReader = r.bUseExpatReader ∧
      (popStates S r).m_eXercesInitState = r.m_eXercesInitState := by
  induction S with
  | nil =>
    intro r hl hr
    refine ⟨?_, hr, rfl, rfl⟩
    exact List.length_eq_zero.mp hl.symm
  | cons s rest ih =>
    intro r hl hr
    have hl2 : rest.length = r.PopState.m_poState.length := by
      rw [PopState_state, List.length_tail, ← hl]
      simp
    obtain ⟨a1, a2, a3, a4⟩ := ih r.PopState hl2 (PopState_recycled r hr)
    exact ⟨a1, a2, a3.trans (PopState_oParser r).1, a4.trans (PopState_oParser r).2⟩

end GML

namespace GML
open GMLReader

theorem storeProperty_recycled (env : Env) (r : GMLReader) (st : GMLReadState)
    (rest : List GMLReadState) (f : GMLFeature) (cls : GMLFeatureClass) (i : Nat)
    (v : CStr) (r2 : GMLReader) (h : storeProperty env r st rest f cls i v = some r2) :
    r2.m_poRecycledState = r.m_poRecycledState := by
  unfold storeProperty at h
  cases hp : cls.m_papoProperty[i]? with
  | none => simp [hp] at h
  | some pd =>
    simp only [hp, Option.some.injEq] at h
    subst h
    rfl

theorem SetFeaturePropertyDirectly_recycled (env : Env) (fuel : Nat) (r : GMLReader)
    (e v : CStr) (k : Int) (t : GMLPropertyType) (r2 : GMLReader)
    (h : r.SetFeaturePropertyDirectly env fuel e v k t = some r2) :
    r2.m_poRecycledState = r.m_poRecycledState := by
  unfold SetFeaturePropertyDirectly at h
  cases hS : r.m_poState with
  | nil => rw [hS] at h; simp at h
  | cons st rest =>
    rw [hS] at h
    cases hf : st.m_poFeature with
    | none => simp [hf] at h
    | some f =>
      cases hc : r.m_papoClass[f.m_poClass]? with
      | none => simp [hf, hc] at h
      | some cls =>
        simp only [hf, hc] at h
        by_cases hr : 0 ≤ k ∧ k < cls.GetPropertyCount
        · rw [if_pos hr] at h
          exact storeProperty_recycled _ _ _ _ _ _ _ _ _ h
        · rw [if_neg hr] at h
          by_cases hi : firstIndexFrom
              (fun p : GMLPropertyDefn => strcmp0 p.m_pszSrcElement e) cls.m_papoProperty 0 ≠ -1
          · rw [if_pos hi] at h
            exact storeProperty_recycled _ _ _ _ _ _ _ _ _ h
          · rw [if_neg hi] at h
            cases hl : cls.IsSchemaLocked
            · simp only [hl, Bool.false_eq_true, if_false] at h
              cases hd : dedupFieldName cls fuel
                  (replaceAt (deriveFieldName r.m_bIsWFSJointLayer cls e)) with
              | none => simp [hd] at h
              | some name =>
                simp only [hd] at h
                have key : ∀ d : GMLPropertyDefn,
                    (if (cls.AddProperty d).1 < 0 then some r
                     else storeProperty env r st rest f (cls.AddProperty d).2
                       cls.GetPropertyCount v) = some r2 →
                    r2.m_poRecycledState = r.m_poRecycledState := by
                  intro d hd2
                  split at hd2
                  · simp only [Option.some.injEq] at hd2
                    subst hd2; rfl
                  · exact storeProperty_recycled _ _ _ _ _ _ _ _ _ hd2
                exact key _ h
            · simp only [hl, if_true, Option.some.injEq] at h
              subst h; rfl

theorem PushFeature_recycled (env : Env) (r : GMLReader) (e : CStr) (fid : Option CStr)
    (k : Int) (r2 : GMLReader) (h : r.PushFeature env e fid k = some r2) :
    r2.m_poRecycledState = none := by
  unfold PushFeature at h
  rcases findOrCreateClass_cases env r e k with h0 | ⟨i, h0⟩ | ⟨hk, hall, h0⟩
  · rw [h0] at h; simp at h
  · rw [h0] at h
    dsimp only at h
    split at h
    · simp at h
    · simp only [Option.some.injEq] at h
      subst h; rfl
  · rw [h0] at h
    dsimp only at h
    split at h
    · simp at h
    · simp only [Option.some.injEq] at h
      subst h; rfl

theorem applySchemaCall_recycled (env : Env) (fuel : Nat) (r r2 : GMLReader) (call : SchemaCall)
    (h : applySchemaCall env fuel r call = some r2)
    (hr : ∀ s : GMLReadState, r.m_poRecycledState = some s → s = {}) :
    ∀ s : GMLReadState, r2.m_poRecycledState = some s → s = {} := by
  cases call with
  | PushFeature e fid k =>
    simp only [applySchemaCall] at h
    intro s hs
    rw [PushFeature_recycled env r e fid k r2 h] at hs
    simp at hs
  | SetFeaturePropertyDirectly e v k t =>
    simp only [applySchemaCall] at h
    rw [SetFeaturePropertyDirectly_recycled env fuel r e v k t r2 h]
    exact hr
  | PushState s =>
    simp only [applySchemaCall, Option.some.injEq] at h
    subst h
    exact hr
  | PopState =>
    simp only [applySchemaCall, Option.some.injEq] at h
    subst h
    exact PopState_recycled r hr

end GML

/-! ## The prescan on a document: the calls of the handler and the registry-wide SRS name -/

namespace GML
open GMLReader

theorem PopState_rebase (G : Option CStr) (kc : Int) (r : GMLReader) :
    (rebase G kc r).PopState = rebase G kc r.PopState := by
  unfold PopState
  have hs : (rebase G kc r).m_poState = r.m_poState := rfl
  rw [hs]
  cases hS : r.m_poState with
  | nil => rfl
  | cons st rest =>
    cases hf : st.m_poFeature <;> cases hx : r.bUseExpatReader <;>
      cases hc : r.m_poCompleteFeature <;>
      simp [hf, hx, hc, rebase]

theorem applyCall_rebase (G : Option CStr) (kc : Int) (r : GMLReader) (c : HandlerCall) :
    (rebase G kc r).applyCall c = rebase G kc (r.applyCall c) := by
  cases c with
  | PushState s => rfl
  | PopState => exact PopState_rebase G kc r
  | GetState s =>
    unfold applyCall
    have hs : (rebase G kc r).m_poState = r.m_poState := rfl
    rw [hs]
    cases r.m_poState <;> rfl

theorem storeProperty_rebase (G : Option CStr) (kc : Int) (env : Env) (r : GMLReader)
    (st : GMLReadState) (rest : List GMLReadState) (f : GMLFeature) (cls : GMLFeatureClass)
    (i : Nat) (v : CStr) :
    storeProperty env (rebase G kc r) st rest f cls i v =
      (storeProperty env r st rest f cls i v).map (rebase G kc) := by
  unfold storeProperty
  cases hp : cls.m_papoProperty[i]? with
  | none => rfl
  | some pd => rfl

theorem SetFeaturePropertyDirectly_rebase (G : Option CStr) (kc : Int) (env : Env) (fuel : Nat)
    (r : GMLReader) (e v : CStr) (k : Int) (t : GMLPropertyType) :
    (rebase G kc r).SetFeaturePropertyDirectly env fuel e v k t =
      (r.SetFeaturePropertyDirectly env fuel e v k t).map (rebase G kc) := by
  unfold SetFeaturePropertyDirectly
  have hs : (rebase G kc r).m_poState = r.m_poState := rfl
  have hc : (rebase G kc r).m_papoClass = r.m_papoClass := rfl
  have hw : (rebase G kc r).m_bIsWFSJointLayer = r.m_bIsWFSJointLayer := rfl
  rw [hs, hc, hw]
  cases hS : r.m_poState with
  | nil => rfl
  | cons st rest =>
    dsimp only
    cases hf : st.m_poFeature with
    | none => rfl
    | some f =>
      dsimp only
      cases hcl : r.m_papoClass[f.m_poClass]? with
      | none => rfl
      | some cls =>
        dsimp only
        have key : ∀ d : GMLPropertyDefn,
            (if (cls.AddProperty d).1 < 0 then some (rebase G kc r)
             else storeProperty env (rebase G kc r) st rest f (cls.AddProperty d).2
               cls.GetPropertyCount v) =
            (if (cls.AddProperty d).1 < 0 then some r
             else storeProperty env r st rest f (cls.AddProperty d).2
               cls.GetPropertyCount v).map (rebase G kc) := by
          intro d
          split
          · rfl
          · exact storeProperty_rebase _ _ _ _ _ _ _ _ _ _
        by_cases hr : 0 ≤ k ∧ k < cls.GetPropertyCount
        · rw [if_pos hr, if_pos hr]
          exact storeProperty_rebase _ _ _ _ _ _ _ _ _ _
        · rw [if_neg hr, if_neg hr]
          by_cases hi : firstIndexFrom
              (fun p : GMLPropertyDefn => strcmp0 p.m_pszSrcElement e) cls.m_papoProperty 0 ≠ -1
          · rw [if_pos hi, if_pos hi]
            exact storeProperty_rebase _ _ _ _ _ _ _ _ _ _
          · rw [if_neg hi, if_neg hi]
            cases hl : cls.IsSchemaLocked
            · simp only [Bool.false_eq_true, if_false]
              cases hd : dedupFieldName cls fuel
                  (replaceAt (deriveFieldName r.m_bIsWFSJointLayer cls e)) with
              | none => rfl
              | some name => exact key _
            · rfl

theorem PushFeature_rebase (G : Option CStr) (kc : Int) (env : Env) (r : GMLReader) (e : CStr)
    (fid : Option CStr) (k : Int) :
    (rebase G kc r).PushFeature env e fid k =
      (r.PushFeature env e fid k).map (rebase G kc) := by
  have hfc : (rebase G kc r).findOrCreateClass env e k =
      (r.findOrCreateClass env e k).map fun p => (p.1, rebase G kc p.2) := by
    unfold findOrCreateClass
    have h1 : (rebase G kc r).m_papoClass = r.m_papoClass := rfl
    have h2 : (rebase G kc r).m_bClassListLocked = r.m_bClassListLocked := rfl
    have h3 : (rebase G kc r).GetClassCount = r.GetClassCount := rfl
    have h4 : ∀ c : GMLFeatureClass,
        ((rebase G kc r).AddClass env c).map (fun p => (r.GetClassCount, p.2)) =
        ((r.AddClass env c).map fun p => (r.GetClassCount, p.2)).map
          (fun p => (p.1, rebase G kc p.2)) := by
      intro c
      unfold AddClass
      have h5 : (rebase G kc r).GetClassByName c.GetName = r.GetClassByName c.GetName :=
        rfl
      rw [h5]
      split <;> rfl
    rw [h1, h2, h3]
    dsimp only
    split
    · split <;> rfl
    · split
      · split
        · rfl
        · exact h4 _
      · rfl
  unfold PushFeature
  rw [hfc]
  cases ha : r.findOrCreateClass env e k with
  | none => rfl
  | some p =>
    obtain ⟨i, x⟩ := p
    simp only [Option.map_some']
    have h1 : (rebase G kc x).m_papoClass = x.m_papoClass := rfl
    rw [h1]
    cases hc : x.m_papoClass[i]? with
    | none => rfl
    | some c => rfl

theorem applySchemaCall_rebase (G : Option CStr) (kc : Int) (env : Env) (fuel : Nat)
    (r : GMLReader) (call : SchemaCall) :
    applySchemaCall env fuel (rebase G kc r) call =
      (applySchemaCall env fuel r call).map (rebase G kc) := by
  cases call with
  | PushFeature e fid k => exact PushFeature_rebase G kc env r e fid k
  | SetFeaturePropertyDirectly e v k t =>
    exact SetFeaturePropertyDirectly_rebase G kc env fuel r e v k t
  | PushState s => rfl
  | PopState =>
    simp only [applySchemaCall, Option.map_some', Option.some.injEq]
    exact PopState_rebase G kc r

theorem advances_refl (r : GMLReader) : advances r r := ⟨fun _ hx => hx, fun h => h⟩

theorem advances_trans {r r2 r3 : GMLReader} (h1 : advances r r2) (h2 : advances r2 r3) :
    advances r r3 :=
  ⟨fun x hx => h2.1 x (h1.1 x hx), fun h => h2.2 (h1.2 h)⟩

theorem advances_of_eq {r r2 : GMLReader}
    (h1 : r2.m_pszGlobalSRSName = r.m_pszGlobalSRSName)
    (h2 : r2.m_poRecycledState = r.m_poRecycledState) : advances r r2 := by
  unfold advances
  rw [h1, h2]
  exact ⟨fun _ hx => hx, fun h => h⟩

theorem recycled_reset_iff (r : GMLReader) :
    (r.m_poRecycledState = none ∨ r.m_poRecycledState = some {}) ↔
      ∀ s : GMLReadState, r.m_poRecycledState = some s → s = {} := by
  constructor
  · intro h s hs
    rcases h with h | h
    · rw [h] at hs; cases hs
    · rw [h] at hs; exact (Option.some.inj hs).symm
  · intro h
    cases hr : r.m_poRecycledState with
    | none => exact Or.inl rfl
    | some s => exact Or.inr (by rw [h s hr])

theorem admitsGlobalSRSName_of (r r2 : GMLReader) (G : Option CStr)
    (hadv : advances r r2)
    (h : admitsGlobalSRSName r2 G) : admitsGlobalSRSName r G := by
  unfold admitsGlobalSRSName at *
  cases hg : r.m_pszGlobalSRSName with
  | none => exact Or.inl rfl
  | some x =>
    have h2 := hadv.1 x hg
    rcases h with h | h
    · rw [h2] at h; cases h
    · exact Or.inr (h2.symm.trans h)

theorem SetGlobalSRSName_mono (r r2 : GMLReader) (n : Option CStr)
    (h : r.SetGlobalSRSName n = some r2) (x : CStr) (hx : r.m_pszGlobalSRSName = some x) :
    r2.m_pszGlobalSRSName = some x := by
  unfold SetGlobalSRSName at h
  rw [hx] at h
  simp only [Option.some.injEq] at h
  rw [← h]
  exact hx

theorem SetGlobalSRSName_frame (r r2 : GMLReader) (n : Option CStr)
    (h : r.SetGlobalSRSName n = some r2) :
    r2 = { r with m_pszGlobalSRSName := r2.m_pszGlobalSRSName } := by
  unfold SetGlobalSRSName at h
  cases hg : r.m_pszGlobalSRSName with
  | some x =>
    rw [hg] at h
    simp only [Option.some.injEq] at h
    rw [← h]
  | none =>
    rw [hg] at h
    cases n with
    | none =>
      simp only [Option.some.injEq] at h
      rw [← h]
    | some name =>
      dsimp only at h
      cases hv : storedGlobalSRSName r.m_bConsiderEPSGAsURN name with
      | none => rw [hv] at h; cases h
      | some v =>
        rw [hv] at h
        simp only [Option.map_some', Option.some.injEq] at h
        rw [← h]

theorem SetGlobalSRSName_transfer (r r2 : GMLReader) (n G : Option CStr) (kc : Int)
    (h : r.SetGlobalSRSName n = some r2) (hG : admitsGlobalSRSName r2 G) :
    (rebase G kc r).SetGlobalSRSName n = some (rebase G kc r2) := by
  unfold SetGlobalSRSName at h ⊢
  have hE : (rebase G kc r).m_bConsiderEPSGAsURN = r.m_bConsiderEPSGAsURN := rfl
  have hN : (rebase G kc r).m_pszGlobalSRSName = G := rfl
  rw [hE, hN]
  cases hg : r.m_pszGlobalSRSName with
  | some x =>
    rw [hg] at h
    simp only [Option.some.injEq] at h
    subst h
    rcases hG with hG | hG
    · rw [hg] at hG; cases hG
    · rw [hg] at hG
      rw [← hG]
  | none =>
    rw [hg] at h
    cases n with
    | none =>
      simp only [Option.some.injEq] at h
      subst h
      cases G <;> rfl
    | some name =>
      dsimp only at h
      cases hv : storedGlobalSRSName r.m_bConsiderEPSGAsURN name with
      | none => rw [hv] at h; cases h
      | some v =>
        rw [hv] at h
        simp only [Option.map_some', Option.some.injEq] at h
        subst h
        rcases hG with hG | hG
        · cases hG
        · have hG2 : G = some v := hG.symm
          subst hG2
          rfl

theorem scanFrame_of_handlerFrame (a b : GMLReader) (h : handlerFrame a = handlerFrame b) :
    scanFrame a = scanFrame b := by
  have h1 := congrArg (fun x : GMLReader =>
    ({ x with
      m_poSAXReader := x.m_poSAXReader.map fun _ => [],
      m_bEOF := false, nFeatureTabIndex := 0,
      fpGML := x.fpGML.map VSIFSeekL0,
      m_bReadStarted := false, m_bStopParsing := false,
      m_nHasSequentialLayers := 0, m_pszGlobalSRSName := none,
      m_bCanUseGlobalSRSName := false } : GMLReader)) h
  exact h1

theorem handlerFrame_global (r r2 : GMLReader) (h : handlerFrame r2 = handlerFrame r) :
    r2.m_pszGlobalSRSName = r.m_pszGlobalSRSName := by
  have h1 := congrArg GMLReader.m_pszGlobalSRSName h
  exact h1

theorem applyCall_GetState_frame (r : GMLReader) (s : GMLReadState) :
    handlerFrame (r.applyCall (HandlerCall.GetState s)) = handlerFrame r := by
  unfold applyCall
  cases r.m_poState <;> rfl

theorem applyParseCall_frame (env : Env) (fuel : Nat) (r r2 : GMLReader) (c : ParseCall)
    (h : applyParseCall env fuel r c = some r2) :
    scanFrame r2 = scanFrame r ∧ advances r r2 := by
  cases c with
  | schema c =>
    have hf := applySchemaCall_frame env fuel r r2 c h
    refine ⟨scanFrame_of_handlerFrame _ _ hf, ?_, ?_⟩
    · intro x hx
      have hg := handlerFrame_global r r2 hf
      rw [hg]; exact hx
    · intro hr
      exact (recycled_reset_iff r2).mpr
        (applySchemaCall_recycled env fuel r r2 c h ((recycled_reset_iff r).mp hr))
  | GetState s =>
    simp only [applyParseCall, Option.some.injEq] at h
    subst h
    have hf := applyCall_GetState_frame r s
    refine ⟨scanFrame_of_handlerFrame _ _ hf, ?_, ?_⟩
    · intro x hx
      have hg := handlerFrame_global r _ hf
      rw [hg]; exact hx
    · intro hr
      unfold applyCall
      cases r.m_poState <;> exact hr
  | SetGlobalSRSName n =>
    simp only [applyParseCall] at h
    refine ⟨?_, SetGlobalSRSName_mono r r2 n h, ?_⟩
    · rw [SetGlobalSRSName_frame r r2 n h]
      rfl
    · intro hr
      rw [SetGlobalSRSName_frame r r2 n h]
      exact hr

theorem applyParseCall_transfer (env : Env) (fuel : Nat) (r r2 : GMLReader) (c : ParseCall)
    (G : Option CStr) (kc : Int)
    (h : applyParseCall env fuel r c = some r2) (hG : admitsGlobalSRSName r2 G) :
    applyParseCall env fuel (rebase G kc r) c = some (rebase G kc r2) := by
  cases c with
  | schema c =>
    simp only [applyParseCall] at h ⊢
    rw [applySchemaCall_rebase, h]
    rfl
  | GetState s =>
    simp only [applyParseCall, Option.some.injEq] at h ⊢
    rw [applyCall_rebase, h]
  | SetGlobalSRSName n =>
    simp only [applyParseCall] at h ⊢
    exact SetGlobalSRSName_transfer r r2 n G kc h hG

theorem runParseCalls_frame (env : Env) (fuel : Nat) (calls : List ParseCall) :
    ∀ (r r2 : GMLReader), runParseCalls env fuel r calls = some r2 →
      scanFrame r2 = scanFrame r ∧ advances r r2 := by
  induction calls with
  | nil =>
    intro r r2 h
    simp only [runParseCalls, Option.some.injEq] at h
    subst h
    exact ⟨rfl, advances_refl _⟩
  | cons call cs ih =>
    intro r r2 h
    simp only [runParseCalls] at h
    cases hc : applyParseCall env fuel r call with
    | none => rw [hc] at h; simp at h
    | some r1 =>
      rw [hc] at h
      simp only [Option.some_bind] at h
      obtain ⟨a1, a2⟩ := applyParseCall_frame env fuel r r1 call hc
      obtain ⟨b1, b2⟩ := ih r1 r2 h
      exact ⟨b1.trans a1, advances_trans a2 b2⟩

theorem runParseCalls_transfer (env : Env) (fuel : Nat) (G : Option CStr) (kc : Int)
    (calls : List ParseCall) :
    ∀ (r r2 : GMLReader), runParseCalls env fuel r calls = some r2 →
      admitsGlobalSRSName r2 G →
      runParseCalls env fuel (rebase G kc r) calls = some (rebase G kc r2) := by
  induction calls with
  | nil =>
    intro r r2 h _
    simp only [runParseCalls, Option.some.injEq] at h ⊢
    rw [h]
  | cons call cs ih =>
    intro r r2 h hG
    simp only [runParseCalls] at h ⊢
    cases hc : applyParseCall env fuel r call with
    | none => rw [hc] at h; simp at h
    | some r1 =>
      rw [hc] at h
      simp only [Option.some_bind] at h
      have hG1 : admitsGlobalSRSName r1 G :=
        admitsGlobalSRSName_of r1 r2 G (runParseCalls_frame env fuel cs r1 r2 h).2 hG
      rw [applyParseCall_transfer env fuel r r1 call G kc hc hG1]
      simp only [Option.some_bind]
      exact ih r1 r2 h hG

theorem mergeGeometry_rebase (G : Option CStr) (kc : Int) (env : Env) (a : Bool)
    (r : GMLReader) (c : GMLFeatureClass) (step : PrescanStep) :
    mergeGeometry env a (rebase G kc r) c step =
      (rebase G kc (mergeGeometry env a r c step).1, (mergeGeometry env a r c step).2) := by
  unfold mergeGeometry
  split
  · dsimp only
    repeat' split
    all_goals rfl
  · rfl

theorem prescanFeature_rebase (G : Option CStr) (kc : Int) (env : Env) (g a o : Bool)
    (r : GMLReader) (poLastClass : Option Nat) (step : PrescanStep) (i : Nat)
    (poClass : GMLFeatureClass) :
    prescanFeature env g a o (rebase G kc r) poLastClass step i poClass =
      (prescanFeature env g a o r poLastClass step i poClass).map (rebase G kc) := by
  unfold prescanFeature
  dsimp only
  split
  · rfl
  · simp only [Option.map_some', Option.some.injEq]
    have e : ∀ q : GMLReader, (if poLastClass.isSome = true ∧ some i ≠ poLastClass ∧
        poClass.GetFeatureCount ≠ -1 then
          ({ rebase G kc q with m_nHasSequentialLayers := 0 } : GMLReader)
        else rebase G kc q) =
        rebase G kc (if poLastClass.isSome = true ∧ some i ≠ poLastClass ∧
          poClass.GetFeatureCount ≠ -1 then { q with m_nHasSequentialLayers := 0 } else q) := by
      intro q
      split <;> rfl
    rw [e]
    split
    · rw [mergeGeometry_rebase]
      rfl
    · rfl

theorem prescanFeature_scanFrame (env : Env) (g a o : Bool) (r : GMLReader)
    (poLastClass : Option Nat) (step : PrescanStep) (i : Nat) (poClass : GMLFeatureClass)
    (r2 : GMLReader)
    (h : prescanFeature env g a o r poLastClass step i poClass = some r2) :
    scanFrame r2 = scanFrame r ∧ advances r r2 := by
  obtain ⟨c2, s, b, h2⟩ := prescanFeature_reader env g a o r poLastClass step i poClass r2 h
  rw [h2]
  exact ⟨rfl, advances_of_eq rfl rfl⟩

end GML

/-! ## The prescan on a document: `NextFeatureExpat` -/

namespace GML
open GMLReader

theorem stopFlags_eq (q : GMLReader) (e s : Bool) :
    (if (!(if e then ({ q with m_bStopParsing := true } : GMLReader) else q).m_bStopParsing) = true
      then { (if e then ({ q with m_bStopParsing := true } : GMLReader) else q) with
        m_bStopParsing := s }
      else (if e then ({ q with m_bStopParsing := true } : GMLReader) else q)) =
    { q with m_bStopParsing := if e then true else if q.m_bStopParsing then true else s } := by
  cases e
  · simp only [Bool.false_eq_true, if_false]
    cases hq : q.m_bStopParsing
    · simp
    · simp only [Bool.not_true, Bool.false_eq_true, if_false, if_true]
      rw [← hq]
  · simp

theorem Scan_expatParseStep_frame {σ : Type} (env : Env) (fuel : Nat) (co : Collaborators σ)
    (fp : VSILFILE) (c : ExpatChunk) (rest : List ExpatChunk) (h h2 : σ) (r r2 : GMLReader)
    (hfp : r.fpGML.map VSIFSeekL0 = some (VSIFSeekL0 fp))
    (hs : Scan.expatParseStep env fuel co fp c rest h r = some (h2, r2)) :
    scanFrame r2 = scanFrame r ∧ advances r r2 := by
  unfold Scan.expatParseStep at hs
  dsimp only at hs
  cases hrun : runParseCalls env fuel { r with fpGML := some { fp with rest := rest } }
      (co.expatCalls h { r with fpGML := some { fp with rest := rest } } c).2 with
  | none => rw [hrun] at hs; cases hs
  | some q =>
    rw [hrun] at hs
    simp only [Option.some.injEq, Prod.mk.injEq] at hs
    obtain ⟨_, hs⟩ := hs
    obtain ⟨f1, f2⟩ := runParseCalls_frame env fuel _ _ q hrun
    have e0 : scanFrame { r with fpGML := some { fp with rest := rest } } = scanFrame r := by
      have e1 : scanFrame { r with fpGML := some { fp with rest := rest } } =
          { scanFrame r with fpGML := some (VSIFSeekL0 fp) } := rfl
      rw [e1, ← hfp]
      rfl
    rw [e0] at f1
    have e2 : scanFrame r2 = scanFrame q ∧ advances q r2 := by
      rw [← hs, stopFlags_eq]
      exact ⟨rfl, advances_of_eq rfl rfl⟩
    have e3 : advances r { r with fpGML := some { fp with rest := rest } } :=
      advances_of_eq rfl rfl
    exact ⟨e2.1.trans f1, advances_trans e3 (advances_trans f2 e2.2)⟩

theorem Scan_expatParseStep_transfer {σ : Type} (env : Env) (fuel : Nat) (co : Collaborators σ)
    (hco : handlerBlind co) (G : Option CStr) (kc : Int)
    (fp : VSILFILE) (c : ExpatChunk) (rest : List ExpatChunk) (h h2 : σ) (r r2 : GMLReader)
    (hs : Scan.expatParseStep env fuel co fp c rest h r = some (h2, r2))
    (hG : admitsGlobalSRSName r2 G) :
    Scan.expatParseStep env fuel co fp c rest h (rebase G kc r) = some (h2, rebase G kc r2) := by
  unfold Scan.expatParseStep at hs ⊢
  dsimp only at hs ⊢
  have e0 : ({ rebase G kc r with fpGML := some { fp with rest := rest } } : GMLReader) =
      rebase G kc { r with fpGML := some { fp with rest := rest } } := rfl
  rw [e0, (hco G kc h _).1 c]
  cases hrun : runParseCalls env fuel { r with fpGML := some { fp with rest := rest } }
      (co.expatCalls h { r with fpGML := some { fp with rest := rest } } c).2 with
  | none => rw [hrun] at hs; cases hs
  | some q =>
    rw [hrun] at hs
    simp only [Option.some.injEq, Prod.mk.injEq] at hs
    obtain ⟨hh, hs⟩ := hs
    have hGq : admitsGlobalSRSName q G := by
      have e2 : r2.m_pszGlobalSRSName = q.m_pszGlobalSRSName := by
        rw [← hs, stopFlags_eq]
      unfold admitsGlobalSRSName at hG ⊢
      rw [← e2]; exact hG
    rw [runParseCalls_transfer env fuel G kc _ _ q hrun hGq]
    simp only [Option.some.injEq, Prod.mk.injEq]
    refine ⟨hh, ?_⟩
    rw [← hs, stopFlags_eq, stopFlags_eq]
    rfl

theorem Scan_expatParseLoop_frame {σ : Type} (env : Env) (fuel : Nat) (co : Collaborators σ)
    (fp : VSILFILE) (rest : List ExpatChunk) :
    ∀ (c : ExpatChunk) (h h2 : σ) (r r2 : GMLReader),
      r.fpGML.map VSIFSeekL0 = some (VSIFSeekL0 fp) →
      Scan.expatParseLoop env fuel co fp c rest h r = some (h2, r2) →
      scanFrame r2 = scanFrame r ∧ advances r r2 := by
  induction rest with
  | nil =>
    intro c h h2 r r2 hfp hl
    unfold Scan.expatParseLoop at hl
    split at hl
    · cases hl
    · cases hst : Scan.expatParseStep env fuel co fp c [] h r with
      | none => rw [hst] at hl; cases hl
      | some hr =>
        rw [hst] at hl
        simp only [Option.some.injEq] at hl
        subst hl
        exact Scan_expatParseStep_frame env fuel co fp c [] h h2 r r2 hfp hst
  | cons c2 rest2 ih =>
    intro c h h2 r r2 hfp hl
    unfold Scan.expatParseLoop at hl
    split at hl
    · cases hl
    · cases hst : Scan.expatParseStep env fuel co fp c (c2 :: rest2) h r with
      | none => rw [hst] at hl; cases hl
      | some hr =>
        obtain ⟨h1, r1⟩ := hr
        rw [hst] at hl
        dsimp only at hl
        obtain ⟨a1, a2⟩ := Scan_expatParseStep_frame env fuel co fp c (c2 :: rest2) h h1 r r1
          hfp hst
        split at hl
        · have hfp1 : r1.fpGML.map VSIFSeekL0 = some (VSIFSeekL0 fp) := by
            have e := congrArg GMLReader.fpGML a1
            exact e.trans hfp
          obtain ⟨b1, b2⟩ := ih c2 h1 h2 r1 r2 hfp1 hl
          exact ⟨b1.trans a1, advances_trans a2 b2⟩
        · simp only [Option.some.injEq, Prod.mk.injEq] at hl
          obtain ⟨_, hl⟩ := hl
          subst hl
          exact ⟨a1, a2⟩

theorem Scan_expatParseLoop_transfer {σ : Type} (env : Env) (fuel : Nat) (co : Collaborators σ)
    (hco : handlerBlind co) (G : Option CStr) (kc : Int) (fp : VSILFILE)
    (rest : List ExpatChunk) :
    ∀ (c : ExpatChunk) (h h2 : σ) (r r2 : GMLReader),
      r.fpGML.map VSIFSeekL0 = some (VSIFSeekL0 fp) →
      Scan.expatParseLoop env fuel co fp c rest h r = some (h2, r2) →
      admitsGlobalSRSName r2 G →
      Scan.expatParseLoop env fuel co fp c rest h (rebase G kc r) =
        some (h2, rebase G kc r2) := by
  induction rest with
  | nil =>
    intro c h h2 r r2 hfp hl hG
    unfold Scan.expatParseLoop at hl ⊢
    have e1 : (rebase G kc r).m_poGMLHandler = r.m_poGMLHandler := rfl
    have e2 : (rebase G kc r).oParser = r.oParser := rfl
    rw [e1, e2]
    split at hl
    · cases hl
    · rename_i hc
      rw [if_neg hc]
      cases hst : Scan.expatParseStep env fuel co fp c [] h r with
      | none => rw [hst] at hl; cases hl
      | some hr =>
        rw [hst] at hl
        simp only [Option.some.injEq] at hl
        subst hl
        rw [Scan_expatParseStep_transfer env fuel co hco G kc fp c [] h h2 r r2 hst hG]
  | cons c2 rest2 ih =>
    intro c h h2 r r2 hfp hl hG
    unfold Scan.expatParseLoop at hl ⊢
    have e1 : (rebase G kc r).m_poGMLHandler = r.m_poGMLHandler := rfl
    have e2 : (rebase G kc r).oParser = r.oParser := rfl
    rw [e1, e2]
    split at hl
    · cases hl
    · rename_i hc
      rw [if_neg hc]
      cases hst : Scan.expatParseStep env fuel co fp c (c2 :: rest2) h r with
      | none => rw [hst] at hl; cases hl
      | some hr =>
        obtain ⟨h1, r1⟩ := hr
        rw [hst] at hl
        dsimp only at hl
        obtain ⟨a1, a2⟩ := Scan_expatParseStep_frame env fuel co fp c (c2 :: rest2) h h1 r r1
          hfp hst
        have hfp1 : r1.fpGML.map VSIFSeekL0 = some (VSIFSeekL0 fp) := by
          have e := congrArg GMLReader.fpGML a1
          exact e.trans hfp
        have e3 : (rebase G kc r1).m_bStopParsing = r1.m_bStopParsing := rfl
        have e4 : (rebase G kc r1).nFeatureTabLength = r1.nFeatureTabLength := rfl
        split at hl
        · rename_i hc2
          have hG1 : admitsGlobalSRSName r1 G :=
            admitsGlobalSRSName_of r1 r2 G
              (Scan_expatParseLoop_frame env fuel co fp rest2 c2 h1 h2 r1 r2 hfp1 hl).2 hG
          rw [Scan_expatParseStep_transfer env fuel co hco G kc fp c (c2 :: rest2) h h1 r r1
            hst hG1]
          dsimp only
          rw [e3, e4, if_pos hc2]
          exact ih c2 h1 h2 r1 r2 hfp1 hl hG
        · rename_i hc2
          simp only [Option.some.injEq, Prod.mk.injEq] at hl
          obtain ⟨hh, hl⟩ := hl
          subst hl
          subst hh
          rw [Scan_expatParseStep_transfer env fuel co hco G kc fp c (c2 :: rest2) h h1 r r1
            hst hG]
          dsimp only
          rw [e3, e4, if_neg hc2]

theorem Scan_expatStart_parserKept {σ : Type} (env : Env) (co : Collaborators σ) (h : σ)
    (r : GMLReader) (hp : r.oParser = true) :
    Scan.expatStart env co h r = (h, { r with m_bReadStarted := true }) := by
  unfold Scan.expatStart
  cases hs : r.m_bReadStarted
  · simp [hp]
  · simp only [Bool.not_true, Bool.false_eq_true, if_false, Prod.mk.injEq, true_and]
    rw [← hs]

theorem Scan_deliver_frame {σ : Type} (h h2 : σ) (r r2 : GMLReader) (f : Option GMLFeature)
    (hd : Scan.deliver h r = some (f, h2, r2)) :
    scanFrame r2 = scanFrame r ∧ advances r r2 := by
  unfold Scan.deliver at hd
  cases hg : r.ppoFeatureTab[r.nFeatureTabIndex]? with
  | none => rw [hg] at hd; cases hd
  | some f0 =>
    rw [hg] at hd
    simp only [Option.some.injEq, Prod.mk.injEq] at hd
    obtain ⟨_, _, hd⟩ := hd
    subst hd
    exact ⟨rfl, advances_of_eq rfl rfl⟩

theorem Scan_deliver_rebase {σ : Type} (G : Option CStr) (kc : Int) (h : σ) (r : GMLReader) :
    Scan.deliver h (rebase G kc r) =
      (Scan.deliver h r).map fun p => (p.1, p.2.1, rebase G kc p.2.2) := by
  unfold Scan.deliver
  have e1 : (rebase G kc r).ppoFeatureTab = r.ppoFeatureTab := rfl
  have e2 : (rebase G kc r).nFeatureTabIndex = r.nFeatureTabIndex := rfl
  rw [e1, e2]
  cases hg : r.ppoFeatureTab[r.nFeatureTabIndex]? with
  | none => rfl
  | some f0 => rfl

theorem Scan_expatRead_frame {σ : Type} (env : Env) (fuel : Nat) (co : Collaborators σ)
    (h h2 : σ) (r r2 : GMLReader) (f : Option GMLFeature)
    (hn : Scan.expatRead env fuel co h r = some (f, h2, r2)) :
    scanFrame r2 = scanFrame r ∧ advances r r2 := by
  unfold Scan.expatRead at hn
  cases hfp : r.fpGML with
  | none =>
    rw [hfp] at hn
    simp only [Option.some.injEq, Prod.mk.injEq] at hn
    obtain ⟨_, _, hn⟩ := hn
    subst hn
    exact ⟨rfl, advances_refl _⟩
  | some fp =>
    rw [hfp] at hn
    dsimp only at hn
    split at hn
    · simp only [Option.some.injEq, Prod.mk.injEq] at hn
      obtain ⟨_, _, hn⟩ := hn
      subst hn
      exact ⟨rfl, advances_refl _⟩
    · split at hn
      · obtain ⟨a1, a2⟩ := Scan_deliver_frame h h2 r r2 f hn
        exact ⟨a1, a2⟩
      · split at hn
        · simp only [Option.some.injEq, Prod.mk.injEq] at hn
          obtain ⟨_, _, hn⟩ := hn
          subst hn
          exact ⟨rfl, advances_refl _⟩
        · rename_i c rest hrest
          split at hn
          · cases hn
          · rename_i hr hloop
            obtain ⟨h1, r1⟩ := hr
            have hfp0 : (Scan.clearFeatureTab r).fpGML.map VSIFSeekL0 =
                some (VSIFSeekL0 fp) := by
              show r.fpGML.map VSIFSeekL0 = _
              rw [hfp]; rfl
            obtain ⟨a1, a2⟩ := Scan_expatParseLoop_frame env fuel co fp rest c h h1 _ r1 hfp0
              hloop
            have a3 : scanFrame r1 = scanFrame r := a1
            dsimp only at hn
            split at hn
            · obtain ⟨b1, b2⟩ := Scan_deliver_frame h1 h2 r1 r2 f hn
              exact ⟨b1.trans a3, advances_trans a2 b2⟩
            · simp only [Option.some.injEq, Prod.mk.injEq] at hn
              obtain ⟨_, _, hn⟩ := hn
              subst hn
              exact ⟨a3, a2⟩

theorem Scan_expatRead_transfer {σ : Type} (env : Env) (fuel : Nat)
    (co : Collaborators σ) (hco : handlerBlind co) (G : Option CStr) (kc : Int)
    (h h2 : σ) (r r2 : GMLReader) (f : Option GMLFeature)
    (hn : Scan.expatRead env fuel co h r = some (f, h2, r2))
    (hG : admitsGlobalSRSName r2 G) :
    Scan.expatRead env fuel co h (rebase G kc r) = some (f, h2, rebase G kc r2) := by
  unfold Scan.expatRead at hn ⊢
  have e1 : (rebase G kc r).fpGML = r.fpGML := rfl
  have e2 : (rebase G kc r).m_bStopParsing = r.m_bStopParsing := rfl
  have e3 : (rebase G kc r).nFeatureTabIndex = r.nFeatureTabIndex := rfl
  have e4 : (rebase G kc r).nFeatureTabLength = r.nFeatureTabLength := rfl
  have e6 : Scan.clearFeatureTab (rebase G kc r) = rebase G kc (Scan.clearFeatureTab r) := rfl
  rw [e1, e2, e3, e4, e6]
  cases hfp : r.fpGML with
  | none =>
    rw [hfp] at hn
    simp only [Option.some.injEq, Prod.mk.injEq] at hn ⊢
    obtain ⟨hf, hh, hn⟩ := hn
    subst hn
    exact ⟨hf, hh, rfl⟩
  | some fp =>
    rw [hfp] at hn
    dsimp only at hn ⊢
    by_cases hc : r.m_bStopParsing = true
    · rw [if_pos hc] at hn ⊢
      simp only [Option.some.injEq, Prod.mk.injEq] at hn ⊢
      obtain ⟨hf, hh, hn⟩ := hn
      subst hn
      exact ⟨hf, hh, rfl⟩
    · rw [if_neg hc] at hn ⊢
      by_cases hc2 : r.nFeatureTabIndex < r.nFeatureTabLength
      · rw [if_pos hc2] at hn ⊢
        rw [Scan_deliver_rebase, hn]
        rfl
      · rw [if_neg hc2] at hn ⊢
        cases hrest : fp.rest with
        | nil =>
          rw [hrest] at hn
          simp only [Option.some.injEq, Prod.mk.injEq] at hn ⊢
          obtain ⟨hf, hh, hn⟩ := hn
          subst hn
          exact ⟨hf, hh, rfl⟩
        | cons c rest =>
          rw [hrest] at hn
          dsimp only at hn ⊢
          cases hloop : Scan.expatParseLoop env fuel co fp c rest h (Scan.clearFeatureTab r) with
          | none => rw [hloop] at hn; cases hn
          | some hr =>
            obtain ⟨h1, r1⟩ := hr
            rw [hloop] at hn
            dsimp only at hn
            have hfp0 : (Scan.clearFeatureTab r).fpGML.map VSIFSeekL0 =
                some (VSIFSeekL0 fp) := by
              show r.fpGML.map VSIFSeekL0 = _
              rw [hfp]; rfl
            have e7 : (rebase G kc r1).nFeatureTabLength = r1.nFeatureTabLength := rfl
            by_cases hc3 : r1.nFeatureTabLength ≠ 0
            · rw [if_pos hc3] at hn
              have hG1 : admitsGlobalSRSName r1 G :=
                admitsGlobalSRSName_of r1 r2 G (Scan_deliver_frame h1 h2 r1 r2 f hn).2 hG
              rw [Scan_expatParseLoop_transfer env fuel co hco G kc fp rest c h h1 _ r1 hfp0
                hloop hG1]
              dsimp only
              rw [e7, if_pos hc3, Scan_deliver_rebase, hn]
              rfl
            · rw [if_neg hc3] at hn
              simp only [Option.some.injEq, Prod.mk.injEq] at hn
              obtain ⟨hf, hh, hn⟩ := hn
              subst hn
              rw [Scan_expatParseLoop_transfer env fuel co hco G kc fp rest c h h1 _ r1 hfp0
                hloop hG]
              dsimp only
              rw [e7, if_neg hc3, hf, hh]

theorem Scan_NextFeatureExpat_frame {σ : Type} (env : Env) (fuel : Nat) (co : Collaborators σ)
    (h h2 : σ) (r r2 : GMLReader) (f : Option GMLFeature) (hp : r.oParser = true)
    (hn : Scan.NextFeatureExpat env fuel co h r = some (f, h2, r2)) :
    scanFrame r2 = scanFrame r ∧ advances r r2 := by
  unfold Scan.NextFeatureExpat at hn
  rw [Scan_expatStart_parserKept env co h r hp] at hn
  obtain ⟨a1, a2⟩ :=
    Scan_expatRead_frame env fuel co h h2 { r with m_bReadStarted := true } r2 f hn
  have a3 : advances r { r with m_bReadStarted := true } := advances_of_eq rfl rfl
  exact ⟨a1, advances_trans a3 a2⟩

theorem Scan_NextFeatureExpat_transfer {σ : Type} (env : Env) (fuel : Nat)
    (co : Collaborators σ) (hco : handlerBlind co) (G : Option CStr) (kc : Int)
    (h h2 : σ) (r r2 : GMLReader) (f : Option GMLFeature) (hp : r.oParser = true)
    (hn : Scan.NextFeatureExpat env fuel co h r = some (f, h2, r2))
    (hG : admitsGlobalSRSName r2 G) :
    Scan.NextFeatureExpat env fuel co h (rebase G kc r) = some (f, h2, rebase G kc r2) := by
  unfold Scan.NextFeatureExpat at hn ⊢
  rw [Scan_expatStart_parserKept env co h r hp] at hn
  rw [Scan_expatStart_parserKept env co h (rebase G kc r) hp]
  exact Scan_expatRead_transfer env fuel co hco G kc h h2 { r with m_bReadStarted := true } r2 f
    hn hG

end GML

/-! ## The prescan on a document: `NextFeatureXerces` and `NextFeature` -/

namespace GML
open GMLReader

theorem Scan_xercesParseLoop_frame {σ : Type} (env : Env) (fuel : Nat) (co : Collaborators σ)
    (toks : List XercesToken) :
    ∀ (h h2 : σ) (r r2 : GMLReader) (b : Bool),
      r.m_poSAXReader.isSome = true →
      Scan.xercesParseLoop env fuel co toks h r = some (h2, r2, b) →
      scanFrame r2 = scanFrame r ∧ advances r r2 := by
  induction toks with
  | nil =>
    intro h h2 r r2 b _ hl
    simp only [Scan.xercesParseLoop, Option.some.injEq, Prod.mk.injEq] at hl
    obtain ⟨_, hl, _⟩ := hl
    subst hl
    exact ⟨rfl, advances_refl _⟩
  | cons t ts ih =>
    intro h h2 r r2 b hsax hl
    unfold Scan.xercesParseLoop at hl
    split at hl
    · dsimp only at hl
      have e0 : scanFrame { r with m_poSAXReader := some ts } = scanFrame r := by
        have e1 : scanFrame { r with m_poSAXReader := some ts } =
            { scanFrame r with m_poSAXReader := some [] } := rfl
        have e2 : (scanFrame r).m_poSAXReader = some [] := by
          show r.m_poSAXReader.map (fun _ => []) = some []
          cases hx : r.m_poSAXReader with
          | none => rw [hx] at hsax; cases hsax
          | some v => rfl
        rw [e1, ← e2]
      cases hrun : runParseCalls env fuel { r with m_poSAXReader := some ts }
          (co.xercesCalls h { r with m_poSAXReader := some ts } t).2 with
      | none => rw [hrun] at hl; cases hl
      | some q =>
        rw [hrun] at hl
        dsimp only at hl
        obtain ⟨f1, f2⟩ := runParseCalls_frame env fuel _ _ q hrun
        rw [e0] at f1
        have f3 : advances r q :=
          advances_trans (advances_of_eq rfl rfl :
            advances r { r with m_poSAXReader := some ts }) f2
        have hq : q.m_poSAXReader.isSome = true := by
          have e3 := congrArg GMLReader.m_poSAXReader f1
          have e4 : q.m_poSAXReader.map (fun _ => ([] : List XercesToken)) =
              r.m_poSAXReader.map (fun _ => []) := e3
          cases hx : r.m_poSAXReader with
          | none => rw [hx] at hsax; cases hsax
          | some v =>
            rw [hx] at e4
            cases hy : q.m_poSAXReader with
            | none => rw [hy] at e4; cases e4
            | some w => rfl
        split at hl
        · obtain ⟨b1, b2⟩ := ih _ h2 q r2 b hq hl
          exact ⟨b1.trans f1, advances_trans f3 b2⟩
        all_goals
          simp only [Option.some.injEq, Prod.mk.injEq] at hl
          obtain ⟨_, hl, _⟩ := hl
          subst hl
          exact ⟨f1, f3⟩
    · simp only [Option.some.injEq, Prod.mk.injEq] at hl
      obtain ⟨_, hl, _⟩ := hl
      subst hl
      exact ⟨rfl, advances_refl _⟩

theorem Scan_xercesParseLoop_transfer {σ : Type} (env : Env) (fuel : Nat)
    (co : Collaborators σ) (hco : handlerBlind co) (G : Option CStr) (kc : Int)
    (toks : List XercesToken) :
    ∀ (h h2 : σ) (r r2 : GMLReader) (b : Bool),
      r.m_poSAXReader.isSome = true →
      Scan.xercesParseLoop env fuel co toks h r = some (h2, r2, b) →
      admitsGlobalSRSName r2 G →
      Scan.xercesParseLoop env fuel co toks h (rebase G kc r) = some (h2, rebase G kc r2, b) := by
  induction toks with
  | nil =>
    intro h h2 r r2 b _ hl _
    simp only [Scan.xercesParseLoop, Option.some.injEq, Prod.mk.injEq] at hl ⊢
    obtain ⟨hh, hl, hb⟩ := hl
    subst hl
    exact ⟨hh, rfl, hb⟩
  | cons t ts ih =>
    intro h h2 r r2 b hsax hl hG
    unfold Scan.xercesParseLoop at hl ⊢
    by_cases hc : (r.m_poCompleteFeature.isNone && !r.m_bStopParsing) = true
    · have hc2 : ((rebase G kc r).m_poCompleteFeature.isNone &&
          !(rebase G kc r).m_bStopParsing) = true := hc
      rw [if_pos hc] at hl
      rw [if_pos hc2]
      dsimp only at hl ⊢
      have e0 : ({ (rebase G kc r) with m_poSAXReader := some ts } : GMLReader) =
          rebase G kc { r with m_poSAXReader := some ts } := rfl
      rw [e0, (hco G kc h _).2 t]
      cases hrun : runParseCalls env fuel { r with m_poSAXReader := some ts }
          (co.xercesCalls h { r with m_poSAXReader := some ts } t).2 with
      | none => rw [hrun] at hl; cases hl
      | some q =>
        rw [hrun] at hl
        dsimp only at hl
        obtain ⟨f1, f2⟩ := runParseCalls_frame env fuel _ _ q hrun
        have hq : q.m_poSAXReader.isSome = true := by
          have e3 := congrArg GMLReader.m_poSAXReader f1
          have e4 : q.m_poSAXReader.map (fun _ => ([] : List XercesToken)) = some [] := e3
          cases hy : q.m_poSAXReader with
          | none => rw [hy] at e4; cases e4
          | some w => rfl
        cases hres : t.result with
        | more =>
          rw [hres] at hl
          dsimp only at hl
          have hGq : admitsGlobalSRSName q G :=
            admitsGlobalSRSName_of q r2 G
              (Scan_xercesParseLoop_frame env fuel co ts _ h2 q r2 b hq hl).2 hG
          rw [runParseCalls_transfer env fuel G kc _ _ q hrun hGq]
          dsimp only
          exact ih _ h2 q r2 b hq hl hG
        | finished =>
          rw [hres] at hl
          simp only [Option.some.injEq, Prod.mk.injEq] at hl
          obtain ⟨hh, hl, hb⟩ := hl
          subst hl
          rw [runParseCalls_transfer env fuel G kc _ _ q hrun hG]
          dsimp only
          rw [hh, hb]
        | throwsXMLException =>
          rw [hres] at hl
          simp only [Option.some.injEq, Prod.mk.injEq] at hl
          obtain ⟨hh, hl, hb⟩ := hl
          subst hl
          rw [runParseCalls_transfer env fuel G kc _ _ q hrun hG]
          dsimp only
          rw [hh, hb]
        | throwsSAXException =>
          rw [hres] at hl
          simp only [Option.some.injEq, Prod.mk.injEq] at hl
          obtain ⟨hh, hl, hb⟩ := hl
          subst hl
          rw [runParseCalls_transfer env fuel G kc _ _ q hrun hG]
          dsimp only
          rw [hh, hb]
    · have hc2 : ¬ ((rebase G kc r).m_poCompleteFeature.isNone &&
          !(rebase G kc r).m_bStopParsing) = true := hc
      rw [if_neg hc] at hl
      rw [if_neg hc2]
      simp only [Option.some.injEq, Prod.mk.injEq] at hl ⊢
      obtain ⟨hh, hl, hb⟩ := hl
      subst hl
      exact ⟨hh, rfl, hb⟩

theorem xercesStart_parserKept (env : Env) (r : GMLReader)
    (hsax : r.m_poSAXReader.isSome = true) :
    scanFrame (r.xercesStart env).2 = scanFrame r ∧
    advances r (r.xercesStart env).2 ∧
    (r.xercesStart env).2.m_poSAXReader.isSome = true ∧
    ∀ (G : Option CStr) (kc : Int), (rebase G kc r).xercesStart env =
      ((r.xercesStart env).1, rebase G kc (r.xercesStart env).2) := by
  cases hx : r.m_poSAXReader with
  | none => rw [hx] at hsax; cases hsax
  | some toks =>
    have hx2 : ∀ (G : Option CStr) (kc : Int), (rebase G kc r).m_poSAXReader = some toks :=
      fun _ _ => hx
    have hs2 : ∀ (G : Option CStr) (kc : Int),
        (rebase G kc r).m_bReadStarted = r.m_bReadStarted := fun _ _ => rfl
    have hi2 : ∀ (G : Option CStr) (kc : Int),
        (rebase G kc r).m_GMLInputSource = r.m_GMLInputSource := fun _ _ => rfl
    cases hs : r.m_bReadStarted with
    | true =>
      refine ⟨?_, ?_, ?_, ?_⟩
      · simp [xercesStart, hs]
      · refine advances_of_eq ?_ ?_ <;> simp [xercesStart, hs]
      · simp [xercesStart, hs, hx]
      · intro G kc
        simp [xercesStart, hs, hs2]
    | false =>
      cases hi : r.m_GMLInputSource with
      | none =>
        refine ⟨?_, ?_, ?_, ?_⟩
        · simp [xercesStart, hs, hx, hi, scanFrame, handlerFrame]
        · refine advances_of_eq ?_ ?_ <;> simp [xercesStart, hs, hx, hi]
        · simp [xercesStart, hs, hx, hi]
        · intro G kc
          simp [xercesStart, hs, hx, hi, hs2, hx2, hi2]
          rfl
      | some src =>
        cases hf : src.doc.parseFirst <;>
        · refine ⟨?_, ?_, ?_, ?_⟩
          · simp [xercesStart, hs, hx, hi, hf, scanFrame, handlerFrame]
          · refine advances_of_eq ?_ ?_ <;> simp [xercesStart, hs, hx, hi, hf]
          · simp [xercesStart, hs, hx, hi, hf]
          · intro G kc
            simp [xercesStart, hs, hx, hi, hf, hs2, hx2, hi2]
            rfl

theorem Scan_xercesStart_parserKept {σ : Type} (env : Env) (co : Collaborators σ) (h : σ)
    (r : GMLReader) (hsax : r.m_poSAXReader.isSome = true) :
    Scan.xercesStart env co h r = ((r.xercesStart env).1, h, (r.xercesStart env).2) := by
  unfold Scan.xercesStart
  cases hx : r.m_poSAXReader with
  | none => rw [hx] at hsax; cases hsax
  | some toks => simp

theorem xercesReturn_frame (r : GMLReader) :
    scanFrame r.xercesReturn.2 = scanFrame r ∧
    advances r r.xercesReturn.2 ∧
    ∀ (G : Option CStr) (kc : Int), (rebase G kc r).xercesReturn =
      (r.xercesReturn.1, rebase G kc r.xercesReturn.2) := by
  unfold xercesReturn
  cases hc : r.m_poCompleteFeature with
  | none =>
    refine ⟨?_, ?_, ?_⟩
    · simp [scanFrame, handlerFrame]
    · refine advances_of_eq ?_ ?_ <;> simp
    · intro G kc
      have e : (rebase G kc r).m_poCompleteFeature = none := hc
      simp [e]
      rfl
  | some f =>
    refine ⟨?_, ?_, ?_⟩
    · simp [scanFrame, handlerFrame]
    · refine advances_of_eq ?_ ?_ <;> simp
    · intro G kc
      have e : (rebase G kc r).m_poCompleteFeature = some f := hc
      simp [e, hc]
      rfl

theorem Scan_xercesRead_frame {σ : Type} (env : Env) (fuel : Nat) (co : Collaborators σ)
    (h h2 : σ) (r r2 : GMLReader) (f : Option GMLFeature)
    (hsax : r.m_poSAXReader.isSome = true)
    (hn : Scan.xercesRead env fuel co h r = some (f, h2, r2)) :
    scanFrame r2 = scanFrame r ∧ advances r r2 := by
  unfold Scan.xercesRead at hn
  split at hn
  · cases hx : r.m_poSAXReader with
    | none => rw [hx] at hsax; cases hsax
    | some toks =>
      rw [hx] at hn
      dsimp only at hn
      cases hl : Scan.xercesParseLoop env fuel co toks h r with
      | none => rw [hl] at hn; cases hn
      | some lr =>
        obtain ⟨h1, r1, b⟩ := lr
        rw [hl] at hn
        dsimp only at hn
        obtain ⟨a1, a2⟩ := Scan_xercesParseLoop_frame env fuel co toks h h1 r r1 b hsax hl
        cases b with
        | true =>
          simp only [if_true, Option.some.injEq, Prod.mk.injEq] at hn
          obtain ⟨_, _, hn⟩ := hn
          subst hn
          exact ⟨a1, a2⟩
        | false =>
          simp only [Bool.false_eq_true, if_false, Option.some.injEq, Prod.mk.injEq] at hn
          obtain ⟨_, _, hn⟩ := hn
          subst hn
          obtain ⟨b1, b2, _⟩ := xercesReturn_frame r1
          exact ⟨b1.trans a1, advances_trans a2 b2⟩
  · simp only [Option.some.injEq, Prod.mk.injEq] at hn
    obtain ⟨_, _, hn⟩ := hn
    subst hn
    obtain ⟨b1, b2, _⟩ := xercesReturn_frame r
    exact ⟨b1, b2⟩

theorem Scan_xercesRead_transfer {σ : Type} (env : Env) (fuel : Nat)
    (co : Collaborators σ) (hco : handlerBlind co) (G : Option CStr) (kc : Int)
    (h h2 : σ) (r r2 : GMLReader) (f : Option GMLFeature)
    (hsax : r.m_poSAXReader.isSome = true)
    (hn : Scan.xercesRead env fuel co h r = some (f, h2, r2))
    (hG : admitsGlobalSRSName r2 G) :
    Scan.xercesRead env fuel co h (rebase G kc r) = some (f, h2, rebase G kc r2) := by
  unfold Scan.xercesRead at hn ⊢
  have e1 : (rebase G kc r).m_poCompleteFeature = r.m_poCompleteFeature := rfl
  have e2 : (rebase G kc r).m_bStopParsing = r.m_bStopParsing := rfl
  have e3 : (rebase G kc r).m_poSAXReader = r.m_poSAXReader := rfl
  rw [e1, e2, e3]
  by_cases hc : (r.m_poCompleteFeature.isNone && !r.m_bStopParsing) = true
  · rw [if_pos hc] at hn ⊢
    cases hx : r.m_poSAXReader with
    | none => rw [hx] at hsax; cases hsax
    | some toks =>
      rw [hx] at hn
      dsimp only at hn ⊢
      cases hl : Scan.xercesParseLoop env fuel co toks h r with
      | none => rw [hl] at hn; cases hn
      | some lr =>
        obtain ⟨h1, r1, b⟩ := lr
        rw [hl] at hn
        dsimp only at hn
        cases b with
        | true =>
          simp only [if_true, Option.some.injEq, Prod.mk.injEq] at hn
          obtain ⟨hf, hh, hn⟩ := hn
          subst hn
          rw [Scan_xercesParseLoop_transfer env fuel co hco G kc toks h h1 r r1 true hsax hl hG]
          simp only [if_true, Option.some.injEq, Prod.mk.injEq]
          exact ⟨hf, hh, rfl⟩
        | false =>
          simp only [Bool.false_eq_true, if_false, Option.some.injEq, Prod.mk.injEq] at hn
          obtain ⟨hf, hh, hn⟩ := hn
          subst hn
          obtain ⟨_, b2, b3⟩ := xercesReturn_frame r1
          have hG1 : admitsGlobalSRSName r1 G := admitsGlobalSRSName_of r1 _ G b2 hG
          rw [Scan_xercesParseLoop_transfer env fuel co hco G kc toks h h1 r r1 false hsax hl
            hG1]
          simp only [Bool.false_eq_true, if_false, Option.some.injEq, Prod.mk.injEq]
          rw [b3 G kc]
          exact ⟨hf, hh, rfl⟩
  · rw [if_neg hc] at hn ⊢
    simp only [Option.some.injEq, Prod.mk.injEq] at hn ⊢
    obtain ⟨hf, hh, hn⟩ := hn
    subst hn
    obtain ⟨_, _, b3⟩ := xercesReturn_frame r
    rw [b3 G kc]
    exact ⟨hf, hh, rfl⟩

theorem Scan_NextFeatureXerces_frame {σ : Type} (env : Env) (fuel : Nat)
    (co : Collaborators σ) (h h2 : σ) (r r2 : GMLReader) (f : Option GMLFeature)
    (hsax : r.m_poSAXReader.isSome = true)
    (hn : Scan.NextFeatureXerces env fuel co h r = some (f, h2, r2)) :
    scanFrame r2 = scanFrame r ∧ advances r r2 := by
  unfold Scan.NextFeatureXerces at hn
  obtain ⟨s1, s2, s3, _⟩ := xercesStart_parserKept env r hsax
  rw [Scan_xercesStart_parserKept env co h r hsax] at hn
  split at hn
  · simp only [Option.some.injEq, Prod.mk.injEq] at hn
    obtain ⟨_, _, hn⟩ := hn
    subst hn
    exact ⟨rfl, advances_refl _⟩
  · generalize r.xercesStart env = tq at hn s1 s2 s3
    obtain ⟨t, q⟩ := tq
    cases t with
    | returnedNull =>
      simp only [Option.some.injEq, Prod.mk.injEq] at hn
      obtain ⟨_, _, hn⟩ := hn
      subst hn
      exact ⟨s1, s2⟩
    | caught =>
      simp only [Option.some.injEq, Prod.mk.injEq] at hn
      obtain ⟨_, _, hn⟩ := hn
      subst hn
      exact ⟨s1, s2⟩
    | completed =>
      dsimp only at hn
      obtain ⟨a1, a2⟩ := Scan_xercesRead_frame env fuel co h h2 q r2 f s3 hn
      exact ⟨a1.trans s1, advances_trans s2 a2⟩

theorem Scan_NextFeatureXerces_transfer {σ : Type} (env : Env) (fuel : Nat)
    (co : Collaborators σ) (hco : handlerBlind co) (G : Option CStr) (kc : Int)
    (h h2 : σ) (r r2 : GMLReader) (f : Option GMLFeature)
    (hsax : r.m_poSAXReader.isSome = true)
    (hn : Scan.NextFeatureXerces env fuel co h r = some (f, h2, r2))
    (hG : admitsGlobalSRSName r2 G) :
    Scan.NextFeatureXerces env fuel co h (rebase G kc r) = some (f, h2, rebase G kc r2) := by
  unfold Scan.NextFeatureXerces at hn ⊢
  obtain ⟨s1, s2, s3, s4⟩ := xercesStart_parserKept env r hsax
  rw [Scan_xercesStart_parserKept env co h r hsax] at hn
  rw [Scan_xercesStart_parserKept env co h (rebase G kc r) hsax, s4 G kc]
  have e1 : (rebase G kc r).m_bEOF = r.m_bEOF := rfl
  rw [e1]
  by_cases hc : r.m_bEOF = true
  · rw [if_pos hc] at hn ⊢
    simp only [Option.some.injEq, Prod.mk.injEq] at hn ⊢
    obtain ⟨hf, hh, hn⟩ := hn
    subst hn
    exact ⟨hf, hh, rfl⟩
  · rw [if_neg hc] at hn ⊢
    generalize r.xercesStart env = tq at hn s1 s2 s3
    obtain ⟨t, q⟩ := tq
    cases t with
    | returnedNull =>
      simp only [Option.some.injEq, Prod.mk.injEq] at hn ⊢
      obtain ⟨hf, hh, hn⟩ := hn
      subst hn
      exact ⟨hf, hh, rfl⟩
    | caught =>
      simp only [Option.some.injEq, Prod.mk.injEq] at hn ⊢
      obtain ⟨hf, hh, hn⟩ := hn
      subst hn
      exact ⟨hf, hh, rfl⟩
    | completed =>
      dsimp only at hn ⊢
      exact Scan_xercesRead_transfer env fuel co hco G kc h h2 q r2 f s3 hn hG

theorem hasParser_of_scanFrame (a b : GMLReader) (h : scanFrame a = scanFrame b) :
    a.hasParser = b.hasParser := by
  have h1 : a.bUseExpatReader = b.bUseExpatReader := by
    have e := congrArg GMLReader.bUseExpatReader h
    exact e
  have h2 : a.oParser = b.oParser := by
    have e := congrArg GMLReader.oParser h
    exact e
  have h3 : a.m_poSAXReader.map (fun _ => ([] : List XercesToken)) =
      b.m_poSAXReader.map (fun _ => []) := by
    have e := congrArg GMLReader.m_poSAXReader h
    exact e
  unfold hasParser
  rw [h1, h2]
  cases b.bUseExpatReader
  · simp only [Bool.false_eq_true, if_false]
    cases hx : a.m_poSAXReader <;> cases hy : b.m_poSAXReader <;> rw [hx, hy] at h3 <;>
      first | rfl | cases h3
  · rfl

theorem Scan_NextFeature_frame {σ : Type} (env : Env) (fuel : Nat)
    (co : Collaborators σ) (h h2 : σ) (r r2 : GMLReader) (f : Option GMLFeature)
    (hp : r.hasParser = true)
    (hn : Scan.NextFeature env fuel co h r = some (f, h2, r2)) :
    scanFrame r2 = scanFrame r ∧ advances r r2 := by
  unfold Scan.NextFeature at hn
  unfold hasParser at hp
  cases hx : r.bUseExpatReader
  · rw [hx] at hn hp
    simp only [Bool.false_eq_true, if_false] at hn hp
    exact Scan_NextFeatureXerces_frame env fuel co h h2 r r2 f hp hn
  · rw [hx] at hn hp
    simp only [if_true] at hn hp
    exact Scan_NextFeatureExpat_frame env fuel co h h2 r r2 f hp hn

theorem Scan_NextFeature_transfer {σ : Type} (env : Env) (fuel : Nat)
    (co : Collaborators σ) (hco : handlerBlind co) (G : Option CStr) (kc : Int)
    (h h2 : σ) (r r2 : GMLReader) (f : Option GMLFeature)
    (hp : r.hasParser = true)
    (hn : Scan.NextFeature env fuel co h r = some (f, h2, r2))
    (hG : admitsGlobalSRSName r2 G) :
    Scan.NextFeature env fuel co h (rebase G kc r) = some (f, h2, rebase G kc r2) := by
  unfold Scan.NextFeature at hn ⊢
  unfold hasParser at hp
  have e1 : (rebase G kc r).bUseExpatReader = r.bUseExpatReader := rfl
  rw [e1]
  cases hx : r.bUseExpatReader
  · rw [hx] at hn hp
    simp only [Bool.false_eq_true, if_false] at hn hp ⊢
    exact Scan_NextFeatureXerces_transfer env fuel co hco G kc h h2 r r2 f hp hn hG
  · rw [hx] at hn hp
    simp only [if_true] at hn hp ⊢
    exact Scan_NextFeatureExpat_transfer env fuel co hco G kc h h2 r r2 f hp hn hG

end GML

/-! ## The prescan on a document: the loop of `PrescanForSchema` -/

namespace GML
open GMLReader

theorem Scan_prescanLoop_frame {σ : Type} (env : Env) (fuel : Nat) (co : Collaborators σ)
    (g a o : Bool) (n : Nat) :
    ∀ (h : σ) (r : GMLReader) (p : Option Nat) (rf : GMLReader),
      r.hasParser = true →
      Scan.prescanLoop env fuel co g a o n h r p = some rf →
      scanFrame rf = scanFrame r ∧ advances r rf := by
  induction n with
  | zero =>
    intro h r p rf _ hl
    simp only [Scan.prescanLoop] at hl
    cases hl
  | succ n ih =>
    intro h r p rf hp hl
    unfold Scan.prescanLoop at hl
    cases hn : Scan.NextFeature env fuel co h r with
    | none => rw [hn] at hl; cases hl
    | some res =>
      obtain ⟨f, h1, r1⟩ := res
      obtain ⟨a1, a2⟩ := Scan_NextFeature_frame env fuel co h h1 r r1 f hp hn
      rw [hn] at hl
      cases f with
      | none =>
        simp only [Option.some.injEq] at hl
        subst hl
        exact ⟨a1, a2⟩
      | some poFeature =>
        dsimp only at hl
        cases hc : r1.m_papoClass[poFeature.m_poClass]? with
        | none => rw [hc] at hl; cases hl
        | some poClass =>
          rw [hc] at hl
          dsimp only at hl
          cases hf : prescanFeature env g a o r1 p (Scan.stepOf co r1 poFeature)
              poFeature.m_poClass poClass with
          | none => rw [hf] at hl; cases hl
          | some r2 =>
            rw [hf] at hl
            dsimp only at hl
            obtain ⟨b1, b2⟩ := prescanFeature_scanFrame env g a o r1 p _ _ poClass r2 hf
            have hp2 : r2.hasParser = true := by
              rw [hasParser_of_scanFrame r2 r (b1.trans a1)]
              exact hp
            obtain ⟨c1, c2⟩ := ih h1 r2 _ rf hp2 hl
            exact ⟨c1.trans (b1.trans a1), advances_trans a2 (advances_trans b2 c2)⟩

theorem Scan_prescanLoop_transfer {σ : Type} (env : Env) (fuel : Nat) (co : Collaborators σ)
    (hco : handlerBlind co) (G : Option CStr) (kc : Int) (g a o : Bool) (n : Nat) :
    ∀ (h : σ) (r : GMLReader) (p : Option Nat) (rf : GMLReader),
      r.hasParser = true →
      Scan.prescanLoop env fuel co g a o n h r p = some rf →
      admitsGlobalSRSName rf G →
      Scan.prescanLoop env fuel co g a o n h (rebase G kc r) p = some (rebase G kc rf) := by
  induction n with
  | zero =>
    intro h r p rf _ hl
    simp only [Scan.prescanLoop] at hl
    cases hl
  | succ n ih =>
    intro h r p rf hp hl hG
    unfold Scan.prescanLoop at hl ⊢
    cases hn : Scan.NextFeature env fuel co h r with
    | none => rw [hn] at hl; cases hl
    | some res =>
      obtain ⟨f, h1, r1⟩ := res
      obtain ⟨a1, a2⟩ := Scan_NextFeature_frame env fuel co h h1 r r1 f hp hn
      rw [hn] at hl
      cases f with
      | none =>
        simp only [Option.some.injEq] at hl
        subst hl
        rw [Scan_NextFeature_transfer env fuel co hco G kc h h1 r r1 none hp hn hG]
      | some poFeature =>
        dsimp only at hl
        cases hc : r1.m_papoClass[poFeature.m_poClass]? with
        | none => rw [hc] at hl; cases hl
        | some poClass =>
          rw [hc] at hl
          dsimp only at hl
          cases hf : prescanFeature env g a o r1 p (Scan.stepOf co r1 poFeature)
              poFeature.m_poClass poClass with
          | none => rw [hf] at hl; cases hl
          | some r2 =>
            rw [hf] at hl
            dsimp only at hl
            obtain ⟨b1, b2⟩ := prescanFeature_scanFrame env g a o r1 p _ _ poClass r2 hf
            have hp2 : r2.hasParser = true := by
              rw [hasParser_of_scanFrame r2 r (b1.trans a1)]
              exact hp
            have hG2 : admitsGlobalSRSName r2 G :=
              admitsGlobalSRSName_of r2 rf G
                (Scan_prescanLoop_frame env fuel co g a o n h1 r2 _ rf hp2 hl).2 hG
            have hG1 : admitsGlobalSRSName r1 G := admitsGlobalSRSName_of r1 r2 G b2 hG2
            rw [Scan_NextFeature_transfer env fuel co hco G kc h h1 r r1 _ hp hn hG1]
            dsimp only
            have e1 : (rebase G kc r1).m_papoClass = r1.m_papoClass := rfl
            have e2 : Scan.stepOf co (rebase G kc r1) poFeature = Scan.stepOf co r1 poFeature :=
              rfl
            rw [e1, hc]
            dsimp only
            rw [e2, prescanFeature_rebase, hf]
            dsimp only [Option.map_some']
            exact ih h1 r2 _ rf hp2 hl hG

end GML

/-! ## The prescan on a document: the parser set up and cleaned up -/

namespace GML
open GMLReader

theorem PopState_shape (r : GMLReader) :
    ∃ (st : List GMLReadState) (rec : Option GMLReadState) (cf : Option GMLFeature)
      (tab : List GMLFeature) (len : Nat),
      r.PopState = { r with
        m_poState := st, m_poRecycledState := rec,
        m_poCompleteFeature := cf, ppoFeatureTab := tab, nFeatureTabLength := len } := by
  unfold PopState
  cases hS : r.m_poState with
  | nil => exact ⟨_, _, _, _, _, rfl⟩
  | cons st rest =>
    cases hf : st.m_poFeature <;> cases hx : r.bUseExpatReader <;>
      cases hc : r.m_poCompleteFeature <;> simp [hf, hx, hc]

theorem popStates_shape (S : List GMLReadState) :
    ∀ r : GMLReader,
      ∃ (st : List GMLReadState) (rec : Option GMLReadState) (cf : Option GMLFeature)
        (tab : List GMLFeature) (len : Nat),
        popStates S r = { r with
          m_poState := st, m_poRecycledState := rec,
          m_poCompleteFeature := cf, ppoFeatureTab := tab, nFeatureTabLength := len } := by
  induction S with
  | nil => intro r; exact ⟨_, _, _, _, _, rfl⟩
  | cons s rest ih =>
    intro r
    obtain ⟨st, rec, cf, tab, len, h1⟩ := PopState_shape r
    obtain ⟨st2, rec2, cf2, tab2, len2, h2⟩ := ih r.PopState
    refine ⟨st2, rec2, cf2, tab2, len2, ?_⟩
    rw [popStates, h2, h1]

theorem parserAtRest_eq (x : GMLReader) (h : parserAtRest x) :
    x = { x with
      m_poSAXReader := none, m_GMLInputSource := none, m_poCompleteFeature := none,
      m_bEOF := false, oParser := false, ppoFeatureTab := [], nFeatureTabIndex := 0,
      nFeatureTabLength := 0, m_poGMLHandler := false, m_bReadStarted := false,
      m_poState := [] } := by
  cases x
  simp only [parserAtRest] at h
  obtain ⟨h1, h2, h3, h4, h5, h6, h7, h8, h9, h10, h11⟩ := h
  subst h1 h2 h3 h4 h5 h6 h7 h8 h9 h10 h11
  rfl

/-- `CleanupParser` on a reader whose parse state belongs to a parser leaves
the parse fields at rest and no other field changed, the recycled state
apart, which is reset when there is one. -/
theorem CleanupParser_owned (x : GMLReader) (hown : parseStateOwned x) :
    ∃ rec : Option GMLReadState, (rec = none ∨ rec = some {}) ∧
      x.CleanupParser = { x with
        m_poSAXReader := none, m_GMLInputSource := none, m_poCompleteFeature := none,
        m_bEOF := false, oParser := false, ppoFeatureTab := [], nFeatureTabIndex := 0,
        nFeatureTabLength := 0, m_poGMLHandler := false, m_bReadStarted := false,
        m_poState := [], m_poRecycledState := rec } := by
  obtain ⟨hp, hr⟩ := hown
  have hr2 : ∀ s : GMLReadState, x.m_poRecycledState = some s → s = {} := by
    intro s hs
    rcases hr with hr | hr
    · rw [hr] at hs; cases hs
    · rw [hr] at hs; exact (Option.some.inj hs).symm
  by_cases hpar : x.hasParser = true
  · obtain ⟨p1, p2, _, _⟩ := popStates_state x.m_poState x rfl hr2
    obtain ⟨st, rec, cf, tab, len, hsh⟩ := popStates_shape x.m_poState x
    have hst : st = [] := by
      rw [hsh] at p1; exact p1
    have hrec : rec = none ∨ rec = some {} := by
      rw [hsh] at p2
      cases rec with
      | none => exact Or.inl rfl
      | some s => exact Or.inr (by rw [p2 s rfl])
    refine ⟨rec, hrec, ?_⟩
    subst hst
    have hc1 : (!x.bUseExpatReader && x.m_poSAXReader.isNone) = false := by
      unfold hasParser at hpar
      cases hx : x.bUseExpatReader
      · rw [hx] at hpar
        simp only [Bool.false_eq_true, if_false] at hpar
        cases hs : x.m_poSAXReader with
        | none => rw [hs] at hpar; cases hpar
        | some toks => rfl
      · rfl
    have hc2 : (x.bUseExpatReader && !x.oParser) = false := by
      unfold hasParser at hpar
      cases hx : x.bUseExpatReader
      · rfl
      · rw [hx] at hpar
        simp only [if_true] at hpar
        rw [hpar]
        rfl
    unfold CleanupParser
    simp only [hc1, hc2, Bool.false_eq_true, if_false]
    rw [hsh]
  · rcases hp with hp | hp
    · exact absurd hp hpar
    · refine ⟨x.m_poRecycledState, hr, ?_⟩
      have e : x.CleanupParser = x := by
        have hc : (!x.bUseExpatReader && x.m_poSAXReader.isNone) = true ∨
            (x.bUseExpatReader && !x.oParser) = true := by
          unfold hasParser at hpar
          cases hx : x.bUseExpatReader
          · rw [hx] at hpar
            simp only [Bool.false_eq_true, if_false] at hpar
            cases hs : x.m_poSAXReader with
            | none => exact Or.inl rfl
            | some toks => rw [hs] at hpar; exact absurd rfl hpar
          · rw [hx] at hpar
            simp only [if_true] at hpar
            cases ho : x.oParser with
            | false => exact Or.inr rfl
            | true => exact absurd ho hpar
        unfold CleanupParser
        rcases hc with hc | hc
        · rw [if_pos hc]
        · split_ifs <;> rfl
      rw [e]
      exact parserAtRest_eq x hp

theorem openSource_eq (env : Env) (r : GMLReader) :
    r.openSource env = { r with fpGML := (r.openSource env).fpGML } := by
  unfold openSource
  dsimp only
  split <;> rfl

theorem openSource_fpGML (env : Env) (r z : GMLReader)
    (hf : z.m_pszFilename = r.m_pszFilename)
    (hfp : z.fpGML.map VSIFSeekL0 = (r.openSource env).fpGML) :
    (z.openSource env).fpGML = (r.openSource env).fpGML := by
  cases hz : z.fpGML with
  | some fp =>
    rw [hz] at hfp
    rw [← hfp]
    unfold openSource
    simp [hz]
  | none =>
    rw [hz] at hfp
    have hr : (r.openSource env).fpGML = none := hfp.symm
    rw [hr]
    unfold openSource at hr ⊢
    dsimp only at hr ⊢
    cases hrf : r.fpGML with
    | some fp => simp [hrf] at hr
    | none =>
      simp only [hrf, Option.isNone_none, if_true, Option.map_eq_none'] at hr
      simp only [hz, Option.isNone_none, if_true, Option.map_eq_none', hf]
      exact hr

theorem openSource_fpGML_congr (env : Env) (a b : GMLReader) (h1 : a.fpGML = b.fpGML)
    (h2 : a.m_pszFilename = b.m_pszFilename) :
    (a.openSource env).fpGML = (b.openSource env).fpGML := by
  unfold openSource
  dsimp only
  rw [h1, h2]
  split <;> first | rfl | rw [h1]

theorem recycled_getD (rec : Option GMLReadState) (h : rec = none ∨ rec = some {}) :
    rec.getD {} = {} := by
  rcases h with h | h <;> rw [h] <;> rfl

theorem parseStateOwned_congr (a b : GMLReader)
    (h : ({ a with
      m_papoClass := [], m_bLookForClassAtAnyLevel := false, m_bClassListLocked := false,
      fpGML := none, m_nInstanceCount := 0,
      m_eXercesInitState := OGRGMLXercesState.OGRGML_XERCES_UNINITIALIZED } : GMLReader) =
      { b with
      m_papoClass := [], m_bLookForClassAtAnyLevel := false, m_bClassListLocked := false,
      fpGML := none, m_nInstanceCount := 0,
      m_eXercesInitState := OGRGMLXercesState.OGRGML_XERCES_UNINITIALIZED })
    (ha : parseStateOwned a) : parseStateOwned b := by
  cases a
  cases b
  simp only [GMLReader.mk.injEq, true_and] at h
  simp only [parseStateOwned, hasParser, parserAtRest] at ha ⊢
  obtain ⟨h1, h2, h3, h4, h5, h6, h7, h8, h9, h10, h11, h12, h13, h14, h15, h16, h17, h18, h19,
    h20, h21, h22, h23, h24⟩ := h
  subst h1 h2 h3 h4 h5 h6 h7 h8 h9 h10 h11 h12 h13 h14 h15 h16 h17 h18 h19 h20 h21 h22 h23 h24
  exact ha

/-- `SetupParserExpat` on a reader whose parse state belongs to a parser:
the parse fields are at rest but for the new parser and handler. -/
theorem SetupParserExpat_owned (z : GMLReader) (hown : parseStateOwned z)
    (hx : z.bUseExpatReader = true) :
    ∃ rec : Option GMLReadState, (rec = none ∨ rec = some {}) ∧
      z.SetupParserExpat = (true, { z with
        m_poSAXReader := none, m_GMLInputSource := none, m_poCompleteFeature := none,
        m_bEOF := false, oParser := true, ppoFeatureTab := [], nFeatureTabIndex := 0,
        nFeatureTabLength := 0, m_poGMLHandler := true, m_bReadStarted := false,
        m_poState := [], m_poRecycledState := rec }) := by
  obtain ⟨rec, hrec, hcp⟩ := CleanupParser_owned z hown
  have hc : (if z.oParser = true then z.CleanupParser else z) = z.CleanupParser := by
    cases ho : z.oParser
    · simp only [Bool.false_eq_true, if_false]
      unfold CleanupParser
      have hc2 : (z.bUseExpatReader && !z.oParser) = true := by rw [hx, ho]; rfl
      split_ifs <;> rfl
    · simp only [if_true]
  refine ⟨rec, hrec, ?_⟩
  unfold SetupParserExpat
  dsimp only
  rw [hc, hcp]

/-- `SetupParser` on a reader that uses the Expat parser and whose parse state
belongs to a parser. -/
theorem SetupParser_owned_expat (env : Env) (z : GMLReader) (hown : parseStateOwned z)
    (hx : z.bUseExpatReader = true) :
    z.SetupParser env = (true, { z with
      fpGML := (z.openSource env).fpGML,
      m_poSAXReader := none, m_GMLInputSource := none, m_poCompleteFeature := none,
      m_bEOF := false, oParser := true, ppoFeatureTab := [], nFeatureTabIndex := 0,
      nFeatureTabLength := 0, m_poGMLHandler := true, m_bReadStarted := false,
      m_poState := [{}], m_poRecycledState := none }) := by
  have hown0 : parseStateOwned (z.openSource env) := by
    refine parseStateOwned_congr z _ ?_ hown
    rw [openSource_eq env z]
  have hx0 : (z.openSource env).bUseExpatReader = true := by
    rw [openSource_eq env z]; exact hx
  obtain ⟨rec, hrec, hse⟩ := SetupParserExpat_owned (z.openSource env) hown0 hx0
  unfold SetupParser
  dsimp only
  rw [if_pos hx0, hse]
  simp only [Bool.not_true, Bool.false_eq_true, if_false, PushState, recycled_getD rec hrec]
  rw [openSource_eq env z]

theorem CleanupParser_xerces_noParser (z : GMLReader) (hx : z.bUseExpatReader = false)
    (hs : z.m_poSAXReader = none) : z.CleanupParser = z := by
  unfold CleanupParser
  have hc : (!z.bUseExpatReader && z.m_poSAXReader.isNone) = true := by rw [hx, hs]; rfl
  rw [if_pos hc]

/-- `SetupParserXerces` on a reader whose parse state belongs to a parser, when
it succeeds: the parse fields are at rest but for the new parser, handler and
input source, and the reader object could be created. -/
theorem SetupParserXerces_owned (env : Env) (z : GMLReader) (hown : parseStateOwned z)
    (hx : z.bUseExpatReader = false) (hok : (z.SetupParserXerces env).1 = true) :
    env.bCreateXMLReaderThrows = false ∧
    ∃ rec : Option GMLReadState, (rec = none ∨ rec = some {}) ∧
      z.SetupParserXerces env = (true, { z with
        m_nInstanceCount := z.m_nInstanceCount + 1,
        m_eXercesInitState := OGRGMLXercesState.OGRGML_XERCES_INIT_SUCCESSFUL,
        m_poSAXReader := some [], m_GMLInputSource := z.fpGML, m_poCompleteFeature := none,
        m_bEOF := false, oParser := false, ppoFeatureTab := [], nFeatureTabIndex := 0,
        nFeatureTabLength := 0, m_poGMLHandler := true, m_bReadStarted := false,
        m_poState := [], m_poRecycledState := rec }) := by
  have hown1 : parseStateOwned { z with
      m_nInstanceCount := z.m_nInstanceCount + 1,
      m_eXercesInitState := OGRGMLXercesState.OGRGML_XERCES_INIT_SUCCESSFUL } :=
    parseStateOwned_congr z _ rfl hown
  obtain ⟨rec, hrec, hcp⟩ := CleanupParser_owned _ hown1
  have hc : ∀ q : GMLReader, q.bUseExpatReader = false →
      (if q.m_poSAXReader.isSome = true then q.CleanupParser else q) = q.CleanupParser := by
    intro q hq
    cases hs : q.m_poSAXReader with
    | none =>
      simp only [Option.isSome_none, Bool.false_eq_true, if_false]
      exact (CleanupParser_xerces_noParser q hq hs).symm
    | some toks => simp only [Option.isSome_some, if_true]
  have hc1 := hc { z with
      m_nInstanceCount := z.m_nInstanceCount + 1,
      m_eXercesInitState := OGRGMLXercesState.OGRGML_XERCES_INIT_SUCCESSFUL } hx
  have tail : env.bCreateXMLReaderThrows = false →
      (let r := if ({ z with
            m_nInstanceCount := z.m_nInstanceCount + 1,
            m_eXercesInitState := OGRGMLXercesState.OGRGML_XERCES_INIT_SUCCESSFUL } :
              GMLReader).m_poSAXReader.isSome = true
          then ({ z with
            m_nInstanceCount := z.m_nInstanceCount + 1,
            m_eXercesInitState := OGRGMLXercesState.OGRGML_XERCES_INIT_SUCCESSFUL } :
              GMLReader).CleanupParser
          else { z with
            m_nInstanceCount := z.m_nInstanceCount + 1,
            m_eXercesInitState := OGRGMLXercesState.OGRGML_XERCES_INIT_SUCCESSFUL }
        let r : GMLReader := { r with m_poSAXReader := some [], m_poGMLHandler := true }
        match r.m_GMLInputSource, r.fpGML with
          | none, some fp => ({ r with m_GMLInputSource := some fp } : GMLReader)
          | _, _ => r) =
      { z with
        m_nInstanceCount := z.m_nInstanceCount + 1,
        m_eXercesInitState := OGRGMLXercesState.OGRGML_XERCES_INIT_SUCCESSFUL,
        m_poSAXReader := some [], m_GMLInputSource := z.fpGML, m_poCompleteFeature := none,
        m_bEOF := false, oParser := false, ppoFeatureTab := [], nFeatureTabIndex := 0,
        nFeatureTabLength := 0, m_poGMLHandler := true, m_bReadStarted := false,
        m_poState := [], m_poRecycledState := rec } := by
    intro _
    dsimp only
    rw [hc1, hcp]
    dsimp only
    cases hf : z.fpGML <;> rfl
  unfold SetupParserXerces at hok ⊢
  dsimp only at hok ⊢
  cases hst : z.m_eXercesInitState with
  | OGRGML_XERCES_INIT_FAILED =>
    rw [hst] at hok
    simp at hok
  | OGRGML_XERCES_UNINITIALIZED =>
    rw [hst] at hok
    cases hi : env.bXercesInitializeThrows with
    | true => rw [hi] at hok; simp at hok
    | false =>
      cases ht : env.bCreateXMLReaderThrows with
      | true => rw [hi, ht] at hok; simp at hok
      | false =>
        refine ⟨rfl, rec, hrec, ?_⟩
        have t := tail ht
        simp only [hi, ht, Bool.false_eq_true, and_false, if_false, if_true, ne_eq,
          not_true_eq_false]
        exact congrArg (Prod.mk true) t
  | OGRGML_XERCES_INIT_SUCCESSFUL =>
    rw [hst] at hok
    cases ht : env.bCreateXMLReaderThrows with
    | true => rw [ht] at hok; simp at hok
    | false =>
      refine ⟨rfl, rec, hrec, ?_⟩
      have t := tail ht
      simp only [ht, Bool.false_eq_true, if_false, ne_eq, not_true_eq_false,
        reduceCtorEq, false_and]
      exact congrArg (Prod.mk true) t

theorem SetupParser_success (env : Env) (z : GMLReader)
    (h : z.bUseExpatReader = true ∨
      (z.m_eXercesInitState = OGRGMLXercesState.OGRGML_XERCES_INIT_SUCCESSFUL ∧
        env.bCreateXMLReaderThrows = false)) :
    (z.SetupParser env).1 = true := by
  have e1 : (z.openSource env).bUseExpatReader = z.bUseExpatReader := by
    rw [openSource_eq env z]
  have e2 : (z.openSource env).m_eXercesInitState = z.m_eXercesInitState := by
    rw [openSource_eq env z]
  unfold SetupParser
  dsimp only
  rw [e1]
  cases hx : z.bUseExpatReader
  · rcases h with h | ⟨h1, h2⟩
    · rw [hx] at h; cases h
    · have hs : ((z.openSource env).SetupParserXerces env).1 = true := by
        unfold SetupParserXerces
        simp [e2, h1, h2]
      simp [hs]
  · simp [SetupParserExpat]

/-- `SetupParser` on a reader whose parse state belongs to a parser, when it
succeeds: the file is open and rewound when it can be opened, the parser, the
handler and for Xerces the input source are new, the other parse fields are at
rest, and the chain of states is one empty state. -/
theorem SetupParser_owned (env : Env) (z : GMLReader) (hown : parseStateOwned z)
    (hok : (z.SetupParser env).1 = true) :
    (z.bUseExpatReader = false → env.bCreateXMLReaderThrows = false) ∧
    z.SetupParser env = (true, { z with
      fpGML := (z.openSource env).fpGML,
      m_nInstanceCount :=
        if z.bUseExpatReader then z.m_nInstanceCount else z.m_nInstanceCount + 1,
      m_eXercesInitState :=
        if z.bUseExpatReader then z.m_eXercesInitState
        else OGRGMLXercesState.OGRGML_XERCES_INIT_SUCCESSFUL,
      m_poSAXReader := if z.bUseExpatReader then none else some [],
      m_GMLInputSource := if z.bUseExpatReader then none else (z.openSource env).fpGML,
      m_poCompleteFeature := none,
      m_bEOF := false, oParser := z.bUseExpatReader, ppoFeatureTab := [],
      nFeatureTabIndex := 0,
      nFeatureTabLength := 0, m_poGMLHandler := true, m_bReadStarted := false,
      m_poState := [{}], m_poRecycledState := none }) := by
  cases hx : z.bUseExpatReader
  · have hown0 : parseStateOwned (z.openSource env) := by
      refine parseStateOwned_congr z _ ?_ hown
      rw [openSource_eq env z]
    have hx0 : (z.openSource env).bUseExpatReader = false := by
      rw [openSource_eq env z]; exact hx
    have hok0 : ((z.openSource env).SetupParserXerces env).1 = true := by
      unfold SetupParser at hok
      dsimp only at hok
      rw [hx0] at hok
      simp only [Bool.false_eq_true, if_false] at hok
      cases hb : ((z.openSource env).SetupParserXerces env).1
      · rw [hb] at hok; simp at hok
      · rfl
    obtain ⟨hthrow, rec, hrec, hse⟩ := SetupParserXerces_owned env (z.openSource env) hown0
      hx0 hok0
    refine ⟨fun _ => hthrow, ?_⟩
    unfold SetupParser
    dsimp only
    rw [hx0]
    simp only [Bool.false_eq_true, if_false]
    rw [hse]
    simp only [Bool.not_true, Bool.false_eq_true, if_false, PushState,
      recycled_getD rec hrec]
    rw [openSource_eq env z]
    simp [hx]
  · have h := SetupParser_owned_expat env z hown hx
    refine ⟨fun hf => (by cases hf), ?_⟩
    rw [h]
    simp [hx]

/-- The start of a full scan on a reader whose parse state belongs to a
parser, when the parser can be set up. -/
theorem prescanStart_owned (env : Env) (x : GMLReader) (hown : parseStateOwned x)
    (hok : (prescanStart env x false).1 = true) :
    (x.bUseExpatReader = false → env.bCreateXMLReaderThrows = false) ∧
    prescanStart env x false = (true, { x with
      m_bClassListLocked := false, m_papoClass := [], m_bLookForClassAtAnyLevel := false,
      fpGML := (x.openSource env).fpGML,
      m_nInstanceCount :=
        if x.bUseExpatReader then x.m_nInstanceCount else x.m_nInstanceCount + 1,
      m_eXercesInitState :=
        if x.bUseExpatReader then x.m_eXercesInitState
        else OGRGMLXercesState.OGRGML_XERCES_INIT_SUCCESSFUL,
      m_poSAXReader := if x.bUseExpatReader then none else some [],
      m_GMLInputSource := if x.bUseExpatReader then none else (x.openSource env).fpGML,
      m_poCompleteFeature := none,
      m_bEOF := false, oParser := x.bUseExpatReader, ppoFeatureTab := [],
      nFeatureTabIndex := 0,
      nFeatureTabLength := 0, m_poGMLHandler := true, m_bReadStarted := false,
      m_poState := [{}], m_poRecycledState := none,
      m_bCanUseGlobalSRSName := true, m_nHasSequentialLayers := 1 }) := by
  have hy : parseStateOwned (x.SetClassListLocked false).ClearClasses :=
    parseStateOwned_congr x _ rfl hown
  have hoky : (((x.SetClassListLocked false).ClearClasses).SetupParser env).1 = true := by
    unfold prescanStart at hok
    simp only [Bool.not_false, if_true] at hok
    cases hb : (((x.SetClassListLocked false).ClearClasses).SetupParser env).1
    · rw [hb] at hok; simp at hok
    · rfl
  obtain ⟨h1, h2⟩ := SetupParser_owned env _ hy hoky
  refine ⟨h1, ?_⟩
  have hF : (((x.SetClassListLocked false).ClearClasses).openSource env).fpGML =
      (x.openSource env).fpGML := openSource_fpGML_congr env _ x rfl rfl
  unfold prescanStart
  simp only [Bool.not_false, if_true]
  rw [h2, hF]
  rfl

theorem prescanStart_success (env : Env) (x : GMLReader)
    (h : x.bUseExpatReader = true ∨
      (x.m_eXercesInitState = OGRGMLXercesState.OGRGML_XERCES_INIT_SUCCESSFUL ∧
        env.bCreateXMLReaderThrows = false)) :
    (prescanStart env x false).1 = true := by
  have hs := SetupParser_success env (x.SetClassListLocked false).ClearClasses h
  unfold prescanStart
  simp only [Bool.not_false, if_true]
  rw [hs]
  rfl

theorem popStates_rebase (G : Option CStr) (kc : Int) (S : List GMLReadState) :
    ∀ r : GMLReader, popStates S (rebase G kc r) = rebase G kc (popStates S r) := by
  induction S with
  | nil => intro r; rfl
  | cons s rest ih =>
    intro r
    rw [popStates, popStates, PopState_rebase, ih]

theorem CleanupParser_rebase (G : Option CStr) (kc : Int) (r : GMLReader) :
    (rebase G kc r).CleanupParser = rebase G kc r.CleanupParser := by
  unfold CleanupParser
  have e1 : (rebase G kc r).bUseExpatReader = r.bUseExpatReader := rfl
  have e2 : (rebase G kc r).m_poSAXReader = r.m_poSAXReader := rfl
  have e3 : (rebase G kc r).oParser = r.oParser := rfl
  have e4 : (rebase G kc r).m_poState = r.m_poState := rfl
  rw [e1, e2, e3, e4, popStates_rebase]
  split
  · rfl
  · split <;> rfl

theorem openSource_rewound (env : Env) (r : GMLReader) :
    (r.openSource env).fpGML.map VSIFSeekL0 = (r.openSource env).fpGML := by
  unfold openSource
  dsimp only
  split
  · cases env.VSIFOpenL r.m_pszFilename <;> rfl
  · cases r.fpGML <;> rfl

/-- The start of a second full scan: when the reader `r1` has the settings,
the stop flag and the file of the start `S` of a first scan, its own start is
`S` but for the registry-wide SRS name and the count of Xerces instances. -/
theorem prescanStart_again (env : Env) (r r1 : GMLReader)
    (hown : parseStateOwned r) (hok : (prescanStart env r false).1 = true)
    (hown1 : parseStateOwned r1) (hok1 : (prescanStart env r1 false).1 = true)
    (hin : scanInputs r1 = scanInputs (prescanStart env r false).2)
    (hstop : r1.m_bStopParsing = r.m_bStopParsing)
    (hfp : r1.fpGML.map VSIFSeekL0 = (prescanStart env r false).2.fpGML) :
    (prescanStart env r1 false).2 =
      rebase r1.m_pszGlobalSRSName
        (if r1.bUseExpatReader then r1.m_nInstanceCount else r1.m_nInstanceCount + 1)
        (prescanStart env r false).2 := by
  obtain ⟨_, h2⟩ := prescanStart_owned env r hown hok
  obtain ⟨_, h3⟩ := prescanStart_owned env r1 hown1 hok1
  rw [h2] at hin hfp ⊢
  rw [h3]
  dsimp only at hin hfp ⊢
  have hF : (r1.openSource env).fpGML = (r.openSource env).fpGML := by
    refine openSource_fpGML env r r1 ?_ hfp
    simp only [scanInputs, Prod.mk.injEq] at hin
    exact hin.2.2.1
  rw [hF]
  generalize (r.openSource env).fpGML = F at *
  cases r
  cases r1
  simp only [scanInputs, Prod.mk.injEq] at hin
  obtain ⟨i1, i2, i3, i4, i5, i6, i7, i8, i9, i10⟩ := hin
  dsimp only at hstop
  subst i3 i4 i5 i6 i7 i8 i9 i10 hstop
  rename_i bx _ _ _ _ _ _ _ _ _ _ _ _ _ _ _ _ _ _ _ _ _ _ _ _ _ _
  cases bx <;> simp_all [rebase]

end GML

/-! ## Running the prescan twice -/

namespace GML
open GMLReader

theorem normalizeSRS_rebase (env : Env) (a : Bool) (kc : Int) (q : GMLReader) :
    normalizeSRS env a (rebase q.m_pszGlobalSRSName kc q) = normalizeSRS env a q := rfl

/-- What a full scan that returns `true` leaves: the parse state of the reader
belongs to a parser again (it is at rest), and a second scan that starts from
the reader left is the first scan over again. -/
theorem PrescanForSchema_rerun {σ : Type} (env : Env) (fuel : Nat) (co : Collaborators σ)
    (n : Nat) (r r1 : GMLReader) (g a : Bool)
    (hown : parseStateOwned r)
    (h1 : Scan.PrescanForSchema env fuel co n r g a false = some (true, r1)) :
    parseStateOwned r1 ∧ r1.parserAtRest ∧ r1.m_pszFilename.isSome = true ∧
    (prescanStart env r1 false).1 = true ∧
    (handlerBlind co → r1.m_bStopParsing = r.m_bStopParsing →
      Scan.PrescanForSchema env fuel co n r1 g a false =
        some (true, { r1 with m_nInstanceCount :=
          if r1.bUseExpatReader then r1.m_nInstanceCount else r1.m_nInstanceCount + 1 })) := by
  unfold Scan.PrescanForSchema at h1
  cases hfn : r.m_pszFilename.isNone
  case true =>
    rw [hfn] at h1
    simp at h1
  rw [hfn] at h1
  simp only [Bool.false_eq_true, if_false] at h1
  cases hst : (prescanStart env r false).1
  case false =>
    rw [hst] at h1
    simp at h1
  rw [hst] at h1
  simp only [Bool.not_true, Bool.false_eq_true, if_false] at h1
  obtain ⟨hthrow, hS⟩ := prescanStart_owned env r hown hst
  -- the start of the first scan
  have hSp : (prescanStart env r false).2.hasParser = true := by
    rw [hS]
    unfold hasParser
    dsimp only
    cases r.bUseExpatReader <;> rfl
  have hSr : (prescanStart env r false).2.m_poRecycledState = none := by
    rw [hS]
  have hSstop : (prescanStart env r false).2.m_bStopParsing = r.m_bStopParsing := by
    rw [hS]
  have hSfp : (prescanStart env r false).2.fpGML.map VSIFSeekL0 =
      (prescanStart env r false).2.fpGML := by
    rw [hS]
    exact openSource_rewound env r
  have hSx : (prescanStart env r false).2.bUseExpatReader = r.bUseExpatReader := by
    rw [hS]
  have hSi : (prescanStart env r false).2.bUseExpatReader = false →
      (prescanStart env r false).2.m_eXercesInitState =
        OGRGMLXercesState.OGRGML_XERCES_INIT_SUCCESSFUL := by
    rw [hS]
    dsimp only
    intro hx
    rw [hx]
    rfl
  have hSf : (prescanStart env r false).2.m_pszFilename = r.m_pszFilename := by
    rw [hS]
  generalize hSdef : (prescanStart env r false).2 = S at *
  cases hl : Scan.prescanLoop env fuel co g a false n co.newHandler S none with
  | none => rw [hl] at h1; cases h1
  | some r' =>
    rw [hl] at h1
    simp only [Option.some.injEq, Prod.mk.injEq, true_and] at h1
    obtain ⟨fr, adv⟩ := Scan_prescanLoop_frame env fuel co g a false n co.newHandler S none r'
      hSp hl
    -- the reader before the parser is cleaned up
    have hnp : ({ r' with m_papoClass :=
        r'.m_papoClass.map (normalizeSRS env a r') } : GMLReader).hasParser = true := by
      have e : ({ r' with m_papoClass :=
          r'.m_papoClass.map (normalizeSRS env a r') } : GMLReader).hasParser =
          r'.hasParser := rfl
      rw [e, hasParser_of_scanFrame r' S fr]
      exact hSp
    have hnr : r'.m_poRecycledState = none ∨ r'.m_poRecycledState = some {} :=
      adv.2 (Or.inl hSr)
    obtain ⟨rec, hrec, hcp⟩ := CleanupParser_owned
      { r' with m_papoClass := r'.m_papoClass.map (normalizeSRS env a r') }
      ⟨Or.inl hnp, hnr⟩
    rw [hcp] at h1
    have hin' : scanInputs r' = scanInputs S := by
      have e := congrArg scanInputs fr
      exact e
    have hfp' : r'.fpGML.map VSIFSeekL0 = S.fpGML := by
      have e := congrArg GMLReader.fpGML fr
      exact e.trans hSfp
    have hx1 : r1.bUseExpatReader = r.bUseExpatReader := by
      rw [← h1, ← hSx]
      simp only [scanInputs, Prod.mk.injEq] at hin'
      exact hin'.2.2.2.1
    have hrest : r1.parserAtRest := by
      rw [← h1]
      exact ⟨rfl, rfl, rfl, rfl, rfl, rfl, rfl, rfl, rfl, rfl, rfl⟩
    have hown1 : parseStateOwned r1 := by
      refine ⟨Or.inr hrest, ?_⟩
      rw [← h1]
      exact hrec
    -- the start of the second scan
    have hin1 : scanInputs r1 = scanInputs S := by
      rw [← h1]
      exact hin'
    have hfp1 : r1.fpGML.map VSIFSeekL0 = S.fpGML := by
      rw [← h1]
      exact hfp'
    have hok1 : (prescanStart env r1 false).1 = true := by
      apply prescanStart_success
      cases hx : r.bUseExpatReader
      · right
        simp only [scanInputs, Prod.mk.injEq] at hin1
        rw [hin1.1]
        exact ⟨hSi (hSx.trans hx), hthrow hx⟩
      · left
        exact hx1.trans hx
    have hf1 : r1.m_pszFilename.isNone = false := by
      simp only [scanInputs, Prod.mk.injEq] at hin1
      rw [hin1.2.2.1, hSf]
      exact hfn
    have hG1 : r1.m_pszGlobalSRSName = r'.m_pszGlobalSRSName := by
      rw [← h1]
    have hc1 : r1.m_nInstanceCount = r'.m_nInstanceCount := by
      rw [← h1]
    have hf2 : r1.m_pszFilename.isSome = true := by
      cases hx : r1.m_pszFilename with
      | none => rw [hx] at hf1; cases hf1
      | some v => rfl
    refine ⟨hown1, hrest, hf2, hok1, ?_⟩
    intro hco hstop
    have hstart := prescanStart_again env r r1 hown hst hown1 hok1
      (by rw [hSdef]; exact hin1) hstop (by rw [hSdef]; exact hfp1)
    rw [hSdef] at hstart
    have hloop := Scan_prescanLoop_transfer env fuel co hco r1.m_pszGlobalSRSName
      (if r1.bUseExpatReader then r1.m_nInstanceCount else r1.m_nInstanceCount + 1)
      g a false n co.newHandler S none r' hSp hl (Or.inr hG1.symm)
    unfold Scan.PrescanForSchema
    rw [hf1]
    simp only [Bool.false_eq_true, if_false]
    rw [hok1]
    simp only [Bool.not_true, Bool.false_eq_true, if_false]
    rw [hstart, hloop]
    simp only [Option.some.injEq, Prod.mk.injEq, true_and]
    rw [hG1]
    have e1 : ∀ kc : Int, ({ (rebase r'.m_pszGlobalSRSName kc r') with
        m_papoClass := (rebase r'.m_pszGlobalSRSName kc r').m_papoClass.map
          (normalizeSRS env a (rebase r'.m_pszGlobalSRSName kc r')) } : GMLReader) =
        rebase r'.m_pszGlobalSRSName kc
          { r' with m_papoClass := r'.m_papoClass.map (normalizeSRS env a r') } := by
      intro kc
      rw [normalizeSRS_rebase]
      rfl
    rw [e1, CleanupParser_rebase, hcp, h1, ← hG1]
    rfl

/-- While the stop flag is set `NextFeature` parses nothing and returns NULL
(the Xerces parser hands out a feature that is complete, so none is taken to
be). -/
theorem Scan_NextFeature_stopped {σ : Type} (env : Env) (fuel : Nat) (co : Collaborators σ)
    (h : σ) (q : GMLReader) (hp : q.hasParser = true) (hstop : q.m_bStopParsing = true)
    (hcf : q.m_poCompleteFeature = none) :
    ∃ (h2 : σ) (q2 : GMLReader), Scan.NextFeature env fuel co h q = some (none, h2, q2) ∧
      q2.m_papoClass = q.m_papoClass ∧ q2.m_bStopParsing = true := by
  unfold hasParser at hp
  unfold Scan.NextFeature
  cases hx : q.bUseExpatReader
  · -- Xerces
    rw [hx] at hp
    simp only [Bool.false_eq_true, if_false] at hp ⊢
    unfold Scan.NextFeatureXerces
    rw [Scan_xercesStart_parserKept env co h q hp]
    cases he : q.m_bEOF
    · simp only [Bool.false_eq_true, if_false]
      have hq : (q.xercesStart env).2.m_papoClass = q.m_papoClass ∧
          (q.xercesStart env).2.m_bStopParsing = true ∧
          (q.xercesStart env).2.m_poCompleteFeature = none := by
        cases hs : q.m_poSAXReader with
        | none => rw [hs] at hp; cases hp
        | some toks =>
          unfold xercesStart
          cases hrs : q.m_bReadStarted
          · cases hi : q.m_GMLInputSource with
            | none => simp [hs, hi, hstop, hcf]
            | some src => cases hf : src.doc.parseFirst <;> simp [hs, hi, hf, hstop, hcf]
          · simp [hstop, hcf]
      generalize q.xercesStart env = tq at hq
      obtain ⟨t, q1⟩ := tq
      obtain ⟨c1, c2, c3⟩ := hq
      cases t with
      | returnedNull => exact ⟨h, q1, rfl, c1, c2⟩
      | caught => exact ⟨h, Scan.stopParsing q1, rfl, c1, rfl⟩
      | completed =>
        dsimp only at c1 c2 c3 ⊢
        unfold Scan.xercesRead
        rw [c2]
        simp only [Bool.not_true, Bool.and_false, Bool.false_eq_true, if_false]
        unfold xercesReturn
        rw [c3]
        exact ⟨h, _, rfl, c1, c2⟩
    · simp only [if_true]
      exact ⟨h, q, rfl, rfl, hstop⟩
  · -- Expat
    rw [hx] at hp
    simp only [if_true] at hp ⊢
    unfold Scan.NextFeatureExpat
    rw [Scan_expatStart_parserKept env co h q hp]
    unfold Scan.expatRead
    dsimp only
    cases hfp : q.fpGML with
    | none => exact ⟨h, _, rfl, rfl, hstop⟩
    | some fp =>
      dsimp only
      rw [hstop]
      exact ⟨h, _, rfl, rfl, rfl⟩

/-- A full scan of a reader whose stop flag is set reads nothing: it leaves
the registry empty and the flag set. -/
theorem PrescanForSchema_stopped {σ : Type} (env : Env) (fuel : Nat) (co : Collaborators σ)
    (n : Nat) (r : GMLReader) (g a : Bool) (hf : r.m_pszFilename.isSome = true)
    (hstop : r.m_bStopParsing = true) (hown : parseStateOwned r) (hn : 0 < n) :
    ∃ r1 : GMLReader,
      Scan.PrescanForSchema env fuel co n r g a false =
        some ((prescanStart env r false).1, r1) ∧
      r1.m_papoClass = [] ∧ r1.m_bStopParsing = true := by
  have hfn : r.m_pszFilename.isNone = false := by
    cases hx : r.m_pszFilename with
    | none => rw [hx] at hf; cases hf
    | some v => rfl
  unfold Scan.PrescanForSchema
  rw [hfn]
  simp only [Bool.false_eq_true, if_false]
  cases hst : (prescanStart env r false).1
  · simp only [Bool.not_false, if_true]
    refine ⟨_, rfl, ?_, (prescanStart_stop env r false).trans hstop⟩
    unfold prescanStart
    simp only [Bool.not_false, if_true]
    have e := (SetupParser_registry env (r.SetClassListLocked false).ClearClasses).1
    split
    · exact e
    · exact e
  · simp only [Bool.not_true, Bool.false_eq_true, if_false]
    obtain ⟨_, hS⟩ := prescanStart_owned env r hown hst
    have hSp : (prescanStart env r false).2.hasParser = true := by
      rw [hS]
      unfold hasParser
      dsimp only
      cases r.bUseExpatReader <;> rfl
    have hSc : (prescanStart env r false).2.m_papoClass = [] := by rw [hS]
    have hSs : (prescanStart env r false).2.m_bStopParsing = true := by rw [hS]; exact hstop
    have hSf : (prescanStart env r false).2.m_poCompleteFeature = none := by rw [hS]
    generalize (prescanStart env r false).2 = S at *
    obtain ⟨h2, q2, hnext, hc, hs⟩ := Scan_NextFeature_stopped env fuel co co.newHandler S
      hSp hSs hSf
    obtain ⟨m, hm⟩ : ∃ m, n = m + 1 := ⟨n - 1, by omega⟩
    subst hm
    unfold Scan.prescanLoop
    rw [hnext]
    refine ⟨_, rfl, ?_, ?_⟩
    · rw [(CleanupParser_registry _).1]
      show q2.m_papoClass.map _ = []
      rw [hc, hSc]
      rfl
    · rw [(CleanupParser_flags _).1]
      exact hs

/-- C24, counterexample: the source yields one `City` feature and then the
parser meets an error, so that the `NextFeature()` call behind the feature
sets `m_bStopParsing` and returns NULL.  The first full prescan returns true
and registers the class `City`; nothing clears the stop flag, so in the second
full prescan on the same reader and source the first `NextFeature()` call
returns NULL, and the run returns true with an empty registry.  The same on a
document: in the first buffer of `brokenBuffers` the handler completes one
`City` feature, and in the second buffer it completes another one before
`XML_Parse` reports an error, so that `NextFeatureExpat` sets
`m_bStopParsing` (line 645); the first prescan registers `City` with two
features, and in the second prescan of the same reader and document the first
`NextFeature()` call returns NULL (line 607). -/
theorem PrescanForSchema_twice_counterexample :
    (PrescanForSchema (envOf sampleDocument) 3 stoppedCities sampleReader true false false =
      some (true, scannedStopped) ∧
    scannedStopped.m_papoClass.map (fun c => c.m_pszName) = ["City".toList] ∧
    scannedStopped.m_bStopParsing = true ∧
    (PrescanForSchema (envOf sampleDocument) 3 stoppedCities scannedStopped true false
      false).map (fun p => (p.1, p.2.m_papoClass)) = some (true, [])) ∧
    Scan.PrescanForSchema (envOf brokenBuffers) 3 cityHandler 5 sampleReader true false false =
      some (true, scannedBroken) ∧
    scannedBroken.m_papoClass.map (fun c => (c.m_pszName, c.m_nFeatureCount)) =
      [("City".toList, 2)] ∧
    scannedBroken.m_bStopParsing = true ∧
    (Scan.PrescanForSchema (envOf brokenBuffers) 3 cityHandler 5 scannedBroken true false
      false).map (fun p => (p.1, p.2.m_papoClass)) = some (true, []) :=
  ⟨by decide, by decide!⟩

/-- C24, amended: on a reader whose read states and buffered features belong
to a parser (`parseStateOwned`: a new reader, a reader with a parse in
progress, a reader after a prescan), a full prescan (not SRS-only) that returns
true leaves the parse state at rest and the file name in place, so that the
parser can be set up again.  If the stop flag is as it was before that run (no
parse error was met) and the handler's calls do not depend on the registry-wide
SRS name and the count of Xerces instances that the reader keeps, a second
full prescan of the same reader and document returns true and leaves the
reader exactly as the first run left it, so the same classes with the same
properties, geometry properties, feature counts, extents and SRS names; only
the count of Xerces instances is one higher when the Xerces parser is used.
If the first run left the stop flag set, the second run returns true with an
empty registry; and any full prescan of a reader with a file name whose stop
flag is set reads nothing and leaves the registry empty and the flag set. -/
theorem PrescanForSchema_twice {σ : Type} (env : Env) (fuel : Nat) (co : Collaborators σ)
    (n : Nat) (r : GMLReader) (bGetExtents bAnalyzeSRSPerFeature : Bool)
    (hown : parseStateOwned r) :
    (∀ bUseExpatParserPreferably : Bool,
      parseStateOwned (GMLReader.new bUseExpatParserPreferably)) ∧
    (∀ r1 : GMLReader,
      Scan.PrescanForSchema env fuel co n r bGetExtents bAnalyzeSRSPerFeature false =
        some (true, r1) →
      parseStateOwned r1 ∧ r1.parserAtRest ∧ r1.m_pszFilename.isSome = true ∧
      (handlerBlind co → r1.m_bStopParsing = r.m_bStopParsing →
        Scan.PrescanForSchema env fuel co n r1 bGetExtents bAnalyzeSRSPerFeature false =
          some (true, { r1 with m_nInstanceCount :=
            if r1.bUseExpatReader then r1.m_nInstanceCount
            else r1.m_nInstanceCount + 1 })) ∧
      (r1.m_bStopParsing = true → 0 < n →
        ∃ r2 : GMLReader,
          Scan.PrescanForSchema env fuel co n r1 bGetExtents bAnalyzeSRSPerFeature false =
            some (true, r2) ∧
          r2.m_papoClass = [] ∧ r2.m_bStopParsing = true)) ∧
    (r.m_pszFilename.isSome = true → r.m_bStopParsing = true → 0 < n →
      ∃ r1 : GMLReader,
        Scan.PrescanForSchema env fuel co n r bGetExtents bAnalyzeSRSPerFeature false =
          some ((prescanStart env r false).1, r1) ∧
        r1.m_papoClass = [] ∧ r1.m_bStopParsing = true) := by
  refine ⟨?_, ?_, ?_⟩
  · intro b
    exact ⟨Or.inr ⟨rfl, rfl, rfl, rfl, rfl, rfl, rfl, rfl, rfl, rfl, rfl⟩, Or.inl rfl⟩
  · intro r1 h1
    obtain ⟨a1, a2, a3, a4, a5⟩ := PrescanForSchema_rerun env fuel co n r r1 bGetExtents
      bAnalyzeSRSPerFeature hown h1
    refine ⟨a1, a2, a3, a5, ?_⟩
    intro hstop hn
    obtain ⟨r2, b1, b2, b3⟩ := PrescanForSchema_stopped env fuel co n r1 bGetExtents
      bAnalyzeSRSPerFeature a3 hstop a1 hn
    rw [a4] at b1
    exact ⟨r2, b1, b2, b3⟩
  · intro hf hstop hn
    exact PrescanForSchema_stopped env fuel co n r bGetExtents bAnalyzeSRSPerFeature hf hstop
      hown hn

/-- Witness for C24: the prescan of the document of three buffers by the Expat
parser registers the class `City` with two features, the property `name` and
the extent of the two points, and records the SRS name that the handler
reports; run again on the reader left behind, which now has that SRS name, the
prescan returns true and leaves the same reader.  With the Xerces parser the
second run leaves the same reader but for the count of instances.  On the
reader that the prescan of the broken document left, with the stop flag set,
a prescan returns true with an empty registry. -/
theorem PrescanForSchema_twice_witness :
    parseStateOwned sampleReader ∧ handlerBlind cityHandler ∧
    Scan.PrescanForSchema (envOf threeBuffers) 3 cityHandler 5 sampleReader true false false =
      some (true, scannedBuffers) ∧
    scannedBuffers.m_papoClass.map (fun c => (c.m_pszName, c.m_nFeatureCount)) =
      [("City".toList, 2)] ∧
    scannedBuffers.m_papoClass.map (fun c => c.m_papoProperty.map fun p => p.m_pszName) =
      [["name".toList]] ∧
    scannedBuffers.m_papoClass.map (fun c => c.GetExtents) = [some (1, 5, 2, 7)] ∧
    sampleReader.m_pszGlobalSRSName = none ∧
    scannedBuffers.m_pszGlobalSRSName = some "EPSG:4326".toList ∧
    Scan.PrescanForSchema (envOf threeBuffers) 3 cityHandler 5 scannedBuffers true false false =
      some (true, scannedBuffers) ∧
    Scan.PrescanForSchema (envOf threeBuffers) 3 cityHandler 5 scannedByXerces true false
      false = some (true, { scannedByXerces with m_nInstanceCount := 2 }) ∧
    (∃ r2 : GMLReader,
      Scan.PrescanForSchema (envOf brokenBuffers) 3 cityHandler 5 scannedBroken true false
        false = some (true, r2) ∧
      r2.m_papoClass = [] ∧ r2.m_bStopParsing = true) :=
  ⟨⟨Or.inr ⟨rfl, rfl, rfl, rfl, rfl, rfl, rfl, rfl, rfl, rfl, rfl⟩, Or.inl rfl⟩,
   fun _ _ _ _ => ⟨fun _ => rfl, fun _ => rfl⟩,
   by decide!, by decide!, by decide!, by decide!, rfl, by decide!,
   ((((PrescanForSchema_twice (envOf threeBuffers) 3 cityHandler 5 sampleReader true false
      ⟨Or.inr ⟨rfl, rfl, rfl, rfl, rfl, rfl, rfl, rfl, rfl, rfl, rfl⟩, Or.inl rfl⟩).2.1
      scannedBuffers (by decide!)).2.2.2.1
      (fun _ _ _ _ => ⟨fun _ => rfl, fun _ => rfl⟩) (by decide!)).trans (by decide!)),
   ((((PrescanForSchema_twice (envOf threeBuffers) 3 cityHandler 5 xercesSampleReader true false
      ⟨Or.inr ⟨rfl, rfl, rfl, rfl, rfl, rfl, rfl, rfl, rfl, rfl, rfl⟩, Or.inl rfl⟩).2.1
      scannedByXerces (by decide!)).2.2.2.1
      (fun _ _ _ _ => ⟨fun _ => rfl, fun _ => rfl⟩) (by decide!)).trans (by decide!)),
   ((PrescanForSchema_twice (envOf brokenBuffers) 3 cityHandler 5 sampleReader true false
      ⟨Or.inr ⟨rfl, rfl, rfl, rfl, rfl, rfl, rfl, rfl, rfl, rfl, rfl⟩, Or.inl rfl⟩).2.1
      scannedBroken (by decide!)).2.2.2.2 (by decide!) (by decide)⟩

end GML

/-! ## The class filter and `ResetReading` -/

namespace GML
open GMLReader

/-- C29: `ResetReading` always removes the class filter: afterwards the
filtered class name is NULL and the filtered class index is -1, whatever
filter was set before, while the registered classes, the class-list lock and
the stop-parsing flag are as they were. -/
theorem ResetReading_removes_filter (r : GMLReader) :
    r.ResetReading.m_pszFilteredClassName = none ∧
    r.ResetReading.m_nFilteredClassIndex = -1 ∧
    r.ResetReading.m_papoClass = r.m_papoClass ∧
    r.ResetReading.m_bClassListLocked = r.m_bClassListLocked ∧
    r.ResetReading.m_bStopParsing = r.m_bStopParsing := by
  obtain ⟨h1, _, h3⟩ := CleanupParser_registry r
  refine ⟨rfl, rfl, ?_, ?_, (ResetReading_flags r).1⟩
  · exact h1
  · exact h3

end GML

/-! ## `GetFeatureElementIndex`: the lookup by path and the named special cases -/

namespace GML
open GMLReader

theorem firstIndexFrom_first {α : Type} (p : α → Bool) (l : List α) (i : Nat) (c : α)
    (hi : l[i]? = some c) (hp : p c = true)
    (hmin : ∀ (j : Nat) (c2 : α), j < i → l[j]? = some c2 → p c2 = false) :
    firstIndexFrom p l 0 = (i : Int) := by
  rcases firstIndexFrom_cases p l 0 with ⟨_, h2⟩ | ⟨j, c2, h1, h2, h3, h4⟩
  · have := h2 c (List.getElem?_mem hi)
    rw [this] at hp; exact absurd hp (by decide)
  · rw [h3]
    have hij : j = i := by
      rcases Nat.lt_trichotomy j i with hlt | heq | hgt
      · have := hmin j c2 hlt h1
        rw [this] at h2; exact absurd h2 (by decide)
      · exact heq
      · have := h4 i c hgt hi
        rw [this] at hp; exact absurd hp (by decide)
    rw [hij]; simp

theorem path_match_iff (path elem name : CStr) :
    (path.length + 1 + elem.length == name.length &&
      name[path.length]? == some '|' &&
      memcmp0 path name path.length &&
      memcmp0 elem (name.drop (1 + path.length)) elem.length) = true ↔
    name = path ++ '|' :: elem := by
  constructor
  · intro h
    simp only [Bool.and_eq_true, beq_iff_eq] at h
    obtain ⟨⟨⟨ha, hb⟩, hc⟩, hd⟩ := h
    exact name_of_path_match path elem name ha hb hc hd
  · intro h
    subst h
    simp only [Bool.and_eq_true, beq_iff_eq]
    refine ⟨⟨⟨?_, ?_⟩, ?_⟩, ?_⟩
    · simp; omega
    · rw [List.getElem?_append_right (le_refl _)]; simp
    · simp [memcmp0]
    · have : (path ++ '|' :: elem).drop (1 + path.length) = elem := by
        rw [Nat.add_comm, ← List.drop_drop]
        simp
      rw [this]
      simp [memcmp0]

/-- C25: when none of the naming rules matches the parent/element pair, then
with the class list unlocked `GetFeatureElementIndex` returns -1, and with
the class list locked it returns the index of the first registered class
whose element name is exactly the current path, `|` and the element name, and
-1 when no registered class has that element name.  The length argument is
the length of the element name, as the handler passes it. -/
theorem GetFeatureElementIndex_no_rule (r : GMLReader) (st : GMLReadState)
    (rest : List GMLReadState) (pszElement : CStr) (eAppSchemaType : GMLAppSchemaType)
    (hstate : r.m_poState = st :: rest)
    (hrule : featureRule st pszElement pszElement.length eAppSchemaType = FeatureRule.noRule) :
    (r.m_bClassListLocked = false →
      r.GetFeatureElementIndex pszElement pszElement.length eAppSchemaType = some (-1)) ∧
    (r.m_bClassListLocked = true →
      ((∀ c ∈ r.m_papoClass, c.GetElementName ≠ st.osPath ++ '|' :: pszElement) →
        r.GetFeatureElementIndex pszElement pszElement.length eAppSchemaType = some (-1)) ∧
      (∀ (i : Nat) (c : GMLFeatureClass), r.m_papoClass[i]? = some c →
        c.GetElementName = st.osPath ++ '|' :: pszElement →
        (∀ (j : Nat) (c2 : GMLFeatureClass), j < i → r.m_papoClass[j]? = some c2 →
          c2.GetElementName ≠ st.osPath ++ '|' :: pszElement) →
        r.GetFeatureElementIndex pszElement pszElement.length eAppSchemaType =
          some (i : Int))) := by
  have hno : ∀ c : GMLFeatureClass, c.GetElementName ≠ st.osPath ++ '|' :: pszElement →
      (st.osPath.length + 1 + pszElement.length == c.GetElementNameLen &&
        c.GetElementName[st.osPath.length]? == some '|' &&
        memcmp0 st.osPath c.GetElementName st.osPath.length &&
        memcmp0 pszElement (c.GetElementName.drop (1 + st.osPath.length))
          pszElement.length) = false := by
    intro c hc
    cases hb : (st.osPath.length + 1 + pszElement.length == c.GetElementNameLen &&
        c.GetElementName[st.osPath.length]? == some '|' &&
        memcmp0 st.osPath c.GetElementName st.osPath.length &&
        memcmp0 pszElement (c.GetElementName.drop (1 + st.osPath.length))
          pszElement.length) with
    | false => rfl
    | true => exact absurd ((path_match_iff st.osPath pszElement c.GetElementName).mp hb) hc
  unfold GetFeatureElementIndex
  rw [hstate]
  simp only [hrule]
  refine ⟨?_, ?_⟩
  · intro hl
    simp [hl]
  · intro hl
    simp only [hl, if_true, Option.some.injEq]
    refine ⟨?_, ?_⟩
    · intro hall
      unfold findClassByPath
      exact firstIndexFrom_none _ _ _ (fun c hc => hno c (hall c hc))
    · intro i c hi hname hmin
      unfold findClassByPath
      apply firstIndexFrom_first _ _ i c hi
      · exact (path_match_iff st.osPath pszElement c.GetElementName).mpr hname
      · intro j c2 hj hc2
        exact hno c2 (hmin j c2 hj hc2)

/-- Witness for C25: the locked registry with the class `roads|Road`, current
path `roads`, element `Road`; no naming rule matches and the class is found
by its path. -/
theorem GetFeatureElementIndex_no_rule_witness :
    GetFeatureElementIndex
      { m_bClassListLocked := true,
        m_papoClass := [{ m_pszName := "Road".toList,
                          m_pszElementName := some "roads|Road".toList }],
        m_poState := [{ aosPathComponents := ["roads".toList],
                        osPath := "roads".toList, m_nPathLength := 1 }] }
      "Road".toList "Road".toList.length GMLAppSchemaType.APPSCHEMA_GENERIC =
      some ((0 : Nat) : Int) :=
  ((GetFeatureElementIndex_no_rule
    { m_bClassListLocked := true,
      m_papoClass := [{ m_pszName := "Road".toList,
                        m_pszElementName := some "roads|Road".toList }],
      m_poState := [{ aosPathComponents := ["roads".toList],
                      osPath := "roads".toList, m_nPathLength := 1 }] }
    { aosPathComponents := ["roads".toList], osPath := "roads".toList, m_nPathLength := 1 }
    [] "Road".toList GMLAppSchemaType.APPSCHEMA_GENERIC rfl (by decide)).2 rfl).2
    0 { m_pszName := "Road".toList, m_pszElementName := some "roads|Road".toList }
    rfl (by decide) (by intro j c2 hj; omega)

end GML

namespace GML
open GMLReader

theorem strcmp0_eq_true_iff (a b : CStr) : strcmp0 a b = true ↔ a = b := by
  unfold strcmp0
  simp

theorem featureRule_dane (st : GMLReadState) (pszElement : CStr) (n : Nat)
    (eAppSchemaType : GMLAppSchemaType)
    (happ : eAppSchemaType ≠ GMLAppSchemaType.APPSCHEMA_MTKGML)
    (hlast : st.GetLastComponent = "dane".toList) :
    featureRule st pszElement n eAppSchemaType = FeatureRule.accepted := by
  have hlen : st.GetLastComponentLen = 4 := by
    rw [GMLReadState.GetLastComponentLen_eq, hlast]; rfl
  unfold featureRule
  simp only [hlast, hlen]
  rw [if_neg happ, if_neg (by decide), if_pos (by decide)]

theorem featureRule_GeocodeResponseList (st : GMLReadState) (pszElement : CStr)
    (eAppSchemaType : GMLAppSchemaType)
    (happ : eAppSchemaType ≠ GMLAppSchemaType.APPSCHEMA_MTKGML)
    (hlast : st.GetLastComponent = "GeocodeResponseList".toList) :
    featureRule st pszElement pszElement.length eAppSchemaType =
      if pszElement = "GeocodedAddress".toList then FeatureRule.accepted
      else FeatureRule.noRule := by
  have hlen : st.GetLastComponentLen = 19 := by
    rw [GMLReadState.GetLastComponentLen_eq, hlast]; rfl
  unfold featureRule
  simp only [hlast, hlen]
  rw [if_neg happ, if_neg (by decide), if_neg (by decide)]
  by_cases he : pszElement = "GeocodedAddress".toList
  · subst he
    rw [if_pos (by decide), if_pos rfl]
  · have h1 : ¬ ((19 == 19 && pszElement.length == 15 &&
        strcmp0 "GeocodeResponseList".toList "GeocodeResponseList".toList &&
        strcmp0 pszElement "GeocodedAddress".toList) = true) := by
      intro h
      simp only [Bool.and_eq_true] at h
      exact he ((strcmp0_eq_true_iff _ _).mp h.2)
    rw [if_neg h1, if_neg (by decide),
      if_neg (fun h => by simp only [Bool.and_eq_true] at h; exact absurd h.1.1.2 (by decide)),
      if_neg (fun h => by simp only [Bool.and_eq_true] at h; exact absurd h.1.1.2 (by decide)),
      if_neg (fun h => by simp only [Bool.and_eq_true] at h; exact absurd h.1.1.2 (by decide)),
      if_neg (fun h => by simp only [Bool.and_eq_true] at h; exact absurd h.1.1.2 (by decide)),
      if_neg (fun h => by simp only [Bool.and_eq_true] at h; exact absurd h.1.1.2 (by decide)), if_neg he]

theorem featureRule_DetermineRouteResponse (st : GMLReadState) (pszElement : CStr) (n : Nat)
    (eAppSchemaType : GMLAppSchemaType)
    (happ : eAppSchemaType ≠ GMLAppSchemaType.APPSCHEMA_MTKGML)
    (hlast : st.GetLastComponent = "DetermineRouteResponse".toList) :
    featureRule st pszElement n eAppSchemaType =
      if pszElement = "RouteInstructionsList".toList then FeatureRule.notFeature
      else FeatureRule.accepted := by
  have hlen : st.GetLastComponentLen = 22 := by
    rw [GMLReadState.GetLastComponentLen_eq, hlast]; rfl
  unfold featureRule
  simp only [hlast, hlen]
  rw [if_neg happ, if_neg (by decide), if_neg (by decide),
    if_neg (fun h => by simp only [Bool.and_eq_true] at h; exact absurd h.1.1.1 (by decide)),
    if_pos (by decide)]
  by_cases he : pszElement = "RouteInstructionsList".toList
  · rw [if_pos ((strcmp0_eq_true_iff _ _).mpr he), if_pos he]
  · rw [if_neg (fun h => he ((strcmp0_eq_true_iff _ _).mp h)), if_neg he]

theorem featureRule_RouteInstructionsList (st : GMLReadState) (pszElement : CStr)
    (eAppSchemaType : GMLAppSchemaType)
    (happ : eAppSchemaType ≠ GMLAppSchemaType.APPSCHEMA_MTKGML)
    (hlast : st.GetLastComponent = "RouteInstructionsList".toList) :
    featureRule st pszElement pszElement.length eAppSchemaType =
      if pszElement = "RouteInstruction".toList then FeatureRule.accepted
      else FeatureRule.noRule := by
  have hlen : st.GetLastComponentLen = 21 := by
    rw [GMLReadState.GetLastComponentLen_eq, hlast]; rfl
  unfold featureRule
  simp only [hlast, hlen]
  rw [if_neg happ, if_neg (by decide), if_neg (by decide),
    if_neg (fun h => by simp only [Bool.and_eq_true] at h; exact absurd h.1.1.1 (by decide)),
    if_neg (by decide)]
  by_cases he : pszElement = "RouteInstruction".toList
  · subst he
    rw [if_pos (by decide), if_pos rfl]
  · have h1 : ¬ ((pszElement.length == 16 && 21 == 21 &&
        strcmp0 pszElement "RouteInstruction".toList &&
        strcmp0 "RouteInstructionsList".toList "RouteInstructionsList".toList) = true) := by
      intro h
      simp only [Bool.and_eq_true] at h
      exact he ((strcmp0_eq_true_iff _ _).mp h.1.2)
    rw [if_neg h1,
      if_neg (fun h => by simp only [Bool.and_eq_true] at h; exact absurd h.1.1.2 (by decide)),
      if_neg (fun h => by simp only [Bool.and_eq_true] at h; exact absurd h.1.1.2 (by decide)),
      if_neg (fun h => by simp only [Bool.and_eq_true] at h; exact absurd h.1.1.2 (by decide)),
      if_neg (fun h => by simp only [Bool.and_eq_true] at h; exact absurd h.1.1.2 (by decide)), if_neg he]

end GML

namespace GML
open GMLReader

/-- C26, counterexample: with the class list unlocked and the generic
profile, under the parent `dane` the element `Budynek` is admitted as a new
feature, and so is `RouteSummary` under the parent `DetermineRouteResponse`:
these two parents have no paired child name. -/
theorem GetFeatureElementIndex_special_parent_counterexample :
    GetFeatureElementIndex
      { m_poState := [{ aosPathComponents := ["dane".toList],
                        osPath := "dane".toList, m_nPathLength := 1 }] }
      "Budynek".toList 7 GMLAppSchemaType.APPSCHEMA_GENERIC = some INT_MAX ∧
    GetFeatureElementIndex
      { m_poState := [{ aosPathComponents := ["DetermineRouteResponse".toList],
                        osPath := "DetermineRouteResponse".toList, m_nPathLength := 1 }] }
      "RouteSummary".toList 12 GMLAppSchemaType.APPSCHEMA_GENERIC = some INT_MAX := by
  decide

/-- C26, amended: in `GetFeatureElementIndex` with the class list unlocked and
a profile other than MTKGML, under the parent `GeocodeResponseList` an element
is admitted as a new feature exactly when its name is `GeocodedAddress`, and
under the parent `RouteInstructionsList` exactly when its name is
`RouteInstruction`; under the parent `dane` every element is admitted, and
under the parent `DetermineRouteResponse` every element except
`RouteInstructionsList`.  An element that is not admitted gets -1. -/
theorem GetFeatureElementIndex_special_cases (r : GMLReader) (st : GMLReadState)
    (rest : List GMLReadState) (pszElement : CStr) (eAppSchemaType : GMLAppSchemaType)
    (hstate : r.m_poState = st :: rest)
    (hunlocked : r.m_bClassListLocked = false)
    (happ : eAppSchemaType ≠ GMLAppSchemaType.APPSCHEMA_MTKGML) :
    (st.GetLastComponent = "dane".toList →
      r.GetFeatureElementIndex pszElement pszElement.length eAppSchemaType = some INT_MAX) ∧
    (st.GetLastComponent = "GeocodeResponseList".toList →
      r.GetFeatureElementIndex pszElement pszElement.length eAppSchemaType =
        some (if pszElement = "GeocodedAddress".toList then INT_MAX else -1)) ∧
    (st.GetLastComponent = "DetermineRouteResponse".toList →
      r.GetFeatureElementIndex pszElement pszElement.length eAppSchemaType =
        some (if pszElement = "RouteInstructionsList".toList then -1 else INT_MAX)) ∧
    (st.GetLastComponent = "RouteInstructionsList".toList →
      r.GetFeatureElementIndex pszElement pszElement.length eAppSchemaType =
        some (if pszElement = "RouteInstruction".toList then INT_MAX else -1)) := by
  refine ⟨?_, ?_, ?_, ?_⟩
  · intro hlast
    unfold GetFeatureElementIndex
    rw [hstate]
    simp only [featureRule_dane st pszElement _ eAppSchemaType happ hlast, hunlocked]
    rfl
  · intro hlast
    unfold GetFeatureElementIndex
    rw [hstate]
    simp only [featureRule_GeocodeResponseList st pszElement eAppSchemaType happ hlast,
      hunlocked]
    by_cases he : pszElement = "GeocodedAddress".toList
    · simp only [if_pos he]; rfl
    · simp only [if_neg he]; rfl
  · intro hlast
    unfold GetFeatureElementIndex
    rw [hstate]
    simp only [featureRule_DetermineRouteResponse st pszElement _ eAppSchemaType happ hlast,
      hunlocked]
    by_cases he : pszElement = "RouteInstructionsList".toList
    · simp only [if_pos he]
    · simp only [if_neg he]; rfl
  · intro hlast
    unfold GetFeatureElementIndex
    rw [hstate]
    simp only [featureRule_RouteInstructionsList st pszElement eAppSchemaType happ hlast,
      hunlocked]
    by_cases he : pszElement = "RouteInstruction".toList
    · simp only [if_pos he]; rfl
    · simp only [if_neg he]; rfl

/-- Witness for C26, amended: under the parent `GeocodeResponseList` the
element `GeocodedAddress` is admitted. -/
theorem GetFeatureElementIndex_special_cases_witness :
    GetFeatureElementIndex
      { m_poState := [{ aosPathComponents := ["GeocodeResponseList".toList],
                        osPath := "GeocodeResponseList".toList, m_nPathLength := 1 }] }
      "GeocodedAddress".toList "GeocodedAddress".toList.length
      GMLAppSchemaType.APPSCHEMA_GENERIC = some INT_MAX :=
  ((GetFeatureElementIndex_special_cases
    { m_poState := [{ aosPathComponents := ["GeocodeResponseList".toList],
                      osPath := "GeocodeResponseList".toList, m_nPathLength := 1 }] }
    { aosPathComponents := ["GeocodeResponseList".toList],
      osPath := "GeocodeResponseList".toList, m_nPathLength := 1 }
    [] "GeocodedAddress".toList GMLAppSchemaType.APPSCHEMA_GENERIC rfl rfl
    (by decide)).2.1 (by decide)).trans (by decide)

end GML

/-! ## The result of `GetFeatureElementIndex` is fit for `PushFeature` -/

namespace GML
open GMLReader

theorem firstIndexFrom_range {α : Type} (p : α → Bool) (l : List α) :
    firstIndexFrom p l 0 = -1 ∨
    (0 ≤ firstIndexFrom p l 0 ∧ firstIndexFrom p l 0 < (l.length : Int)) := by
  rcases firstIndexFrom_cases p l 0 with ⟨h1, _⟩ | ⟨j, c, h1, _, h3, _⟩
  · exact Or.inl h1
  · right
    have hj : j < l.length := (List.getElem?_eq_some.mp h1).1
    rw [h3]
    constructor
    · omega
    · simp only [Nat.zero_add]; exact_mod_cast hj

theorem PushFeature_index_defined (env : Env) (r : GMLReader) (e : CStr) (fid : Option CStr)
    (v : Int) (h0 : 0 ≤ v) (h1 : v < (r.GetClassCount : Int)) (h2 : v ≠ INT_MAX) :
    ∃ r2 : GMLReader, r.PushFeature env e fid v = some r2 := by
  have hlt : v.toNat < r.m_papoClass.length := by
    unfold GetClassCount at h1
    omega
  unfold PushFeature findOrCreateClass
  rw [if_pos h2, if_neg (by omega)]
  simp only [List.getElem?_eq_getElem hlt]
  exact ⟨_, rfl⟩

theorem PushFeature_INT_MAX_none (env : Env) (r : GMLReader) (e : CStr) (fid : Option CStr)
    (hunlocked : r.m_bClassListLocked = false)
    (h : r.PushFeature env e fid INT_MAX = none) :
    env.bCPLAssert = true ∧ (r.GetClassByName e).isSome = true := by
  have hk : ¬ (INT_MAX ≠ INT_MAX) := by simp
  unfold PushFeature findOrCreateClass at h
  rw [if_neg hk] at h
  dsimp only at h
  rcases firstIndexFrom_cases (fun c : GMLFeatureClass => EQUAL e c.GetElementName)
      r.m_papoClass 0 with ⟨h1, _⟩ | ⟨j, c, hj, _, h3, _⟩
  · rw [h1] at h
    simp only [if_true, hunlocked, Bool.and_false, Bool.false_eq_true, if_false] at h
    unfold AddClass at h
    cases hb : (env.bCPLAssert && (r.GetClassByName (GMLFeatureClass.new e).GetName).isSome)
    · rw [hb] at h
      simp [GetClassCount] at h
    · simpa using hb
  · rw [h3] at h
    have hne : ¬ (((0 + j : Nat) : Int) = -1) := by omega
    rw [if_neg hne] at h
    have hj2 : r.m_papoClass[((0 + j : Nat) : Int).toNat]? = some c := by
      simpa using hj
    simp [hj] at h

/-- C28: with a current state, `GetFeatureElementIndex` returns -1, `INT_MAX`,
or an index of a registered class (the class count being an `int`), and
`INT_MAX` only with the class list unlocked.  `PushFeature` called with such
a result other than -1 and the same element name is then defined (no index
outside the class array, no failing assertion on the lock of the class
list), unless the assertion of `AddClass` is compiled in and fails because a
registered class already has the name of the element. -/
theorem GetFeatureElementIndex_fit_for_PushFeature (env : Env) (r : GMLReader)
    (st : GMLReadState) (rest : List GMLReadState) (pszElement : CStr) (nElementLength : Nat)
    (eAppSchemaType : GMLAppSchemaType) (pszFID : Option CStr)
    (hstate : r.m_poState = st :: rest)
    (hcount : (r.GetClassCount : Int) ≤ INT_MAX) :
    ∃ v : Int, r.GetFeatureElementIndex pszElement nElementLength eAppSchemaType = some v ∧
      (v = -1 ∨ (v = INT_MAX ∧ r.m_bClassListLocked = false) ∨
        (0 ≤ v ∧ v < (r.GetClassCount : Int) ∧ v ≠ INT_MAX)) ∧
      (v ≠ -1 → r.PushFeature env pszElement pszFID v = none →
        v = INT_MAX ∧ env.bCPLAssert = true ∧ (r.GetClassByName pszElement).isSome = true) := by
  have htotal : ∃ v : Int,
      r.GetFeatureElementIndex pszElement nElementLength eAppSchemaType = some v := by
    unfold GetFeatureElementIndex
    rw [hstate]
    dsimp only
    cases featureRule st pszElement nElementLength eAppSchemaType <;>
      cases r.m_bClassListLocked <;> exact ⟨_, rfl⟩
  obtain ⟨v, hv⟩ := htotal
  have hrange : v = -1 ∨ (v = INT_MAX ∧ r.m_bClassListLocked = false) ∨
      (0 ≤ v ∧ v < (r.GetClassCount : Int) ∧ v ≠ INT_MAX) := by
    rcases GetFeatureElementIndex_cases r st rest pszElement nElementLength eAppSchemaType v
        hstate hv with h1 | ⟨h1, h2⟩ | ⟨_, h1⟩ | ⟨_, h1⟩
    · exact Or.inl h1
    · exact Or.inr (Or.inl ⟨h2, h1⟩)
    · unfold findClassByElement at h1
      rcases firstIndexFrom_range (fun c : GMLFeatureClass =>
          nElementLength == c.GetElementNameLen &&
          memcmp0 pszElement c.GetElementName nElementLength) r.m_papoClass with k | ⟨k1, k2⟩
      · exact Or.inl (h1.trans k)
      · rw [← h1] at k1 k2
        unfold GetClassCount at hcount ⊢
        exact Or.inr (Or.inr ⟨k1, k2, by omega⟩)
    · unfold findClassByPath at h1
      rcases firstIndexFrom_range (fun c : GMLFeatureClass =>
          st.osPath.length + 1 + nElementLength == c.GetElementNameLen &&
          c.GetElementName[st.osPath.length]? == some '|' &&
          memcmp0 st.osPath c.GetElementName st.osPath.length &&
          memcmp0 pszElement (c.GetElementName.drop (1 + st.osPath.length)) nElementLength)
          r.m_papoClass with k | ⟨k1, k2⟩
      · exact Or.inl (h1.trans k)
      · rw [← h1] at k1 k2
        unfold GetClassCount at hcount ⊢
        exact Or.inr (Or.inr ⟨k1, k2, by omega⟩)
  refine ⟨v, hv, hrange, ?_⟩
  intro hne hnone
  rcases hrange with h1 | ⟨h1, h2⟩ | ⟨h1, h2, h3⟩
  · exact absurd h1 hne
  · subst h1
    exact ⟨rfl, PushFeature_INT_MAX_none env r pszElement pszFID h2 hnone⟩
  · obtain ⟨r2, hr2⟩ := PushFeature_index_defined env r pszElement pszFID v h1 h2 h3
    rw [hr2] at hnone
    exact absurd hnone (by simp)

/-- Witness for C28: the locked registry with the class `City`, below a
`featureMember` element. -/
theorem GetFeatureElementIndex_fit_for_PushFeature_witness :
    ∃ v : Int,
      memberCityReader.GetFeatureElementIndex "City".toList 4
        GMLAppSchemaType.APPSCHEMA_GENERIC = some v ∧
      (v = -1 ∨ (v = INT_MAX ∧ memberCityReader.m_bClassListLocked = false) ∨
        (0 ≤ v ∧ v < (memberCityReader.GetClassCount : Int) ∧ v ≠ INT_MAX)) ∧
      (v ≠ -1 → memberCityReader.PushFeature {} "City".toList none v = none →
        v = INT_MAX ∧ ({} : Env).bCPLAssert = true ∧
          (memberCityReader.GetClassByName "City".toList).isSome = true) :=
  GetFeatureElementIndex_fit_for_PushFeature {} memberCityReader
    { aosPathComponents := ["featureMember".toList], osPath := "featureMember".toList,
      m_nPathLength := 1 }
    [] "City".toList 4 GMLAppSchemaType.APPSCHEMA_GENERIC none rfl (by decide)

end GML

/-! ## `LoadClasses` is not atomic -/

namespace GML
open GMLReader

theorem AddClass_unasserted (env : Env) (r : GMLReader) (c : GMLFeatureClass)
    (hassert : env.bCPLAssert = false) :
    r.AddClass env c = some ((r.GetClassCount : Int),
      { r with
        m_papoClass := r.m_papoClass ++ [c],
        m_bLookForClassAtAnyLevel :=
          if c.HasFeatureProperties then true else r.m_bLookForClassAtAnyLevel }) := by
  unfold AddClass
  rw [hassert]
  rfl

theorem loadClassNodes_false (env : Env) (nodes : List CPLXMLNode) :
    ∀ (r r2 : GMLReader), loadClassNodes env r nodes = some (false, r2) →
      r2.m_bClassListLocked = r.m_bClassListLocked ∧
      ∃ added : List GMLFeatureClass, r2.m_papoClass = r.m_papoClass ++ added ∧
        ∀ c ∈ added, c.IsSchemaLocked = true := by
  induction nodes with
  | nil =>
    intro r r2 h
    simp [loadClassNodes] at h
  | cons n rest ih =>
    intro r r2 h
    unfold loadClassNodes at h
    split at h
    · cases hi : GMLFeatureClass.InitializeFromXML n with
      | none =>
        rw [hi] at h
        simp only [Option.some.injEq, Prod.mk.injEq, true_and] at h
        subst h
        exact ⟨rfl, [], by simp, by simp⟩
      | some c =>
        rw [hi] at h
        dsimp only at h
        cases ha : r.AddClass env (c.SetSchemaLocked true) with
        | none => rw [ha] at h; simp at h
        | some p =>
          rw [ha] at h
          dsimp only at h
          obtain ⟨k1, added, k2, k3⟩ := ih p.2 r2 h
          have hp : p.2.m_papoClass = r.m_papoClass ++ [c.SetSchemaLocked true] ∧
              p.2.m_bClassListLocked = r.m_bClassListLocked := by
            unfold AddClass at ha
            split at ha
            · simp at ha
            · simp only [Option.some.injEq] at ha
              rw [← ha]
              exact ⟨rfl, rfl⟩
          refine ⟨k1.trans hp.2, (c.SetSchemaLocked true) :: added, ?_, ?_⟩
          · rw [k2, hp.1]; simp
          · intro x hx
            rcases List.mem_cons.mp hx with hx | hx
            · rw [hx]; rfl
            · exact k3 x hx
    · exact ih r r2 h

theorem loadClassNodes_stops (env : Env) (hassert : env.bCPLAssert = false)
    (good : List CPLXMLNode) (bad : CPLXMLNode) (rest : List CPLXMLNode)
    (hgood : ∀ n ∈ good, n.eType = CPLXMLNodeType.CXT_Element →
      EQUAL n.pszValue "GMLFeatureClass".toList = true →
      (GMLFeatureClass.InitializeFromXML n).isSome = true)
    (hbad1 : bad.eType = CPLXMLNodeType.CXT_Element)
    (hbad2 : EQUAL bad.pszValue "GMLFeatureClass".toList = true)
    (hbad3 : GMLFeatureClass.InitializeFromXML bad = none) :
    ∀ r : GMLReader, ∃ r2 : GMLReader,
      loadClassNodes env r (good ++ bad :: rest) = some (false, r2) ∧
      r2.m_papoClass = r.m_papoClass ++ loadedClasses good ∧
      r2.m_bClassListLocked = r.m_bClassListLocked := by
  induction good with
  | nil =>
    intro r
    refine ⟨r, ?_, by simp [loadedClasses], rfl⟩
    simp only [List.nil_append, loadClassNodes, hbad1, hbad2, and_self, if_true, hbad3]
  | cons n good ih =>
    intro r
    have hgood2 : ∀ m ∈ good, m.eType = CPLXMLNodeType.CXT_Element →
        EQUAL m.pszValue "GMLFeatureClass".toList = true →
        (GMLFeatureClass.InitializeFromXML m).isSome = true :=
      fun m hm => hgood m (List.mem_cons_of_mem _ hm)
    by_cases hn : n.eType = CPLXMLNodeType.CXT_Element
        ∧ EQUAL n.pszValue "GMLFeatureClass".toList = true
    · have hsome := hgood n (List.mem_cons_self _ _) hn.1 hn.2
      cases hi : GMLFeatureClass.InitializeFromXML n with
      | none => rw [hi] at hsome; simp at hsome
      | some c =>
        obtain ⟨r2, k1, k2, k3⟩ := ih hgood2
          { r with
            m_papoClass := r.m_papoClass ++ [c.SetSchemaLocked true],
            m_bLookForClassAtAnyLevel :=
              if (c.SetSchemaLocked true).HasFeatureProperties then true
              else r.m_bLookForClassAtAnyLevel }
        refine ⟨r2, ?_, ?_, k3⟩
        · simp only [List.cons_append, loadClassNodes, hn, and_self, if_true, hi,
            AddClass_unasserted env r _ hassert]
          exact k1
        · rw [k2]
          simp only [loadedClasses, List.filterMap_cons, hn, and_self, if_true, hi,
            Option.map_some', List.append_assoc, List.singleton_append]
    · obtain ⟨r2, k1, k2, k3⟩ := ih hgood2 r
      refine ⟨r2, ?_, ?_, k3⟩
      · simp only [List.cons_append, loadClassNodes, hn, if_false]
        exact k1
      · rw [k2]
        simp only [loadedClasses, List.filterMap_cons, hn, if_false]

/-- C30: `LoadClasses` is not atomic and does not replace the registry.
Whenever it returns false, the class-list lock flag has its previous value
and the registry is the previous registry followed by schema-locked classes;
when the first class record that fails to initialise is preceded by records
that can be initialised (and `CPLAssert` is compiled out), it returns false
and exactly the classes of those earlier records have been appended; when
the failure is detected before the class records are read (no file name, no
file, read failure, no list tag, no parse tree, wrong root), the reader is
left as it was. -/
theorem LoadClasses_not_atomic (env : Env) (fs : SchemaFS) (r : GMLReader) :
    (∀ (pszFile : Option CStr) (r2 : GMLReader),
      LoadClasses env fs r pszFile = some (false, r2) →
      r2.m_bClassListLocked = r.m_bClassListLocked ∧
      ∃ added : List GMLFeatureClass, r2.m_papoClass = r.m_papoClass ++ added ∧
        ∀ c ∈ added, c.IsSchemaLocked = true) ∧
    (∀ (path : CStr) (fp : SchemaFile) (psRoot : CPLXMLTree) (good : List CPLXMLNode)
        (bad : CPLXMLNode) (rest : List CPLXMLNode),
      env.bCPLAssert = false →
      fs.VSIFOpenRb path = some fp → fp.bReadFails = false → fp.text.bHasListTag = true →
      fp.text.psRoot = some psRoot →
      psRoot.eType = CPLXMLNodeType.CXT_Element →
      EQUAL psRoot.pszValue "GMLFeatureClassList".toList = true →
      psRoot.psChild = good ++ bad :: rest →
      (∀ n ∈ good, n.eType = CPLXMLNodeType.CXT_Element →
        EQUAL n.pszValue "GMLFeatureClass".toList = true →
        (GMLFeatureClass.InitializeFromXML n).isSome = true) →
      bad.eType = CPLXMLNodeType.CXT_Element →
      EQUAL bad.pszValue "GMLFeatureClass".toList = true →
      GMLFeatureClass.InitializeFromXML bad = none →
      ∃ r2 : GMLReader, LoadClasses env fs r (some path) = some (false, r2) ∧
        r2.m_papoClass = r.m_papoClass ++ loadedClasses good ∧
        r2.m_bClassListLocked = r.m_bClassListLocked) ∧
    (LoadClasses env fs r none = some (false, r)) ∧
    (∀ path : CStr,
      (fs.VSIFOpenRb path = none ∨
        ∃ fp : SchemaFile, fs.VSIFOpenRb path = some fp ∧
          (fp.bReadFails = true ∨ fp.text.bHasListTag = false ∨ fp.text.psRoot = none ∨
            ∃ psRoot : CPLXMLTree, fp.text.psRoot = some psRoot ∧
              (psRoot.eType ≠ CPLXMLNodeType.CXT_Element ∨
                EQUAL psRoot.pszValue "GMLFeatureClassList".toList = false))) →
      LoadClasses env fs r (some path) = some (false, r)) := by
  refine ⟨?_, ?_, rfl, ?_⟩
  · intro pszFile r2 h
    unfold LoadClasses at h
    split at h
    · simp only [Option.some.injEq, Prod.mk.injEq, true_and] at h
      subst h; exact ⟨rfl, [], by simp, by simp⟩
    · split at h
      · simp only [Option.some.injEq, Prod.mk.injEq, true_and] at h
        subst h; exact ⟨rfl, [], by simp, by simp⟩
      · split at h
        · simp only [Option.some.injEq, Prod.mk.injEq, true_and] at h
          subst h; exact ⟨rfl, [], by simp, by simp⟩
        · split at h
          · simp only [Option.some.injEq, Prod.mk.injEq, true_and] at h
            subst h; exact ⟨rfl, [], by simp, by simp⟩
          · split at h
            · simp only [Option.some.injEq, Prod.mk.injEq, true_and] at h
              subst h; exact ⟨rfl, [], by simp, by simp⟩
            · split at h
              · simp only [Option.some.injEq, Prod.mk.injEq, true_and] at h
                subst h; exact ⟨rfl, [], by simp, by simp⟩
              · dsimp only at h
                split at h
                · simp at h
                · rename_i rl hl
                  simp only [Option.some.injEq, Prod.mk.injEq, true_and] at h
                  subst h
                  obtain ⟨k1, added, k2, k3⟩ := loadClassNodes_false env _ _ _ hl
                  refine ⟨?_, added, ?_, k3⟩
                  · rw [k1]; split <;> rfl
                  · rw [k2]; split <;> rfl
                · simp at h
  · intro path fp psRoot good bad rest hassert hopen hread htag hroot hT hE hch hgood hb1 hb2 hb3
    unfold LoadClasses
    simp only [hopen, hread, htag, hroot, hT, hE, ne_eq, not_true_eq_false, Bool.not_true,
      Bool.false_eq_true, or_self, if_false, hch]
    cases hs : getSequentialLayers psRoot with
    | none =>
      obtain ⟨r2, k1, k2, k3⟩ :=
        loadClassNodes_stops env hassert good bad rest hgood hb1 hb2 hb3 r
      simp only [k1]
      exact ⟨r2, rfl, k2, k3⟩
    | some v =>
      obtain ⟨r2, k1, k2, k3⟩ :=
        loadClassNodes_stops env hassert good bad rest hgood hb1 hb2 hb3
          { r with m_nHasSequentialLayers := (if env.CPLTestBool v then 1 else 0) }
      simp only [k1]
      exact ⟨r2, rfl, k2, k3⟩
  · intro path h
    unfold LoadClasses
    rcases h with h | ⟨fp, hopen, h⟩
    · simp only [h]
    · simp only [hopen]
      rcases h with h | h | h | ⟨psRoot, hroot, h⟩
      · simp [h]
      · by_cases hr : fp.bReadFails = true
        · simp [hr]
        · simp [hr, h]
      · by_cases hr : fp.bReadFails = true
        · simp [hr]
        · by_cases ht : fp.text.bHasListTag = true
          · simp [hr, ht, h]
          · simp [hr, ht]
      · by_cases hr : fp.bReadFails = true
        · simp [hr]
        · by_cases ht : fp.text.bHasListTag = true
          · have hr2 : fp.bReadFails = false := by simpa using hr
            simp only [hr2, ht, hroot, Bool.not_true, Bool.false_eq_true, if_false]
            rw [if_pos]
            rcases h with h | h
            · exact Or.inl h
            · right; rw [h]; rfl
          · simp [hr, ht]

/-- Witness for C30: in `broken.gfs` the second class record cannot be
initialised; the class `City` of the first record stays registered. -/
theorem LoadClasses_not_atomic_witness :
    ∃ r2 : GMLReader,
      LoadClasses {} brokenSchemaFS {} (some "broken.gfs".toList) = some (false, r2) ∧
      r2.m_papoClass = ({} : GMLReader).m_papoClass ++
        loadedClasses [{ eType := CPLXMLNodeType.CXT_Element,
                         pszValue := "GMLFeatureClass".toList,
                         record := some { pszName := "City".toList } }] ∧
      r2.m_bClassListLocked = ({} : GMLReader).m_bClassListLocked :=
  (LoadClasses_not_atomic {} brokenSchemaFS {}).2.1 "broken.gfs".toList
    { text :=
      { bHasListTag := true,
        psRoot := some
          { eType := CPLXMLNodeType.CXT_Element,
            pszValue := "GMLFeatureClassList".toList,
            psChild :=
              [{ eType := CPLXMLNodeType.CXT_Element,
                 pszValue := "GMLFeatureClass".toList,
                 record := some { pszName := "City".toList } },
               { eType := CPLXMLNodeType.CXT_Element,
                 pszValue := "GMLFeatureClass".toList },
               { eType := CPLXMLNodeType.CXT_Element,
                 pszValue := "GMLFeatureClass".toList,
                 record := some { pszName := "Road".toList } }] } } }
    { eType := CPLXMLNodeType.CXT_Element,
      pszValue := "GMLFeatureClassList".toList,
      psChild :=
        [{ eType := CPLXMLNodeType.CXT_Element,
           pszValue := "GMLFeatureClass".toList,
           record := some { pszName := "City".toList } },
         { eType := CPLXMLNodeType.CXT_Element,
           pszValue := "GMLFeatureClass".toList },
         { eType := CPLXMLNodeType.CXT_Element,
           pszValue := "GMLFeatureClass".toList,
           record := some { pszName := "Road".toList } }] }
    [{ eType := CPLXMLNodeType.CXT_Element,
       pszValue := "GMLFeatureClass".toList,
       record := some { pszName := "City".toList } }]
    { eType := CPLXMLNodeType.CXT_Element, pszValue := "GMLFeatureClass".toList }
    [{ eType := CPLXMLNodeType.CXT_Element,
       pszValue := "GMLFeatureClass".toList,
       record := some { pszName := "Road".toList } }]
    rfl rfl rfl rfl rfl rfl (by decide) rfl (by decide) rfl (by decide) (by decide)

end GML

/-! ## Interlis 1: the TIDs written by `ICreateFeature` -/

namespace ILI1
open OGRILI1Layer

/-- C27 fails: on a layer that does not come from an Interlis 1 source (first
field `NAME`), with the counter at its initial value -1, a feature without
FID followed by a feature with the FID 0 are both written with the TID 0. -/
theorem ICreateFeature_duplicate_TID :
    writtenTIDs ["NAME".toList] (-1) [{ nFID := OGRNullFID }, { nFID := 0 }] =
      [some 0, some 0] := by
  decide

end ILI1

/-! ## The class filter (`SetFilteredClassName`) -/

namespace GML
open GMLReader

end GML
